import Mathlib

/-!
# Stairway: time-sliced NeoPixel animations

A shallow embedding of the animation classes of the Stairway sketch
(`Animation.cpp`, `ColorSwirl.cpp`, `FadeAndWipe.cpp`, `Twinkle.cpp`,
`ZipLine.cpp`) and theorems about them.

Conventions of the embedding

* A C++ object is a structure whose fields carry the member names of the
  source; a derived class extends the structure of its base class.
* A member function becomes a function on `Sys C`: the object, the display
  driver `pixels` and the pending results of the random number generator.
* `millis()` is an argument of the function that reads it.
* `int` is a mathematical integer, except where the source converts an
  `unsigned long` difference or a `float` to `int`: there `int` is taken 32
  bits wide, the wrap-around is explicit, and a float outside the range of
  `int` converts to the value `intOverflow`.
* `float` values are the rationals they denote; every float operation rounds
  its exact result to the nearest binary32 value (`toFloat`).
* A loop that may spin forever on the random generator consumes a finite tape
  of raw draws and yields `none` when the tape runs out before the loop exits.
-/

namespace Stairway

/-! ## Machine arithmetic -/

/-- Packed colour, `uint32_t` in the source. -/
abbrev Rgb := Nat

/-- Number of values of an `unsigned long` (32 bits). -/
def ulongSize : Nat := 4294967296

/-- Difference `a - b` of two `unsigned long` values, wrapping modulo 2^32. -/
def ulongSub (a b : Nat) : Nat :=
  (a % ulongSize + (ulongSize - b % ulongSize)) % ulongSize

/-- Conversion of an `unsigned long` to a 32-bit two's complement `int`. -/
def ulongToInt (u : Nat) : Int :=
  if u % ulongSize < 2147483648 then ((u % ulongSize : Nat) : Int)
  else ((u % ulongSize : Nat) : Int) - 4294967296

/-- The value of `int elapsed = (now - _lastUpdateTime);`. -/
def elapsedSince (now lastUpdateTime : Nat) : Int :=
  ulongToInt (ulongSub now lastUpdateTime)

/-- Conversion of an `int` to `unsigned long`. -/
def intToUlong (i : Int) : Nat := (i % 4294967296).toNat

/-! ## Single precision floats -/

/-- Two to an integer power. -/
def pow2 (e : Int) : ℚ :=
  if 0 ≤ e then ((2 ^ e.toNat : Nat) : ℚ) else 1 / ((2 ^ (-e).toNat : Nat) : ℚ)

/-- Nearest integer, ties to the even one. -/
def roundHalfEven (q : ℚ) : Int :=
  let f := ⌊q⌋
  let r := q - f
  if r < 1/2 then f else if 1/2 < r then f + 1 else if f % 2 = 0 then f else f + 1

/-- Floor of the binary logarithm of `n` (0 for `n < 2`), by halving. -/
def log2Fuel : Nat → Nat → Nat
  | 0, _ => 0
  | fuel + 1, n => if n < 2 then 0 else log2Fuel fuel (n / 2) + 1

/-- The exponent `e` with `2^e ≤ |q| < 2^(e+1)`, for `q ≠ 0`. -/
def binade (q : ℚ) : Int :=
  let e : Int := (log2Fuel q.num.natAbs q.num.natAbs : Int) - (log2Fuel q.den q.den : Int)
  if |q| < pow2 e then e - 1 else e

/-- Rounding of an exact result to the nearest binary32 value (24 significant
bits, ties to even, gradual underflow below 2^-126).  A result beyond the
largest float stays a rational beyond it instead of becoming infinite: the
sketch converts every such value to `int` (`floatToInt`), and both are outside
the range of `int`. -/
def toFloat (q : ℚ) : ℚ :=
  if q = 0 then 0
  else
    let ulp := pow2 (max (binade q) (-126) - 23)
    (roundHalfEven (q / ulp) : ℚ) * ulp

/-- The C function `round`: nearest integer, halfway cases away from zero. -/
def round (q : ℚ) : Int :=
  if 0 ≤ q then ⌊q + 1/2⌋ else -⌊-q + 1/2⌋

/-- The value of `int(x)` for a float `x` outside the range of a 32-bit `int`,
an infinite `x` included.  C++ leaves this conversion undefined; the model takes
`-2^31`, the value the conversion instruction of an x86 processor delivers. -/
def intOverflow : Int := -2147483648

/-- The conversion `int(x)` of a float `x` whose value is the integer `i` (a
result of `round`), to a 32-bit `int`. -/
def floatToInt (i : Int) : Int :=
  if -2147483648 ≤ i ∧ i ≤ 2147483647 then i else intOverflow

/-- The negation `-i` of a 32-bit `int`: `-2^31` has no positive counterpart
and wraps to itself. -/
def negInt (i : Int) : Int :=
  if i = -2147483648 then -2147483648 else -i

/-! ## The display driver and the environment -/

/-- A call received by the display driver. -/
inductive DriverCall where
  | setPixelColor (n : Int) (c : Rgb)
  | setBrightness (b : Int)
  | showStrip
  deriving DecidableEq

/-- The display driver `pixels`: the buffered colour of every element, the
global brightness, and the calls received so far, oldest first.  The driver is
an external collaborator; every integer index is an element of the model, so a
write outside the physical strip stays observable. -/
structure Pixels where
  color : Int → Rgb
  brightness : Int
  calls : List DriverCall

/-- The call `pixels.setPixelColor(n, c)`. -/
def Pixels.setPixelColor (p : Pixels) (n : Int) (c : Rgb) : Pixels :=
  { p with color := fun j => if j = n then c else p.color j,
           calls := p.calls ++ [DriverCall.setPixelColor n c] }

/-- The call `pixels.setBrightness(b)`. -/
def Pixels.setBrightness (p : Pixels) (b : Int) : Pixels :=
  { p with brightness := b, calls := p.calls ++ [DriverCall.setBrightness b] }

/-- The call `pixels.show()`. -/
def Pixels.showStrip (p : Pixels) : Pixels :=
  { p with calls := p.calls ++ [DriverCall.showStrip] }

/-- The call `pixels.Color(r, g, b)`: three `uint8_t` channels packed into 24 bits. -/
def Pixels.Color (r g b : Int) : Rgb :=
  (r % 256).toNat * 65536 + (g % 256).toNat * 256 + (b % 256).toNat

/-- Number of flushes the driver has received. -/
def Pixels.showCount (p : Pixels) : Nat := p.calls.count DriverCall.showStrip

/-- The indices written by a list of driver calls, in call order. -/
def writtenIndices : List DriverCall → List Int
  | [] => []
  | DriverCall.setPixelColor n _ :: rest => n :: writtenIndices rest
  | _ :: rest => writtenIndices rest

/-- The brightness levels set by a list of driver calls, in call order. -/
def brightnessLevels : List DriverCall → List Int
  | [] => []
  | DriverCall.setBrightness b :: rest => b :: brightnessLevels rest
  | _ :: rest => brightnessLevels rest

/-- What `AnimationGlobals.h` declares `extern` and the sketch defines:
the strip length behind `pixels.numPixels()`, the two colours and the value
returned by `mappedBrightness()`. -/
structure Env where
  numPixels : Nat
  offColor : Rgb
  indicatorColor : Rgb
  mappedBrightness : Int

/-- An object together with the driver it draws on and the raw results the
random number generator will deliver next. -/
structure Sys (α : Type) where
  obj : α
  pixels : Pixels
  tape : List Nat

/-- The Arduino call `random(lo, hi)`: `lo` when the interval is empty (no
draw is consumed), else `lo` plus the next raw draw reduced modulo `hi - lo`;
`none` when the tape is exhausted. -/
def random (lo hi : Int) (tape : List Nat) : Option (Int × List Nat) :=
  if hi ≤ lo then some (lo, tape)
  else
    match tape with
    | [] => none
    | r :: rest => some (lo + (r : Int) % (hi - lo), rest)

/-! ## Animation.cpp -/

/-- The macro `colorTableSize`. -/
def colorTableSize : Nat := 15

/-- The table `colors[colorTableSize]`. -/
def colors : List Rgb :=
  [ Pixels.Color 255 200 100,
    Pixels.Color 0x00 0x80 0x00,
    Pixels.Color 0xFF 0x00 0x52,
    Pixels.Color 0x00 0x00 0x80,
    Pixels.Color 255 255 0,
    Pixels.Color 255 0 255,
    Pixels.Color 0 255 255,
    Pixels.Color 0x9E 0x1E 0x00,
    Pixels.Color 0x77 0x00 0xA9,
    Pixels.Color 0x00 0x85 0x82,
    Pixels.Color 0xFF 0x44 0x44,
    Pixels.Color 50 50 128,
    Pixels.Color 0 0xDD 0x15,
    Pixels.Color 128 128 255,
    Pixels.Color 120 0 0 ]

/-- The read `colors[i]`; an index outside the table reads as 0. -/
def colorsAt (i : Int) : Rgb :=
  if 0 ≤ i then colors.getD i.toNat 0 else 0

/-- The members of `class Animation`. -/
structure Animation where
  _name : String
  _firstLED : Int
  _lastLED : Int
  _active : Bool
  _colorToUse : Rgb
  _topToBottom : Bool
  _lastUpdateTime : Nat
  _animationTime : ℚ
  _animationStepIncrement : Int
  _lastColorIndex : Int

/-- The loop of `Animation::randomColor`: draw `random(0, colorTableSize)`
until the result differs from `_lastColorIndex`. -/
def randomColorLoop (lastColorIndex : Int) : List Nat → Option (Int × List Nat)
  | [] => none
  | r :: rest =>
    let newColorIdx : Int := (r : Int) % (colorTableSize : Int)
    if newColorIdx = lastColorIndex then randomColorLoop lastColorIndex rest
    else some (newColorIdx, rest)

/-- The member function `Animation::randomColor`: the colour returned, the
object with `_lastColorIndex` updated, and the rest of the tape. -/
def Animation.randomColor (a : Animation) (tape : List Nat) :
    Option (Rgb × Animation × List Nat) :=
  match randomColorLoop a._lastColorIndex tape with
  | none => none
  | some (newColorIdx, rest) =>
    some (colorsAt newColorIdx, { a with _lastColorIndex := newColorIdx }, rest)

/-- The values `i` takes in `for (int i=first; i<=last; i++)`. -/
def ledRange (first last : Int) : List Int :=
  (List.range (last + 1 - first).toNat).map (fun (k : Nat) => first + (k : Int))

/-- The member function `Animation::setAllPixelsTo`. -/
def Animation.setAllPixelsTo (a : Animation) (p : Pixels) (aColor : Rgb) (doShow : Bool) :
    Pixels :=
  let q := (ledRange a._firstLED a._lastLED).foldl (fun acc i => acc.setPixelColor i aColor) p
  if doShow then q.showStrip else q

/-- The value the constructor stores in `_animationStepIncrement`:
`int(round(waitFraction*1000))` with
`waitFraction = animationTime/float(pixels.numPixels()-2)` for a positive
`animationTime`, else `-int(round(_animationTime))`.  On a strip of two
elements the division is by zero, `waitFraction` is infinite and so are the
product and its rounding. -/
def stepIncrementFor (numPixels : Nat) (animationTime : ℚ) : Int :=
  if animationTime > 0 then
    if (numPixels : Int) - 2 = 0 then intOverflow
    else
      let waitFraction := toFloat (animationTime / toFloat ((numPixels : Int) - 2 : Int))
      floatToInt (round (toFloat (waitFraction * 1000)))
  else
    negInt (floatToInt (round animationTime))

/-- The constructor `Animation::Animation`, run on the uninitialised object
`raw`; the members it does not assign keep what `raw` holds. -/
def Animation.construct (e : Env) (raw : Animation) (animationName : String)
    (animationTime : ℚ) (firstOffset lastOffset : Int) : Animation :=
  { raw with
    _animationTime := animationTime
    _animationStepIncrement := stepIncrementFor e.numPixels animationTime
    _firstLED := firstOffset
    _lastLED := (e.numPixels : Int) - 1 + lastOffset
    _name := animationName }

/-- The member function `Animation::Active`. -/
def Animation.Active (a : Animation) : Bool := a._active

/-- The members of `class Startup`. -/
structure Startup extends Animation where
  _idx : Int
  _inc : Int
  _colorIdx : Int

/-- The constructor `Startup::Startup`. -/
def Startup.construct (e : Env) (raw : Startup) (animationName : String)
    (animationTime : ℚ) (firstOffset lastOffset : Int) : Startup :=
  { raw with
    toAnimation :=
      Animation.construct e raw.toAnimation animationName animationTime firstOffset lastOffset
    _idx := firstOffset
    _inc := 1
    _colorIdx := 0 }

/-- The member function `Startup::Start`. -/
def Startup.Start (topToBottom : Bool) (colorToUse : Rgb) (s : Sys Startup) : Sys Startup :=
  let t := s.obj
  { s with obj :=
    { t with
      _topToBottom := topToBottom
      _colorToUse := colorToUse
      _active := true
      _idx := if topToBottom then t._lastLED else t._firstLED
      _inc := if topToBottom then -1 else 1
      _lastUpdateTime := 0 } }

/-- The member function `Startup::Continue`, with `now` the value of `millis()`. -/
def Startup.Continue (now : Nat) (s : Sys Startup) : Sys Startup :=
  let t := s.obj
  if !t._active then s
  else
    let elapsed := elapsedSince now t._lastUpdateTime
    if elapsed < t._animationStepIncrement then s
    else
      let aColor : Rgb := if t._colorToUse ≠ 0 then colorsAt t._colorIdx else t._colorToUse
      let idx := t._idx + t._inc
      { s with
        pixels := (s.pixels.setPixelColor t._idx aColor).showStrip
        obj :=
          { t with
            _idx := idx
            _active := if idx < t._firstLED ∨ idx > t._lastLED then false else t._active
            _colorIdx :=
              if aColor ≠ 0 then Int.tmod (t._colorIdx + 1) (colorTableSize : Int)
              else t._colorIdx
            _lastUpdateTime := now } }

/-- The member function `Startup::Finish`. -/
def Startup.Finish (topToBottom : Bool) (s : Sys Startup) : Sys Startup :=
  let t := s.obj
  { s with obj :=
    { t with
      _topToBottom := topToBottom
      _colorToUse := 0
      _active := true
      _idx := if topToBottom then t._lastLED else t._firstLED
      _inc := if topToBottom then -1 else 1
      _lastUpdateTime := 0 } }

/-! ## ColorSwirl.cpp -/

/-- The members of `class ColorSwirl`. -/
structure ColorSwirl extends Animation where
  _swirlIdx : Int
  _swirlInc : Int

/-- The member function `ColorSwirl::wheel`. -/
def ColorSwirl.wheel (e : Env) (pos : Int) : Rgb :=
  if pos < 0 ∨ pos > 255 then e.offColor
  else if pos < 85 then Pixels.Color (255 - pos * 3) (pos * 3) 0
  else if pos < 170 then Pixels.Color 0 (255 - (pos - 85) * 3) ((pos - 85) * 3)
  else Pixels.Color ((pos - 170) * 3) 0 (255 - (pos - 170) * 3)

/-- The hue index handed to `wheel` for element `i`: `rc_index & 255`. -/
def ColorSwirl.hueIndex (c : ColorSwirl) (swirlIdx i : Int) : Int :=
  (Int.tdiv (i * 256) (c._lastLED - c._firstLED) + swirlIdx) % 256

/-- The recolouring loop shared by `ColorSwirl::Start` and
`ColorSwirl::Continue`; `none` when the loop body divides by zero, which it
does exactly on a one-element range. -/
def ColorSwirl.paint (e : Env) (c : ColorSwirl) (swirlIdx : Int) (p : Pixels) : Option Pixels :=
  if c._lastLED = c._firstLED then none
  else
    some ((ledRange c._firstLED c._lastLED).foldl
      (fun acc i => acc.setPixelColor i (ColorSwirl.wheel e (c.hueIndex swirlIdx i))) p)

/-- The member function `ColorSwirl::Start`, with `now` the value of `millis()`. -/
def ColorSwirl.Start (e : Env) (now : Nat) (topToBottom : Bool) (colorToUse : Rgb)
    (s : Sys ColorSwirl) : Option (Sys ColorSwirl) :=
  let t := s.obj
  match t.paint e 0 (s.pixels.setBrightness 255) with
  | none => none
  | some px =>
    some { s with
      pixels := px.showStrip
      obj :=
        { t with
          _topToBottom := topToBottom
          _colorToUse := colorToUse
          _active := true
          _swirlIdx := 0
          _swirlInc := 1
          _lastUpdateTime := now } }

/-- The member function `ColorSwirl::Continue`, with `now` the value of `millis()`. -/
def ColorSwirl.Continue (e : Env) (now : Nat) (s : Sys ColorSwirl) : Option (Sys ColorSwirl) :=
  let t := s.obj
  if !t._active then some s
  else
    let elapsed := elapsedSince now t._lastUpdateTime
    if elapsed < t._animationStepIncrement then some s
    else
      let stepped := t._swirlIdx + t._swirlInc
      let swirlIdx := if stepped > 255 then 254 else stepped
      let swirlInc := if stepped > 255 then -t._swirlInc else t._swirlInc
      match t.paint e swirlIdx s.pixels with
      | none => none
      | some px =>
        some { s with
          pixels := px.showStrip
          obj := { t with _swirlIdx := swirlIdx, _swirlInc := swirlInc, _lastUpdateTime := now } }

/-- The member function `ColorSwirl::Finish`. -/
def ColorSwirl.Finish (e : Env) (topToBottom : Bool) (s : Sys ColorSwirl) : Sys ColorSwirl :=
  let t := s.obj
  { s with
    pixels := t.setAllPixelsTo s.pixels e.offColor true
    obj := { t with _topToBottom := topToBottom, _active := false } }

/-- The members of `class Marquee`. -/
structure Marquee extends Animation where
  marqueeQuanta : Int
  _marqueeOffset : Int
  _marqueeInc : Int

/-- The value the constructor `Marquee::Marquee` stores in `marqueeQuanta` for
the range `[firstLED, lastLED]`.  The quotient by `10.0` is a `double`; its
only halfway cases are exact, so the exact quotient rounds the same way. -/
def marqueeQuantaFor (firstLED lastLED : Int) : Int :=
  let tenPercent : Int := round (((lastLED - firstLED : Int) : ℚ) / 10)
  if 7 > tenPercent then tenPercent + 1 else 7

/-- The constructor `Marquee::Marquee`. -/
def Marquee.construct (e : Env) (raw : Marquee) (animationName : String)
    (animationTime : ℚ) (firstOffset lastOffset : Int) : Marquee :=
  let a := Animation.construct e raw.toAnimation animationName animationTime firstOffset lastOffset
  { raw with
    toAnimation :=
      { a with
        _animationStepIncrement :=
          if a._animationStepIncrement ≤ 0 then 150 else a._animationStepIncrement }
    marqueeQuanta := marqueeQuantaFor a._firstLED a._lastLED }

/-- The values `i` takes in `for (int i=start; i<=last; i = i + step)`;
`none` when the loop is entered with a step that never leaves the range. -/
def strideRange (start last step : Int) : Option (List Int) :=
  if start > last then some []
  else if step ≤ 0 then none
  else some ((List.range ((last - start) / step + 1).toNat).map
    (fun (k : Nat) => start + (k : Int) * step))

/-- The member function `Marquee::Continue`, with `now` the value of `millis()`. -/
def Marquee.Continue (e : Env) (now : Nat) (s : Sys Marquee) : Option (Sys Marquee) :=
  let t := s.obj
  if !t._active then some s
  else
    let elapsed := elapsedSince now t._lastUpdateTime
    if elapsed < t._animationStepIncrement then some s
    else
      match strideRange (t._firstLED + t._marqueeOffset) t._lastLED t.marqueeQuanta with
      | none => none
      | some turnOn =>
        let p1 := turnOn.foldl (fun acc i => acc.setPixelColor i t._colorToUse) s.pixels
        let stepped := t._marqueeOffset + t._marqueeInc
        let wrappedLow := if stepped < 0 then t.marqueeQuanta - 1 else stepped
        let marqueeOffset := if wrappedLow ≥ t.marqueeQuanta then 0 else wrappedLow
        match strideRange (t._firstLED + marqueeOffset) t._lastLED t.marqueeQuanta with
        | none => none
        | some turnOff =>
          let p2 := turnOff.foldl (fun acc i => acc.setPixelColor i e.offColor) p1
          some { s with
            pixels := p2.showStrip
            obj := { t with _marqueeOffset := marqueeOffset, _lastUpdateTime := now } }

/-- The member function `Marquee::Start`, with `now` the value of `millis()`
read by the `Continue()` it ends with. -/
def Marquee.Start (e : Env) (now : Nat) (topToBottom : Bool) (colorToUse : Rgb)
    (s : Sys Marquee) : Option (Sys Marquee) :=
  let t := s.obj
  let t1 : Marquee :=
    { t with
      _topToBottom := topToBottom
      _colorToUse := colorToUse
      _active := true
      _marqueeInc := if topToBottom then -1 else 1
      _marqueeOffset := 0 }
  Marquee.Continue e now
    { s with
      obj := t1
      pixels := t1.setAllPixelsTo (s.pixels.setBrightness e.mappedBrightness) colorToUse true }

/-- The member function `Marquee::Finish`. -/
def Marquee.Finish (e : Env) (topToBottom : Bool) (s : Sys Marquee) : Sys Marquee :=
  let t := s.obj
  { s with
    pixels := ((t.setAllPixelsTo s.pixels e.offColor true).setBrightness 255).showStrip
    obj := { t with _topToBottom := topToBottom, _active := false } }

/-! ## FadeAndWipe.cpp -/

/-- The members of `class FadeToColor`. -/
structure FadeToColor extends Animation where
  _wipeLEDIdx : Int
  _wipeInc : Int
  _fadeBrightness : Int
  _fadeBrightnessInc : Int

/-- The constructor `FadeToColor::FadeToColor`. -/
def FadeToColor.construct (e : Env) (raw : FadeToColor) (animationName : String)
    (animationTime : ℚ) (firstOffset lastOffset : Int) : FadeToColor :=
  let a := Animation.construct e raw.toAnimation animationName animationTime firstOffset lastOffset
  { raw with
    toAnimation :=
      { a with
        _animationStepIncrement :=
          floatToInt (round (toFloat (toFloat (a._animationTime * 1000) / 255))) } }

/-- The member function `FadeToColor::Continue`, with `now` the value of `millis()`. -/
def FadeToColor.Continue (e : Env) (now : Nat) (s : Sys FadeToColor) : Sys FadeToColor :=
  let t := s.obj
  if !t._active then s
  else
    let elapsed := elapsedSince now t._lastUpdateTime
    if elapsed < t._animationStepIncrement then s
    else
      let p1 := (t.setAllPixelsTo (s.pixels.setBrightness t._fadeBrightness) t._colorToUse
        false).showStrip
      let fadeBrightness := t._fadeBrightness + t._fadeBrightnessInc
      let active : Bool := if fadeBrightness > 255 ∨ fadeBrightness ≤ 0 then false else t._active
      let colorToUse : Rgb :=
        if !active then (if fadeBrightness ≤ 0 then e.offColor else t._colorToUse)
        else t._colorToUse
      let p2 :=
        if !active then
          ((t.setAllPixelsTo p1 colorToUse true).setBrightness 255).showStrip
        else p1
      { s with
        pixels := p2
        obj :=
          { t with
            _fadeBrightness := fadeBrightness
            _active := active
            _colorToUse := colorToUse
            _lastUpdateTime := now } }

/-- The member function `FadeToColor::Start`, with `now` the value of
`millis()` read by the `Continue()` it ends with. -/
def FadeToColor.Start (e : Env) (now : Nat) (topToBottom : Bool) (colorToUse : Rgb)
    (s : Sys FadeToColor) : Sys FadeToColor :=
  let t := s.obj
  let t1 : FadeToColor :=
    { t with
      _topToBottom := topToBottom
      _colorToUse := colorToUse
      _active := true
      _lastUpdateTime := 0
      _fadeBrightness := 0
      _fadeBrightnessInc := 1 }
  FadeToColor.Continue e now
    { s with obj := t1, pixels := t1.setAllPixelsTo s.pixels colorToUse false }

/-- The member function `FadeToColor::Finish`, with `now` the value of
`millis()` read by the `Continue()` it ends with. -/
def FadeToColor.Finish (e : Env) (now : Nat) (topToBottom : Bool) (s : Sys FadeToColor) :
    Sys FadeToColor :=
  let t := s.obj
  FadeToColor.Continue e now
    { s with obj :=
      { t with
        _topToBottom := topToBottom
        _fadeBrightness := 255
        _fadeBrightnessInc := -1
        _active := true } }

/-- The members of `class ColorWipe`. -/
structure ColorWipe extends Animation where
  _wipeLEDIdx : Int
  _wipeInc : Int

/-- The member function `ColorWipe::Start`, with `now` the value of `millis()`. -/
def ColorWipe.Start (now : Nat) (topToBottom : Bool) (colorToUse : Rgb) (s : Sys ColorWipe) :
    Sys ColorWipe :=
  let t := s.obj
  let wipeLEDIdx := if topToBottom then t._lastLED else t._firstLED
  { s with
    pixels := (((s.pixels.setBrightness 255).setPixelColor wipeLEDIdx colorToUse)).showStrip
    obj :=
      { t with
        _topToBottom := topToBottom
        _colorToUse := colorToUse
        _active := true
        _wipeLEDIdx := wipeLEDIdx
        _wipeInc := if topToBottom then -1 else 1
        _lastUpdateTime := now } }

/-- The member function `ColorWipe::Continue`, with `now` the value of `millis()`. -/
def ColorWipe.Continue (now : Nat) (s : Sys ColorWipe) : Sys ColorWipe :=
  let t := s.obj
  if !t._active then s
  else
    let elapsed := elapsedSince now t._lastUpdateTime
    if elapsed < t._animationStepIncrement then s
    else
      let wipeLEDIdx := t._wipeLEDIdx + t._wipeInc
      if wipeLEDIdx > t._lastLED ∨ wipeLEDIdx < t._firstLED then
        { s with obj := { t with _wipeLEDIdx := wipeLEDIdx, _active := false } }
      else
        { s with
          pixels := (s.pixels.setPixelColor wipeLEDIdx t._colorToUse).showStrip
          obj := { t with _wipeLEDIdx := wipeLEDIdx, _lastUpdateTime := now } }

/-- The member function `ColorWipe::Finish`, with `now` the value of `millis()`. -/
def ColorWipe.Finish (e : Env) (now : Nat) (topToBottom : Bool) (s : Sys ColorWipe) :
    Sys ColorWipe :=
  ColorWipe.Start now topToBottom e.offColor s

/-! ## Twinkle.cpp -/

/-- The macro `kNumberOfLEDs` of `AnimationGlobals.h`. -/
def kNumberOfLEDs : Nat := 111

/-- The macro `twinkleTurningOn`. -/
def twinkleTurningOn : Int := 0

/-- The macro `twinkleTwinkling`. -/
def twinkleTwinkling : Int := 1

/-- The macro `twinkleTurningOff`. -/
def twinkleTurningOff : Int := 2

/-- The members of `class Twinkle`; the two arrays are maps from index to
entry. -/
structure Twinkle extends Animation where
  _MAXTOTWINKLE : Int
  _twinkleIndices : Int → Int
  _LEDArray : Int → Bool
  _twinkleLongestTimeToWait : Nat
  _twinkleChangedCount : Int
  _twinkleIdx : Int
  _twinkleState : Int
  _twinkleToOn : Bool

/-- The constructor `Twinkle::Twinkle`, with the default member initialiser
of `_MAXTOTWINKLE`. -/
def Twinkle.construct (e : Env) (raw : Twinkle) (animationName : String)
    (animationTime : ℚ) (firstOffset lastOffset : Int) : Twinkle :=
  { raw with
    toAnimation :=
      Animation.construct e raw.toAnimation animationName animationTime firstOffset lastOffset
    _MAXTOTWINKLE := ((kNumberOfLEDs / 10 : Nat) : Int) }

/-- The loop of `Twinkle::twinkleFinish` for `desiredState = true`, over the
indices still to visit: every element not marked on gets a fresh
`randomColor()`. -/
def twinkleFinishLoop (LEDArray : Int → Bool) :
    List Int → Animation → Pixels → List Nat → Option (Animation × Pixels × List Nat)
  | [], a, p, tape => some (a, p, tape)
  | i :: rest, a, p, tape =>
    if LEDArray i ≠ true then
      match a.randomColor tape with
      | none => none
      | some (aColor, a1, tape1) =>
        twinkleFinishLoop LEDArray rest a1 (p.setPixelColor i aColor) tape1
    else twinkleFinishLoop LEDArray rest a p tape

/-- The member function `Twinkle::twinkleFinish`. -/
def Twinkle.twinkleFinish (e : Env) (desiredState : Bool) (s : Sys Twinkle) :
    Option (Sys Twinkle) :=
  let t := s.obj
  if !desiredState then
    some { s with pixels := t.setAllPixelsTo s.pixels e.offColor true }
  else
    match twinkleFinishLoop t._LEDArray (ledRange t._firstLED t._lastLED) t.toAnimation
        s.pixels s.tape with
    | none => none
    | some (a, p, tape) =>
      some { obj := { t with toAnimation := a }, pixels := p.showStrip, tape := tape }

/-- The loop of `Twinkle::twinkleSomeInit`, over the slots still to fill. -/
def twinkleSomeInitLoop (first last : Int) :
    List Nat → (Int → Int) → List Nat → Option ((Int → Int) × List Nat)
  | [], indices, tape => some (indices, tape)
  | i :: rest, indices, tape =>
    match random first (last - 1) tape with
    | none => none
    | some (v, tape1) =>
      twinkleSomeInitLoop first last rest (fun j => if j = (i : Int) then v else indices j) tape1

/-- The member function `Twinkle::twinkleSomeInit`. -/
def Twinkle.twinkleSomeInit (s : Sys Twinkle) : Option (Sys Twinkle) :=
  let t := s.obj
  match twinkleSomeInitLoop t._firstLED t._lastLED (List.range t._MAXTOTWINKLE.toNat)
      t._twinkleIndices s.tape with
  | none => none
  | some (indices, tape) =>
    some { s with
      tape := tape
      obj :=
        { t with
          _twinkleIndices := indices
          _twinkleState := twinkleTwinkling
          _twinkleToOn := false
          _twinkleIdx := 0 } }

/-- The member function `Twinkle::indexInIndices`. -/
def Twinkle.indexInIndices (t : Twinkle) (newIdx : Int) : Bool :=
  (List.range t._MAXTOTWINKLE.toNat).any
    (fun (i : Nat) => t._twinkleIndices (i : Int) == newIdx)

/-- The loop `do newIdx = random(first, last+1); while (indexInIndices(newIdx));`
of `Twinkle::twinkleSomeLEDs`.  On an empty interval `random` consumes no draw,
so the loop either exits at once or never. -/
def twinkleNewIdxLoop (inIndices : Int → Bool) (first last : Int) :
    List Nat → Option (Int × List Nat)
  | [] =>
    if last + 1 ≤ first then (if inIndices first then none else some (first, [])) else none
  | r :: rest =>
    if last + 1 ≤ first then (if inIndices first then none else some (first, r :: rest))
    else
      let newIdx := first + (r : Int) % (last + 1 - first)
      if inIndices newIdx then twinkleNewIdxLoop inIndices first last rest
      else some (newIdx, rest)

/-- The member function `Twinkle::twinkleSomeLEDs`, with `now1` and `now2`
the values of its two `millis()` reads. -/
def Twinkle.twinkleSomeLEDs (e : Env) (now1 now2 : Nat) (s : Sys Twinkle) :
    Option (Sys Twinkle) :=
  let t := s.obj
  if elapsedSince now1 t._lastUpdateTime < t._animationStepIncrement * 2 then some s
  else
    let picked : Option (Rgb × Animation × List Nat) :=
      if t._twinkleToOn then t.toAnimation.randomColor s.tape
      else some (e.offColor, t.toAnimation, s.tape)
    match picked with
    | none => none
    | some (aColor, a, tape1) =>
      let p := (s.pixels.setPixelColor (t._twinkleIndices t._twinkleIdx) aColor).showStrip
      let replaced : Option ((Int → Int) × List Nat) :=
        if t._twinkleToOn then
          match twinkleNewIdxLoop t.indexInIndices t._firstLED t._lastLED tape1 with
          | none => none
          | some (newIdx, tape2) =>
            some (fun j => if j = t._twinkleIdx then newIdx else t._twinkleIndices j, tape2)
        else some (t._twinkleIndices, tape1)
      match replaced with
      | none => none
      | some (indices, tape2) =>
        let twinkleIdx := t._twinkleIdx + 1
        some
          { pixels := p
            tape := tape2
            obj :=
              { t with
                toAnimation := { a with _lastUpdateTime := now2 }
                _twinkleIndices := indices
                _twinkleIdx := if twinkleIdx ≥ t._MAXTOTWINKLE then 0 else twinkleIdx
                _twinkleToOn :=
                  if twinkleIdx ≥ t._MAXTOTWINKLE then !t._twinkleToOn else t._twinkleToOn } }

/-- The member function `Twinkle::commonTwinkleInitiate`, with `now` the value
of `millis()`. -/
def Twinkle.commonTwinkleInitiate (now : Nat) (s : Sys Twinkle) : Sys Twinkle :=
  let t := s.obj
  { s with
    pixels := s.pixels.setBrightness 255
    obj :=
      { t with
        _twinkleLongestTimeToWait :=
          (intToUlong (floatToInt (round (toFloat (t._animationTime * 1000))))
            + now % ulongSize) % ulongSize
        _twinkleIdx := 0
        _twinkleChangedCount := 0 } }

/-- The scan `do tryIdx += 1, wrapping at _lastLED; while (_LEDArray[tryIdx] ==
desiredState && tryIdx != origTryIdx);` of `Twinkle::Continue`, run for at most
`fuel` iterations; `none` when they do not suffice. -/
def twinkleScanLoop (LEDArray : Int → Bool) (desiredState : Bool) (first last origTryIdx : Int) :
    Nat → Int → Option Int
  | 0, _ => none
  | fuel + 1, tryIdx =>
    let stepped := tryIdx + 1
    let wrapped := if stepped > last then first else stepped
    if LEDArray wrapped = desiredState ∧ wrapped ≠ origTryIdx then
      twinkleScanLoop LEDArray desiredState first last origTryIdx fuel wrapped
    else some wrapped

/-- The member function `Twinkle::Continue`, with `now` the value of its own
`millis()` read and `now1`, `now2` those of the reads in `twinkleSomeLEDs`. -/
def Twinkle.Continue (e : Env) (now now1 now2 : Nat) (s : Sys Twinkle) : Option (Sys Twinkle) :=
  let t := s.obj
  if !t._active then some s
  else if elapsedSince now t._lastUpdateTime < t._animationStepIncrement then some s
  else if t._twinkleState = twinkleTwinkling then Twinkle.twinkleSomeLEDs e now1 now2 s
  else if t._twinkleChangedCount ≥ t._lastLED - t._firstLED ∨
      now % ulongSize > t._twinkleLongestTimeToWait then
    match Twinkle.twinkleFinish e (t._twinkleState = twinkleTurningOn) s with
    | none => none
    | some s1 =>
      if t._twinkleState = twinkleTurningOn then
        Twinkle.twinkleSomeInit { s1 with obj := { s1.obj with _twinkleState := twinkleTwinkling } }
      else some { s1 with obj := { s1.obj with _active := false } }
  else
    match random t._firstLED t._lastLED s.tape with
    | none => none
    | some (drawn, tape1) =>
      let desiredState : Bool := t._twinkleState = twinkleTurningOn
      match t.toAnimation.randomColor tape1 with
      | none => none
      | some (picked, a, tape2) =>
        let scanned : Option Int :=
          if t._LEDArray drawn = desiredState then
            twinkleScanLoop t._LEDArray desiredState t._firstLED t._lastLED drawn
              ((t._lastLED + 1 - t._firstLED).toNat + 1) drawn
          else some drawn
        match scanned with
        | none => none
        | some tryIdx =>
          let aColor : Rgb := if t._twinkleState = twinkleTurningOff then e.offColor else picked
          some
            { pixels := (s.pixels.setPixelColor tryIdx aColor).showStrip
              tape := tape2
              obj :=
                { t with
                  toAnimation := { a with _lastUpdateTime := now }
                  _LEDArray := fun j => if j = tryIdx then desiredState else t._LEDArray j
                  _twinkleChangedCount := t._twinkleChangedCount + 1 } }

/-- The member function `Twinkle::Start`, with `now0` the value of `millis()`
read by `commonTwinkleInitiate` and `now`, `now1`, `now2` those read by the
`Continue()` it ends with. -/
def Twinkle.Start (e : Env) (now0 now now1 now2 : Nat) (topToBottom : Bool) (colorToUse : Rgb)
    (s : Sys Twinkle) : Option (Sys Twinkle) :=
  let t := s.obj
  let s1 : Sys Twinkle :=
    { s with
      pixels := (t.setAllPixelsTo s.pixels e.offColor true).showStrip
      obj :=
        { t with
          _topToBottom := topToBottom
          _colorToUse := colorToUse
          _LEDArray := fun j => if 0 ≤ j ∧ j < (e.numPixels : Int) then false else t._LEDArray j
          _active := true
          _twinkleState := twinkleTurningOn
          _lastUpdateTime := 0 } }
  Twinkle.Continue e now now1 now2 (Twinkle.commonTwinkleInitiate now0 s1)

/-- The member function `Twinkle::Finish`, with the clock reads as in
`Twinkle.Start`. -/
def Twinkle.Finish (e : Env) (now0 now now1 now2 : Nat) (topToBottom : Bool) (s : Sys Twinkle) :
    Option (Sys Twinkle) :=
  let t := s.obj
  let s1 : Sys Twinkle :=
    { s with obj := { t with _topToBottom := topToBottom, _twinkleState := twinkleTurningOff } }
  Twinkle.Continue e now now1 now2 (Twinkle.commonTwinkleInitiate now0 s1)

/-! ## ZipLine.cpp -/

/-- The members of `class ZipLine`. -/
structure ZipLine extends Animation where
  _zipIdx : Int
  _zipInc : Int

/-- The members of `class Zip2` (and of `Zip2Inverse`, which adds none). -/
structure Zip2 extends ZipLine where
  _zip2Idx : Int

/-- The members of `class ZipR`. -/
structure ZipR extends ZipLine where
  repeatCount : Int

/-- The body of `ZipLine::Start` on the `ZipLine` part of an object, with
`now0` and `now` the values of its two `millis()` reads. -/
def ZipLine.startCore (e : Env) (now0 now : Nat) (topToBottom : Bool) (colorToUse : Rgb)
    (z : ZipLine) (p : Pixels) : ZipLine × Pixels :=
  let zipIdx := if topToBottom then z._lastLED else z._firstLED
  let z1 : ZipLine :=
    { z with
      _topToBottom := topToBottom
      _colorToUse := colorToUse
      _active := true
      _zipIdx := zipIdx
      _zipInc := if topToBottom then -1 else 1
      _lastUpdateTime := now0 }
  let p1 := z1.setAllPixelsTo (p.setBrightness e.mappedBrightness) e.offColor false
  ({ z1 with _lastUpdateTime := now }, (p1.setPixelColor zipIdx colorToUse).showStrip)

/-- The body of `ZipLine::Finish` on the `ZipLine` part of an object. -/
def ZipLine.finishCore (e : Env) (topToBottom : Bool) (z : ZipLine) (p : Pixels) :
    ZipLine × Pixels :=
  ({ z with _topToBottom := topToBottom, _active := false },
   ((z.setAllPixelsTo p e.offColor true).setBrightness 255).showStrip)

/-- The advance of `_zipIdx` and `_zipInc` that every `Continue` of the family
performs: step, and turn round one element inside the end that was overrun. -/
def ZipLine.advance (z : ZipLine) : Int × Int :=
  let stepped := z._zipIdx + z._zipInc
  if stepped > z._lastLED then (z._lastLED - 1, -z._zipInc)
  else if stepped < z._firstLED then (z._firstLED + 1, -z._zipInc)
  else (stepped, z._zipInc)

/-- The member function `ZipLine::Start`. -/
def ZipLine.Start (e : Env) (now0 now : Nat) (topToBottom : Bool) (colorToUse : Rgb)
    (s : Sys ZipLine) : Sys ZipLine :=
  let r := ZipLine.startCore e now0 now topToBottom colorToUse s.obj s.pixels
  { s with obj := r.1, pixels := r.2 }

/-- The member function `ZipLine::Continue`, with `now` the value of `millis()`. -/
def ZipLine.Continue (e : Env) (now : Nat) (s : Sys ZipLine) : Sys ZipLine :=
  let t := s.obj
  if !t._active then s
  else
    let elapsed := elapsedSince now t._lastUpdateTime
    if elapsed < t._animationStepIncrement then s
    else
      let next := t.advance
      { s with
        pixels :=
          ((s.pixels.setPixelColor t._zipIdx e.offColor).setPixelColor next.1
            t._colorToUse).showStrip
        obj := { t with _zipIdx := next.1, _zipInc := next.2, _lastUpdateTime := now } }

/-- The member function `ZipLine::Finish`. -/
def ZipLine.Finish (e : Env) (topToBottom : Bool) (s : Sys ZipLine) : Sys ZipLine :=
  let r := ZipLine.finishCore e topToBottom s.obj s.pixels
  { s with obj := r.1, pixels := r.2 }

/-- The member function `ZipLineInverse::Start`. -/
def ZipLineInverse.Start (e : Env) (now0 now : Nat) (topToBottom : Bool) (colorToUse : Rgb)
    (s : Sys ZipLine) : Sys ZipLine :=
  let s1 := ZipLine.Start e now0 now topToBottom colorToUse s
  { s1 with pixels := s1.obj.setAllPixelsTo s1.pixels colorToUse true }

/-- The member function `ZipLineInverse::Continue`, with `now` the value of `millis()`. -/
def ZipLineInverse.Continue (e : Env) (now : Nat) (s : Sys ZipLine) : Sys ZipLine :=
  let t := s.obj
  if !t._active then s
  else
    let elapsed := elapsedSince now t._lastUpdateTime
    if elapsed < t._animationStepIncrement then s
    else
      let next := t.advance
      { s with
        pixels :=
          ((s.pixels.setPixelColor t._zipIdx t._colorToUse).setPixelColor next.1
            e.offColor).showStrip
        obj := { t with _zipIdx := next.1, _zipInc := next.2, _lastUpdateTime := now } }

/-- The member function `ZipLineInverse::Finish`. -/
def ZipLineInverse.Finish (e : Env) (topToBottom : Bool) (s : Sys ZipLine) : Sys ZipLine :=
  ZipLine.Finish e topToBottom s

/-- The advance of `_zip2Idx` in `Zip2::Continue` and `Zip2Inverse::Continue`,
given the direction `zipInc` already updated for this step. -/
def Zip2.advance2 (z : Zip2) (zipInc : Int) : Int :=
  let stepped := z._zip2Idx - zipInc
  if stepped > z._lastLED then z._lastLED - 1
  else if stepped < z._firstLED then z._firstLED + 1
  else stepped

/-- The member function `Zip2::Start`. -/
def Zip2.Start (e : Env) (now0 now : Nat) (topToBottom : Bool) (colorToUse : Rgb)
    (s : Sys Zip2) : Sys Zip2 :=
  let r := ZipLine.startCore e now0 now topToBottom colorToUse s.obj.toZipLine s.pixels
  let zip2Idx := if topToBottom then r.1._firstLED else r.1._lastLED
  { s with
    obj := { s.obj with toZipLine := r.1, _zip2Idx := zip2Idx }
    pixels :=
      ((r.2.setPixelColor r.1._zipIdx r.1._colorToUse).setPixelColor zip2Idx
        r.1._colorToUse).showStrip }

/-- The member function `Zip2::Continue`, with `now` the value of `millis()`. -/
def Zip2.Continue (e : Env) (now : Nat) (s : Sys Zip2) : Sys Zip2 :=
  let t := s.obj
  if !t._active then s
  else
    let elapsed := elapsedSince now t._lastUpdateTime
    if elapsed < t._animationStepIncrement then s
    else
      let next := t.toZipLine.advance
      let zip2Idx := t.advance2 next.2
      { s with
        pixels :=
          ((((s.pixels.setPixelColor t._zipIdx e.offColor).setPixelColor t._zip2Idx
            e.offColor).setPixelColor next.1 t._colorToUse).setPixelColor zip2Idx
            t._colorToUse).showStrip
        obj :=
          { t with
            _zipIdx := next.1
            _zipInc := next.2
            _zip2Idx := zip2Idx
            _lastUpdateTime := now } }

/-- The member function `Zip2::Finish`. -/
def Zip2.Finish (e : Env) (topToBottom : Bool) (s : Sys Zip2) : Sys Zip2 :=
  let r := ZipLine.finishCore e topToBottom s.obj.toZipLine s.pixels
  { s with obj := { s.obj with toZipLine := r.1 }, pixels := r.2 }

/-- The member function `Zip2Inverse::Start`. -/
def Zip2Inverse.Start (e : Env) (now0 now : Nat) (topToBottom : Bool) (colorToUse : Rgb)
    (s : Sys Zip2) : Sys Zip2 :=
  let r := ZipLine.startCore e now0 now topToBottom colorToUse s.obj.toZipLine s.pixels
  let zip2Idx := if topToBottom then r.1._firstLED else r.1._lastLED
  { s with
    obj := { s.obj with toZipLine := r.1, _zip2Idx := zip2Idx }
    pixels :=
      (((r.1.setAllPixelsTo r.2 r.1._colorToUse false).setPixelColor r.1._zipIdx
        e.offColor).setPixelColor zip2Idx e.offColor).showStrip }

/-- The member function `Zip2Inverse::Continue`, with `now` the value of `millis()`. -/
def Zip2Inverse.Continue (e : Env) (now : Nat) (s : Sys Zip2) : Sys Zip2 :=
  let t := s.obj
  if !t._active then s
  else
    let elapsed := elapsedSince now t._lastUpdateTime
    if elapsed < t._animationStepIncrement then s
    else
      let next := t.toZipLine.advance
      let zip2Idx := t.advance2 next.2
      { s with
        pixels :=
          ((((s.pixels.setPixelColor t._zipIdx t._colorToUse).setPixelColor t._zip2Idx
            t._colorToUse).setPixelColor next.1 e.offColor).setPixelColor zip2Idx
            e.offColor).showStrip
        obj :=
          { t with
            _zipIdx := next.1
            _zipInc := next.2
            _zip2Idx := zip2Idx
            _lastUpdateTime := now } }

/-- The member function `Zip2Inverse::Finish`. -/
def Zip2Inverse.Finish (e : Env) (topToBottom : Bool) (s : Sys Zip2) : Sys Zip2 :=
  Zip2.Finish e topToBottom s

/-- The member function `ZipR::Start`. -/
def ZipR.Start (e : Env) (now0 now : Nat) (topToBottom : Bool) (colorToUse : Rgb)
    (s : Sys ZipR) : Sys ZipR :=
  let r := ZipLine.startCore e now0 now topToBottom colorToUse s.obj.toZipLine s.pixels
  { s with obj := { s.obj with toZipLine := r.1, repeatCount := 0 }, pixels := r.2 }

/-- The member function `ZipR::Continue`, with `now` the value of `millis()`. -/
def ZipR.Continue (e : Env) (now : Nat) (s : Sys ZipR) : Option (Sys ZipR) :=
  let t := s.obj
  if !t._active then some s
  else
    let elapsed := elapsedSince now t._lastUpdateTime
    if elapsed < t._animationStepIncrement then some s
    else
      let p1 := s.pixels.setPixelColor t._zipIdx e.offColor
      let next := t.toZipLine.advance
      let repeatCount := Int.tmod (t.repeatCount + 1) 4
      let picked : Option (Rgb × Animation × List Nat) :=
        if repeatCount = 0 then t.toAnimation.randomColor s.tape
        else some (t._colorToUse, t.toAnimation, s.tape)
      match picked with
      | none => none
      | some (colorToUse, a, tape1) =>
        some
          { pixels := (p1.setPixelColor next.1 colorToUse).showStrip
            tape := tape1
            obj :=
              { t with
                toZipLine :=
                  { t.toZipLine with
                    toAnimation := { a with _colorToUse := colorToUse, _lastUpdateTime := now }
                    _zipIdx := next.1
                    _zipInc := next.2 }
                repeatCount := repeatCount } }

/-- The member function `ZipR::Finish`. -/
def ZipR.Finish (e : Env) (topToBottom : Bool) (s : Sys ZipR) : Sys ZipR :=
  let r := ZipLine.finishCore e topToBottom s.obj.toZipLine s.pixels
  { s with obj := { s.obj with toZipLine := r.1 }, pixels := r.2 }

/-! ## Sample objects -/

/-- A driver with every element dark, full brightness and no call received. -/
def samplePixels : Pixels := { color := fun _ => 0, brightness := 255, calls := [] }

/-- An environment with a strip of ten elements and black as off-colour. -/
def sampleEnv : Env := { numPixels := 10, offColor := 0, indicatorColor := 32, mappedBrightness := 40 }

/-- An `Animation` part: range `[1,8]`, 125 ms between steps, last update at 1000 ms. -/
def sampleAnimation (active : Bool) : Animation :=
  { _name := "sample", _firstLED := 1, _lastLED := 8, _active := active, _colorToUse := 255,
    _topToBottom := false, _lastUpdateTime := 1000, _animationTime := 1,
    _animationStepIncrement := 125, _lastColorIndex := 0 }

/-- A `Startup` object in the middle of its walk. -/
def sampleStartup (active : Bool) : Startup :=
  { toAnimation := sampleAnimation active, _idx := 3, _inc := 1, _colorIdx := 2 }

/-- A `ColorSwirl` object. -/
def sampleColorSwirl (active : Bool) : ColorSwirl :=
  { toAnimation := sampleAnimation active, _swirlIdx := 17, _swirlInc := 1 }

/-- A `Marquee` object. -/
def sampleMarquee (active : Bool) : Marquee :=
  { toAnimation := sampleAnimation active, marqueeQuanta := 2, _marqueeOffset := 1,
    _marqueeInc := 1 }

/-- A `FadeToColor` object. -/
def sampleFadeToColor (active : Bool) : FadeToColor :=
  { toAnimation := sampleAnimation active, _wipeLEDIdx := 0, _wipeInc := 0,
    _fadeBrightness := 100, _fadeBrightnessInc := 1 }

/-- A `ColorWipe` object. -/
def sampleColorWipe (active : Bool) : ColorWipe :=
  { toAnimation := sampleAnimation active, _wipeLEDIdx := 4, _wipeInc := 1 }

/-- A `Twinkle` object in its filling sub-state. -/
def sampleTwinkle (active : Bool) : Twinkle :=
  { toAnimation := sampleAnimation active, _MAXTOTWINKLE := 11, _twinkleIndices := fun _ => 1,
    _LEDArray := fun _ => false, _twinkleLongestTimeToWait := 2000, _twinkleChangedCount := 0,
    _twinkleIdx := 0, _twinkleState := twinkleTurningOn, _twinkleToOn := false }

/-- A `ZipLine` object. -/
def sampleZipLine (active : Bool) : ZipLine :=
  { toAnimation := sampleAnimation active, _zipIdx := 5, _zipInc := 1 }

/-- A `Zip2` object. -/
def sampleZip2 (active : Bool) : Zip2 :=
  { toZipLine := sampleZipLine active, _zip2Idx := 4 }

/-- A `ZipR` object. -/
def sampleZipR (active : Bool) : ZipR :=
  { toZipLine := sampleZipLine active, repeatCount := 3 }

/-- An object placed on the sample driver with three raw draws pending. -/
def sampleSys {α : Type} (obj : α) : Sys α :=
  { obj := obj, pixels := samplePixels, tape := [4, 19, 7] }

/-- `Startup::Continue` called once at each clock value of `ts`, in order. -/
def Startup.run (ts : List Nat) (s : Sys Startup) : Sys Startup :=
  ts.foldl (fun acc now => Startup.Continue now acc) s

/-- Every call of `Startup.run ts s` is due: at its clock value the elapsed
time since the `_lastUpdateTime` then held has reached
`_animationStepIncrement`. -/
def Startup.allDue : List Nat → Sys Startup → Bool
  | [], _ => true
  | now :: rest, s =>
    decide (s.obj._animationStepIncrement ≤ elapsedSince now s.obj._lastUpdateTime)
      && Startup.allDue rest (Startup.Continue now s)

/-- The driver calls `after` has received beyond those `before` had. -/
def callsSince (before after : Pixels) : List DriverCall :=
  after.calls.drop before.calls.length

/-- A `Startup` object on the range `[2,4]` with 125 ms between steps. -/
def sampleStartupSys : Sys Startup :=
  sampleSys
    { toAnimation := { sampleAnimation false with _firstLED := 2, _lastLED := 4 },
      _idx := 0, _inc := 0, _colorIdx := 2 }

/-- The positions `idx, idx + inc, ...` of a walk of `n` steps. -/
def walkPositions (idx inc : Int) (n : Nat) : List Int :=
  (List.range n).map (fun (j : Nat) => idx + (j : Int) * inc)

/-- `n` successive calls of `randomColor()` on one object: the index each
call selects (the `_lastColorIndex` it leaves) paired with the colour it
returns, then the object and the tape after the last call. -/
def Animation.randomColors :
    Nat → Animation → List Nat → Option (List (Int × Rgb) × Animation × List Nat)
  | 0, a, tape => some ([], a, tape)
  | n + 1, a, tape =>
    match a.randomColor tape with
    | none => none
    | some (c, a1, tape1) =>
      match Animation.randomColors n a1 tape1 with
      | none => none
      | some (rest, a2, tape2) => some ((a1._lastColorIndex, c) :: rest, a2, tape2)

/-! ## PIR.cpp -/

/-- The global `stableStateMinimum` of `PIR.cpp`, in milliseconds. -/
def stableStateMinimum : Nat := 100

/-- The members of `class PIR`. -/
structure PIR where
  PIRName : String
  _PIRTransitionTime : Nat
  _pin : Int
  _reportedState : Bool
  _previousState : Bool
  _indicatorIndex : Int
  _debug : Bool

/-- The constructor `PIR::PIR`, run on the uninitialised object `raw`; the
call of `pinMode` leaves no trace in the object. -/
def PIR.construct (raw : PIR) (pin indicatorIndex : Int) (name : String) (debug : Bool) : PIR :=
  { raw with
    _debug := debug
    PIRName := name
    _pin := pin
    _indicatorIndex := indicatorIndex
    _PIRTransitionTime := 0
    _reportedState := false }

/-- The member function `PIR::readRaw`, with `pinHigh` the truth of
`digitalRead(_pin) == HIGH`. -/
def PIR.readRaw (r : PIR) (pinHigh : Bool) : Bool :=
  if r._debug then !pinHigh else pinHigh

/-- The member function `PIR::read`, with `pinHigh` as in `readRaw` and `now`
the value of `millis()`: the value returned and the state left behind. -/
def PIR.read (e : Env) (pinHigh : Bool) (now : Nat) (s : Sys PIR) : Bool × Sys PIR :=
  let r := s.obj
  let state := r.readRaw pinHigh
  let changed : Bool := state != r._previousState
  let p1 :=
    if changed then
      (s.pixels.setPixelColor r._indicatorIndex
        (if state then e.indicatorColor else e.offColor)).showStrip
    else s.pixels
  let transitionTime := if changed then now else r._PIRTransitionTime
  let promote : Bool := decide (ulongSub now transitionTime > stableStateMinimum)
  let r1 : PIR :=
    { r with
      _PIRTransitionTime := if promote then now else transitionTime
      _previousState := if changed then state else r._previousState
      _reportedState := if promote then state else r._reportedState }
  (r1._reportedState, { s with obj := r1, pixels := p1 })

/-- A `PIR` object whose input went high at 1000 ms and is still reported low. -/
def samplePIR : PIR :=
  { PIRName := "top", _PIRTransitionTime := 1000, _pin := 5, _reportedState := false,
    _previousState := true, _indicatorIndex := 0, _debug := false }

/-- Since the driver was in state `p` it has reached state `q` by further
calls that write no element outside `[first,last]`. -/
def WritesWithin (first last : Int) (p q : Pixels) : Prop :=
  ∃ news, q.calls = p.calls ++ news ∧ ∀ i ∈ writtenIndices news, first ≤ i ∧ i ≤ last

/-- `ZipLine::Continue` called once at each clock value of `ts`, in order. -/
def ZipLine.run (e : Env) (ts : List Nat) (s : Sys ZipLine) : Sys ZipLine :=
  ts.foldl (fun acc now => ZipLine.Continue e now acc) s

/-- `ZipLineInverse::Continue` called once at each clock value of `ts`, in order. -/
def ZipLineInverse.run (e : Env) (ts : List Nat) (s : Sys ZipLine) : Sys ZipLine :=
  ts.foldl (fun acc now => ZipLineInverse.Continue e now acc) s

/-- `Zip2::Continue` called once at each clock value of `ts`, in order. -/
def Zip2.run (e : Env) (ts : List Nat) (s : Sys Zip2) : Sys Zip2 :=
  ts.foldl (fun acc now => Zip2.Continue e now acc) s

/-- `Zip2Inverse::Continue` called once at each clock value of `ts`, in order. -/
def Zip2Inverse.run (e : Env) (ts : List Nat) (s : Sys Zip2) : Sys Zip2 :=
  ts.foldl (fun acc now => Zip2Inverse.Continue e now acc) s

/-- `ZipR::Continue` called once at each clock value of `ts`, in order;
`none` when the random tape runs out on the way. -/
def ZipR.run (e : Env) : List Nat → Sys ZipR → Option (Sys ZipR)
  | [], s => some s
  | now :: rest, s =>
    match ZipR.Continue e now s with
    | none => none
    | some s1 => ZipR.run e rest s1

/-- Every call of `ZipLine.run e ts s` is due. -/
def ZipLine.allDue (e : Env) : List Nat → Sys ZipLine → Bool
  | [], _ => true
  | now :: rest, s =>
    decide (s.obj._animationStepIncrement ≤ elapsedSince now s.obj._lastUpdateTime)
      && ZipLine.allDue e rest (ZipLine.Continue e now s)

/-- A `ZipLine` object on the range `[2,4]` with 125 ms between steps. -/
def sampleZipLineSys : Sys ZipLine :=
  sampleSys
    { toAnimation := { sampleAnimation false with _firstLED := 2, _lastLED := 4 },
      _zipIdx := 0, _zipInc := 0 }

/-- One bounce step on the pair (position, direction): the arithmetic of
`ZipLine.advance` on the range `[first,last]`. -/
def zipBounce (first last : Int) (p : Int × Int) : Int × Int :=
  let stepped := p.1 + p.2
  if stepped > last then (last - 1, -p.2)
  else if stepped < first then (first + 1, -p.2)
  else (stepped, p.2)

/-- `FadeToColor::Continue` called once at each clock value of `ts`, in order. -/
def FadeToColor.run (e : Env) (ts : List Nat) (s : Sys FadeToColor) : Sys FadeToColor :=
  ts.foldl (fun acc now => FadeToColor.Continue e now acc) s

/-- Every call of `FadeToColor.run e ts s` is due. -/
def FadeToColor.allDue (e : Env) : List Nat → Sys FadeToColor → Bool
  | [], _ => true
  | now :: rest, s =>
    decide (s.obj._animationStepIncrement ≤ elapsedSince now s.obj._lastUpdateTime)
      && FadeToColor.allDue e rest (FadeToColor.Continue e now s)

/-- A `FadeToColor` object on the range `[2,4]` with 125 ms between steps,
last updated at 0 ms. -/
def sampleFadeSys : Sys FadeToColor :=
  sampleSys
    { toAnimation :=
        { sampleAnimation false with _firstLED := 2, _lastLED := 4, _lastUpdateTime := 0 },
      _wipeLEDIdx := 0, _wipeInc := 0, _fadeBrightness := 7, _fadeBrightnessInc := 0 }

/-- `Marquee::Continue` called once at each clock value of `ts`, in order;
`none` when one of the calls does not return. -/
def Marquee.run (e : Env) : List Nat → Sys Marquee → Option (Sys Marquee)
  | [], s => some s
  | now :: rest, s =>
    match Marquee.Continue e now s with
    | none => none
    | some s1 => Marquee.run e rest s1

/-- `Marquee::Start` at clock value `now`, then `Marquee::Continue` once at
each clock value of `ts`. -/
def Marquee.startRun (e : Env) (now : Nat) (topToBottom : Bool) (colorToUse : Rgb)
    (ts : List Nat) (s : Sys Marquee) : Option (Sys Marquee) :=
  match Marquee.Start e now topToBottom colorToUse s with
  | none => none
  | some s1 => Marquee.run e ts s1

/-- Number of elements of `[first,last]` whose buffered colour is `c`. -/
def countColor (p : Pixels) (first last : Int) (c : Rgb) : Nat :=
  ((ledRange first last).filter (fun i => decide (p.color i = c))).length

/-- A `Marquee` object as its constructor leaves it on a strip of 32
elements with a literal step interval of 150 ms: range `[1,30]`, quantum 4. -/
def sampleMarqueeSys : Sys Marquee :=
  sampleSys
    (Marquee.construct { sampleEnv with numPixels := 32 } (sampleMarquee false) "marquee"
      (-150) 1 (-1))

/-- A running `Marquee` between steps: active, positive quantum, offset inside
`[0, quantum)`, direction one step either way, and every element of the range
outside the marked subset at the on-colour. -/
def Marquee.Ready (s : Sys Marquee) : Prop :=
  s.obj._active = true ∧ 1 ≤ s.obj.marqueeQuanta ∧
  0 ≤ s.obj._marqueeOffset ∧ s.obj._marqueeOffset < s.obj.marqueeQuanta ∧
  (s.obj._marqueeInc = 1 ∨ s.obj._marqueeInc = -1) ∧
  ∀ i, s.obj._firstLED ≤ i → i ≤ s.obj._lastLED →
    (i - s.obj._firstLED) % s.obj.marqueeQuanta ≠ s.obj._marqueeOffset →
    s.pixels.color i = s.obj._colorToUse

/-- The picture a `Marquee` step leaves: within the range the elements at
distance `offset` modulo the quantum from `first` are dark, the others lit. -/
def Marquee.Patterned (e : Env) (s : Sys Marquee) : Prop :=
  ∀ i, s.obj._firstLED ≤ i → i ≤ s.obj._lastLED →
    s.pixels.color i
      = if (i - s.obj._firstLED) % s.obj.marqueeQuanta = s.obj._marqueeOffset then e.offColor
        else s.obj._colorToUse

/-- The counts of a drawn `Marquee` picture: every element of the range
holds the on-colour or the off-colour, and the number holding the off-colour
is the ceiling of range length over quantum, or one fewer. -/
def Marquee.Counted (e : Env) (s : Sys Marquee) : Prop :=
  ((countColor s.pixels s.obj._firstLED s.obj._lastLED s.obj._colorToUse : Nat) : Int)
      + (countColor s.pixels s.obj._firstLED s.obj._lastLED e.offColor : Nat)
    = s.obj._lastLED - s.obj._firstLED + 1 ∧
  ⌈(((s.obj._lastLED - s.obj._firstLED + 1 : Int) : ℚ)) / ((s.obj.marqueeQuanta : Int) : ℚ)⌉ - 1
    ≤ (countColor s.pixels s.obj._firstLED s.obj._lastLED e.offColor : Nat) ∧
  ((countColor s.pixels s.obj._firstLED s.obj._lastLED e.offColor : Nat) : Int)
    ≤ ⌈(((s.obj._lastLED - s.obj._firstLED + 1 : Int) : ℚ)) / ((s.obj.marqueeQuanta : Int) : ℚ)⌉

/-- The arithmetic of one due `ColorSwirl::Continue` on the pair
(`_swirlIdx`, `_swirlInc`). -/
def swirlStep (p : Int × Int) : Int × Int :=
  let stepped := p.1 + p.2
  if stepped > 255 then (254, -p.2) else (stepped, p.2)

/-- `ColorSwirl::Continue` called once at each clock value of `ts`, in order;
`none` when one of the calls does not return. -/
def ColorSwirl.run (e : Env) : List Nat → Sys ColorSwirl → Option (Sys ColorSwirl)
  | [], s => some s
  | now :: rest, s =>
    match ColorSwirl.Continue e now s with
    | none => none
    | some s1 => ColorSwirl.run e rest s1

/-- Every call of `ColorSwirl.run e ts s` is due. -/
def ColorSwirl.allDue (e : Env) : List Nat → Sys ColorSwirl → Bool
  | [], _ => true
  | now :: rest, s =>
    decide (s.obj._animationStepIncrement ≤ elapsedSince now s.obj._lastUpdateTime)
      && match ColorSwirl.Continue e now s with
         | none => false
         | some s1 => ColorSwirl.allDue e rest s1

/-- `ColorSwirl::Start` at clock value `now`, then `ColorSwirl::Continue` once
at each clock value of `ts`. -/
def ColorSwirl.startRun (e : Env) (now : Nat) (topToBottom : Bool) (colorToUse : Rgb)
    (ts : List Nat) (s : Sys ColorSwirl) : Option (Sys ColorSwirl) :=
  match ColorSwirl.Start e now topToBottom colorToUse s with
  | none => none
  | some s1 => ColorSwirl.run e ts s1

/-- The clock values `gap, 2 * gap, ..., n * gap`. -/
def clockTicks (gap n : Nat) : List Nat :=
  (List.range n).map (fun (k : Nat) => gap * (k + 1))

/-- `ColorSwirl.Start` returns and every call of the run after it is due. -/
def ColorSwirl.startAllDue (e : Env) (now : Nat) (topToBottom : Bool) (colorToUse : Rgb)
    (ts : List Nat) (s : Sys ColorSwirl) : Bool :=
  match ColorSwirl.Start e now topToBottom colorToUse s with
  | none => false
  | some s1 => ColorSwirl.allDue e ts s1

/-- `ColorWipe::Continue` called once at each clock value of `ts`, in order. -/
def ColorWipe.run (ts : List Nat) (s : Sys ColorWipe) : Sys ColorWipe :=
  ts.foldl (fun acc now => ColorWipe.Continue now acc) s

/-- Every call of `ColorWipe.run ts s` is due. -/
def ColorWipe.allDue : List Nat → Sys ColorWipe → Bool
  | [], _ => true
  | now :: rest, s =>
    decide (s.obj._animationStepIncrement ≤ elapsedSince now s.obj._lastUpdateTime)
      && ColorWipe.allDue rest (ColorWipe.Continue now s)

/-- The driver calls that light the positions `ps`, one after the other, with
colour `c`: a write and a flush for each. -/
def lightCalls (c : Rgb) (ps : List Int) : List DriverCall :=
  ps.flatMap (fun p => [DriverCall.setPixelColor p c, DriverCall.showStrip])

/-- A `ColorWipe` object on the range `[2,4]` with 125 ms between steps. -/
def sampleWipeSys : Sys ColorWipe :=
  sampleSys
    { toAnimation := { sampleAnimation false with _firstLED := 2, _lastLED := 4 },
      _wipeLEDIdx := 0, _wipeInc := 0 }

/-- The colours written by a list of driver calls, in call order. -/
def writtenColors : List DriverCall → List Rgb
  | [] => []
  | DriverCall.setPixelColor _ c :: rest => c :: writtenColors rest
  | _ :: rest => writtenColors rest

/-- Number of iterations the scan of `Twinkle::Continue` needs from `tryIdx`
to come round to `origTryIdx`, both inside `[first,last]`: a full circle when
they are equal. -/
def scanDistance (first last origTryIdx tryIdx : Int) : Int :=
  if tryIdx < origTryIdx then origTryIdx - tryIdx
  else origTryIdx - tryIdx + (last - first + 1)

/-- Number of elements of `[first,last]` the occupancy array `_LEDArray`
records in state `b`. -/
def Twinkle.inState (t : Twinkle) (b : Bool) : Nat :=
  ((ledRange t._firstLED t._lastLED).filter (fun i => t._LEDArray i == b)).length

/-- A supply of raw draws on which every `randomColor()` succeeds at its
first draw: no draw selects the palette index selected before it, the first
none the index `lastColorIndex`. -/
def freshTape (lastColorIndex : Int) : List Nat → Bool
  | [] => true
  | r :: rest => decide ((r : Int) % 15 ≠ lastColorIndex) && freshTape ((r : Int) % 15) rest

/-- Every element of the range that the occupancy array records as on holds a
colour other than the off-colour. -/
def Twinkle.LitWhereMarked (e : Env) (s : Sys Twinkle) : Prop :=
  ∀ i, s.obj._firstLED ≤ i → i ≤ s.obj._lastLED → s.obj._LEDArray i = true →
    s.pixels.color i ≠ e.offColor

/-- A `Twinkle` object in its filling sub-state on the range `[1,8]`, no
element on yet, with twenty raw draws pending. -/
def sampleTwinkleSys : Sys Twinkle :=
  { obj := sampleTwinkle true, pixels := samplePixels,
    tape := [4, 20, 7, 3, 11, 5, 9, 14, 2, 8, 1, 6, 10, 12, 0, 13, 4, 7, 9, 2] }

/-- The red channel of a packed colour: bits 16 to 23, where `pixels.Color`
puts its first argument. -/
def redOf (c : Rgb) : Nat := c / 65536 % 256

/-- The green channel of a packed colour: bits 8 to 15. -/
def greenOf (c : Rgb) : Nat := c / 256 % 256

/-- The blue channel of a packed colour: bits 0 to 7. -/
def blueOf (c : Rgb) : Nat := c % 256

/-- A `ZipLine` object on the one-element range `[3,3]` with 125 ms between
steps. -/
def sampleZipOneSys : Sys ZipLine :=
  sampleSys
    { toAnimation := { sampleAnimation false with _firstLED := 3, _lastLED := 3 },
      _zipIdx := 0, _zipInc := 0 }

/-- The picture of a running `ZipLine` on a range of at least two elements:
the position is inside the range, the element there holds the dot colour and
every other element of the range the off-colour. -/
def ZipLine.OneLit (e : Env) (s : Sys ZipLine) : Prop :=
  s.obj._firstLED < s.obj._lastLED ∧
  s.obj._firstLED ≤ s.obj._zipIdx ∧ s.obj._zipIdx ≤ s.obj._lastLED ∧
  ∀ i, s.obj._firstLED ≤ i → i ≤ s.obj._lastLED →
    s.pixels.color i = if i = s.obj._zipIdx then s.obj._colorToUse else e.offColor

/-- The two positions of a `Zip2` object are mirror images on a range of at
least two elements: the first lies in the range and moves one element per
step, and the two add up to `first + last`. -/
def Zip2.Mirrored (z : Zip2) : Prop :=
  z._firstLED < z._lastLED ∧ z._firstLED ≤ z._zipIdx ∧ z._zipIdx ≤ z._lastLED ∧
  (z._zipInc = 1 ∨ z._zipInc = -1) ∧ z._zipIdx + z._zip2Idx = z._firstLED + z._lastLED

/-- The state `Marquee::Start` has reached when it calls `Continue()`. -/
def Marquee.armed (e : Env) (topToBottom : Bool) (colorToUse : Rgb) (s : Sys Marquee) :
    Sys Marquee :=
  { s with
    obj :=
      { s.obj with
        _topToBottom := topToBottom
        _colorToUse := colorToUse
        _active := true
        _marqueeInc := if topToBottom then -1 else 1
        _marqueeOffset := 0 }
    pixels :=
      Animation.setAllPixelsTo
        { s.obj with
          _topToBottom := topToBottom
          _colorToUse := colorToUse
          _active := true
          _marqueeInc := if topToBottom then -1 else 1
          _marqueeOffset := 0 }.toAnimation
        (s.pixels.setBrightness e.mappedBrightness) colorToUse true }

/-- Every call of `ZipR.run e ts s` returns and is due. -/
def ZipR.allDue (e : Env) : List Nat → Sys ZipR → Bool
  | [], _ => true
  | now :: rest, s =>
    decide (s.obj._animationStepIncrement ≤ elapsedSince now s.obj._lastUpdateTime)
      && match ZipR.Continue e now s with
         | none => false
         | some s1 => ZipR.allDue e rest s1

/-- A `ZipR` object on the range `[2,4]` with 125 ms between steps and twenty
raw draws pending. -/
def sampleZipRSys : Sys ZipR :=
  { obj :=
      { toZipLine :=
          { toAnimation := { sampleAnimation false with _firstLED := 2, _lastLED := 4 },
            _zipIdx := 0, _zipInc := 0 },
        repeatCount := 2 },
    pixels := samplePixels,
    tape := [4, 20, 7, 3, 11, 5, 9, 14, 2, 8, 1, 6, 10, 12, 0, 13, 4, 7, 9, 2] }

/-- A `Twinkle` object in its twinkling sub-state on the range `[1,8]`, about
to turn the element of slot 0 back on; its eleven slots all track index 1. -/
def sampleTwinklingSys : Sys Twinkle :=
  { sampleTwinkleSys with
    obj := { sampleTwinkle true with _twinkleState := twinkleTwinkling, _twinkleToOn := true } }

/-- The scan of `Twinkle::Continue` once more (`twinkleScanLoop`), returning
the indices at which the loop condition reads `_LEDArray[tryIdx]`, one per
iteration and in order; the last one is the index the scan leaves in `tryIdx`. -/
def twinkleScanTrace (LEDArray : Int → Bool) (desiredState : Bool)
    (first last origTryIdx : Int) : Nat → Int → Option (List Int)
  | 0, _ => none
  | fuel + 1, tryIdx =>
    let stepped := tryIdx + 1
    let wrapped := if stepped > last then first else stepped
    if LEDArray wrapped = desiredState ∧ wrapped ≠ origTryIdx then
      (twinkleScanTrace LEDArray desiredState first last origTryIdx fuel wrapped).map
        (fun l => wrapped :: l)
    else some [wrapped]

/-- A `Twinkle` object in its filling sub-state on the range `[-2,3]`, as
`Twinkle("t", 1, -2, -6)` gives on ten elements; element -2 is marked on. -/
def sampleTwinkleLowSys : Sys Twinkle :=
  { obj :=
      { sampleTwinkle true with
        toAnimation := { sampleAnimation true with _firstLED := -2, _lastLED := 3 },
        _LEDArray := fun i => decide (i = -2) },
    pixels := samplePixels,
    tape := [0, 4, 7, 3] }

/-- The `Continue` calls of a `Twinkle` at the given clock reads (one triple
per call: the read of `Continue` and the two of `twinkleSomeLEDs`), one after
the other. -/
def Twinkle.run (e : Env) : List (Nat × Nat × Nat) → Sys Twinkle → Option (Sys Twinkle)
  | [], s => some s
  | (now, now1, now2) :: rest, s =>
    match Twinkle.Continue e now now1 now2 s with
    | none => none
    | some s1 => Twinkle.run e rest s1

/-- While a `Twinkle` is in its filling sub-state it is active and every
element of the range marked on is lit. -/
def Twinkle.FillingLit (e : Env) (s : Sys Twinkle) : Prop :=
  s.obj._twinkleState = twinkleTurningOn →
    s.obj._active = true ∧ Twinkle.LitWhereMarked e s

/-- A `Twinkle` object on the range `[1,8]` before `Start`, with twenty-three
raw draws pending, none selecting the palette index selected before it. -/
def sampleTwinkleFreshSys : Sys Twinkle :=
  { obj := sampleTwinkle false, pixels := samplePixels,
    tape := [4, 20, 7, 3, 11, 5, 9, 14, 2, 8, 1, 6, 10, 12, 0, 13, 4, 7, 9, 2, 5, 11, 3] }

/-- The result of `Start(false, 255)` on `sampleTwinkleFreshSys` at clock
value 1000. -/
def sampleTwinkleStarted : Option (Sys Twinkle) :=
  Twinkle.Start sampleEnv 1000 1000 1000 1000 false 255 sampleTwinkleFreshSys

/-- The state `sampleTwinkleStarted` holds. -/
def sampleTwinkleStartedSys : Sys Twinkle :=
  sampleTwinkleStarted.getD sampleTwinkleFreshSys

/-- The state after one more `Continue`, at clock value 1125. -/
def sampleTwinkleFilling : Option (Sys Twinkle) :=
  Twinkle.run sampleEnv [(1125, 1125, 1125)] sampleTwinkleStartedSys

/-- The state `sampleTwinkleFilling` holds. -/
def sampleTwinkleFillingSys : Sys Twinkle :=
  sampleTwinkleFilling.getD sampleTwinkleStartedSys

/-! ## Lemmas on the driver -/

theorem mem_ledRange (first last i : Int) : i ∈ ledRange first last ↔ first ≤ i ∧ i ≤ last := by
  unfold ledRange
  simp only [List.mem_map, List.mem_range]
  constructor
  · rintro ⟨k, hk, rfl⟩
    omega
  · rintro ⟨h1, h2⟩
    exact ⟨(i - first).toNat, by omega, by omega⟩

theorem foldl_setPixelColor_color (f : Int → Rgb) (l : List Int) (p : Pixels) (j : Int) :
    (l.foldl (fun acc i => acc.setPixelColor i (f i)) p).color j
      = if j ∈ l then f j else p.color j := by
  induction l using List.reverseRecOn generalizing p with
  | nil => simp
  | append_singleton l x ih =>
    rw [List.foldl_append, List.foldl_cons, List.foldl_nil]
    by_cases hx : j = x
    · subst hx; simp [Pixels.setPixelColor]
    · have h1 : ((l.foldl (fun acc i => acc.setPixelColor i (f i)) p).setPixelColor x (f x)).color j
          = (l.foldl (fun acc i => acc.setPixelColor i (f i)) p).color j := by
        simp [Pixels.setPixelColor, hx]
      rw [h1, ih]
      simp [hx]

theorem foldl_setPixelColor_brightness (f : Int → Rgb) (l : List Int) (p : Pixels) :
    (l.foldl (fun acc i => acc.setPixelColor i (f i)) p).brightness = p.brightness := by
  induction l generalizing p with
  | nil => rfl
  | cons x l ih => rw [List.foldl_cons, ih]; rfl

theorem foldl_setPixelColor_calls (f : Int → Rgb) (l : List Int) (p : Pixels) :
    (l.foldl (fun acc i => acc.setPixelColor i (f i)) p).calls
      = p.calls ++ l.map (fun i => DriverCall.setPixelColor i (f i)) := by
  induction l generalizing p with
  | nil => simp
  | cons x l ih => rw [List.foldl_cons, ih]; simp [Pixels.setPixelColor]

theorem count_showStrip_map_set (f : Int → Rgb) (l : List Int) :
    (l.map (fun i => DriverCall.setPixelColor i (f i))).count DriverCall.showStrip = 0 := by
  induction l with
  | nil => rfl
  | cons x l ih => simp [List.count_cons, ih]

/-- C5. `setAllPixelsTo(c, doShow)` leaves every element of `[first,last]`
equal to `c`, every other element and the brightness as they were, sends the
driver one write per element of the range in ascending order, and flushes if
and only if `doShow` is true. -/
theorem setAllPixelsTo_fills_range (a : Animation) (p : Pixels) (c : Rgb) (doShow : Bool) :
    (∀ i, a._firstLED ≤ i → i ≤ a._lastLED → (a.setAllPixelsTo p c doShow).color i = c) ∧
    (∀ i, (i < a._firstLED ∨ a._lastLED < i) →
      (a.setAllPixelsTo p c doShow).color i = p.color i) ∧
    (a.setAllPixelsTo p c doShow).brightness = p.brightness ∧
    (a.setAllPixelsTo p c doShow).calls
      = p.calls ++ (ledRange a._firstLED a._lastLED).map (fun i => DriverCall.setPixelColor i c)
          ++ (if doShow then [DriverCall.showStrip] else []) ∧
    ((a.setAllPixelsTo p c doShow).showCount = p.showCount + 1 ↔ doShow = true) ∧
    ((a.setAllPixelsTo p c doShow).showCount = p.showCount ↔ doShow = false) := by
  have hcol : ∀ i, (a.setAllPixelsTo p c doShow).color i
      = if i ∈ ledRange a._firstLED a._lastLED then c else p.color i := by
    intro i
    unfold Animation.setAllPixelsTo
    cases doShow <;>
      simp [Pixels.showStrip, foldl_setPixelColor_color (fun _ => c)]
  have hcalls : (a.setAllPixelsTo p c doShow).calls
      = p.calls ++ (ledRange a._firstLED a._lastLED).map (fun i => DriverCall.setPixelColor i c)
          ++ (if doShow then [DriverCall.showStrip] else []) := by
    unfold Animation.setAllPixelsTo
    cases doShow <;>
      simp [Pixels.showStrip, foldl_setPixelColor_calls (fun _ => c)]
  have hcount : (a.setAllPixelsTo p c doShow).showCount
      = p.showCount + (if doShow then 1 else 0) := by
    unfold Pixels.showCount
    rw [hcalls]
    cases doShow <;>
      simp [List.count_append, count_showStrip_map_set (fun _ => c)]
  refine ⟨?_, ?_, ?_, hcalls, ?_, ?_⟩
  · intro i h1 h2
    rw [hcol, if_pos ((mem_ledRange _ _ _).2 ⟨h1, h2⟩)]
  · intro i h
    rw [hcol, if_neg]
    rw [mem_ledRange]
    omega
  · unfold Animation.setAllPixelsTo
    cases doShow <;>
      simp [Pixels.showStrip, foldl_setPixelColor_brightness (fun _ => c)]
  · rw [hcount]; cases doShow <;> simp
  · rw [hcount]; cases doShow <;> simp

theorem setAllPixelsTo_fills_range_witness :
    ((sampleAnimation true).setAllPixelsTo samplePixels 7 true).color 3 = 7 ∧
    ((sampleAnimation true).setAllPixelsTo samplePixels 7 true).color 9 = samplePixels.color 9 :=
  ⟨(setAllPixelsTo_fills_range (sampleAnimation true) samplePixels 7 true).1 3
      (by decide) (by decide),
   (setAllPixelsTo_fills_range (sampleAnimation true) samplePixels 7 true).2.1 9
      (Or.inr (by decide))⟩

/-! ## The time gate and the active flag -/

/-- C1. For every pattern and every state with `_active = true`, when the
elapsed time `now - _lastUpdateTime` is below `_animationStepIncrement`,
`Continue` returns the state it was given: pixel buffer, brightness, driver
calls, every member and `_lastUpdateTime` are unchanged. -/
theorem continue_before_due_is_noop (e : Env) (now now1 now2 : Nat) :
    (∀ s : Sys Startup, s.obj._active = true →
      elapsedSince now s.obj._lastUpdateTime < s.obj._animationStepIncrement →
      Startup.Continue now s = s) ∧
    (∀ s : Sys ColorSwirl, s.obj._active = true →
      elapsedSince now s.obj._lastUpdateTime < s.obj._animationStepIncrement →
      ColorSwirl.Continue e now s = some s) ∧
    (∀ s : Sys Marquee, s.obj._active = true →
      elapsedSince now s.obj._lastUpdateTime < s.obj._animationStepIncrement →
      Marquee.Continue e now s = some s) ∧
    (∀ s : Sys FadeToColor, s.obj._active = true →
      elapsedSince now s.obj._lastUpdateTime < s.obj._animationStepIncrement →
      FadeToColor.Continue e now s = s) ∧
    (∀ s : Sys ColorWipe, s.obj._active = true →
      elapsedSince now s.obj._lastUpdateTime < s.obj._animationStepIncrement →
      ColorWipe.Continue now s = s) ∧
    (∀ s : Sys Twinkle, s.obj._active = true →
      elapsedSince now s.obj._lastUpdateTime < s.obj._animationStepIncrement →
      Twinkle.Continue e now now1 now2 s = some s) ∧
    (∀ s : Sys ZipLine, s.obj._active = true →
      elapsedSince now s.obj._lastUpdateTime < s.obj._animationStepIncrement →
      ZipLine.Continue e now s = s) ∧
    (∀ s : Sys ZipLine, s.obj._active = true →
      elapsedSince now s.obj._lastUpdateTime < s.obj._animationStepIncrement →
      ZipLineInverse.Continue e now s = s) ∧
    (∀ s : Sys Zip2, s.obj._active = true →
      elapsedSince now s.obj._lastUpdateTime < s.obj._animationStepIncrement →
      Zip2.Continue e now s = s) ∧
    (∀ s : Sys Zip2, s.obj._active = true →
      elapsedSince now s.obj._lastUpdateTime < s.obj._animationStepIncrement →
      Zip2Inverse.Continue e now s = s) ∧
    (∀ s : Sys ZipR, s.obj._active = true →
      elapsedSince now s.obj._lastUpdateTime < s.obj._animationStepIncrement →
      ZipR.Continue e now s = some s) := by
  refine ⟨?_, ?_, ?_, ?_, ?_, ?_, ?_, ?_, ?_, ?_, ?_⟩ <;> intro s ha hd
  · simp [Startup.Continue, ha, hd]
  · simp [ColorSwirl.Continue, ha, hd]
  · simp [Marquee.Continue, ha, hd]
  · simp [FadeToColor.Continue, ha, hd]
  · simp [ColorWipe.Continue, ha, hd]
  · simp [Twinkle.Continue, ha, hd]
  · simp [ZipLine.Continue, ha, hd]
  · simp [ZipLineInverse.Continue, ha, hd]
  · simp [Zip2.Continue, ha, hd]
  · simp [Zip2Inverse.Continue, ha, hd]
  · simp [ZipR.Continue, ha, hd]

theorem continue_before_due_is_noop_witness :
    Startup.Continue 1124 (sampleSys (sampleStartup true)) = sampleSys (sampleStartup true) ∧
    ColorSwirl.Continue sampleEnv 1124 (sampleSys (sampleColorSwirl true))
      = some (sampleSys (sampleColorSwirl true)) ∧
    Marquee.Continue sampleEnv 1124 (sampleSys (sampleMarquee true))
      = some (sampleSys (sampleMarquee true)) ∧
    FadeToColor.Continue sampleEnv 1124 (sampleSys (sampleFadeToColor true))
      = sampleSys (sampleFadeToColor true) ∧
    ColorWipe.Continue 1124 (sampleSys (sampleColorWipe true))
      = sampleSys (sampleColorWipe true) ∧
    Twinkle.Continue sampleEnv 1124 1124 1125 (sampleSys (sampleTwinkle true))
      = some (sampleSys (sampleTwinkle true)) ∧
    ZipLine.Continue sampleEnv 1124 (sampleSys (sampleZipLine true))
      = sampleSys (sampleZipLine true) ∧
    ZipLineInverse.Continue sampleEnv 1124 (sampleSys (sampleZipLine true))
      = sampleSys (sampleZipLine true) ∧
    Zip2.Continue sampleEnv 1124 (sampleSys (sampleZip2 true)) = sampleSys (sampleZip2 true) ∧
    Zip2Inverse.Continue sampleEnv 1124 (sampleSys (sampleZip2 true))
      = sampleSys (sampleZip2 true) ∧
    ZipR.Continue sampleEnv 1124 (sampleSys (sampleZipR true))
      = some (sampleSys (sampleZipR true)) :=
  have h := continue_before_due_is_noop sampleEnv 1124 1124 1125
  ⟨h.1 _ rfl (by decide),
   h.2.1 _ rfl (by decide),
   h.2.2.1 _ rfl (by decide),
   h.2.2.2.1 _ rfl (by decide),
   h.2.2.2.2.1 _ rfl (by decide),
   h.2.2.2.2.2.1 _ rfl (by decide),
   h.2.2.2.2.2.2.1 _ rfl (by decide),
   h.2.2.2.2.2.2.2.1 _ rfl (by decide),
   h.2.2.2.2.2.2.2.2.1 _ rfl (by decide),
   h.2.2.2.2.2.2.2.2.2.1 _ rfl (by decide),
   h.2.2.2.2.2.2.2.2.2.2 _ rfl (by decide)⟩

/-- C2. For every pattern and every state with `_active = false`, `Continue`
returns the state it was given whatever the clock reads: no driver call is
made, the brightness and every member are unchanged, `_active` stays false. -/
theorem continue_inactive_is_noop (e : Env) (now now1 now2 : Nat) :
    (∀ s : Sys Startup, s.obj._active = false → Startup.Continue now s = s) ∧
    (∀ s : Sys ColorSwirl, s.obj._active = false → ColorSwirl.Continue e now s = some s) ∧
    (∀ s : Sys Marquee, s.obj._active = false → Marquee.Continue e now s = some s) ∧
    (∀ s : Sys FadeToColor, s.obj._active = false → FadeToColor.Continue e now s = s) ∧
    (∀ s : Sys ColorWipe, s.obj._active = false → ColorWipe.Continue now s = s) ∧
    (∀ s : Sys Twinkle, s.obj._active = false →
      Twinkle.Continue e now now1 now2 s = some s) ∧
    (∀ s : Sys ZipLine, s.obj._active = false → ZipLine.Continue e now s = s) ∧
    (∀ s : Sys ZipLine, s.obj._active = false → ZipLineInverse.Continue e now s = s) ∧
    (∀ s : Sys Zip2, s.obj._active = false → Zip2.Continue e now s = s) ∧
    (∀ s : Sys Zip2, s.obj._active = false → Zip2Inverse.Continue e now s = s) ∧
    (∀ s : Sys ZipR, s.obj._active = false → ZipR.Continue e now s = some s) := by
  refine ⟨?_, ?_, ?_, ?_, ?_, ?_, ?_, ?_, ?_, ?_, ?_⟩ <;> intro s ha
  · simp [Startup.Continue, ha]
  · simp [ColorSwirl.Continue, ha]
  · simp [Marquee.Continue, ha]
  · simp [FadeToColor.Continue, ha]
  · simp [ColorWipe.Continue, ha]
  · simp [Twinkle.Continue, ha]
  · simp [ZipLine.Continue, ha]
  · simp [ZipLineInverse.Continue, ha]
  · simp [Zip2.Continue, ha]
  · simp [Zip2Inverse.Continue, ha]
  · simp [ZipR.Continue, ha]

theorem continue_inactive_is_noop_witness :
    Startup.Continue 5000 (sampleSys (sampleStartup false)) = sampleSys (sampleStartup false) ∧
    ColorSwirl.Continue sampleEnv 5000 (sampleSys (sampleColorSwirl false))
      = some (sampleSys (sampleColorSwirl false)) ∧
    Marquee.Continue sampleEnv 5000 (sampleSys (sampleMarquee false))
      = some (sampleSys (sampleMarquee false)) ∧
    FadeToColor.Continue sampleEnv 5000 (sampleSys (sampleFadeToColor false))
      = sampleSys (sampleFadeToColor false) ∧
    ColorWipe.Continue 5000 (sampleSys (sampleColorWipe false))
      = sampleSys (sampleColorWipe false) ∧
    Twinkle.Continue sampleEnv 5000 5001 5002 (sampleSys (sampleTwinkle false))
      = some (sampleSys (sampleTwinkle false)) ∧
    ZipLine.Continue sampleEnv 5000 (sampleSys (sampleZipLine false))
      = sampleSys (sampleZipLine false) ∧
    ZipLineInverse.Continue sampleEnv 5000 (sampleSys (sampleZipLine false))
      = sampleSys (sampleZipLine false) ∧
    Zip2.Continue sampleEnv 5000 (sampleSys (sampleZip2 false)) = sampleSys (sampleZip2 false) ∧
    Zip2Inverse.Continue sampleEnv 5000 (sampleSys (sampleZip2 false))
      = sampleSys (sampleZip2 false) ∧
    ZipR.Continue sampleEnv 5000 (sampleSys (sampleZipR false))
      = some (sampleSys (sampleZipR false)) :=
  have h := continue_inactive_is_noop sampleEnv 5000 5001 5002
  ⟨h.1 _ rfl, h.2.1 _ rfl, h.2.2.1 _ rfl, h.2.2.2.1 _ rfl, h.2.2.2.2.1 _ rfl,
   h.2.2.2.2.2.1 _ rfl, h.2.2.2.2.2.2.1 _ rfl, h.2.2.2.2.2.2.2.1 _ rfl,
   h.2.2.2.2.2.2.2.2.1 _ rfl, h.2.2.2.2.2.2.2.2.2.1 _ rfl, h.2.2.2.2.2.2.2.2.2.2 _ rfl⟩

/-! ## The step interval -/

theorem stepIncrementFor_ten_one : stepIncrementFor 10 1 = 125 := by decide!

theorem elapsedSince_zero_zero : elapsedSince 0 0 = 0 := by decide

theorem elapsedSince_124_zero : elapsedSince 124 0 = 124 := by decide

theorem elapsedSince_125_zero : elapsedSince 125 0 = 125 := by decide

theorem round_neg_of_nonpos (d : ℚ) (hd : d ≤ 0) : -round d = round (-d) := by
  unfold round
  rcases eq_or_lt_of_le hd with h0 | hneg
  · subst h0
    have hhalf : ⌊(2⁻¹ : ℚ)⌋ = 0 := by rw [Int.floor_eq_iff]; norm_num
    simp [hhalf]
  · have h1 : ¬ (0 ≤ d) := not_le.mpr hneg
    have h2 : (0 : ℚ) ≤ -d := by linarith
    simp [h1, h2]

/-- C3. On a strip of 10 elements a `Startup` object constructed with
`animationTime = 1.0` gets `_animationStepIncrement = 125`; after `Start`,
`Continue` at clock values 0 and 124 changes nothing, and `Continue` at 125
performs exactly one step: one element write at the cursor followed by one
flush, the cursor advanced by one increment, `_lastUpdateTime = 125`. -/
theorem startup_ten_elements_one_second (e : Env) (raw : Startup) (animationName : String)
    (firstOffset lastOffset : Int) (topToBottom : Bool) (colorToUse : Rgb) (p : Pixels)
    (tape : List Nat) :
    let obj :=
      Startup.construct { e with numPixels := 10 } raw animationName 1 firstOffset lastOffset
    let s0 := Startup.Start topToBottom colorToUse { obj := obj, pixels := p, tape := tape }
    obj._animationStepIncrement = 125 ∧
    Startup.Continue 0 s0 = s0 ∧
    Startup.Continue 124 s0 = s0 ∧
    Startup.Continue 125 (Startup.Continue 124 (Startup.Continue 0 s0))
      = Startup.Continue 125 s0 ∧
    (Startup.Continue 125 s0).pixels.calls
      = p.calls ++ [DriverCall.setPixelColor s0.obj._idx
          (if colorToUse ≠ 0 then colorsAt 0 else 0), DriverCall.showStrip] ∧
    (Startup.Continue 125 s0).obj._idx = s0.obj._idx + s0.obj._inc ∧
    (Startup.Continue 125 s0).obj._lastUpdateTime = 125 := by
  intro obj s0
  have hinc : s0.obj._animationStepIncrement = 125 := stepIncrementFor_ten_one
  have hact : s0.obj._active = true := rfl
  have hlast : s0.obj._lastUpdateTime = 0 := rfl
  have hcol : s0.obj._colorToUse = colorToUse := rfl
  have hidx : s0.obj._colorIdx = 0 := rfl
  have hpx : s0.pixels = p := rfl
  have h0 : Startup.Continue 0 s0 = s0 := by
    simp [Startup.Continue, hinc, hact, hlast, elapsedSince_zero_zero]
  have h124 : Startup.Continue 124 s0 = s0 := by
    simp [Startup.Continue, hinc, hact, hlast, elapsedSince_124_zero]
  refine ⟨stepIncrementFor_ten_one, h0, h124, by rw [h0, h124], ?_, ?_, ?_⟩
  · simp only [Startup.Continue, hinc, hact, hlast, hcol, hidx, hpx, elapsedSince_125_zero]
    by_cases hc : colorToUse = 0 <;> simp [Pixels.setPixelColor, Pixels.showStrip, hc]
  · simp [Startup.Continue, hinc, hact, hlast, elapsedSince_125_zero]
  · simp [Startup.Continue, hinc, hact, hlast, elapsedSince_125_zero]

/-- C4, as stated, fails on two counts.  The constructor divides and
multiplies in single precision: on a strip of 8 elements the float nearest to
0.759 s gives `_animationStepIncrement = 126`, while `round(1000*d/(n-2))` is
127.  And it stores the result in a 32-bit `int`: on a strip of 10 elements
`d = -3000000000` gives `_animationStepIncrement = -2147483648`, while
`round(-d)` is 3000000000. -/
theorem stepIncrement_differs_from_exact_quotient :
    toFloat (12733907 / 16777216) = 12733907 / 16777216 ∧
    (0 : ℚ) < 12733907 / 16777216 ∧
    (Animation.construct { sampleEnv with numPixels := 8 } (sampleAnimation false) "fill"
      (12733907 / 16777216) 1 (-1))._animationStepIncrement = 126 ∧
    round (1000 * (12733907 / 16777216) / (((8 : Nat) : ℚ) - 2)) = 127 ∧
    (Animation.construct { sampleEnv with numPixels := 8 } (sampleAnimation false) "fill"
      (12733907 / 16777216) 1 (-1))._animationStepIncrement
      ≠ round (1000 * (12733907 / 16777216) / (((8 : Nat) : ℚ) - 2)) ∧
    toFloat (-3000000000) = -3000000000 ∧
    (Animation.construct { sampleEnv with numPixels := 10 } (sampleAnimation false) "fill"
      (-3000000000) 1 (-1))._animationStepIncrement = -2147483648 ∧
    round (-(-3000000000 : ℚ)) = 3000000000 := by
  have h1 : toFloat (12733907 / 16777216) = 12733907 / 16777216 := by decide!
  have h2 : stepIncrementFor 8 (12733907 / 16777216) = 126 := by decide!
  have h3 : round (1000 * (12733907 / 16777216) / (((8 : Nat) : ℚ) - 2)) = 127 := by decide!
  have h4 : toFloat (-3000000000) = -3000000000 := by decide!
  have h5 : stepIncrementFor 10 (-3000000000) = -2147483648 := by decide!
  have h6 : round (-(-3000000000 : ℚ)) = 3000000000 := by decide!
  refine ⟨h1, by norm_num, h2, h3, ?_, h4, h5, h6⟩
  show stepIncrementFor 8 (12733907 / 16777216) ≠ _
  rw [h2, h3]
  decide

theorem round_nonneg_of_nonneg (q : ℚ) (hq : 0 ≤ q) : 0 ≤ round q := by
  unfold round
  rw [if_pos hq]
  exact Int.floor_nonneg.mpr (by linarith)

theorem floatToInt_of_fits (i : Int) (h0 : -2147483648 ≤ i) (h1 : i ≤ 2147483647) :
    floatToInt i = i := by
  unfold floatToInt
  rw [if_pos ⟨h0, h1⟩]

/-- C4, amended. For every strip length `n > 2` and duration `d`: when
`d > 0` the constructor stores `round(fl(fl(d / fl(n-2)) * 1000))`, every
operation rounded to single precision (`fl`), provided that value fits a 32-bit
`int`; this is `round(1000*d/(n-2))` whenever none of the three roundings
changes its argument and `round(1000*d/(n-2))` is at most 2147483647.  When
`d ≤ 0` it stores `round(-d)`, provided `round(-d)` is at most 2147483647.  The
two offsets play no part. -/
theorem stepIncrement_formula (e : Env) (raw : Animation) (animationName : String) (d : ℚ)
    (firstOffset lastOffset : Int) (hn : 2 < e.numPixels) :
    (0 < d →
      -2147483648
        ≤ round (toFloat (toFloat (d / toFloat (((e.numPixels : Int) - 2 : Int) : ℚ)) * 1000)) →
      round (toFloat (toFloat (d / toFloat (((e.numPixels : Int) - 2 : Int) : ℚ)) * 1000))
        ≤ 2147483647 →
      (Animation.construct e raw animationName d firstOffset lastOffset)._animationStepIncrement
        = round (toFloat (toFloat (d / toFloat (((e.numPixels : Int) - 2 : Int) : ℚ)) * 1000))) ∧
    (0 < d → toFloat (((e.numPixels : Int) - 2 : Int) : ℚ) = ((e.numPixels : ℚ) - 2) →
      toFloat (d / ((e.numPixels : ℚ) - 2)) = d / ((e.numPixels : ℚ) - 2) →
      toFloat (d / ((e.numPixels : ℚ) - 2) * 1000) = d / ((e.numPixels : ℚ) - 2) * 1000 →
      round (1000 * d / ((e.numPixels : ℚ) - 2)) ≤ 2147483647 →
      (Animation.construct e raw animationName d firstOffset lastOffset)._animationStepIncrement
        = round (1000 * d / ((e.numPixels : ℚ) - 2))) ∧
    (d ≤ 0 → round (-d) ≤ 2147483647 →
      (Animation.construct e raw animationName d firstOffset lastOffset)._animationStepIncrement
        = round (-d)) ∧
    (∀ firstOffset2 lastOffset2 : Int,
      (Animation.construct e raw animationName d firstOffset2 lastOffset2)._animationStepIncrement
        = (Animation.construct e raw animationName d firstOffset
            lastOffset)._animationStepIncrement) ∧
    (Animation.construct e raw animationName d firstOffset lastOffset)._lastLED
      = (e.numPixels : Int) - 1 + lastOffset ∧
    (Animation.construct e raw animationName d firstOffset lastOffset)._firstLED
      = firstOffset := by
  have hn2 : ((e.numPixels : ℚ) - 2) ≠ 0 := by
    have : (2 : ℚ) < (e.numPixels : ℚ) := by exact_mod_cast hn
    linarith
  have hn3 : ¬ ((e.numPixels : Int) - 2 = 0) := by omega
  have hstored : 0 < d →
      (Animation.construct e raw animationName d firstOffset lastOffset)._animationStepIncrement
        = floatToInt (round (toFloat
            (toFloat (d / toFloat (((e.numPixels : Int) - 2 : Int) : ℚ)) * 1000))) := by
    intro hd
    show stepIncrementFor e.numPixels d = _
    unfold stepIncrementFor
    rw [if_pos hd, if_neg hn3]
  refine ⟨?_, ?_, ?_, ?_, rfl, rfl⟩
  · intro hd h0 h1
    rw [hstored hd]
    exact floatToInt_of_fits _ h0 h1
  · intro hd h1 h2 h3 hfit
    have hval : round (toFloat
        (toFloat (d / toFloat (((e.numPixels : Int) - 2 : Int) : ℚ)) * 1000))
        = round (1000 * d / ((e.numPixels : ℚ) - 2)) := by
      rw [h1, h2, h3]
      congr 1
      field_simp
      ring
    have hpos : (0 : ℚ) ≤ 1000 * d / ((e.numPixels : ℚ) - 2) := by
      have : (2 : ℚ) < (e.numPixels : ℚ) := by exact_mod_cast hn
      apply div_nonneg
      · linarith
      · linarith
    have hnn := round_nonneg_of_nonneg _ hpos
    rw [hstored hd, hval]
    exact floatToInt_of_fits _ (by omega) hfit
  · intro hd hfit
    have h : ¬ (d > 0) := not_lt.mpr hd
    have hneg := round_neg_of_nonpos d hd
    have hnn := round_nonneg_of_nonneg (-d) (by linarith)
    show stepIncrementFor e.numPixels d = _
    unfold stepIncrementFor
    rw [if_neg h, floatToInt_of_fits _ (by omega) (by omega)]
    unfold negInt
    rw [if_neg (by omega)]
    exact hneg
  · intro f2 l2
    rfl

theorem stepIncrement_formula_witness :
    (Animation.construct sampleEnv (sampleAnimation false) "fill" 1 1 (-1))._animationStepIncrement
      = round (1000 * 1 / (((sampleEnv.numPixels : Nat) : ℚ) - 2)) ∧
    (Animation.construct sampleEnv (sampleAnimation false) "fill" (-40) 1
      (-1))._animationStepIncrement = round (-(-40)) :=
  ⟨(stepIncrement_formula sampleEnv (sampleAnimation false) "fill" 1 1 (-1) (by decide)).2.1
      (by norm_num) (by decide!) (by decide!) (by decide!) (by decide!),
   (stepIncrement_formula sampleEnv (sampleAnimation false) "fill" (-40) 1 (-1) (by decide)).2.2.1
      (by norm_num) (by decide!)⟩

/-! ## Sequential fill -/

theorem writtenIndices_append (a b : List DriverCall) :
    writtenIndices (a ++ b) = writtenIndices a ++ writtenIndices b := by
  induction a with
  | nil => rfl
  | cons x a ih => cases x <;> simp [writtenIndices, ih]

theorem callsSince_append (p q : Pixels) (news : List DriverCall)
    (h : q.calls = p.calls ++ news) : callsSince p q = news := by
  simp [callsSince, h]

/-- A due `Continue` of an active `Startup`: one write at the cursor, one
flush, cursor advanced, active exactly when the new cursor is in range. -/
theorem Startup.startup_Continue_due (now : Nat) (s : Sys Startup) (ha : s.obj._active = true)
    (hd : s.obj._animationStepIncrement ≤ elapsedSince now s.obj._lastUpdateTime) :
    (Startup.Continue now s).pixels.calls
      = s.pixels.calls ++ [DriverCall.setPixelColor s.obj._idx
          (if s.obj._colorToUse ≠ 0 then colorsAt s.obj._colorIdx else s.obj._colorToUse),
          DriverCall.showStrip] ∧
    (∀ i, (Startup.Continue now s).pixels.color i
      = if i = s.obj._idx then
          (if s.obj._colorToUse ≠ 0 then colorsAt s.obj._colorIdx else s.obj._colorToUse)
        else s.pixels.color i) ∧
    (Startup.Continue now s).pixels.brightness = s.pixels.brightness ∧
    (Startup.Continue now s).obj._idx = s.obj._idx + s.obj._inc ∧
    (Startup.Continue now s).obj._inc = s.obj._inc ∧
    (Startup.Continue now s).obj._firstLED = s.obj._firstLED ∧
    (Startup.Continue now s).obj._lastLED = s.obj._lastLED ∧
    (Startup.Continue now s).obj._colorToUse = s.obj._colorToUse ∧
    (Startup.Continue now s).obj._active
      = decide (s.obj._firstLED ≤ s.obj._idx + s.obj._inc ∧
          s.obj._idx + s.obj._inc ≤ s.obj._lastLED) := by
  have hd2 : ¬ (elapsedSince now s.obj._lastUpdateTime < s.obj._animationStepIncrement) :=
    not_lt.mpr hd
  refine ⟨?_, ?_, ?_, ?_, ?_, ?_, ?_, ?_, ?_⟩ <;>
    simp only [Startup.Continue, ha, hd2] <;>
    simp [Pixels.setPixelColor, Pixels.showStrip]
  by_cases h1 : s.obj._idx + s.obj._inc < s.obj._firstLED
  · simp [h1]
  · by_cases h2 : s.obj._lastLED < s.obj._idx + s.obj._inc
    · simp [h2]
    · simp [h1, h2, ha]; omega

theorem Startup.startup_run_cons (now : Nat) (rest : List Nat) (s : Sys Startup) :
    Startup.run (now :: rest) s = Startup.run rest (Startup.Continue now s) := rfl

theorem walkPositions_succ (idx inc : Int) (n : Nat) :
    walkPositions idx inc (n + 1) = idx :: walkPositions (idx + inc) inc n := by
  unfold walkPositions
  rw [List.range_succ_eq_map, List.map_cons, List.map_map]
  congr 1
  · simp
  · apply List.map_congr_left
    intro j _
    simp only [Function.comp, Nat.succ_eq_add_one]
    push_cast
    ring

theorem length_walkPositions (idx inc : Int) (n : Nat) : (walkPositions idx inc n).length = n := by
  simp [walkPositions]

/-- A run of due calls during which the cursor stays in range writes the
positions `idx, idx + inc, idx + 2*inc, ...` in that order and nothing else. -/
theorem Startup.run_walk (ts : List Nat) :
    ∀ s : Sys Startup, (ts = [] ∨ s.obj._active = true) → Startup.allDue ts s = true →
      (∀ i ∈ walkPositions s.obj._idx s.obj._inc ts.length,
        s.obj._firstLED ≤ i ∧ i ≤ s.obj._lastLED) →
      (∃ news, (Startup.run ts s).pixels.calls = s.pixels.calls ++ news ∧
        writtenIndices news = walkPositions s.obj._idx s.obj._inc ts.length) ∧
      (Startup.run ts s).obj._idx = s.obj._idx + (ts.length : Int) * s.obj._inc ∧
      (Startup.run ts s).obj._inc = s.obj._inc ∧
      (Startup.run ts s).obj._firstLED = s.obj._firstLED ∧
      (Startup.run ts s).obj._lastLED = s.obj._lastLED ∧
      (Startup.run ts s).obj._colorToUse = s.obj._colorToUse ∧
      (Startup.run ts s).pixels.brightness = s.pixels.brightness ∧
      (ts ≠ [] → (Startup.run ts s).obj._active
        = decide (s.obj._firstLED ≤ s.obj._idx + (ts.length : Int) * s.obj._inc ∧
            s.obj._idx + (ts.length : Int) * s.obj._inc ≤ s.obj._lastLED)) ∧
      (s.obj._colorToUse = 0 → ∀ i, (Startup.run ts s).pixels.color i
        = if i ∈ walkPositions s.obj._idx s.obj._inc ts.length then 0 else s.pixels.color i) := by
  induction ts with
  | nil =>
    intro s _ _ _
    refine ⟨⟨[], by simp [Startup.run], rfl⟩, ?_, rfl, rfl, rfl, rfl, rfl, ?_, ?_⟩
    · simp [Startup.run]
    · intro h; exact absurd rfl h
    · intro _ i; simp [Startup.run, walkPositions]
  | cons now rest ih =>
    intro s ha hdue hrange
    have ha : s.obj._active = true := by
      rcases ha with h | h
      · exact absurd h (by simp)
      · exact h
    simp only [Startup.allDue, Bool.and_eq_true, decide_eq_true_eq] at hdue
    obtain ⟨hd, hrest⟩ := hdue
    obtain ⟨hcalls, hcolor, hbr, hidx, hinc, hfirst, hlast, hcol, hact⟩ :=
      Startup.startup_Continue_due now s ha hd
    rw [List.length_cons, walkPositions_succ] at hrange
    have ha1 : rest = [] ∨ (Startup.Continue now s).obj._active = true := by
      cases rest with
      | nil => exact Or.inl rfl
      | cons now2 rest2 =>
        right
        rw [hact, decide_eq_true_eq]
        apply hrange
        rw [List.length_cons, walkPositions_succ]
        simp
    have hrange1 : ∀ i ∈ walkPositions (Startup.Continue now s).obj._idx
        (Startup.Continue now s).obj._inc rest.length,
        (Startup.Continue now s).obj._firstLED ≤ i ∧ i ≤ (Startup.Continue now s).obj._lastLED := by
      intro i hi
      rw [hidx, hinc] at hi
      rw [hfirst, hlast]
      exact hrange i (List.mem_cons_of_mem _ hi)
    obtain ⟨⟨news, hn1, hn2⟩, jidx, jinc, jfirst, jlast, jcol, jbr, jact, jcolor⟩ :=
      ih (Startup.Continue now s) ha1 hrest hrange1
    rw [Startup.startup_run_cons, List.length_cons, walkPositions_succ]
    refine ⟨⟨[DriverCall.setPixelColor s.obj._idx
          (if s.obj._colorToUse ≠ 0 then colorsAt s.obj._colorIdx else s.obj._colorToUse),
          DriverCall.showStrip] ++ news, ?_, ?_⟩, ?_, ?_, ?_, ?_, ?_, ?_, ?_, ?_⟩
    · rw [hn1, hcalls, List.append_assoc]
    · rw [writtenIndices_append, hn2, hidx, hinc]
      simp [writtenIndices]
    · rw [jidx, hidx, hinc]; push_cast; ring
    · rw [jinc, hinc]
    · rw [jfirst, hfirst]
    · rw [jlast, hlast]
    · rw [jcol, hcol]
    · rw [jbr, hbr]
    · intro _
      cases rest with
      | nil =>
        simp only [Startup.run, List.foldl_nil, hact, List.length_nil]
        simp
      | cons now2 rest2 =>
        rw [jact (by simp), hidx, hinc, hfirst, hlast]
        congr 1
        push_cast
        apply propext
        constructor <;> rintro ⟨h1, h2⟩ <;> constructor <;> linarith
    · intro h0 i
      rw [jcolor (by rw [hcol]; exact h0), hcolor, hidx, hinc, h0]
      by_cases hi : i = s.obj._idx
      · simp [hi]
      · simp [hi]
theorem walkPositions_up (first last : Int) (n : Nat) (hn : n = (last + 1 - first).toNat) :
    walkPositions first 1 n = ledRange first last := by
  unfold walkPositions ledRange
  rw [hn]
  apply List.map_congr_left
  intro j _
  ring

theorem ledRange_snoc (first last : Int) (h : first ≤ last) :
    ledRange first last = ledRange first (last - 1) ++ [last] := by
  unfold ledRange
  have h1 : (last + 1 - first).toNat = (last - 1 + 1 - first).toNat + 1 := by omega
  rw [h1, List.range_succ, List.map_append]
  congr 1
  simp only [List.map_cons, List.map_nil, List.cons.injEq, and_true]
  omega

theorem walkPositions_down (n : Nat) :
    ∀ first last : Int, n = (last + 1 - first).toNat →
      walkPositions last (-1) n = (ledRange first last).reverse := by
  induction n with
  | zero =>
    intro first last hn
    simp [walkPositions, ledRange, ← hn]
  | succ n ih =>
    intro first last hn
    have hle : first ≤ last := by omega
    rw [walkPositions_succ, ledRange_snoc first last hle, List.reverse_append]
    have e1 : last + -1 = last - 1 := by ring
    rw [e1, ih first (last - 1) (by omega)]
    rfl

theorem nodup_ledRange (first last : Int) : (ledRange first last).Nodup := by
  unfold ledRange
  apply List.Nodup.map _ (List.nodup_range _)
  intro a b hab
  simpa using hab

/-- The walk `Start` or `Finish` sets up, as positions: the range ascending,
or descending when `topToBottom`. -/
theorem walkPositions_start (topToBottom : Bool) (first last : Int) (n : Nat)
    (hn : (n : Int) = last - first + 1) :
    walkPositions (if topToBottom then last else first) (if topToBottom then -1 else 1) n
      = if topToBottom then (ledRange first last).reverse else ledRange first last := by
  cases topToBottom
  · simpa using walkPositions_up first last n (by omega)
  · simpa using walkPositions_down n first last (by omega)

/-- The walk of an object armed by `Start` or `Finish`: N due calls write the
range in the armed direction and nothing else. -/
theorem Startup.armed_walk (topToBottom : Bool) (p : Pixels) (s0 : Sys Startup) (ts : List Nat)
    (ha : s0.obj._active = true)
    (hidx : s0.obj._idx = if topToBottom then s0.obj._lastLED else s0.obj._firstLED)
    (hinc : s0.obj._inc = if topToBottom then -1 else 1)
    (hp : s0.pixels.calls = p.calls)
    (hlen : (ts.length : Int) = s0.obj._lastLED - s0.obj._firstLED + 1)
    (hdue : Startup.allDue ts s0 = true) :
    writtenIndices (callsSince p (Startup.run ts s0).pixels)
      = (if topToBottom then (ledRange s0.obj._firstLED s0.obj._lastLED).reverse
          else ledRange s0.obj._firstLED s0.obj._lastLED) := by
  have hwalk := walkPositions_start topToBottom s0.obj._firstLED s0.obj._lastLED ts.length hlen
  rw [← hidx, ← hinc] at hwalk
  have hrange : ∀ i ∈ walkPositions s0.obj._idx s0.obj._inc ts.length,
      s0.obj._firstLED ≤ i ∧ i ≤ s0.obj._lastLED := by
    intro i hi
    rw [hwalk] at hi
    have : i ∈ ledRange s0.obj._firstLED s0.obj._lastLED := by
      cases topToBottom <;> simpa using hi
    exact (mem_ledRange _ _ _).1 this
  obtain ⟨⟨news, hn1, hn2⟩, -⟩ := Startup.run_walk ts s0 (Or.inr ha) hdue hrange
  rw [hp] at hn1
  rw [callsSince_append _ _ _ hn1, hn2, hwalk]

/-- C6. After `Startup::Start(topToBottom, C)` and N due `Continue` calls,
N the length of the range, the elements written are exactly those of
`[first,last]`, each once, ascending when `topToBottom` is false and
descending when it is true; no element outside the range is written. -/
theorem startup_fill_writes_range_once (topToBottom : Bool) (colorToUse : Rgb)
    (s : Sys Startup) (ts : List Nat)
    (hN : 1 ≤ s.obj._lastLED - s.obj._firstLED + 1)
    (hlen : (ts.length : Int) = s.obj._lastLED - s.obj._firstLED + 1)
    (hdue : Startup.allDue ts (Startup.Start topToBottom colorToUse s) = true) :
    writtenIndices (callsSince s.pixels
        (Startup.run ts (Startup.Start topToBottom colorToUse s)).pixels)
      = (if topToBottom then (ledRange s.obj._firstLED s.obj._lastLED).reverse
          else ledRange s.obj._firstLED s.obj._lastLED) ∧
    (∀ i, s.obj._firstLED ≤ i → i ≤ s.obj._lastLED →
      (writtenIndices (callsSince s.pixels
        (Startup.run ts (Startup.Start topToBottom colorToUse s)).pixels)).count i = 1) ∧
    (∀ i, (i < s.obj._firstLED ∨ s.obj._lastLED < i) →
      i ∉ writtenIndices (callsSince s.pixels
        (Startup.run ts (Startup.Start topToBottom colorToUse s)).pixels)) := by
  have hN1 : 1 ≤ s.obj._lastLED - s.obj._firstLED + 1 := hN
  have hw : writtenIndices (callsSince s.pixels
      (Startup.run ts (Startup.Start topToBottom colorToUse s)).pixels)
      = if topToBottom then (ledRange s.obj._firstLED s.obj._lastLED).reverse
        else ledRange s.obj._firstLED s.obj._lastLED :=
    Startup.armed_walk topToBottom s.pixels (Startup.Start topToBottom colorToUse s) ts
      rfl rfl rfl rfl hlen hdue
  rw [hw]
  refine ⟨rfl, ?_, ?_⟩
  · intro i h1 h2
    have hmem : i ∈ ledRange s.obj._firstLED s.obj._lastLED := (mem_ledRange _ _ _).2 ⟨h1, h2⟩
    cases topToBottom
    · simpa using List.count_eq_one_of_mem (nodup_ledRange _ _) hmem
    · simpa using List.count_eq_one_of_mem (nodup_ledRange _ _) hmem
  · intro i h hmem
    have : i ∈ ledRange s.obj._firstLED s.obj._lastLED := by
      cases topToBottom <;> simpa using hmem
    rw [mem_ledRange] at this
    omega

theorem startup_fill_writes_range_once_witness :
    writtenIndices (callsSince sampleStartupSys.pixels
        (Startup.run [125, 250, 375] (Startup.Start true 255 sampleStartupSys)).pixels)
      = (if true then (ledRange sampleStartupSys.obj._firstLED
            sampleStartupSys.obj._lastLED).reverse
          else ledRange sampleStartupSys.obj._firstLED sampleStartupSys.obj._lastLED) :=
  (startup_fill_writes_range_once true 255 sampleStartupSys [125, 250, 375]
    (by decide) (by decide) (by decide)).1

/-- C7, as stated, fails: on the range `[2,4]` (N = 3) the third due
`Continue` after `Start(false, C)` already leaves the object inactive. -/
theorem startup_inactive_after_nth_call :
    sampleStartupSys.obj._lastLED - sampleStartupSys.obj._firstLED + 1 = 3 ∧
    Startup.allDue [125, 250, 375] (Startup.Start false 255 sampleStartupSys) = true ∧
    (Startup.run [125, 250] (Startup.Start false 255 sampleStartupSys)).obj.Active = true ∧
    (Startup.run [125, 250, 375] (Startup.Start false 255 sampleStartupSys)).obj.Active
      = false := by
  decide

/-- C7, amended. After `Startup::Start(false, C)` on a range of length
N ≥ 1 the object is active after each of the first N - 1 due `Continue`
calls and `Active()` becomes false on the N-th, the call that writes the last
element; every later `Continue` changes nothing. -/
theorem startup_active_until_nth_call (colorToUse : Rgb) (s : Sys Startup) (ts : List Nat)
    (hN : 1 ≤ s.obj._lastLED - s.obj._firstLED + 1)
    (hdue : Startup.allDue ts (Startup.Start false colorToUse s) = true) :
    ((ts.length : Int) < s.obj._lastLED - s.obj._firstLED + 1 →
      (Startup.run ts (Startup.Start false colorToUse s)).obj.Active = true) ∧
    ((ts.length : Int) = s.obj._lastLED - s.obj._firstLED + 1 →
      (Startup.run ts (Startup.Start false colorToUse s)).obj.Active = false ∧
      ∀ now, Startup.Continue now (Startup.run ts (Startup.Start false colorToUse s))
        = Startup.run ts (Startup.Start false colorToUse s)) := by
  have hrange : (ts.length : Int) ≤ s.obj._lastLED - s.obj._firstLED + 1 →
      ∀ i ∈ walkPositions (Startup.Start false colorToUse s).obj._idx
        (Startup.Start false colorToUse s).obj._inc ts.length,
        (Startup.Start false colorToUse s).obj._firstLED ≤ i ∧
          i ≤ (Startup.Start false colorToUse s).obj._lastLED := by
    intro hle i hi
    have hi2 : i ∈ walkPositions s.obj._firstLED 1 ts.length := hi
    simp only [walkPositions, List.mem_map, List.mem_range] at hi2
    obtain ⟨j, hj, rfl⟩ := hi2
    show s.obj._firstLED ≤ _ ∧ _ ≤ s.obj._lastLED
    constructor <;> omega
  have hidx0 : (Startup.Start false colorToUse s).obj._idx = s.obj._firstLED := rfl
  have hinc0 : (Startup.Start false colorToUse s).obj._inc = 1 := rfl
  have hfirst0 : (Startup.Start false colorToUse s).obj._firstLED = s.obj._firstLED := rfl
  have hlast0 : (Startup.Start false colorToUse s).obj._lastLED = s.obj._lastLED := rfl
  constructor
  · intro hlt
    cases hts : ts with
    | nil => simp [Startup.run, Startup.Start, Animation.Active]
    | cons now rest =>
      obtain ⟨-, -, -, -, -, -, -, hact, -⟩ :=
        Startup.run_walk ts (Startup.Start false colorToUse s) (Or.inr rfl) hdue
          (hrange (le_of_lt hlt))
      rw [← hts]
      show (Startup.run ts (Startup.Start false colorToUse s)).obj._active = true
      rw [hact (by simp [hts]), hidx0, hinc0, hfirst0, hlast0, decide_eq_true_eq]
      constructor <;> omega
  · intro heq
    have hne : ts ≠ [] := by
      intro h
      rw [h] at heq
      simp at heq
      omega
    obtain ⟨-, -, -, -, -, -, -, hact, -⟩ :=
      Startup.run_walk ts (Startup.Start false colorToUse s) (Or.inr rfl) hdue
        (hrange (le_of_eq heq))
    have hoff : (Startup.run ts (Startup.Start false colorToUse s)).obj._active = false := by
      rw [hact hne, hidx0, hinc0, hfirst0, hlast0, decide_eq_false_iff_not]
      omega
    refine ⟨hoff, ?_⟩
    intro now
    simp [Startup.Continue, hoff]

theorem startup_active_until_nth_call_witness :
    (Startup.run [125, 250] (Startup.Start false 255 sampleStartupSys)).obj.Active = true ∧
    (Startup.run [125, 250, 375] (Startup.Start false 255 sampleStartupSys)).obj.Active
      = false :=
  ⟨(startup_active_until_nth_call 255 sampleStartupSys [125, 250] (by decide) (by decide)).1
      (by decide),
   ((startup_active_until_nth_call 255 sampleStartupSys [125, 250, 375] (by decide)
      (by decide)).2 (by decide)).1⟩

/-- C8. From every prior state, `Startup::Finish(topToBottom)` followed by
N due `Continue` calls, N ≥ 1 the length of the range, leaves every element
of `[first,last]` at the off-colour (black, the value 0 the walk writes),
visits the elements in the order `Startup::Start(topToBottom, .)` visits them,
and leaves the object inactive. -/
theorem startup_finish_blanks_range (e : Env) (topToBottom : Bool) (s : Sys Startup)
    (ts : List Nat)
    (hoff : e.offColor = 0)
    (hN : 1 ≤ s.obj._lastLED - s.obj._firstLED + 1)
    (hlen : (ts.length : Int) = s.obj._lastLED - s.obj._firstLED + 1)
    (hdue : Startup.allDue ts (Startup.Finish topToBottom s) = true) :
    (∀ i, s.obj._firstLED ≤ i → i ≤ s.obj._lastLED →
      (Startup.run ts (Startup.Finish topToBottom s)).pixels.color i = e.offColor) ∧
    (∀ i, (i < s.obj._firstLED ∨ s.obj._lastLED < i) →
      (Startup.run ts (Startup.Finish topToBottom s)).pixels.color i = s.pixels.color i) ∧
    writtenIndices (callsSince s.pixels (Startup.run ts (Startup.Finish topToBottom s)).pixels)
      = (if topToBottom then (ledRange s.obj._firstLED s.obj._lastLED).reverse
          else ledRange s.obj._firstLED s.obj._lastLED) ∧
    (∀ (colorToUse : Rgb) (ts2 : List Nat),
      (ts2.length : Int) = s.obj._lastLED - s.obj._firstLED + 1 →
      Startup.allDue ts2 (Startup.Start topToBottom colorToUse s) = true →
      writtenIndices (callsSince s.pixels (Startup.run ts (Startup.Finish topToBottom s)).pixels)
        = writtenIndices (callsSince s.pixels
            (Startup.run ts2 (Startup.Start topToBottom colorToUse s)).pixels)) ∧
    (Startup.run ts (Startup.Finish topToBottom s)).obj.Active = false := by
  have hwalk := walkPositions_start topToBottom s.obj._firstLED s.obj._lastLED ts.length hlen
  have hpos : walkPositions (Startup.Finish topToBottom s).obj._idx
      (Startup.Finish topToBottom s).obj._inc ts.length
      = if topToBottom then (ledRange s.obj._firstLED s.obj._lastLED).reverse
        else ledRange s.obj._firstLED s.obj._lastLED := hwalk
  have hmem : ∀ i, i ∈ walkPositions (Startup.Finish topToBottom s).obj._idx
      (Startup.Finish topToBottom s).obj._inc ts.length ↔
      s.obj._firstLED ≤ i ∧ i ≤ s.obj._lastLED := by
    intro i
    rw [hpos, ← mem_ledRange]
    cases topToBottom <;> simp
  have hne : ts ≠ [] := by
    intro h
    rw [h] at hlen
    simp at hlen
    omega
  obtain ⟨⟨news, hn1, hn2⟩, -, -, -, -, -, -, hact, hcolor⟩ :=
    Startup.run_walk ts (Startup.Finish topToBottom s) (Or.inr rfl) hdue
      (fun i hi => (hmem i).1 hi)
  have hcs : callsSince s.pixels (Startup.run ts (Startup.Finish topToBottom s)).pixels = news :=
    callsSince_append _ _ _ hn1
  have horder : writtenIndices (callsSince s.pixels
      (Startup.run ts (Startup.Finish topToBottom s)).pixels)
      = (if topToBottom then (ledRange s.obj._firstLED s.obj._lastLED).reverse
          else ledRange s.obj._firstLED s.obj._lastLED) := by
    rw [hcs, hn2, hpos]
  refine ⟨?_, ?_, horder, ?_, ?_⟩
  · intro i h1 h2
    rw [hcolor rfl i, if_pos ((hmem i).2 ⟨h1, h2⟩), hoff]
  · intro i h
    rw [hcolor rfl i, if_neg]
    · rfl
    · rw [hmem]; omega
  · intro colorToUse ts2 hlen2 hdue2
    rw [horder]
    exact (Startup.armed_walk topToBottom s.pixels (Startup.Start topToBottom colorToUse s) ts2
      rfl rfl rfl rfl hlen2 hdue2).symm
  · show (Startup.run ts (Startup.Finish topToBottom s)).obj._active = false
    rw [hact hne, decide_eq_false_iff_not]
    have hidx : (Startup.Finish topToBottom s).obj._idx
        = if topToBottom then s.obj._lastLED else s.obj._firstLED := rfl
    have hinc : (Startup.Finish topToBottom s).obj._inc = if topToBottom then -1 else 1 := rfl
    have hfirst0 : (Startup.Finish topToBottom s).obj._firstLED = s.obj._firstLED := rfl
    have hlast0 : (Startup.Finish topToBottom s).obj._lastLED = s.obj._lastLED := rfl
    rw [hidx, hinc, hfirst0, hlast0, hlen]
    cases topToBottom
    · simp only [Bool.false_eq_true, if_false]; omega
    · simp only [if_true]
      intro h
      nlinarith [h.1, h.2]

theorem startup_finish_blanks_range_witness :
    (Startup.run [125, 250, 375] (Startup.Finish true sampleStartupSys)).pixels.color 3
      = sampleEnv.offColor ∧
    (Startup.run [125, 250, 375] (Startup.Finish true sampleStartupSys)).obj.Active = false :=
  ⟨(startup_finish_blanks_range sampleEnv true sampleStartupSys [125, 250, 375] rfl
      (by decide) (by decide) (by decide)).1 3 (by decide) (by decide),
   (startup_finish_blanks_range sampleEnv true sampleStartupSys [125, 250, 375] rfl
      (by decide) (by decide) (by decide)).2.2.2.2⟩

/-! ## The colour table -/

theorem randomColorLoop_spec (lastColorIndex : Int) (tape : List Nat) :
    ∀ i rest, randomColorLoop lastColorIndex tape = some (i, rest) →
      i ≠ lastColorIndex ∧ 0 ≤ i ∧ i < 15 := by
  induction tape with
  | nil => intro i rest h; simp [randomColorLoop] at h
  | cons r tape ih =>
    intro i rest h
    simp only [randomColorLoop, colorTableSize] at h
    split at h
    · exact ih i rest h
    · rename_i hne
      simp only [Option.some.injEq, Prod.mk.injEq] at h
      obtain ⟨h1, -⟩ := h
      subst h1
      refine ⟨hne, ?_, ?_⟩ <;> omega

theorem randomColorLoop_isSome (lastColorIndex : Int) (tape : List Nat)
    (h : ∃ r ∈ tape, ((r : Int) % 15) ≠ lastColorIndex) :
    ∃ res, randomColorLoop lastColorIndex tape = some res := by
  induction tape with
  | nil => obtain ⟨r, hr, -⟩ := h; simp at hr
  | cons x tape ih =>
    simp only [randomColorLoop, colorTableSize]
    split
    · rename_i heq
      obtain ⟨r, hr, hne⟩ := h
      rcases List.mem_cons.1 hr with h1 | h1
      · subst h1
        exact absurd heq hne
      · exact ih ⟨r, h1, hne⟩
    · exact ⟨_, rfl⟩

theorem Animation.randomColor_spec (a : Animation) (tape : List Nat) (c : Rgb) (a1 : Animation)
    (tape1 : List Nat) (h : a.randomColor tape = some (c, a1, tape1)) :
    a1._lastColorIndex ≠ a._lastColorIndex ∧ 0 ≤ a1._lastColorIndex ∧ a1._lastColorIndex < 15 ∧
      c = colorsAt a1._lastColorIndex := by
  unfold Animation.randomColor at h
  split at h
  · simp at h
  · rename_i i rest hloop
    simp only [Option.some.injEq, Prod.mk.injEq] at h
    obtain ⟨h1, h2, -⟩ := h
    subst h2
    obtain ⟨g1, g2, g3⟩ := randomColorLoop_spec _ _ _ _ hloop
    exact ⟨g1, g2, g3, h1.symm⟩

theorem colorsAt_eq_getElem (i : Int) (h0 : 0 ≤ i) (h1 : i < 15) :
    colors[i.toNat]? = some (colorsAt i) := by
  have hlen : i.toNat < colors.length := by
    have : colors.length = 15 := rfl
    omega
  simp [colorsAt, h0, List.getD_eq_getElem?_getD, List.getElem?_eq_getElem hlen]

theorem colors_getD_injective :
    ∀ i < 15, ∀ j < 15, colors.getD i 0 = colors.getD j 0 → i = j := by
  decide

theorem colorsAt_injective (i j : Int) (hi0 : 0 ≤ i) (hi : i < 15) (hj0 : 0 ≤ j) (hj : j < 15)
    (h : colorsAt i = colorsAt j) : i = j := by
  simp only [colorsAt, hi0, hj0, if_true] at h
  have := colors_getD_injective i.toNat (by omega) j.toNat (by omega) h
  omega

/-- What a run of successive `randomColor()` calls on one object produces. -/
theorem Animation.randomColors_spec (n : Nat) :
    ∀ (a : Animation) (tape : List Nat) (picks : List (Int × Rgb)) (a2 : Animation)
      (tape2 : List Nat), a.randomColors n tape = some (picks, a2, tape2) →
      picks.length = n ∧
      (∀ x ∈ picks.head?, x.1 ≠ a._lastColorIndex) ∧
      List.Chain' (fun x y => x.1 ≠ y.1 ∧ x.2 ≠ y.2) picks ∧
      ∀ x ∈ picks, 0 ≤ x.1 ∧ x.1 < 15 ∧ x.2 = colorsAt x.1 := by
  induction n with
  | zero =>
    intro a tape picks a2 tape2 h
    simp only [Animation.randomColors, Option.some.injEq, Prod.mk.injEq] at h
    obtain ⟨h1, -⟩ := h
    subst h1
    simp
  | succ n ih =>
    intro a tape picks a2 tape2 h
    simp only [Animation.randomColors] at h
    split at h
    · simp at h
    · rename_i c a1 tape1 hcall
      split at h
      · simp at h
      · rename_i rest a3 tape3 hrest
        simp only [Option.some.injEq, Prod.mk.injEq] at h
        obtain ⟨h1, -⟩ := h
        subst h1
        obtain ⟨g1, g2, g3, g4⟩ := Animation.randomColor_spec a tape c a1 tape1 hcall
        obtain ⟨k1, k2, k3, k4⟩ := ih a1 tape1 rest a3 tape3 hrest
        refine ⟨by simp [k1], ?_, ?_, ?_⟩
        · intro x hx
          simp only [List.head?_cons, Option.mem_def, Option.some.injEq] at hx
          subst hx
          exact g1
        · rw [List.chain'_cons']
          refine ⟨?_, k3⟩
          intro y hy
          have hy1 : y.1 ≠ a1._lastColorIndex := k2 y hy
          have hymem : y ∈ rest := List.mem_of_mem_head? hy
          obtain ⟨m1, m2, m3⟩ := k4 y hymem
          refine ⟨fun h => hy1 h.symm, ?_⟩
          intro hc
          apply hy1
          have : colorsAt a1._lastColorIndex = colorsAt y.1 := by rw [← g4, ← m3]; exact hc
          exact (colorsAt_injective _ _ g2 g3 m1 m2 this).symm
        · intro x hx
          rcases List.mem_cons.1 hx with hx1 | hx1
          · subst hx1
            exact ⟨g2, g3, g4⟩
          · exact k4 x hx1

/-- C9. On every run of successive `randomColor()` calls of an object, no two
consecutive calls select the same index of the colour table (nor does the
first call select the index held before it), every selected index `i`
satisfies `0 ≤ i < 15` and the value returned is `colors[i]`; a call returns
as soon as the generator delivers a draw that differs from the last index. -/
theorem randomColor_never_repeats_index (a : Animation) (tape : List Nat) :
    ((∃ r ∈ tape, ((r : Int) % 15) ≠ a._lastColorIndex) →
      ∃ res, a.randomColor tape = some res) ∧
    (∀ (n : Nat) (picks : List (Int × Rgb)) (a2 : Animation) (tape2 : List Nat),
      a.randomColors n tape = some (picks, a2, tape2) →
      picks.length = n ∧
      (∀ x ∈ picks.head?, x.1 ≠ a._lastColorIndex) ∧
      List.Chain' (fun x y => x.1 ≠ y.1) picks ∧
      ∀ x ∈ picks, 0 ≤ x.1 ∧ x.1 < 15 ∧ colors[x.1.toNat]? = some x.2) := by
  constructor
  · intro h
    obtain ⟨res, hres⟩ := randomColorLoop_isSome _ _ h
    obtain ⟨i, rest⟩ := res
    exact ⟨(colorsAt i, { a with _lastColorIndex := i }, rest),
      by simp [Animation.randomColor, hres]⟩
  · intro n picks a2 tape2 h
    obtain ⟨k1, k2, k3, k4⟩ := Animation.randomColors_spec n a tape picks a2 tape2 h
    refine ⟨k1, k2, k3.imp (fun {_ _} h => h.1), ?_⟩
    intro x hx
    obtain ⟨m1, m2, m3⟩ := k4 x hx
    exact ⟨m1, m2, by rw [m3]; exact colorsAt_eq_getElem _ m1 m2⟩

theorem randomColor_never_repeats_index_witness :
    (∃ res, (sampleAnimation true).randomColor [15, 30, 7] = some res) ∧
    ((sampleAnimation true).randomColors 2 [15, 30, 7, 22, 4]
        = some ([(7, colorsAt 7), (4, colorsAt 4)],
            { sampleAnimation true with _lastColorIndex := 4 }, []) ∧
      List.Chain' (fun (x y : Int × Rgb) => x.1 ≠ y.1) [(7, colorsAt 7), (4, colorsAt 4)]) :=
  ⟨(randomColor_never_repeats_index (sampleAnimation true) [15, 30, 7]).1
      ⟨7, by decide, by decide⟩,
   rfl,
   ((randomColor_never_repeats_index (sampleAnimation true) [15, 30, 7, 22, 4]).2 2
      [(7, colorsAt 7), (4, colorsAt 4)] { sampleAnimation true with _lastColorIndex := 4 } []
      rfl).2.2.1⟩

/-- C10. The colour table has exactly 15 entries, pairwise distinct as packed
24-bit values, so two consecutive `randomColor()` results of an object never
have the same colour value. -/
theorem colors_distinct_so_values_never_repeat :
    colors.length = 15 ∧ colors.Nodup ∧ (∀ c ∈ colors, c < 2 ^ 24) ∧
    (∀ (a : Animation) (tape : List Nat) (c1 c2 : Rgb) (a1 a2 : Animation)
      (tape1 tape2 : List Nat),
      a.randomColor tape = some (c1, a1, tape1) → a1.randomColor tape1 = some (c2, a2, tape2) →
      c1 ≠ c2) ∧
    (∀ (a : Animation) (tape : List Nat) (n : Nat) (picks : List (Int × Rgb)) (a2 : Animation)
      (tape2 : List Nat),
      a.randomColors n tape = some (picks, a2, tape2) →
      List.Chain' (fun x y => x.2 ≠ y.2) picks) := by
  refine ⟨rfl, by decide, by decide, ?_, ?_⟩
  · intro a tape c1 c2 a1 a2 tape1 tape2 h1 h2
    obtain ⟨-, g2, g3, g4⟩ := Animation.randomColor_spec a tape c1 a1 tape1 h1
    obtain ⟨k1, k2, k3, k4⟩ := Animation.randomColor_spec a1 tape1 c2 a2 tape2 h2
    intro hc
    apply k1
    rw [g4, k4] at hc
    exact (colorsAt_injective _ _ g2 g3 k2 k3 hc).symm
  · intro a tape n picks a2 tape2 h
    exact (Animation.randomColors_spec n a tape picks a2 tape2 h).2.2.1.imp (fun {_ _} h => h.2)

theorem colors_distinct_so_values_never_repeat_witness :
    colorsAt 7 ≠ colorsAt 4 :=
  colors_distinct_so_values_never_repeat.2.2.2.1 (sampleAnimation true) [15, 30, 7, 22, 4]
    (colorsAt 7) (colorsAt 4) { sampleAnimation true with _lastColorIndex := 7 }
    { sampleAnimation true with _lastColorIndex := 4 } [22, 4] [] rfl rfl

/-! ## The sensor debounce helper -/

/-- C18, as stated, fails: with the raw input high since the transition
recorded at 1000 ms, a `read()` at 1100 ms, exactly 100 ms later, still
reports low. -/
theorem pir_not_promoted_at_100ms :
    (sampleSys samplePIR).obj.readRaw true = true ∧
    (sampleSys samplePIR).obj._previousState = true ∧
    ulongSub 1100 (sampleSys samplePIR).obj._PIRTransitionTime = 100 ∧
    (PIR.read sampleEnv true 1100 (sampleSys samplePIR)).2.obj._reportedState = false ∧
    (PIR.read sampleEnv true 1100 (sampleSys samplePIR)).2.obj._reportedState
      ≠ (sampleSys samplePIR).obj.readRaw true := by
  decide

/-- C18, amended. In every `PIR::read()` at clock value `now`, with `T` the
transition timestamp after any transition handled in that call: when
`now - T ≤ 100` (as `unsigned long`) the reported state is unchanged, and when
`now - T > 100` the reported state becomes the current raw state; the call
returns the reported state it leaves. -/
theorem pir_read_debounce (e : Env) (pinHigh : Bool) (now : Nat) (s : Sys PIR) :
    (ulongSub now (if s.obj.readRaw pinHigh ≠ s.obj._previousState then now
        else s.obj._PIRTransitionTime) ≤ 100 →
      (PIR.read e pinHigh now s).2.obj._reportedState = s.obj._reportedState) ∧
    (100 < ulongSub now (if s.obj.readRaw pinHigh ≠ s.obj._previousState then now
        else s.obj._PIRTransitionTime) →
      (PIR.read e pinHigh now s).2.obj._reportedState = s.obj.readRaw pinHigh) ∧
    (s.obj.readRaw pinHigh ≠ s.obj._previousState →
      (PIR.read e pinHigh now s).2.obj._reportedState = s.obj._reportedState) ∧
    (PIR.read e pinHigh now s).1 = (PIR.read e pinHigh now s).2.obj._reportedState := by
  have hself : ulongSub now now = 0 := by
    unfold ulongSub ulongSize
    omega
  refine ⟨?_, ?_, ?_, rfl⟩
  · intro h
    by_cases hc : s.obj.readRaw pinHigh = s.obj._previousState
    · simp only [hc, ne_eq, not_true_eq_false, if_false] at h
      have : ¬ (ulongSub now s.obj._PIRTransitionTime > stableStateMinimum) := by
        unfold stableStateMinimum; omega
      simp [PIR.read, hc, this]
    · simp [PIR.read, hc, hself, stableStateMinimum]
  · intro h
    by_cases hc : s.obj.readRaw pinHigh = s.obj._previousState
    · simp only [hc, ne_eq, not_true_eq_false, if_false] at h
      have : ulongSub now s.obj._PIRTransitionTime > stableStateMinimum := by
        unfold stableStateMinimum; omega
      simp [PIR.read, hc, this]
    · simp only [ne_eq, hc, not_false_eq_true, if_true, hself] at h
      omega
  · intro hc
    simp [PIR.read, hc, hself, stableStateMinimum]

theorem pir_read_debounce_witness :
    (PIR.read sampleEnv true 1100 (sampleSys samplePIR)).2.obj._reportedState
      = (sampleSys samplePIR).obj._reportedState ∧
    (PIR.read sampleEnv true 1101 (sampleSys samplePIR)).2.obj._reportedState
      = (sampleSys samplePIR).obj.readRaw true :=
  ⟨(pir_read_debounce sampleEnv true 1100 (sampleSys samplePIR)).1 (by decide),
   (pir_read_debounce sampleEnv true 1101 (sampleSys samplePIR)).2.1 (by decide)⟩

/-! ## Finish: synchronous or re-arming -/

theorem Animation.setAllPixelsTo_color (a : Animation) (p : Pixels) (c : Rgb) (doShow : Bool)
    (i : Int) :
    (a.setAllPixelsTo p c doShow).color i
      = if a._firstLED ≤ i ∧ i ≤ a._lastLED then c else p.color i := by
  unfold Animation.setAllPixelsTo
  cases doShow <;>
    simp [Pixels.showStrip, foldl_setPixelColor_color (fun _ => c), mem_ledRange]

theorem Animation.setAllPixelsTo_brightness (a : Animation) (p : Pixels) (c : Rgb)
    (doShow : Bool) : (a.setAllPixelsTo p c doShow).brightness = p.brightness := by
  unfold Animation.setAllPixelsTo
  cases doShow <;> simp [Pixels.showStrip, foldl_setPixelColor_brightness (fun _ => c)]

theorem Animation.setAllPixelsTo_calls (a : Animation) (p : Pixels) (c : Rgb) (doShow : Bool) :
    (a.setAllPixelsTo p c doShow).calls
      = p.calls ++ ((ledRange a._firstLED a._lastLED).map (fun i => DriverCall.setPixelColor i c)
          ++ (if doShow then [DriverCall.showStrip] else [])) := by
  unfold Animation.setAllPixelsTo
  cases doShow <;> simp [Pixels.showStrip, foldl_setPixelColor_calls (fun _ => c)]

/-- C19. `Finish` of ColorSwirl, Marquee, ZipLine, ZipLineInverse, Zip2,
Zip2Inverse and ZipR is synchronous: from every prior state it returns with
`_active = false` and every element of `[first,last]` at the off-colour. -/
theorem finish_synchronous_blanks_range (e : Env) (topToBottom : Bool) :
    (∀ s : Sys ColorSwirl, (ColorSwirl.Finish e topToBottom s).obj._active = false ∧
      ∀ i, s.obj._firstLED ≤ i → i ≤ s.obj._lastLED →
        (ColorSwirl.Finish e topToBottom s).pixels.color i = e.offColor) ∧
    (∀ s : Sys Marquee, (Marquee.Finish e topToBottom s).obj._active = false ∧
      ∀ i, s.obj._firstLED ≤ i → i ≤ s.obj._lastLED →
        (Marquee.Finish e topToBottom s).pixels.color i = e.offColor) ∧
    (∀ s : Sys ZipLine, (ZipLine.Finish e topToBottom s).obj._active = false ∧
      ∀ i, s.obj._firstLED ≤ i → i ≤ s.obj._lastLED →
        (ZipLine.Finish e topToBottom s).pixels.color i = e.offColor) ∧
    (∀ s : Sys ZipLine, (ZipLineInverse.Finish e topToBottom s).obj._active = false ∧
      ∀ i, s.obj._firstLED ≤ i → i ≤ s.obj._lastLED →
        (ZipLineInverse.Finish e topToBottom s).pixels.color i = e.offColor) ∧
    (∀ s : Sys Zip2, (Zip2.Finish e topToBottom s).obj._active = false ∧
      ∀ i, s.obj._firstLED ≤ i → i ≤ s.obj._lastLED →
        (Zip2.Finish e topToBottom s).pixels.color i = e.offColor) ∧
    (∀ s : Sys Zip2, (Zip2Inverse.Finish e topToBottom s).obj._active = false ∧
      ∀ i, s.obj._firstLED ≤ i → i ≤ s.obj._lastLED →
        (Zip2Inverse.Finish e topToBottom s).pixels.color i = e.offColor) ∧
    (∀ s : Sys ZipR, (ZipR.Finish e topToBottom s).obj._active = false ∧
      ∀ i, s.obj._firstLED ≤ i → i ≤ s.obj._lastLED →
        (ZipR.Finish e topToBottom s).pixels.color i = e.offColor) := by
  refine ⟨?_, ?_, ?_, ?_, ?_, ?_, ?_⟩ <;> intro s <;> refine ⟨rfl, ?_⟩ <;> intro i h1 h2
  · simp [ColorSwirl.Finish, Animation.setAllPixelsTo_color, h1, h2]
  · simp [Marquee.Finish, Pixels.showStrip, Pixels.setBrightness,
      Animation.setAllPixelsTo_color, h1, h2]
  · simp [ZipLine.Finish, ZipLine.finishCore, Pixels.showStrip, Pixels.setBrightness,
      Animation.setAllPixelsTo_color, h1, h2]
  · simp [ZipLineInverse.Finish, ZipLine.Finish, ZipLine.finishCore, Pixels.showStrip,
      Pixels.setBrightness, Animation.setAllPixelsTo_color, h1, h2]
  · simp [Zip2.Finish, ZipLine.finishCore, Pixels.showStrip, Pixels.setBrightness,
      Animation.setAllPixelsTo_color, h1, h2]
  · simp [Zip2Inverse.Finish, Zip2.Finish, ZipLine.finishCore, Pixels.showStrip,
      Pixels.setBrightness, Animation.setAllPixelsTo_color, h1, h2]
  · simp [ZipR.Finish, ZipLine.finishCore, Pixels.showStrip, Pixels.setBrightness,
      Animation.setAllPixelsTo_color, h1, h2]

theorem finish_synchronous_blanks_range_witness :
    (ColorSwirl.Finish sampleEnv false (sampleSys (sampleColorSwirl true))).pixels.color 3
      = sampleEnv.offColor ∧
    (Marquee.Finish sampleEnv false (sampleSys (sampleMarquee true))).pixels.color 3
      = sampleEnv.offColor ∧
    (ZipLine.Finish sampleEnv false (sampleSys (sampleZipLine true))).pixels.color 3
      = sampleEnv.offColor ∧
    (ZipLineInverse.Finish sampleEnv false (sampleSys (sampleZipLine true))).pixels.color 3
      = sampleEnv.offColor ∧
    (Zip2.Finish sampleEnv false (sampleSys (sampleZip2 true))).pixels.color 3
      = sampleEnv.offColor ∧
    (Zip2Inverse.Finish sampleEnv false (sampleSys (sampleZip2 true))).pixels.color 3
      = sampleEnv.offColor ∧
    (ZipR.Finish sampleEnv false (sampleSys (sampleZipR true))).pixels.color 3
      = sampleEnv.offColor :=
  have h := finish_synchronous_blanks_range sampleEnv false
  ⟨(h.1 _).2 3 (by decide) (by decide),
   (h.2.1 _).2 3 (by decide) (by decide),
   (h.2.2.1 _).2 3 (by decide) (by decide),
   (h.2.2.2.1 _).2 3 (by decide) (by decide),
   (h.2.2.2.2.1 _).2 3 (by decide) (by decide),
   (h.2.2.2.2.2.1 _).2 3 (by decide) (by decide),
   (h.2.2.2.2.2.2 _).2 3 (by decide) (by decide)⟩

theorem Animation.randomColor_active (a : Animation) (tape : List Nat) (c : Rgb)
    (a1 : Animation) (tape1 : List Nat) (h : a.randomColor tape = some (c, a1, tape1)) :
    a1._active = a._active := by
  unfold Animation.randomColor at h
  split at h
  · simp at h
  · simp only [Option.some.injEq, Prod.mk.injEq] at h
    obtain ⟨-, h2, -⟩ := h
    subst h2
    rfl

theorem twinkleFinishLoop_active (LEDArray : Int → Bool) (l : List Int) :
    ∀ (a : Animation) (p : Pixels) (tape : List Nat) (a1 : Animation) (p1 : Pixels)
      (tape1 : List Nat), twinkleFinishLoop LEDArray l a p tape = some (a1, p1, tape1) →
      a1._active = a._active := by
  induction l with
  | nil =>
    intro a p tape a1 p1 tape1 h
    simp only [twinkleFinishLoop, Option.some.injEq, Prod.mk.injEq] at h
    rw [← h.1]
  | cons i rest ih =>
    intro a p tape a1 p1 tape1 h
    simp only [twinkleFinishLoop] at h
    split at h
    · split at h
      · simp at h
      · rename_i c a2 tape2 hc
        rw [ih _ _ _ _ _ _ h, Animation.randomColor_active a tape c a2 tape2 hc]
    · exact ih _ _ _ _ _ _ h

theorem Twinkle.twinkleFinish_active (e : Env) (desiredState : Bool) (s s1 : Sys Twinkle)
    (h : Twinkle.twinkleFinish e desiredState s = some s1) : s1.obj._active = s.obj._active := by
  simp only [Twinkle.twinkleFinish] at h
  split at h
  · simp only [Option.some.injEq] at h
    rw [← h]
  · split at h
    · simp at h
    · rename_i a p tape hloop
      simp only [Option.some.injEq] at h
      rw [← h]
      exact twinkleFinishLoop_active _ _ _ _ _ _ _ _ hloop

theorem Twinkle.twinkleSomeInit_active (s s1 : Sys Twinkle)
    (h : Twinkle.twinkleSomeInit s = some s1) : s1.obj._active = s.obj._active := by
  simp only [Twinkle.twinkleSomeInit] at h
  split at h
  · simp at h
  · simp only [Option.some.injEq] at h
    rw [← h]

theorem Twinkle.twinkleSomeLEDs_active (e : Env) (now1 now2 : Nat) (s s1 : Sys Twinkle)
    (h : Twinkle.twinkleSomeLEDs e now1 now2 s = some s1) : s1.obj._active = s.obj._active := by
  simp only [Twinkle.twinkleSomeLEDs] at h
  split at h
  · simp only [Option.some.injEq] at h
    rw [← h]
  · split at h
    · simp at h
    · rename_i aColor a tape1 hpick
      have ha : a._active = s.obj._active := by
        split at hpick
        · exact Animation.randomColor_active _ _ _ _ _ hpick
        · simp only [Option.some.injEq, Prod.mk.injEq] at hpick
          rw [← hpick.2.1]
      split at h
      · simp at h
      · simp only [Option.some.injEq] at h
        rw [← h]
        exact ha

/-- The active flag after `Twinkle::Continue`: cleared exactly by a due call
that finds the clearing sub-state complete. -/
theorem Twinkle.Continue_active (e : Env) (now now1 now2 : Nat) (s s1 : Sys Twinkle)
    (h : Twinkle.Continue e now now1 now2 s = some s1) :
    s1.obj._active
      = (s.obj._active &&
          !(decide (s.obj._animationStepIncrement ≤ elapsedSince now s.obj._lastUpdateTime)
            && decide (s.obj._twinkleState ≠ twinkleTwinkling)
            && decide (s.obj._twinkleState ≠ twinkleTurningOn)
            && decide (s.obj._twinkleChangedCount ≥ s.obj._lastLED - s.obj._firstLED ∨
                now % ulongSize > s.obj._twinkleLongestTimeToWait))) := by
  simp only [Twinkle.Continue] at h
  by_cases ha : s.obj._active = true
  swap
  · simp only [Bool.not_eq_true] at ha
    simp only [ha, Bool.not_false, if_true, Option.some.injEq] at h
    rw [← h, ha]; rfl
  simp only [ha, Bool.not_true, Bool.false_eq_true, if_false] at h
  rw [ha, Bool.true_and]
  by_cases hd : elapsedSince now s.obj._lastUpdateTime < s.obj._animationStepIncrement
  · rw [if_pos hd] at h
    simp only [Option.some.injEq] at h
    rw [← h, ha, decide_eq_false (not_le.mpr hd)]
    rfl
  rw [if_neg hd] at h
  rw [decide_eq_true (not_lt.mp hd), Bool.true_and]
  by_cases ht : s.obj._twinkleState = twinkleTwinkling
  · rw [if_pos ht] at h
    rw [Twinkle.twinkleSomeLEDs_active e now1 now2 s s1 h, ha,
      decide_eq_false (not_not.mpr ht)]
    rfl
  rw [if_neg ht] at h
  rw [decide_eq_true ht, Bool.true_and]
  by_cases hc : s.obj._twinkleChangedCount ≥ s.obj._lastLED - s.obj._firstLED ∨
      now % ulongSize > s.obj._twinkleLongestTimeToWait
  · rw [if_pos hc] at h
    rw [decide_eq_true hc, Bool.and_true]
    split at h
    · simp at h
    · rename_i s2 hfin
      have h2 := Twinkle.twinkleFinish_active e _ s s2 hfin
      by_cases hon : s.obj._twinkleState = twinkleTurningOn
      · rw [if_pos hon] at h
        have h3 := Twinkle.twinkleSomeInit_active _ s1 h
        rw [h3, decide_eq_false (not_not.mpr hon)]
        exact h2.trans ha
      · rw [if_neg hon] at h
        simp only [Option.some.injEq] at h
        rw [← h, decide_eq_true hon]
        rfl
  · rw [if_neg hc] at h
    rw [decide_eq_false hc, Bool.and_false]
    split at h
    · simp at h
    · split at h
      · simp at h
      · rename_i picked a tape2 hcol
        split at h
        · simp at h
        · simp only [Option.some.injEq] at h
          rw [← h]
          exact (Animation.randomColor_active _ _ _ _ _ hcol).trans ha

/-- C20, as stated, fails for Twinkle: `Twinkle::Finish` on an inactive
object returns with `_active` still false. -/
theorem twinkle_finish_leaves_inactive :
    (sampleSys (sampleTwinkle false)).obj._active = false ∧
    (Twinkle.Finish sampleEnv 5000 5001 5002 5003 false (sampleSys (sampleTwinkle false))).map
      (fun s1 => s1.obj._active) = some false := by
  decide

/-- C20, amended. `Finish` of Startup and of FadeToColor returns with
`_active = true` from every prior state.  `Twinkle::Finish` never sets the
flag: it returns with `_active = false` from an inactive object, and from an
active one it returns active unless its embedded `Continue` is due and already
finds the clearing complete (changed-count 0 ≥ last - first, or the clock past
the deadline just set). -/
theorem finish_rearms (e : Env) (topToBottom : Bool) :
    (∀ s : Sys Startup, (Startup.Finish topToBottom s).obj._active = true) ∧
    (∀ (now : Nat) (s : Sys FadeToColor),
      (FadeToColor.Finish e now topToBottom s).obj._active = true) ∧
    (∀ (now0 now now1 now2 : Nat) (s : Sys Twinkle), s.obj._active = false →
      ∃ s1, Twinkle.Finish e now0 now now1 now2 topToBottom s = some s1 ∧
        s1.obj._active = false) ∧
    (∀ (now0 now now1 now2 : Nat) (s s1 : Sys Twinkle), s.obj._active = true →
      Twinkle.Finish e now0 now now1 now2 topToBottom s = some s1 →
      s1.obj._active
        = !(decide (s.obj._animationStepIncrement ≤ elapsedSince now s.obj._lastUpdateTime)
            && decide (0 ≥ s.obj._lastLED - s.obj._firstLED ∨
                now % ulongSize
                  > (intToUlong (floatToInt (round (toFloat (s.obj._animationTime * 1000))))
                      + now0 % ulongSize) % ulongSize))) := by
  refine ⟨fun s => rfl, ?_, ?_, ?_⟩
  · intro now s
    unfold FadeToColor.Finish FadeToColor.Continue
    by_cases hd : elapsedSince now s.obj._lastUpdateTime < s.obj._animationStepIncrement
    · simp [hd]
    · simp [hd]
  · intro now0 now now1 now2 s ha
    have h : Twinkle.Finish e now0 now now1 now2 topToBottom s
        = some (Twinkle.commonTwinkleInitiate now0
            { s with obj :=
              { s.obj with _topToBottom := topToBottom, _twinkleState := twinkleTurningOff } }) := by
      simp [Twinkle.Finish, Twinkle.Continue, Twinkle.commonTwinkleInitiate, ha]
    exact ⟨_, h, ha⟩
  · intro now0 now now1 now2 s s1 ha h
    have h2 := Twinkle.Continue_active e now now1 now2 _ s1 h
    rw [h2]
    simp [Twinkle.commonTwinkleInitiate, ha, twinkleTurningOff, twinkleTwinkling,
      twinkleTurningOn]

theorem finish_rearms_witness :
    (Startup.Finish false (sampleSys (sampleStartup false))).obj._active = true ∧
    (FadeToColor.Finish sampleEnv 5000 false (sampleSys (sampleFadeToColor false))).obj._active
      = true ∧
    ∃ s1, Twinkle.Finish sampleEnv 5000 5001 5002 5003 false (sampleSys (sampleTwinkle false))
        = some s1 ∧ s1.obj._active = false :=
  ⟨(finish_rearms sampleEnv false).1 _,
   (finish_rearms sampleEnv false).2.1 5000 _,
   (finish_rearms sampleEnv false).2.2.1 5000 5001 5002 5003 (sampleSys (sampleTwinkle false))
     rfl⟩

/-! ## The bouncing dot -/

/-- The advance of position and direction, case by case. -/
theorem ZipLine.advance_cases (z : ZipLine) :
    (z._lastLED < z._zipIdx + z._zipInc → z.advance = (z._lastLED - 1, -z._zipInc)) ∧
    (z._zipIdx + z._zipInc ≤ z._lastLED → z._zipIdx + z._zipInc < z._firstLED →
      z.advance = (z._firstLED + 1, -z._zipInc)) ∧
    (z._firstLED ≤ z._zipIdx + z._zipInc → z._zipIdx + z._zipInc ≤ z._lastLED →
      z.advance = (z._zipIdx + z._zipInc, z._zipInc)) := by
  refine ⟨?_, ?_, ?_⟩
  · intro h
    simp [ZipLine.advance, h]
  · intro h1 h2
    simp [ZipLine.advance, not_lt.mpr h1, h2]
  · intro h1 h2
    simp [ZipLine.advance, not_lt.mpr h1, not_lt.mpr h2]

/-- A due `Continue` of an active `ZipLine`, field by field. -/
theorem ZipLine.zipLine_Continue_due (e : Env) (now : Nat) (s : Sys ZipLine)
    (ha : s.obj._active = true)
    (hd : s.obj._animationStepIncrement ≤ elapsedSince now s.obj._lastUpdateTime) :
    ZipLine.Continue e now s =
      { s with
        pixels :=
          ((s.pixels.setPixelColor s.obj._zipIdx e.offColor).setPixelColor s.obj.advance.1
            s.obj._colorToUse).showStrip
        obj :=
          { s.obj with
            _zipIdx := s.obj.advance.1, _zipInc := s.obj.advance.2, _lastUpdateTime := now } } := by
  simp [ZipLine.Continue, ha, not_lt.mpr hd]

/-- C12. In a due `ZipLine::Continue` step the direction is negated exactly
when `position + direction` lies outside `[first,last]`; when it lies inside,
the direction is unchanged and the new position is `position + direction`. -/
theorem zipline_reverses_iff_next_exits (e : Env) (now : Nat) (s : Sys ZipLine)
    (ha : s.obj._active = true)
    (hd : s.obj._animationStepIncrement ≤ elapsedSince now s.obj._lastUpdateTime) :
    ((s.obj._zipIdx + s.obj._zipInc < s.obj._firstLED ∨
        s.obj._lastLED < s.obj._zipIdx + s.obj._zipInc) →
      (ZipLine.Continue e now s).obj._zipInc = -s.obj._zipInc) ∧
    ((s.obj._firstLED ≤ s.obj._zipIdx + s.obj._zipInc ∧
        s.obj._zipIdx + s.obj._zipInc ≤ s.obj._lastLED) →
      (ZipLine.Continue e now s).obj._zipInc = s.obj._zipInc ∧
      (ZipLine.Continue e now s).obj._zipIdx = s.obj._zipIdx + s.obj._zipInc) ∧
    (s.obj._zipInc ≠ 0 →
      ((ZipLine.Continue e now s).obj._zipInc = -s.obj._zipInc ↔
        (s.obj._zipIdx + s.obj._zipInc < s.obj._firstLED ∨
          s.obj._lastLED < s.obj._zipIdx + s.obj._zipInc))) := by
  rw [ZipLine.zipLine_Continue_due e now s ha hd]
  obtain ⟨c1, c2, c3⟩ := ZipLine.advance_cases s.obj
  have hout : (s.obj._zipIdx + s.obj._zipInc < s.obj._firstLED ∨
      s.obj._lastLED < s.obj._zipIdx + s.obj._zipInc) → s.obj.advance.2 = -s.obj._zipInc := by
    intro h
    by_cases h1 : s.obj._lastLED < s.obj._zipIdx + s.obj._zipInc
    · rw [c1 h1]
    · rcases h with h | h
      · rw [c2 (not_lt.mp h1) h]
      · exact absurd h h1
  have hin : (s.obj._firstLED ≤ s.obj._zipIdx + s.obj._zipInc ∧
      s.obj._zipIdx + s.obj._zipInc ≤ s.obj._lastLED) →
      s.obj.advance = (s.obj._zipIdx + s.obj._zipInc, s.obj._zipInc) := fun h => c3 h.1 h.2
  refine ⟨hout, ?_, ?_⟩
  · intro h
    show s.obj.advance.2 = _ ∧ s.obj.advance.1 = _
    rw [hin h]
    exact ⟨rfl, rfl⟩
  · intro hne
    show s.obj.advance.2 = _ ↔ _
    constructor
    · intro heq
      by_contra hcon
      have hinside : s.obj._firstLED ≤ s.obj._zipIdx + s.obj._zipInc ∧
          s.obj._zipIdx + s.obj._zipInc ≤ s.obj._lastLED := by omega
      rw [hin hinside] at heq
      simp only at heq
      omega
    · exact hout

theorem zipline_reverses_iff_next_exits_witness :
    (ZipLine.Continue sampleEnv 1125 (sampleSys (sampleZipLine true))).obj._zipInc
        = (sampleSys (sampleZipLine true)).obj._zipInc ∧
      (ZipLine.Continue sampleEnv 1125 (sampleSys (sampleZipLine true))).obj._zipIdx
        = (sampleSys (sampleZipLine true)).obj._zipIdx
          + (sampleSys (sampleZipLine true)).obj._zipInc :=
  (zipline_reverses_iff_next_exits sampleEnv 1125 (sampleSys (sampleZipLine true)) rfl
    (by decide)).2.1 (by decide)

/-! ### Writes stay in range -/

theorem WritesWithin.refl (first last : Int) (p : Pixels) : WritesWithin first last p p :=
  ⟨[], by simp, by simp [writtenIndices]⟩

theorem WritesWithin.trans {first last : Int} {p q r : Pixels}
    (h1 : WritesWithin first last p q) (h2 : WritesWithin first last q r) :
    WritesWithin first last p r := by
  obtain ⟨n1, e1, w1⟩ := h1
  obtain ⟨n2, e2, w2⟩ := h2
  refine ⟨n1 ++ n2, by rw [e2, e1, List.append_assoc], ?_⟩
  intro i hi
  rw [writtenIndices_append, List.mem_append] at hi
  rcases hi with hi | hi
  · exact w1 i hi
  · exact w2 i hi

theorem WritesWithin.setPixelColor (first last : Int) (p : Pixels) (n : Int) (c : Rgb)
    (h1 : first ≤ n) (h2 : n ≤ last) : WritesWithin first last p (p.setPixelColor n c) :=
  ⟨[DriverCall.setPixelColor n c], rfl, by
    intro i hi
    simp only [writtenIndices, List.mem_singleton] at hi
    subst hi
    exact ⟨h1, h2⟩⟩

theorem WritesWithin.setBrightness (first last : Int) (p : Pixels) (b : Int) :
    WritesWithin first last p (p.setBrightness b) :=
  ⟨[DriverCall.setBrightness b], rfl, by simp [writtenIndices]⟩

theorem WritesWithin.showStrip (first last : Int) (p : Pixels) :
    WritesWithin first last p p.showStrip :=
  ⟨[DriverCall.showStrip], rfl, by simp [writtenIndices]⟩

theorem writtenIndices_map_set (l : List Int) (c : Rgb) :
    writtenIndices (l.map (fun i => DriverCall.setPixelColor i c)) = l := by
  induction l with
  | nil => rfl
  | cons x l ih => simp [writtenIndices, ih]

theorem WritesWithin.setAllPixelsTo (a : Animation) (p : Pixels) (c : Rgb) (doShow : Bool) :
    WritesWithin a._firstLED a._lastLED p (a.setAllPixelsTo p c doShow) := by
  refine ⟨_, Animation.setAllPixelsTo_calls a p c doShow, ?_⟩
  intro i hi
  rw [writtenIndices_append, writtenIndices_map_set] at hi
  rcases List.mem_append.1 hi with h | h
  · exact (mem_ledRange _ _ _).1 h
  · cases doShow <;> simp [writtenIndices] at h

theorem WritesWithin.callsSince {first last : Int} {p q : Pixels}
    (h : WritesWithin first last p q) :
    ∀ i ∈ writtenIndices (callsSince p q), first ≤ i ∧ i ≤ last := by
  obtain ⟨news, e1, w1⟩ := h
  rw [callsSince_append p q news e1]
  exact w1

/-- The advance never leaves a range of at least two elements. -/
theorem ZipLine.advance_in_range (z : ZipLine) (hlt : z._firstLED < z._lastLED) :
    z._firstLED ≤ z.advance.1 ∧ z.advance.1 ≤ z._lastLED := by
  obtain ⟨c1, c2, c3⟩ := ZipLine.advance_cases z
  by_cases h1 : z._lastLED < z._zipIdx + z._zipInc
  · rw [c1 h1]; constructor <;> simp only <;> omega
  · by_cases h2 : z._zipIdx + z._zipInc < z._firstLED
    · rw [c2 (not_lt.mp h1) h2]; constructor <;> simp only <;> omega
    · rw [c3 (not_lt.mp h2) (not_lt.mp h1)]; constructor <;> simp only <;> omega

theorem Zip2.advance2_in_range (z : Zip2) (zipInc : Int) (hlt : z._firstLED < z._lastLED) :
    z._firstLED ≤ z.advance2 zipInc ∧ z.advance2 zipInc ≤ z._lastLED := by
  unfold Zip2.advance2
  simp only
  split_ifs <;> constructor <;> omega

/-- What `ZipLine::Start` leaves in the `ZipLine` part of an object. -/
theorem ZipLine.startCore_spec (e : Env) (now0 now : Nat) (topToBottom : Bool)
    (colorToUse : Rgb) (z : ZipLine) (p : Pixels) (hle : z._firstLED ≤ z._lastLED) :
    (ZipLine.startCore e now0 now topToBottom colorToUse z p).1._firstLED = z._firstLED ∧
    (ZipLine.startCore e now0 now topToBottom colorToUse z p).1._lastLED = z._lastLED ∧
    (ZipLine.startCore e now0 now topToBottom colorToUse z p).1._zipIdx
      = (if topToBottom then z._lastLED else z._firstLED) ∧
    (ZipLine.startCore e now0 now topToBottom colorToUse z p).1._zipInc
      = (if topToBottom then -1 else 1) ∧
    (ZipLine.startCore e now0 now topToBottom colorToUse z p).1._active = true ∧
    (ZipLine.startCore e now0 now topToBottom colorToUse z p).1._colorToUse = colorToUse ∧
    (ZipLine.startCore e now0 now topToBottom colorToUse z p).1._lastUpdateTime = now ∧
    WritesWithin z._firstLED z._lastLED p
      (ZipLine.startCore e now0 now topToBottom colorToUse z p).2 := by
  refine ⟨rfl, rfl, rfl, rfl, rfl, rfl, rfl, ?_⟩
  unfold ZipLine.startCore
  simp only
  refine ((WritesWithin.setBrightness _ _ p e.mappedBrightness).trans
    (WritesWithin.setAllPixelsTo _ _ e.offColor false)).trans
    ((WritesWithin.setPixelColor _ _ _ _ colorToUse ?_ ?_).trans (WritesWithin.showStrip _ _ _))
  · cases topToBottom <;> simp [hle]
  · cases topToBottom <;> simp [hle]

theorem ZipLine.zipLine_Continue_keeps_range (e : Env) (now : Nat) (s : Sys ZipLine)
    (hlt : s.obj._firstLED < s.obj._lastLED)
    (hidx : s.obj._firstLED ≤ s.obj._zipIdx ∧ s.obj._zipIdx ≤ s.obj._lastLED) :
    (ZipLine.Continue e now s).obj._firstLED = s.obj._firstLED ∧
    (ZipLine.Continue e now s).obj._lastLED = s.obj._lastLED ∧
    s.obj._firstLED ≤ (ZipLine.Continue e now s).obj._zipIdx ∧
    (ZipLine.Continue e now s).obj._zipIdx ≤ s.obj._lastLED ∧
    WritesWithin s.obj._firstLED s.obj._lastLED s.pixels (ZipLine.Continue e now s).pixels := by
  have hadv := ZipLine.advance_in_range s.obj hlt
  unfold ZipLine.Continue
  simp only
  split_ifs
  · exact ⟨rfl, rfl, hidx.1, hidx.2, WritesWithin.refl _ _ _⟩
  · exact ⟨rfl, rfl, hidx.1, hidx.2, WritesWithin.refl _ _ _⟩
  · exact ⟨rfl, rfl, hadv.1, hadv.2,
      ((WritesWithin.setPixelColor _ _ _ _ _ hidx.1 hidx.2).trans
        (WritesWithin.setPixelColor _ _ _ _ _ hadv.1 hadv.2)).trans
        (WritesWithin.showStrip _ _ _)⟩

theorem ZipLineInverse.zipLineInverse_Continue_keeps_range (e : Env) (now : Nat) (s : Sys ZipLine)
    (hlt : s.obj._firstLED < s.obj._lastLED)
    (hidx : s.obj._firstLED ≤ s.obj._zipIdx ∧ s.obj._zipIdx ≤ s.obj._lastLED) :
    (ZipLineInverse.Continue e now s).obj._firstLED = s.obj._firstLED ∧
    (ZipLineInverse.Continue e now s).obj._lastLED = s.obj._lastLED ∧
    s.obj._firstLED ≤ (ZipLineInverse.Continue e now s).obj._zipIdx ∧
    (ZipLineInverse.Continue e now s).obj._zipIdx ≤ s.obj._lastLED ∧
    WritesWithin s.obj._firstLED s.obj._lastLED s.pixels
      (ZipLineInverse.Continue e now s).pixels := by
  have hadv := ZipLine.advance_in_range s.obj hlt
  unfold ZipLineInverse.Continue
  simp only
  split_ifs
  · exact ⟨rfl, rfl, hidx.1, hidx.2, WritesWithin.refl _ _ _⟩
  · exact ⟨rfl, rfl, hidx.1, hidx.2, WritesWithin.refl _ _ _⟩
  · exact ⟨rfl, rfl, hadv.1, hadv.2,
      ((WritesWithin.setPixelColor _ _ _ _ _ hidx.1 hidx.2).trans
        (WritesWithin.setPixelColor _ _ _ _ _ hadv.1 hadv.2)).trans
        (WritesWithin.showStrip _ _ _)⟩

theorem Zip2.zip2_Continue_keeps_range (e : Env) (now : Nat) (s : Sys Zip2)
    (hlt : s.obj._firstLED < s.obj._lastLED)
    (hidx : s.obj._firstLED ≤ s.obj._zipIdx ∧ s.obj._zipIdx ≤ s.obj._lastLED)
    (hidx2 : s.obj._firstLED ≤ s.obj._zip2Idx ∧ s.obj._zip2Idx ≤ s.obj._lastLED) :
    (Zip2.Continue e now s).obj._firstLED = s.obj._firstLED ∧
    (Zip2.Continue e now s).obj._lastLED = s.obj._lastLED ∧
    (s.obj._firstLED ≤ (Zip2.Continue e now s).obj._zipIdx ∧
      (Zip2.Continue e now s).obj._zipIdx ≤ s.obj._lastLED) ∧
    (s.obj._firstLED ≤ (Zip2.Continue e now s).obj._zip2Idx ∧
      (Zip2.Continue e now s).obj._zip2Idx ≤ s.obj._lastLED) ∧
    WritesWithin s.obj._firstLED s.obj._lastLED s.pixels (Zip2.Continue e now s).pixels := by
  have hadv := ZipLine.advance_in_range s.obj.toZipLine hlt
  have hadv2 := Zip2.advance2_in_range s.obj s.obj.toZipLine.advance.2 hlt
  unfold Zip2.Continue
  simp only
  split_ifs
  · exact ⟨rfl, rfl, hidx, hidx2, WritesWithin.refl _ _ _⟩
  · exact ⟨rfl, rfl, hidx, hidx2, WritesWithin.refl _ _ _⟩
  · exact ⟨rfl, rfl, hadv, hadv2,
      ((((WritesWithin.setPixelColor _ _ _ _ _ hidx.1 hidx.2).trans
        (WritesWithin.setPixelColor _ _ _ _ _ hidx2.1 hidx2.2)).trans
        (WritesWithin.setPixelColor _ _ _ _ _ hadv.1 hadv.2)).trans
        (WritesWithin.setPixelColor _ _ _ _ _ hadv2.1 hadv2.2)).trans
        (WritesWithin.showStrip _ _ _)⟩

theorem Zip2Inverse.zip2Inverse_Continue_keeps_range (e : Env) (now : Nat) (s : Sys Zip2)
    (hlt : s.obj._firstLED < s.obj._lastLED)
    (hidx : s.obj._firstLED ≤ s.obj._zipIdx ∧ s.obj._zipIdx ≤ s.obj._lastLED)
    (hidx2 : s.obj._firstLED ≤ s.obj._zip2Idx ∧ s.obj._zip2Idx ≤ s.obj._lastLED) :
    (Zip2Inverse.Continue e now s).obj._firstLED = s.obj._firstLED ∧
    (Zip2Inverse.Continue e now s).obj._lastLED = s.obj._lastLED ∧
    (s.obj._firstLED ≤ (Zip2Inverse.Continue e now s).obj._zipIdx ∧
      (Zip2Inverse.Continue e now s).obj._zipIdx ≤ s.obj._lastLED) ∧
    (s.obj._firstLED ≤ (Zip2Inverse.Continue e now s).obj._zip2Idx ∧
      (Zip2Inverse.Continue e now s).obj._zip2Idx ≤ s.obj._lastLED) ∧
    WritesWithin s.obj._firstLED s.obj._lastLED s.pixels
      (Zip2Inverse.Continue e now s).pixels := by
  have hadv := ZipLine.advance_in_range s.obj.toZipLine hlt
  have hadv2 := Zip2.advance2_in_range s.obj s.obj.toZipLine.advance.2 hlt
  unfold Zip2Inverse.Continue
  simp only
  split_ifs
  · exact ⟨rfl, rfl, hidx, hidx2, WritesWithin.refl _ _ _⟩
  · exact ⟨rfl, rfl, hidx, hidx2, WritesWithin.refl _ _ _⟩
  · exact ⟨rfl, rfl, hadv, hadv2,
      ((((WritesWithin.setPixelColor _ _ _ _ _ hidx.1 hidx.2).trans
        (WritesWithin.setPixelColor _ _ _ _ _ hidx2.1 hidx2.2)).trans
        (WritesWithin.setPixelColor _ _ _ _ _ hadv.1 hadv.2)).trans
        (WritesWithin.setPixelColor _ _ _ _ _ hadv2.1 hadv2.2)).trans
        (WritesWithin.showStrip _ _ _)⟩

theorem Animation.randomColor_range (a : Animation) (tape : List Nat) (c : Rgb)
    (a1 : Animation) (tape1 : List Nat) (h : a.randomColor tape = some (c, a1, tape1)) :
    a1._firstLED = a._firstLED ∧ a1._lastLED = a._lastLED := by
  unfold Animation.randomColor at h
  split at h
  · simp at h
  · simp only [Option.some.injEq, Prod.mk.injEq] at h
    obtain ⟨-, h2, -⟩ := h
    subst h2
    exact ⟨rfl, rfl⟩

theorem ZipR.zipR_Continue_keeps_range (e : Env) (now : Nat) (s s1 : Sys ZipR)
    (hlt : s.obj._firstLED < s.obj._lastLED)
    (hidx : s.obj._firstLED ≤ s.obj._zipIdx ∧ s.obj._zipIdx ≤ s.obj._lastLED)
    (h : ZipR.Continue e now s = some s1) :
    s1.obj._firstLED = s.obj._firstLED ∧
    s1.obj._lastLED = s.obj._lastLED ∧
    s.obj._firstLED ≤ s1.obj._zipIdx ∧
    s1.obj._zipIdx ≤ s.obj._lastLED ∧
    WritesWithin s.obj._firstLED s.obj._lastLED s.pixels s1.pixels := by
  have hadv := ZipLine.advance_in_range s.obj.toZipLine hlt
  simp only [ZipR.Continue] at h
  split_ifs at h with h1 h2 h3
  · simp only [Option.some.injEq] at h
    subst h
    exact ⟨rfl, rfl, hidx.1, hidx.2, WritesWithin.refl _ _ _⟩
  · simp only [Option.some.injEq] at h
    subst h
    exact ⟨rfl, rfl, hidx.1, hidx.2, WritesWithin.refl _ _ _⟩
  · split at h
    · simp at h
    · rename_i c a tape1 hpick
      obtain ⟨hf, hl⟩ := Animation.randomColor_range _ _ _ _ _ hpick
      simp only [Option.some.injEq] at h
      subst h
      exact ⟨hf, hl, hadv.1, hadv.2,
        ((WritesWithin.setPixelColor _ _ _ _ _ hidx.1 hidx.2).trans
          (WritesWithin.setPixelColor _ _ _ _ _ hadv.1 hadv.2)).trans
          (WritesWithin.showStrip _ _ _)⟩
  · simp only [Option.some.injEq] at h
    subst h
    exact ⟨rfl, rfl, hadv.1, hadv.2,
      ((WritesWithin.setPixelColor _ _ _ _ _ hidx.1 hidx.2).trans
        (WritesWithin.setPixelColor _ _ _ _ _ hadv.1 hadv.2)).trans
        (WritesWithin.showStrip _ _ _)⟩
theorem ZipLine.zipLine_run_keeps_range (e : Env) (ts : List Nat) :
    ∀ s : Sys ZipLine, s.obj._firstLED < s.obj._lastLED →
      (s.obj._firstLED ≤ s.obj._zipIdx ∧ s.obj._zipIdx ≤ s.obj._lastLED) →
      (ZipLine.run e ts s).obj._firstLED = s.obj._firstLED ∧
      (ZipLine.run e ts s).obj._lastLED = s.obj._lastLED ∧
      s.obj._firstLED ≤ (ZipLine.run e ts s).obj._zipIdx ∧
      (ZipLine.run e ts s).obj._zipIdx ≤ s.obj._lastLED ∧
      WritesWithin s.obj._firstLED s.obj._lastLED s.pixels (ZipLine.run e ts s).pixels := by
  induction ts with
  | nil => intro s _ hidx; exact ⟨rfl, rfl, hidx.1, hidx.2, WritesWithin.refl _ _ _⟩
  | cons now rest ih =>
    intro s hlt hidx
    obtain ⟨k1, k2, k3, k4, k5⟩ := ZipLine.zipLine_Continue_keeps_range e now s hlt hidx
    obtain ⟨j1, j2, j3, j4, j5⟩ := ih (ZipLine.Continue e now s) (by rw [k1, k2]; exact hlt)
      (by rw [k1, k2]; exact ⟨k3, k4⟩)
    simp only [k1, k2] at j1 j2 j3 j4 j5
    exact ⟨j1, j2, j3, j4, k5.trans j5⟩

theorem ZipLineInverse.zipLineInverse_run_keeps_range (e : Env) (ts : List Nat) :
    ∀ s : Sys ZipLine, s.obj._firstLED < s.obj._lastLED →
      (s.obj._firstLED ≤ s.obj._zipIdx ∧ s.obj._zipIdx ≤ s.obj._lastLED) →
      (ZipLineInverse.run e ts s).obj._firstLED = s.obj._firstLED ∧
      (ZipLineInverse.run e ts s).obj._lastLED = s.obj._lastLED ∧
      s.obj._firstLED ≤ (ZipLineInverse.run e ts s).obj._zipIdx ∧
      (ZipLineInverse.run e ts s).obj._zipIdx ≤ s.obj._lastLED ∧
      WritesWithin s.obj._firstLED s.obj._lastLED s.pixels
        (ZipLineInverse.run e ts s).pixels := by
  induction ts with
  | nil => intro s _ hidx; exact ⟨rfl, rfl, hidx.1, hidx.2, WritesWithin.refl _ _ _⟩
  | cons now rest ih =>
    intro s hlt hidx
    obtain ⟨k1, k2, k3, k4, k5⟩ := ZipLineInverse.zipLineInverse_Continue_keeps_range e now s hlt hidx
    obtain ⟨j1, j2, j3, j4, j5⟩ := ih (ZipLineInverse.Continue e now s)
      (by rw [k1, k2]; exact hlt) (by rw [k1, k2]; exact ⟨k3, k4⟩)
    simp only [k1, k2] at j1 j2 j3 j4 j5
    exact ⟨j1, j2, j3, j4, k5.trans j5⟩

theorem Zip2.zip2_run_keeps_range (e : Env) (ts : List Nat) :
    ∀ s : Sys Zip2, s.obj._firstLED < s.obj._lastLED →
      (s.obj._firstLED ≤ s.obj._zipIdx ∧ s.obj._zipIdx ≤ s.obj._lastLED) →
      (s.obj._firstLED ≤ s.obj._zip2Idx ∧ s.obj._zip2Idx ≤ s.obj._lastLED) →
      (Zip2.run e ts s).obj._firstLED = s.obj._firstLED ∧
      (Zip2.run e ts s).obj._lastLED = s.obj._lastLED ∧
      (s.obj._firstLED ≤ (Zip2.run e ts s).obj._zipIdx ∧
        (Zip2.run e ts s).obj._zipIdx ≤ s.obj._lastLED) ∧
      (s.obj._firstLED ≤ (Zip2.run e ts s).obj._zip2Idx ∧
        (Zip2.run e ts s).obj._zip2Idx ≤ s.obj._lastLED) ∧
      WritesWithin s.obj._firstLED s.obj._lastLED s.pixels (Zip2.run e ts s).pixels := by
  induction ts with
  | nil => intro s _ hidx hidx2; exact ⟨rfl, rfl, hidx, hidx2, WritesWithin.refl _ _ _⟩
  | cons now rest ih =>
    intro s hlt hidx hidx2
    obtain ⟨k1, k2, k3, k4, k5⟩ := Zip2.zip2_Continue_keeps_range e now s hlt hidx hidx2
    obtain ⟨j1, j2, j3, j4, j5⟩ := ih (Zip2.Continue e now s) (by rw [k1, k2]; exact hlt)
      (by rw [k1, k2]; exact k3) (by rw [k1, k2]; exact k4)
    simp only [k1, k2] at j1 j2 j3 j4 j5
    exact ⟨j1, j2, j3, j4, k5.trans j5⟩

theorem Zip2Inverse.zip2Inverse_run_keeps_range (e : Env) (ts : List Nat) :
    ∀ s : Sys Zip2, s.obj._firstLED < s.obj._lastLED →
      (s.obj._firstLED ≤ s.obj._zipIdx ∧ s.obj._zipIdx ≤ s.obj._lastLED) →
      (s.obj._firstLED ≤ s.obj._zip2Idx ∧ s.obj._zip2Idx ≤ s.obj._lastLED) →
      (Zip2Inverse.run e ts s).obj._firstLED = s.obj._firstLED ∧
      (Zip2Inverse.run e ts s).obj._lastLED = s.obj._lastLED ∧
      (s.obj._firstLED ≤ (Zip2Inverse.run e ts s).obj._zipIdx ∧
        (Zip2Inverse.run e ts s).obj._zipIdx ≤ s.obj._lastLED) ∧
      (s.obj._firstLED ≤ (Zip2Inverse.run e ts s).obj._zip2Idx ∧
        (Zip2Inverse.run e ts s).obj._zip2Idx ≤ s.obj._lastLED) ∧
      WritesWithin s.obj._firstLED s.obj._lastLED s.pixels
        (Zip2Inverse.run e ts s).pixels := by
  induction ts with
  | nil => intro s _ hidx hidx2; exact ⟨rfl, rfl, hidx, hidx2, WritesWithin.refl _ _ _⟩
  | cons now rest ih =>
    intro s hlt hidx hidx2
    obtain ⟨k1, k2, k3, k4, k5⟩ := Zip2Inverse.zip2Inverse_Continue_keeps_range e now s hlt hidx hidx2
    obtain ⟨j1, j2, j3, j4, j5⟩ := ih (Zip2Inverse.Continue e now s)
      (by rw [k1, k2]; exact hlt) (by rw [k1, k2]; exact k3) (by rw [k1, k2]; exact k4)
    simp only [k1, k2] at j1 j2 j3 j4 j5
    exact ⟨j1, j2, j3, j4, k5.trans j5⟩

theorem ZipR.zipR_run_keeps_range (e : Env) (ts : List Nat) :
    ∀ s s1 : Sys ZipR, s.obj._firstLED < s.obj._lastLED →
      (s.obj._firstLED ≤ s.obj._zipIdx ∧ s.obj._zipIdx ≤ s.obj._lastLED) →
      ZipR.run e ts s = some s1 →
      s1.obj._firstLED = s.obj._firstLED ∧
      s1.obj._lastLED = s.obj._lastLED ∧
      s.obj._firstLED ≤ s1.obj._zipIdx ∧
      s1.obj._zipIdx ≤ s.obj._lastLED ∧
      WritesWithin s.obj._firstLED s.obj._lastLED s.pixels s1.pixels := by
  induction ts with
  | nil =>
    intro s s1 _ hidx h
    simp only [ZipR.run, Option.some.injEq] at h
    subst h
    exact ⟨rfl, rfl, hidx.1, hidx.2, WritesWithin.refl _ _ _⟩
  | cons now rest ih =>
    intro s s1 hlt hidx h
    simp only [ZipR.run] at h
    split at h
    · simp at h
    · rename_i s2 hstep
      obtain ⟨k1, k2, k3, k4, k5⟩ := ZipR.zipR_Continue_keeps_range e now s s2 hlt hidx hstep
      obtain ⟨j1, j2, j3, j4, j5⟩ := ih s2 s1 (by rw [k1, k2]; exact hlt)
        (by rw [k1, k2]; exact ⟨k3, k4⟩) h
      simp only [k1, k2] at j1 j2 j3 j4 j5
      exact ⟨j1, j2, j3, j4, k5.trans j5⟩

/-- C11. On every range with `first < last`, in every state reached from
`Start` by any number of `Continue` calls, due or not, the dot position of
ZipLine, ZipLineInverse and ZipR and both dot positions of Zip2 and
Zip2Inverse lie in `[first,last]`, and every element written since before
`Start` lies in `[first,last]`. -/
theorem zip_position_stays_in_range (e : Env) (now0 now : Nat) (topToBottom : Bool)
    (colorToUse : Rgb) (ts : List Nat) :
    (∀ s : Sys ZipLine, s.obj._firstLED < s.obj._lastLED →
      (s.obj._firstLED
          ≤ (ZipLine.run e ts (ZipLine.Start e now0 now topToBottom colorToUse s)).obj._zipIdx ∧
        (ZipLine.run e ts (ZipLine.Start e now0 now topToBottom colorToUse s)).obj._zipIdx
          ≤ s.obj._lastLED) ∧
      ∀ i ∈ writtenIndices (callsSince s.pixels
          (ZipLine.run e ts (ZipLine.Start e now0 now topToBottom colorToUse s)).pixels),
        s.obj._firstLED ≤ i ∧ i ≤ s.obj._lastLED) ∧
    (∀ s : Sys ZipLine, s.obj._firstLED < s.obj._lastLED →
      (s.obj._firstLED
          ≤ (ZipLineInverse.run e ts
              (ZipLineInverse.Start e now0 now topToBottom colorToUse s)).obj._zipIdx ∧
        (ZipLineInverse.run e ts
            (ZipLineInverse.Start e now0 now topToBottom colorToUse s)).obj._zipIdx
          ≤ s.obj._lastLED) ∧
      ∀ i ∈ writtenIndices (callsSince s.pixels
          (ZipLineInverse.run e ts
            (ZipLineInverse.Start e now0 now topToBottom colorToUse s)).pixels),
        s.obj._firstLED ≤ i ∧ i ≤ s.obj._lastLED) ∧
    (∀ s : Sys Zip2, s.obj._firstLED < s.obj._lastLED →
      (s.obj._firstLED
          ≤ (Zip2.run e ts (Zip2.Start e now0 now topToBottom colorToUse s)).obj._zipIdx ∧
        (Zip2.run e ts (Zip2.Start e now0 now topToBottom colorToUse s)).obj._zipIdx
          ≤ s.obj._lastLED) ∧
      (s.obj._firstLED
          ≤ (Zip2.run e ts (Zip2.Start e now0 now topToBottom colorToUse s)).obj._zip2Idx ∧
        (Zip2.run e ts (Zip2.Start e now0 now topToBottom colorToUse s)).obj._zip2Idx
          ≤ s.obj._lastLED) ∧
      ∀ i ∈ writtenIndices (callsSince s.pixels
          (Zip2.run e ts (Zip2.Start e now0 now topToBottom colorToUse s)).pixels),
        s.obj._firstLED ≤ i ∧ i ≤ s.obj._lastLED) ∧
    (∀ s : Sys Zip2, s.obj._firstLED < s.obj._lastLED →
      (s.obj._firstLED
          ≤ (Zip2Inverse.run e ts
              (Zip2Inverse.Start e now0 now topToBottom colorToUse s)).obj._zipIdx ∧
        (Zip2Inverse.run e ts
            (Zip2Inverse.Start e now0 now topToBottom colorToUse s)).obj._zipIdx
          ≤ s.obj._lastLED) ∧
      (s.obj._firstLED
          ≤ (Zip2Inverse.run e ts
              (Zip2Inverse.Start e now0 now topToBottom colorToUse s)).obj._zip2Idx ∧
        (Zip2Inverse.run e ts
            (Zip2Inverse.Start e now0 now topToBottom colorToUse s)).obj._zip2Idx
          ≤ s.obj._lastLED) ∧
      ∀ i ∈ writtenIndices (callsSince s.pixels
          (Zip2Inverse.run e ts
            (Zip2Inverse.Start e now0 now topToBottom colorToUse s)).pixels),
        s.obj._firstLED ≤ i ∧ i ≤ s.obj._lastLED) ∧
    (∀ s s1 : Sys ZipR, s.obj._firstLED < s.obj._lastLED →
      ZipR.run e ts (ZipR.Start e now0 now topToBottom colorToUse s) = some s1 →
      (s.obj._firstLED ≤ s1.obj._zipIdx ∧ s1.obj._zipIdx ≤ s.obj._lastLED) ∧
      ∀ i ∈ writtenIndices (callsSince s.pixels s1.pixels),
        s.obj._firstLED ≤ i ∧ i ≤ s.obj._lastLED) := by
  have hstartIdx : ∀ (first last : Int), first < last →
      first ≤ (if topToBottom then last else first) ∧
        (if topToBottom then last else first) ≤ last := by
    intro first last h
    cases topToBottom <;> simp <;> omega
  refine ⟨?_, ?_, ?_, ?_, ?_⟩
  · intro s hlt
    obtain ⟨-, -, -, -, -, -, -, hw⟩ := ZipLine.startCore_spec e now0 now topToBottom colorToUse
      s.obj s.pixels (le_of_lt hlt)
    obtain ⟨-, -, j3, j4, j5⟩ := ZipLine.zipLine_run_keeps_range e ts
      (ZipLine.Start e now0 now topToBottom colorToUse s) hlt (hstartIdx _ _ hlt)
    exact ⟨⟨j3, j4⟩, (hw.trans j5).callsSince⟩
  · intro s hlt
    obtain ⟨-, -, -, -, -, -, -, hw⟩ := ZipLine.startCore_spec e now0 now topToBottom colorToUse
      s.obj s.pixels (le_of_lt hlt)
    have hw2 : WritesWithin s.obj._firstLED s.obj._lastLED s.pixels
        (ZipLineInverse.Start e now0 now topToBottom colorToUse s).pixels :=
      hw.trans (WritesWithin.setAllPixelsTo
        (ZipLine.Start e now0 now topToBottom colorToUse s).obj.toAnimation _ colorToUse true)
    obtain ⟨-, -, j3, j4, j5⟩ := ZipLineInverse.zipLineInverse_run_keeps_range e ts
      (ZipLineInverse.Start e now0 now topToBottom colorToUse s) hlt (hstartIdx _ _ hlt)
    exact ⟨⟨j3, j4⟩, (hw2.trans j5).callsSince⟩
  · intro s hlt
    obtain ⟨-, -, -, -, -, -, -, hw⟩ := ZipLine.startCore_spec e now0 now topToBottom colorToUse
      s.obj.toZipLine s.pixels (le_of_lt hlt)
    have h2 : s.obj._firstLED ≤ (if topToBottom then s.obj._firstLED else s.obj._lastLED) ∧
        (if topToBottom then s.obj._firstLED else s.obj._lastLED) ≤ s.obj._lastLED := by
      cases topToBottom <;> simp <;> omega
    have hw2 : WritesWithin s.obj._firstLED s.obj._lastLED s.pixels
        (Zip2.Start e now0 now topToBottom colorToUse s).pixels :=
      hw.trans (((WritesWithin.setPixelColor _ _ _ _ _ (hstartIdx _ _ hlt).1
        (hstartIdx _ _ hlt).2).trans
        (WritesWithin.setPixelColor _ _ _ _ _ h2.1 h2.2)).trans (WritesWithin.showStrip _ _ _))
    obtain ⟨-, -, j3, j4, j5⟩ := Zip2.zip2_run_keeps_range e ts
      (Zip2.Start e now0 now topToBottom colorToUse s) hlt (hstartIdx _ _ hlt) h2
    exact ⟨j3, j4, (hw2.trans j5).callsSince⟩
  · intro s hlt
    obtain ⟨-, -, -, -, -, -, -, hw⟩ := ZipLine.startCore_spec e now0 now topToBottom colorToUse
      s.obj.toZipLine s.pixels (le_of_lt hlt)
    have h2 : s.obj._firstLED ≤ (if topToBottom then s.obj._firstLED else s.obj._lastLED) ∧
        (if topToBottom then s.obj._firstLED else s.obj._lastLED) ≤ s.obj._lastLED := by
      cases topToBottom <;> simp <;> omega
    have hw2 : WritesWithin s.obj._firstLED s.obj._lastLED s.pixels
        (Zip2Inverse.Start e now0 now topToBottom colorToUse s).pixels :=
      hw.trans ((((WritesWithin.setAllPixelsTo
        (ZipLine.startCore e now0 now topToBottom colorToUse s.obj.toZipLine
          s.pixels).1.toAnimation _ colorToUse false).trans
        (WritesWithin.setPixelColor _ _ _ _ _ (hstartIdx _ _ hlt).1
          (hstartIdx _ _ hlt).2)).trans
        (WritesWithin.setPixelColor _ _ _ _ _ h2.1 h2.2)).trans (WritesWithin.showStrip _ _ _))
    obtain ⟨-, -, j3, j4, j5⟩ := Zip2Inverse.zip2Inverse_run_keeps_range e ts
      (Zip2Inverse.Start e now0 now topToBottom colorToUse s) hlt (hstartIdx _ _ hlt) h2
    exact ⟨j3, j4, (hw2.trans j5).callsSince⟩
  · intro s s1 hlt hrun
    obtain ⟨-, -, -, -, -, -, -, hw⟩ := ZipLine.startCore_spec e now0 now topToBottom colorToUse
      s.obj.toZipLine s.pixels (le_of_lt hlt)
    obtain ⟨-, -, j3, j4, j5⟩ := ZipR.zipR_run_keeps_range e ts
      (ZipR.Start e now0 now topToBottom colorToUse s) s1 hlt (hstartIdx _ _ hlt) hrun
    exact ⟨⟨j3, j4⟩, (hw.trans j5).callsSince⟩

theorem zip_position_stays_in_range_witness :
    (sampleZipLineSys.obj._firstLED
        ≤ (ZipLine.run sampleEnv [125, 250, 375]
            (ZipLine.Start sampleEnv 0 0 false 255 sampleZipLineSys)).obj._zipIdx ∧
      (ZipLine.run sampleEnv [125, 250, 375]
          (ZipLine.Start sampleEnv 0 0 false 255 sampleZipLineSys)).obj._zipIdx
        ≤ sampleZipLineSys.obj._lastLED) ∧
    (sampleSys (sampleZipR false)).obj._firstLED
      ≤ (ZipR.Start sampleEnv 0 0 false 255 (sampleSys (sampleZipR false))).obj._zipIdx :=
  ⟨((zip_position_stays_in_range sampleEnv 0 0 false 255 [125, 250, 375]).1
      sampleZipLineSys (by decide)).1,
   (((zip_position_stays_in_range sampleEnv 0 0 false 255 []).2.2.2.2
      (sampleSys (sampleZipR false))
      (ZipR.Start sampleEnv 0 0 false 255 (sampleSys (sampleZipR false)))
      (by decide) rfl).1).1⟩

/-! ### Periodicity of the bounce -/

theorem ZipLine.advance_eq_zipBounce (z : ZipLine) :
    z.advance = zipBounce z._firstLED z._lastLED (z._zipIdx, z._zipInc) := rfl

theorem ZipLine.run_due_iterate (e : Env) (ts : List Nat) :
    ∀ s : Sys ZipLine, s.obj._active = true → ZipLine.allDue e ts s = true →
      ((ZipLine.run e ts s).obj._zipIdx, (ZipLine.run e ts s).obj._zipInc)
        = (zipBounce s.obj._firstLED s.obj._lastLED)^[ts.length]
            (s.obj._zipIdx, s.obj._zipInc) := by
  induction ts with
  | nil => intro s _ _; rfl
  | cons now rest ih =>
    intro s ha hdue
    simp only [ZipLine.allDue, Bool.and_eq_true, decide_eq_true_eq] at hdue
    obtain ⟨hd, hrest⟩ := hdue
    have hstep := ZipLine.zipLine_Continue_due e now s ha hd
    have h1 : ZipLine.run e (now :: rest) s = ZipLine.run e rest (ZipLine.Continue e now s) := rfl
    rw [h1, ih (ZipLine.Continue e now s) (by rw [hstep]; exact ha) hrest, hstep]
    simp only [List.length_cons, Function.iterate_succ_apply]
    rw [← ZipLine.advance_eq_zipBounce]

theorem zipBounce_up (first last : Int) (k : Nat) :
    ∀ a : Int, first ≤ a → a + k ≤ last → (zipBounce first last)^[k] (a, 1) = (a + k, 1) := by
  induction k with
  | zero => intro a _ _; simp
  | succ k ih =>
    intro a h1 h2
    have hstep : zipBounce first last (a, 1) = (a + 1, 1) := by
      unfold zipBounce
      simp only
      rw [if_neg (by push_cast at h2; omega), if_neg (by omega)]
    rw [Function.iterate_succ_apply, hstep, ih (a + 1) (by omega) (by push_cast at h2 ⊢; omega)]
    push_cast
    congr 1
    ring

theorem zipBounce_down (first last : Int) (k : Nat) :
    ∀ a : Int, a ≤ last → first ≤ a - k → (zipBounce first last)^[k] (a, -1) = (a - k, -1) := by
  induction k with
  | zero => intro a _ _; simp
  | succ k ih =>
    intro a h1 h2
    have hstep : zipBounce first last (a, -1) = (a - 1, -1) := by
      unfold zipBounce
      simp only
      rw [if_neg (by omega), if_neg (by push_cast at h2; omega)]
      rfl
    rw [Function.iterate_succ_apply, hstep, ih (a - 1) (by omega) (by push_cast at h2 ⊢; omega)]
    push_cast
    congr 1
    ring

theorem zipBounce_turn_top (first last : Int) :
    zipBounce first last (last, 1) = (last - 1, -1) := by
  unfold zipBounce
  simp

theorem zipBounce_turn_bottom (first last : Int) (h : first ≤ last) :
    zipBounce first last (first, -1) = (first + 1, 1) := by
  unfold zipBounce
  simp only
  rw [if_neg (by omega), if_pos (by omega)]
  simp

/-- After `2 * (last - first)` bounce steps the position is back and the
direction is the opposite one, from either end. -/
theorem zipBounce_round_trip (first last : Int) (n : Nat) (hlt : first < last)
    (hn : (n : Int) = 2 * (last - first)) :
    (zipBounce first last)^[n] (first, 1) = (first, -1) ∧
    (zipBounce first last)^[n] (last, -1) = (last, 1) := by
  obtain ⟨L, hL⟩ : ∃ L : Nat, (L : Int) = last - first := ⟨(last - first).toNat, by omega⟩
  have hn2 : n = (L - 1) + (1 + L) := by omega
  constructor
  · rw [hn2, Function.iterate_add_apply, Function.iterate_add_apply,
      zipBounce_up first last L first (le_refl _) (by omega)]
    have : first + (L : Int) = last := by omega
    rw [this, Function.iterate_one, zipBounce_turn_top,
      zipBounce_down first last (L - 1) (last - 1) (by omega) (by omega)]
    congr 1
    omega
  · rw [hn2, Function.iterate_add_apply, Function.iterate_add_apply,
      zipBounce_down first last L last (le_refl _) (by omega)]
    have : last - (L : Int) = first := by omega
    rw [this, Function.iterate_one, zipBounce_turn_bottom first last (le_of_lt hlt),
      zipBounce_up first last (L - 1) (first + 1) (by omega) (by omega)]
    congr 1
    omega

/-- From the first step on, the pair (position, direction) repeats every
`2 * (last - first)` steps. -/
theorem zipBounce_periodic (first last : Int) (n k : Nat) (hlt : first < last)
    (hn : (n : Int) = 2 * (last - first)) (hk : 1 ≤ k) :
    (zipBounce first last)^[k + n] (first, 1) = (zipBounce first last)^[k] (first, 1) ∧
    (zipBounce first last)^[k + n] (last, -1) = (zipBounce first last)^[k] (last, -1) := by
  obtain ⟨r1, r2⟩ := zipBounce_round_trip first last n hlt hn
  obtain ⟨j, rfl⟩ : ∃ j, k = j + 1 := ⟨k - 1, by omega⟩
  have u1 : zipBounce first last (first, 1) = (first + 1, 1) := by
    have := zipBounce_up first last 1 first (le_refl _) (by push_cast; omega)
    simpa using this
  have d1 : zipBounce first last (last, -1) = (last - 1, -1) := by
    have := zipBounce_down first last 1 last (le_refl _) (by push_cast; omega)
    simpa using this
  constructor
  · rw [Function.iterate_add_apply, r1, Function.iterate_succ_apply,
      zipBounce_turn_bottom first last (le_of_lt hlt), Function.iterate_succ_apply, u1]
  · rw [Function.iterate_add_apply, r2, Function.iterate_succ_apply, zipBounce_turn_top,
      Function.iterate_succ_apply, d1]

/-- C13, as stated, fails: on the range `[2,4]`, after `2 * (4 - 2) = 4` due
steps following `ZipLine::Start` the dot is back at its start position with
the direction sign reversed. -/
theorem zipline_direction_not_restored :
    2 * (sampleZipLineSys.obj._lastLED - sampleZipLineSys.obj._firstLED) = 4 ∧
    ZipLine.allDue sampleEnv [125, 250, 375, 500]
      (ZipLine.Start sampleEnv 0 0 false 255 sampleZipLineSys) = true ∧
    (ZipLine.Start sampleEnv 0 0 false 255 sampleZipLineSys).obj._zipIdx = 2 ∧
    (ZipLine.Start sampleEnv 0 0 false 255 sampleZipLineSys).obj._zipInc = 1 ∧
    (ZipLine.run sampleEnv [125, 250, 375, 500]
      (ZipLine.Start sampleEnv 0 0 false 255 sampleZipLineSys)).obj._zipIdx = 2 ∧
    (ZipLine.run sampleEnv [125, 250, 375, 500]
      (ZipLine.Start sampleEnv 0 0 false 255 sampleZipLineSys)).obj._zipInc = -1 := by
  decide

/-- C13, amended. On every range with `first < last` and for either start
direction, after exactly `2 * (last - first)` due `Continue` steps following
`ZipLine::Start` the dot position equals the one `Start` set and the direction
sign is the opposite of the one `Start` set; from the first step on, position
and direction together repeat with period `2 * (last - first)`. -/
theorem zipline_round_trip (e : Env) (now0 now : Nat) (topToBottom : Bool) (colorToUse : Rgb)
    (s : Sys ZipLine) (ts : List Nat)
    (hlt : s.obj._firstLED < s.obj._lastLED)
    (hlen : (ts.length : Int) = 2 * (s.obj._lastLED - s.obj._firstLED))
    (hdue : ZipLine.allDue e ts (ZipLine.Start e now0 now topToBottom colorToUse s) = true) :
    (ZipLine.run e ts (ZipLine.Start e now0 now topToBottom colorToUse s)).obj._zipIdx
      = (ZipLine.Start e now0 now topToBottom colorToUse s).obj._zipIdx ∧
    (ZipLine.run e ts (ZipLine.Start e now0 now topToBottom colorToUse s)).obj._zipInc
      = -(ZipLine.Start e now0 now topToBottom colorToUse s).obj._zipInc ∧
    (∀ ts1 ts2 : List Nat, ts1 ≠ [] → ts2.length = ts1.length + ts.length →
      ZipLine.allDue e ts1 (ZipLine.Start e now0 now topToBottom colorToUse s) = true →
      ZipLine.allDue e ts2 (ZipLine.Start e now0 now topToBottom colorToUse s) = true →
      (ZipLine.run e ts2 (ZipLine.Start e now0 now topToBottom colorToUse s)).obj._zipIdx
        = (ZipLine.run e ts1 (ZipLine.Start e now0 now topToBottom colorToUse s)).obj._zipIdx ∧
      (ZipLine.run e ts2 (ZipLine.Start e now0 now topToBottom colorToUse s)).obj._zipInc
        = (ZipLine.run e ts1
            (ZipLine.Start e now0 now topToBottom colorToUse s)).obj._zipInc) := by
  have hiter : ∀ l : List Nat,
      ZipLine.allDue e l (ZipLine.Start e now0 now topToBottom colorToUse s) = true →
      ((ZipLine.run e l (ZipLine.Start e now0 now topToBottom colorToUse s)).obj._zipIdx,
        (ZipLine.run e l (ZipLine.Start e now0 now topToBottom colorToUse s)).obj._zipInc)
        = (zipBounce s.obj._firstLED s.obj._lastLED)^[l.length]
            (if topToBottom then s.obj._lastLED else s.obj._firstLED,
              if topToBottom then -1 else 1) :=
    fun l hl => ZipLine.run_due_iterate e l _ rfl hl
  obtain ⟨r1, r2⟩ := zipBounce_round_trip s.obj._firstLED s.obj._lastLED ts.length hlt hlen
  have hstart : (ZipLine.Start e now0 now topToBottom colorToUse s).obj._zipIdx
      = (if topToBottom then s.obj._lastLED else s.obj._firstLED) := rfl
  have hstartInc : (ZipLine.Start e now0 now topToBottom colorToUse s).obj._zipInc
      = (if topToBottom then -1 else 1) := rfl
  have hmain := hiter ts hdue
  refine ⟨?_, ?_, ?_⟩
  · rw [hstart]
    have := congrArg Prod.fst hmain
    simp only at this
    rw [this]
    cases topToBottom
    · simp [r1]
    · simp [r2]
  · rw [hstartInc]
    have := congrArg Prod.snd hmain
    simp only at this
    rw [this]
    cases topToBottom
    · simp [r1]
    · simp [r2]
  · intro ts1 ts2 hne hlen2 hd1 hd2
    have h1 := hiter ts1 hd1
    have h2 := hiter ts2 hd2
    have hk : 1 ≤ ts1.length := by
      cases ts1 with
      | nil => exact absurd rfl hne
      | cons a l => simp
    obtain ⟨p1, p2⟩ := zipBounce_periodic s.obj._firstLED s.obj._lastLED ts.length ts1.length
      hlt hlen hk
    rw [hlen2] at h2
    have heq : ((ZipLine.run e ts2 (ZipLine.Start e now0 now topToBottom colorToUse s)).obj._zipIdx,
        (ZipLine.run e ts2 (ZipLine.Start e now0 now topToBottom colorToUse s)).obj._zipInc)
        = ((ZipLine.run e ts1 (ZipLine.Start e now0 now topToBottom colorToUse s)).obj._zipIdx,
          (ZipLine.run e ts1 (ZipLine.Start e now0 now topToBottom colorToUse s)).obj._zipInc) := by
      rw [h1, h2]
      cases topToBottom
      · simpa using p1
      · simpa using p2
    exact ⟨congrArg Prod.fst heq, congrArg Prod.snd heq⟩

theorem zipline_round_trip_witness :
    (ZipLine.run sampleEnv [125, 250, 375, 500]
      (ZipLine.Start sampleEnv 0 0 false 255 sampleZipLineSys)).obj._zipIdx
      = (ZipLine.Start sampleEnv 0 0 false 255 sampleZipLineSys).obj._zipIdx ∧
    (ZipLine.run sampleEnv [125, 250, 375, 500]
      (ZipLine.Start sampleEnv 0 0 false 255 sampleZipLineSys)).obj._zipInc
      = -(ZipLine.Start sampleEnv 0 0 false 255 sampleZipLineSys).obj._zipInc :=
  ⟨(zipline_round_trip sampleEnv 0 0 false 255 sampleZipLineSys [125, 250, 375, 500]
      (by decide) (by decide) (by decide)).1,
   (zipline_round_trip sampleEnv 0 0 false 255 sampleZipLineSys [125, 250, 375, 500]
      (by decide) (by decide) (by decide)).2.1⟩

/-! ## Fade -/

theorem brightnessLevels_append (a b : List DriverCall) :
    brightnessLevels (a ++ b) = brightnessLevels a ++ brightnessLevels b := by
  induction a with
  | nil => rfl
  | cons x a ih => cases x <;> simp [brightnessLevels, ih]

theorem brightnessLevels_map_set (l : List Int) (c : Rgb) :
    brightnessLevels (l.map (fun i => DriverCall.setPixelColor i c)) = [] := by
  induction l with
  | nil => rfl
  | cons x l ih => simp [brightnessLevels, ih]

/-- A due `Continue` of an active `FadeToColor`: it applies the level held,
steps the level, and on leaving `(0,255]` deactivates, recolours the range and
sets the brightness to 255. -/
theorem FadeToColor.fadeToColor_Continue_due (e : Env) (now : Nat) (s : Sys FadeToColor)
    (ha : s.obj._active = true)
    (hd : s.obj._animationStepIncrement ≤ elapsedSince now s.obj._lastUpdateTime) :
    (FadeToColor.Continue e now s).obj._fadeBrightness
      = s.obj._fadeBrightness + s.obj._fadeBrightnessInc ∧
    (FadeToColor.Continue e now s).obj._fadeBrightnessInc = s.obj._fadeBrightnessInc ∧
    (FadeToColor.Continue e now s).obj._firstLED = s.obj._firstLED ∧
    (FadeToColor.Continue e now s).obj._lastLED = s.obj._lastLED ∧
    (FadeToColor.Continue e now s).obj._active
      = decide (0 < s.obj._fadeBrightness + s.obj._fadeBrightnessInc ∧
          s.obj._fadeBrightness + s.obj._fadeBrightnessInc ≤ 255) ∧
    (∃ news, (FadeToColor.Continue e now s).pixels.calls = s.pixels.calls ++ news ∧
      brightnessLevels news
        = s.obj._fadeBrightness ::
          (if 0 < s.obj._fadeBrightness + s.obj._fadeBrightnessInc ∧
              s.obj._fadeBrightness + s.obj._fadeBrightnessInc ≤ 255 then [] else [255])) ∧
    (s.obj._fadeBrightness + s.obj._fadeBrightnessInc ≤ 0 →
      (FadeToColor.Continue e now s).pixels.brightness = 255 ∧
      ∀ i, s.obj._firstLED ≤ i → i ≤ s.obj._lastLED →
        (FadeToColor.Continue e now s).pixels.color i = e.offColor) ∧
    (255 < s.obj._fadeBrightness + s.obj._fadeBrightnessInc →
      (FadeToColor.Continue e now s).pixels.brightness = 255) := by
  have hd2 : ¬ (elapsedSince now s.obj._lastUpdateTime < s.obj._animationStepIncrement) :=
    not_lt.mpr hd
  by_cases hin : 0 < s.obj._fadeBrightness + s.obj._fadeBrightnessInc ∧
      s.obj._fadeBrightness + s.obj._fadeBrightnessInc ≤ 255
  · have hout : ¬ (s.obj._fadeBrightness + s.obj._fadeBrightnessInc > 255 ∨
        s.obj._fadeBrightness + s.obj._fadeBrightnessInc ≤ 0) := by omega
    refine ⟨?_, ?_, ?_, ?_, ?_, ?_, ?_, ?_⟩
    · simp [FadeToColor.Continue, ha, hd2]
    · simp [FadeToColor.Continue, ha, hd2]
    · simp [FadeToColor.Continue, ha, hd2]
    · simp [FadeToColor.Continue, ha, hd2]
    · simp only [FadeToColor.Continue, ha, hd2, hout]
      simp [hin]
    · refine ⟨[DriverCall.setBrightness s.obj._fadeBrightness]
        ++ (ledRange s.obj._firstLED s.obj._lastLED).map
            (fun i => DriverCall.setPixelColor i s.obj._colorToUse)
        ++ [DriverCall.showStrip], ?_, ?_⟩
      · simp only [FadeToColor.Continue, ha, hd2, hout]
        simp [Pixels.showStrip, Pixels.setBrightness, Animation.setAllPixelsTo_calls]
      · simp [brightnessLevels_append, brightnessLevels, brightnessLevels_map_set, hin]
    · intro h; omega
    · intro h; omega
  · have hout : s.obj._fadeBrightness + s.obj._fadeBrightnessInc > 255 ∨
        s.obj._fadeBrightness + s.obj._fadeBrightnessInc ≤ 0 := by omega
    refine ⟨?_, ?_, ?_, ?_, ?_, ?_, ?_, ?_⟩
    · simp [FadeToColor.Continue, ha, hd2]
    · simp [FadeToColor.Continue, ha, hd2]
    · simp [FadeToColor.Continue, ha, hd2]
    · simp [FadeToColor.Continue, ha, hd2]
    · simp only [FadeToColor.Continue, ha, hd2, hout]
      simp [hin]
    · refine ⟨[DriverCall.setBrightness s.obj._fadeBrightness]
        ++ (ledRange s.obj._firstLED s.obj._lastLED).map
            (fun i => DriverCall.setPixelColor i s.obj._colorToUse)
        ++ [DriverCall.showStrip]
        ++ (ledRange s.obj._firstLED s.obj._lastLED).map
            (fun i => DriverCall.setPixelColor i
              (if s.obj._fadeBrightness + s.obj._fadeBrightnessInc ≤ 0 then e.offColor
                else s.obj._colorToUse))
        ++ [DriverCall.showStrip, DriverCall.setBrightness 255, DriverCall.showStrip], ?_, ?_⟩
      · simp only [FadeToColor.Continue, ha, hd2, hout]
        simp [Pixels.showStrip, Pixels.setBrightness, Animation.setAllPixelsTo_calls]
      · simp [brightnessLevels_append, brightnessLevels, brightnessLevels_map_set, hin]
    · intro h
      simp only [FadeToColor.Continue, ha, hd2, hout]
      simp [Pixels.showStrip, Pixels.setBrightness, Animation.setAllPixelsTo_color, h]
      intro i h1 h2
      simp [h1, h2]
    · intro h
      simp only [FadeToColor.Continue, ha, hd2, hout]
      simp [Pixels.showStrip, Pixels.setBrightness]

theorem FadeToColor.fadeToColor_run_cons (e : Env) (now : Nat) (rest : List Nat) (s : Sys FadeToColor) :
    FadeToColor.run e (now :: rest) s = FadeToColor.run e rest (FadeToColor.Continue e now s) :=
  rfl

/-- A run of due steps whose intermediate levels stay in `(0,255]`: the
levels applied are `b, b + d, b + 2*d, ...`, followed by 255 when the last
step leaves `(0,255]`. -/
theorem FadeToColor.run_levels (e : Env) (ts : List Nat) :
    ∀ s : Sys FadeToColor, (ts = [] ∨ s.obj._active = true) →
      FadeToColor.allDue e ts s = true →
      (∀ j : Nat, 1 ≤ j → j < ts.length →
        0 < s.obj._fadeBrightness + (j : Int) * s.obj._fadeBrightnessInc ∧
        s.obj._fadeBrightness + (j : Int) * s.obj._fadeBrightnessInc ≤ 255) →
      (∃ news, (FadeToColor.run e ts s).pixels.calls = s.pixels.calls ++ news ∧
        brightnessLevels news
          = walkPositions s.obj._fadeBrightness s.obj._fadeBrightnessInc ts.length
            ++ (if ts = [] ∨
                  (0 < s.obj._fadeBrightness + (ts.length : Int) * s.obj._fadeBrightnessInc ∧
                    s.obj._fadeBrightness + (ts.length : Int) * s.obj._fadeBrightnessInc ≤ 255)
                then [] else [255])) ∧
      (FadeToColor.run e ts s).obj._fadeBrightness
        = s.obj._fadeBrightness + (ts.length : Int) * s.obj._fadeBrightnessInc ∧
      (FadeToColor.run e ts s).obj._firstLED = s.obj._firstLED ∧
      (FadeToColor.run e ts s).obj._lastLED = s.obj._lastLED ∧
      (ts ≠ [] → (FadeToColor.run e ts s).obj._active
        = decide (0 < s.obj._fadeBrightness + (ts.length : Int) * s.obj._fadeBrightnessInc ∧
            s.obj._fadeBrightness + (ts.length : Int) * s.obj._fadeBrightnessInc ≤ 255)) ∧
      (ts ≠ [] → s.obj._fadeBrightness + (ts.length : Int) * s.obj._fadeBrightnessInc ≤ 0 →
        (FadeToColor.run e ts s).pixels.brightness = 255 ∧
        ∀ i, s.obj._firstLED ≤ i → i ≤ s.obj._lastLED →
          (FadeToColor.run e ts s).pixels.color i = e.offColor) ∧
      (ts ≠ [] → 255 < s.obj._fadeBrightness + (ts.length : Int) * s.obj._fadeBrightnessInc →
        (FadeToColor.run e ts s).pixels.brightness = 255) := by
  induction ts with
  | nil =>
    intro s _ _ _
    refine ⟨⟨[], by simp [FadeToColor.run], by simp [walkPositions, brightnessLevels]⟩,
      by simp [FadeToColor.run], rfl, rfl, ?_, ?_, ?_⟩ <;> intro h <;> exact absurd rfl h
  | cons now rest ih =>
    intro s ha hdue hmid
    have ha : s.obj._active = true := by
      rcases ha with h | h
      · exact absurd h (by simp)
      · exact h
    simp only [FadeToColor.allDue, Bool.and_eq_true, decide_eq_true_eq] at hdue
    obtain ⟨hd, hrest⟩ := hdue
    obtain ⟨kb, kinc, kfirst, klast, kact, ⟨n1, kc1, kc2⟩, koff, kmax⟩ :=
      FadeToColor.fadeToColor_Continue_due e now s ha hd
    rw [FadeToColor.fadeToColor_run_cons]
    cases rest with
    | nil =>
      simp only [FadeToColor.run, List.foldl_nil, List.length_cons, List.length_nil,
        Nat.zero_add, Nat.cast_one, one_mul]
      refine ⟨⟨n1, kc1, ?_⟩, kb, kfirst, klast, fun _ => kact, fun _ => koff, fun _ => kmax⟩
      rw [kc2]
      simp [walkPositions, List.range_succ]
    | cons now2 rest2 =>
      have h1 := hmid 1 (le_refl _) (by simp)
      simp only [Nat.cast_one, one_mul] at h1
      have ha1 : (FadeToColor.Continue e now s).obj._active = true := by
        rw [kact, decide_eq_true_eq]; exact h1
      have hmid1 : ∀ j : Nat, 1 ≤ j → j < (now2 :: rest2).length →
          0 < (FadeToColor.Continue e now s).obj._fadeBrightness
              + (j : Int) * (FadeToColor.Continue e now s).obj._fadeBrightnessInc ∧
          (FadeToColor.Continue e now s).obj._fadeBrightness
              + (j : Int) * (FadeToColor.Continue e now s).obj._fadeBrightnessInc ≤ 255 := by
        intro j hj1 hj2
        have := hmid (j + 1) (by omega) (by simp only [List.length_cons] at hj2 ⊢; omega)
        rw [kb, kinc]
        push_cast at this
        constructor <;> nlinarith [this.1, this.2]
      obtain ⟨⟨n2, jc1, jc2⟩, jb, jfirst, jlast, jact, joff, jmax⟩ :=
        ih (FadeToColor.Continue e now s) (Or.inr ha1) hrest hmid1
      have hne : (now2 :: rest2) ≠ [] := by simp
      have hfin : (FadeToColor.Continue e now s).obj._fadeBrightness
          + ((now2 :: rest2).length : Int) * (FadeToColor.Continue e now s).obj._fadeBrightnessInc
          = s.obj._fadeBrightness
            + ((now :: now2 :: rest2).length : Int) * s.obj._fadeBrightnessInc := by
        rw [kb, kinc]
        simp only [List.length_cons]
        push_cast
        ring
      rw [hfin] at jc2 jb jact joff jmax
      rw [kfirst] at jfirst joff
      rw [klast] at jlast joff
      refine ⟨⟨n1 ++ n2, ?_, ?_⟩, jb, jfirst, jlast, fun _ => jact hne, fun _ => joff hne,
        fun _ => jmax hne⟩
      · rw [jc1, kc1, List.append_assoc]
      · rw [brightnessLevels_append, kc2, jc2, if_pos h1, kb, kinc]
        rw [show (now :: now2 :: rest2).length = (now2 :: rest2).length + 1 from rfl,
          walkPositions_succ]
        simp
theorem walkPositions_zero_one (n : Nat) :
    walkPositions 0 1 n = (List.range n).map (fun (j : Nat) => (j : Int)) := by
  unfold walkPositions
  apply List.map_congr_left
  intro j _
  ring

theorem walkPositions_255_down (n : Nat) :
    walkPositions 255 (-1) n = (List.range n).map (fun (j : Nat) => 255 - (j : Int)) := by
  unfold walkPositions
  apply List.map_congr_left
  intro j _
  ring

/-- C14, as stated, fails: the first level applied after
`FadeToColor::Start` is 0, by the step inside `Start` when that one is due
(clock 1000) and by the first later due step when it is not (clock 0). -/
theorem fade_in_first_level_is_zero :
    brightnessLevels (callsSince sampleFadeSys.pixels
      (FadeToColor.Start sampleEnv 1000 false 255 sampleFadeSys).pixels) = [0] ∧
    brightnessLevels (callsSince sampleFadeSys.pixels
      (FadeToColor.Start sampleEnv 0 false 255 sampleFadeSys).pixels) = [] ∧
    FadeToColor.allDue sampleEnv [125, 250]
      (FadeToColor.Start sampleEnv 0 false 255 sampleFadeSys) = true ∧
    brightnessLevels (callsSince (FadeToColor.Start sampleEnv 0 false 255 sampleFadeSys).pixels
      (FadeToColor.run sampleEnv [125, 250]
        (FadeToColor.Start sampleEnv 0 false 255 sampleFadeSys)).pixels) = [0, 1] := by
  decide

/-- C14, amended. After `FadeToColor::Start` the brightness levels applied by
successive due steps, the first of them the step inside `Start` when its
`Continue` is due, are `0, 1, 2, ..., 255` in this order; `Active()` becomes
false in the step that applies level 255, which then sets the brightness to
255 once more. -/
theorem fade_in_levels (e : Env) (now : Nat) (topToBottom : Bool) (colorToUse : Rgb)
    (s : Sys FadeToColor) (ts : List Nat)
    (hdue : FadeToColor.allDue e ts (FadeToColor.Start e now topToBottom colorToUse s) = true)
    (hm : (if s.obj._animationStepIncrement ≤ elapsedSince now 0 then 1 else 0) + ts.length
      ≤ 256) :
    brightnessLevels (callsSince s.pixels
        (FadeToColor.run e ts (FadeToColor.Start e now topToBottom colorToUse s)).pixels)
      = (List.range ((if s.obj._animationStepIncrement ≤ elapsedSince now 0 then 1 else 0)
            + ts.length)).map (fun (j : Nat) => (j : Int))
        ++ (if (if s.obj._animationStepIncrement ≤ elapsedSince now 0 then 1 else 0)
            + ts.length = 256 then [255] else []) ∧
    (FadeToColor.run e ts (FadeToColor.Start e now topToBottom colorToUse s)).obj.Active
      = decide ((if s.obj._animationStepIncrement ≤ elapsedSince now 0 then 1 else 0)
          + ts.length < 256) ∧
    ((if s.obj._animationStepIncrement ≤ elapsedSince now 0 then 1 else 0) + ts.length = 256 →
      (FadeToColor.run e ts
        (FadeToColor.Start e now topToBottom colorToUse s)).pixels.brightness = 255) := by
  -- the object as `Start` arms it, before the `Continue()` it ends with
  obtain ⟨s0, hs0, hact0, hb0, hinc0, hlast0, hstep0, hcalls0⟩ :
      ∃ s0 : Sys FadeToColor,
        FadeToColor.Start e now topToBottom colorToUse s = FadeToColor.Continue e now s0 ∧
        s0.obj._active = true ∧ s0.obj._fadeBrightness = 0 ∧ s0.obj._fadeBrightnessInc = 1 ∧
        s0.obj._lastUpdateTime = 0 ∧
        s0.obj._animationStepIncrement = s.obj._animationStepIncrement ∧
        ∃ news, s0.pixels.calls = s.pixels.calls ++ news ∧ brightnessLevels news = [] := by
    refine ⟨
      { s with
        obj :=
          { s.obj with
            _topToBottom := topToBottom
            _colorToUse := colorToUse
            _active := true
            _lastUpdateTime := 0
            _fadeBrightness := 0
            _fadeBrightnessInc := 1 }
        pixels :=
          Animation.setAllPixelsTo
            { s.obj.toAnimation with
              _topToBottom := topToBottom
              _colorToUse := colorToUse
              _active := true
              _lastUpdateTime := 0 } s.pixels colorToUse false },
      rfl, rfl, rfl, rfl, rfl, rfl, ?_⟩
    exact ⟨_, Animation.setAllPixelsTo_calls _ _ _ _, by
      simp [brightnessLevels_append, brightnessLevels_map_set, brightnessLevels]⟩
  obtain ⟨n0, hc0, hl0⟩ := hcalls0
  rw [hs0] at hdue ⊢
  by_cases hd : s.obj._animationStepIncrement ≤ elapsedSince now 0
  · -- the step inside `Start` is due: `1 + ts.length` due steps from `s0`
    simp only [hd, if_true] at hm ⊢
    have hdue2 : FadeToColor.allDue e (now :: ts) s0 = true := by
      simp only [FadeToColor.allDue, Bool.and_eq_true, decide_eq_true_eq]
      exact ⟨by rw [hstep0, hlast0]; exact hd, hdue⟩
    have hlen : (now :: ts).length = 1 + ts.length := by simp [Nat.add_comm]
    obtain ⟨⟨n1, kc1, kc2⟩, -, -, -, kact, -, kmax⟩ :=
      FadeToColor.run_levels e (now :: ts) s0 (Or.inr hact0) hdue2 (by
        intro j h1 h2
        rw [hb0, hinc0]
        rw [hlen] at h2
        constructor <;> omega)
    rw [← FadeToColor.fadeToColor_run_cons]
    rw [hb0, hinc0, hlen] at kc2 kact kmax
    have hcs : callsSince s.pixels (FadeToColor.run e (now :: ts) s0).pixels = n0 ++ n1 :=
      callsSince_append _ _ _ (by rw [kc1, hc0, List.append_assoc])
    refine ⟨?_, ?_, ?_⟩
    · rw [hcs, brightnessLevels_append, hl0, kc2, walkPositions_zero_one, List.nil_append]
      congr 1
      have : (now :: ts) ≠ [] := by simp
      by_cases h256 : 1 + ts.length = 256
      · rw [if_neg (by
          rintro (h | h)
          · exact this h
          · push_cast at h; omega), if_pos h256]
      · rw [if_pos (Or.inr (by push_cast; omega)), if_neg h256]
    · show (FadeToColor.run e (now :: ts) s0).obj._active = _
      rw [kact (by simp)]
      apply decide_eq_decide.mpr
      push_cast
      omega
    · intro h
      exact kmax (by simp) (by push_cast; omega)
  · -- the step inside `Start` is not due: `Start` leaves the armed object
    simp only [hd, if_false, Nat.zero_add] at hm ⊢
    have hnoop : FadeToColor.Continue e now s0 = s0 := by
      have : elapsedSince now s0.obj._lastUpdateTime < s0.obj._animationStepIncrement := by
        rw [hstep0, hlast0]; exact not_le.mp hd
      simp [FadeToColor.Continue, hact0, this]
    rw [hnoop] at hdue ⊢
    obtain ⟨⟨n1, kc1, kc2⟩, -, -, -, kact, -, kmax⟩ :=
      FadeToColor.run_levels e ts s0 (Or.inr hact0) hdue (by
        intro j h1 h2
        rw [hb0, hinc0]
        constructor <;> omega)
    rw [hb0, hinc0] at kc2 kact kmax
    have hcs : callsSince s.pixels (FadeToColor.run e ts s0).pixels = n0 ++ n1 :=
      callsSince_append _ _ _ (by rw [kc1, hc0, List.append_assoc])
    refine ⟨?_, ?_, ?_⟩
    · rw [hcs, brightnessLevels_append, hl0, kc2, walkPositions_zero_one, List.nil_append]
      congr 1
      by_cases h256 : ts.length = 256
      · rw [if_neg (by
          rintro (h | h)
          · rw [h] at h256; simp at h256
          · omega), if_pos h256]
      · by_cases hnil : ts = []
        · rw [if_pos (Or.inl hnil), if_neg h256]
        · have : 0 < ts.length := List.length_pos.mpr hnil
          rw [if_pos (Or.inr (by omega)), if_neg h256]
    · show (FadeToColor.run e ts s0).obj._active = _
      by_cases hnil : ts = []
      · subst hnil
        simp [FadeToColor.run, hact0]
      · have : 0 < ts.length := List.length_pos.mpr hnil
        rw [kact hnil]
        apply decide_eq_decide.mpr
        omega
    · intro h
      have hnil : ts ≠ [] := by
        intro h0; rw [h0] at h; simp at h
      exact kmax hnil (by omega)

theorem fade_in_levels_witness :
    brightnessLevels (callsSince sampleFadeSys.pixels
        (FadeToColor.run sampleEnv [1125, 1250]
          (FadeToColor.Start sampleEnv 1000 false 255 sampleFadeSys)).pixels)
      = (List.range ((if sampleFadeSys.obj._animationStepIncrement ≤ elapsedSince 1000 0
            then 1 else 0) + [1125, 1250].length)).map (fun (j : Nat) => (j : Int))
        ++ (if (if sampleFadeSys.obj._animationStepIncrement ≤ elapsedSince 1000 0 then 1 else 0)
            + [1125, 1250].length = 256 then [255] else []) :=
  (fade_in_levels sampleEnv 1000 false 255 sampleFadeSys [1125, 1250] (by decide)
    (by decide)).1
/-- What `FadeToColor::Finish` followed by due steps does, counted from the
object as `Finish` arms it. -/
theorem FadeToColor.finish_run (e : Env) (now : Nat) (topToBottom : Bool)
    (s : Sys FadeToColor) (ts : List Nat)
    (hdue : FadeToColor.allDue e ts (FadeToColor.Finish e now topToBottom s) = true)
    (hm : (if s.obj._animationStepIncrement ≤ elapsedSince now s.obj._lastUpdateTime
      then 1 else 0) + ts.length ≤ 255) :
    brightnessLevels (callsSince s.pixels
        (FadeToColor.run e ts (FadeToColor.Finish e now topToBottom s)).pixels)
      = (List.range ((if s.obj._animationStepIncrement
              ≤ elapsedSince now s.obj._lastUpdateTime then 1 else 0)
            + ts.length)).map (fun (j : Nat) => 255 - (j : Int))
        ++ (if (if s.obj._animationStepIncrement
              ≤ elapsedSince now s.obj._lastUpdateTime then 1 else 0)
            + ts.length = 255 then [255] else []) ∧
    (FadeToColor.run e ts (FadeToColor.Finish e now topToBottom s)).obj._active
      = decide ((if s.obj._animationStepIncrement
            ≤ elapsedSince now s.obj._lastUpdateTime then 1 else 0)
          + ts.length < 255) ∧
    ((if s.obj._animationStepIncrement ≤ elapsedSince now s.obj._lastUpdateTime then 1 else 0)
        + ts.length = 255 →
      (FadeToColor.run e ts (FadeToColor.Finish e now topToBottom s)).pixels.brightness = 255 ∧
      ∀ i, s.obj._firstLED ≤ i → i ≤ s.obj._lastLED →
        (FadeToColor.run e ts (FadeToColor.Finish e now topToBottom s)).pixels.color i
          = e.offColor) := by
  obtain ⟨s0, hs0, hact0, hb0, hinc0, hlast0, hstep0, hfirst0, hlastLED0, hc0⟩ :
      ∃ s0 : Sys FadeToColor,
        FadeToColor.Finish e now topToBottom s = FadeToColor.Continue e now s0 ∧
        s0.obj._active = true ∧ s0.obj._fadeBrightness = 255 ∧ s0.obj._fadeBrightnessInc = -1 ∧
        s0.obj._lastUpdateTime = s.obj._lastUpdateTime ∧
        s0.obj._animationStepIncrement = s.obj._animationStepIncrement ∧
        s0.obj._firstLED = s.obj._firstLED ∧ s0.obj._lastLED = s.obj._lastLED ∧
        s0.pixels = s.pixels :=
    ⟨{ s with obj :=
        { s.obj with
          _topToBottom := topToBottom
          _fadeBrightness := 255
          _fadeBrightnessInc := -1
          _active := true } }, rfl, rfl, rfl, rfl, rfl, rfl, rfl, rfl, rfl⟩
  rw [hs0] at hdue ⊢
  by_cases hd : s.obj._animationStepIncrement ≤ elapsedSince now s.obj._lastUpdateTime
  · simp only [hd, if_true] at hm ⊢
    have hdue2 : FadeToColor.allDue e (now :: ts) s0 = true := by
      simp only [FadeToColor.allDue, Bool.and_eq_true, decide_eq_true_eq]
      exact ⟨by rw [hstep0, hlast0]; exact hd, hdue⟩
    have hlen : (now :: ts).length = 1 + ts.length := by simp [Nat.add_comm]
    have hne : (now :: ts) ≠ [] := by simp
    obtain ⟨⟨n1, kc1, kc2⟩, -, -, -, kact, koff, -⟩ :=
      FadeToColor.run_levels e (now :: ts) s0 (Or.inr hact0) hdue2 (by
        intro j h1 h2
        rw [hb0, hinc0]
        rw [hlen] at h2
        constructor <;> omega)
    rw [← FadeToColor.fadeToColor_run_cons]
    rw [hb0, hinc0, hlen] at kc2 kact koff
    rw [hfirst0, hlastLED0] at koff
    rw [hc0] at kc1
    refine ⟨?_, ?_, ?_⟩
    · rw [callsSince_append _ _ _ kc1, kc2, walkPositions_255_down]
      congr 1
      by_cases h255 : 1 + ts.length = 255
      · rw [if_neg (by
          rintro (h | h)
          · exact hne h
          · push_cast at h; omega), if_pos h255]
      · rw [if_pos (Or.inr (by push_cast; omega)), if_neg h255]
    · rw [kact hne]
      apply decide_eq_decide.mpr
      push_cast
      omega
    · intro h
      exact koff hne (by push_cast; omega)
  · simp only [hd, if_false, Nat.zero_add] at hm ⊢
    have hnoop : FadeToColor.Continue e now s0 = s0 := by
      have : elapsedSince now s0.obj._lastUpdateTime < s0.obj._animationStepIncrement := by
        rw [hstep0, hlast0]; exact not_le.mp hd
      simp [FadeToColor.Continue, hact0, this]
    rw [hnoop] at hdue ⊢
    obtain ⟨⟨n1, kc1, kc2⟩, -, -, -, kact, koff, -⟩ :=
      FadeToColor.run_levels e ts s0 (Or.inr hact0) hdue (by
        intro j h1 h2
        rw [hb0, hinc0]
        constructor <;> omega)
    rw [hb0, hinc0] at kc2 kact koff
    rw [hfirst0, hlastLED0] at koff
    rw [hc0] at kc1
    refine ⟨?_, ?_, ?_⟩
    · rw [callsSince_append _ _ _ kc1, kc2, walkPositions_255_down]
      congr 1
      by_cases h255 : ts.length = 255
      · rw [if_neg (by
          rintro (h | h)
          · rw [h] at h255; simp at h255
          · omega), if_pos h255]
      · by_cases hnil : ts = []
        · rw [if_pos (Or.inl hnil), if_neg h255]
        · have : 0 < ts.length := List.length_pos.mpr hnil
          rw [if_pos (Or.inr (by omega)), if_neg h255]
    · by_cases hnil : ts = []
      · subst hnil
        simp [FadeToColor.run, hact0]
      · have : 0 < ts.length := List.length_pos.mpr hnil
        rw [kact hnil]
        apply decide_eq_decide.mpr
        omega
    · intro h
      have hnil : ts ≠ [] := by
        intro h0; rw [h0] at h; simp at h
      exact koff hnil (by omega)

theorem sampleFade_finish_allDue :
    FadeToColor.allDue sampleEnv ((List.range 254).map (fun (k : Nat) => 5125 + 125 * k))
      (FadeToColor.Finish sampleEnv 5000 false sampleFadeSys) = true := by
  decide!

/-- C15, as stated, fails: on the range `[2,4]`, `FadeToColor::Finish` and
the 254 due steps after it apply the levels 255, 254, ..., 1 and then 255
again; the object is then inactive and level 0 has never been applied. -/
theorem fade_out_never_applies_zero :
    FadeToColor.allDue sampleEnv ((List.range 254).map (fun (k : Nat) => 5125 + 125 * k))
      (FadeToColor.Finish sampleEnv 5000 false sampleFadeSys) = true ∧
    (FadeToColor.run sampleEnv ((List.range 254).map (fun (k : Nat) => 5125 + 125 * k))
      (FadeToColor.Finish sampleEnv 5000 false sampleFadeSys)).obj.Active = false ∧
    brightnessLevels (callsSince sampleFadeSys.pixels
        (FadeToColor.run sampleEnv ((List.range 254).map (fun (k : Nat) => 5125 + 125 * k))
          (FadeToColor.Finish sampleEnv 5000 false sampleFadeSys)).pixels)
      = (List.range 255).map (fun (j : Nat) => 255 - (j : Int)) ++ [255] ∧
    (0 : Int) ∉ brightnessLevels (callsSince sampleFadeSys.pixels
        (FadeToColor.run sampleEnv ((List.range 254).map (fun (k : Nat) => 5125 + 125 * k))
          (FadeToColor.Finish sampleEnv 5000 false sampleFadeSys)).pixels) := by
  have hdueStart : sampleFadeSys.obj._animationStepIncrement
      ≤ elapsedSince 5000 sampleFadeSys.obj._lastUpdateTime := by decide
  have hlen : ((List.range 254).map (fun (k : Nat) => 5125 + 125 * k)).length = 254 := by simp
  obtain ⟨h1, h2, -⟩ := FadeToColor.finish_run sampleEnv 5000 false sampleFadeSys
    ((List.range 254).map (fun (k : Nat) => 5125 + 125 * k)) sampleFade_finish_allDue
    (by rw [if_pos hdueStart, hlen])
  rw [if_pos hdueStart, hlen] at h1 h2
  have h1b : brightnessLevels (callsSince sampleFadeSys.pixels
        (FadeToColor.run sampleEnv ((List.range 254).map (fun (k : Nat) => 5125 + 125 * k))
          (FadeToColor.Finish sampleEnv 5000 false sampleFadeSys)).pixels)
      = (List.range 255).map (fun (j : Nat) => 255 - (j : Int)) ++ [255] := by
    rw [h1]; rfl
  refine ⟨sampleFade_finish_allDue, ?_, h1b, ?_⟩
  · show (FadeToColor.run sampleEnv _ _).obj._active = false
    rw [h2]; rfl
  · rw [h1b]
    simp only [List.mem_append, List.mem_map, List.mem_range, List.mem_singleton]
    rintro (⟨j, hj, hj2⟩ | h)
    · omega
    · omega

/-- C15, amended. After `FadeToColor::Finish` the brightness levels applied
by successive due steps, the first of them the step inside `Finish` when its
`Continue` is due, are `255, 254, ..., 1`, strictly decreasing; the step that
applies level 1 leaves the object inactive, sets every element of
`[first,last]` to the off-colour and sets the brightness back to 255.  Level 0
is never applied. -/
theorem fade_out_levels (e : Env) (now : Nat) (topToBottom : Bool)
    (s : Sys FadeToColor) (ts : List Nat)
    (hdue : FadeToColor.allDue e ts (FadeToColor.Finish e now topToBottom s) = true)
    (hm : (if s.obj._animationStepIncrement ≤ elapsedSince now s.obj._lastUpdateTime
      then 1 else 0) + ts.length ≤ 255) :
    brightnessLevels (callsSince s.pixels
        (FadeToColor.run e ts (FadeToColor.Finish e now topToBottom s)).pixels)
      = (List.range ((if s.obj._animationStepIncrement
              ≤ elapsedSince now s.obj._lastUpdateTime then 1 else 0)
            + ts.length)).map (fun (j : Nat) => 255 - (j : Int))
        ++ (if (if s.obj._animationStepIncrement
              ≤ elapsedSince now s.obj._lastUpdateTime then 1 else 0)
            + ts.length = 255 then [255] else []) ∧
    (0 : Int) ∉ brightnessLevels (callsSince s.pixels
        (FadeToColor.run e ts (FadeToColor.Finish e now topToBottom s)).pixels) ∧
    (FadeToColor.run e ts (FadeToColor.Finish e now topToBottom s)).obj.Active
      = decide ((if s.obj._animationStepIncrement
            ≤ elapsedSince now s.obj._lastUpdateTime then 1 else 0)
          + ts.length < 255) ∧
    ((if s.obj._animationStepIncrement ≤ elapsedSince now s.obj._lastUpdateTime then 1 else 0)
        + ts.length = 255 →
      (FadeToColor.run e ts (FadeToColor.Finish e now topToBottom s)).pixels.brightness = 255 ∧
      ∀ i, s.obj._firstLED ≤ i → i ≤ s.obj._lastLED →
        (FadeToColor.run e ts (FadeToColor.Finish e now topToBottom s)).pixels.color i
          = e.offColor) := by
  obtain ⟨h1, h2, h3⟩ := FadeToColor.finish_run e now topToBottom s ts hdue hm
  refine ⟨h1, ?_, h2, h3⟩
  rw [h1]
  simp only [List.mem_append, List.mem_map, List.mem_range]
  rintro (⟨j, hj, hj2⟩ | h)
  · omega
  · split_ifs at h <;> simp at h

theorem fade_out_levels_witness :
    brightnessLevels (callsSince sampleFadeSys.pixels
        (FadeToColor.run sampleEnv [5125, 5250]
          (FadeToColor.Finish sampleEnv 5000 false sampleFadeSys)).pixels)
      = (List.range ((if sampleFadeSys.obj._animationStepIncrement
              ≤ elapsedSince 5000 sampleFadeSys.obj._lastUpdateTime then 1 else 0)
            + [5125, 5250].length)).map (fun (j : Nat) => 255 - (j : Int))
        ++ (if (if sampleFadeSys.obj._animationStepIncrement
              ≤ elapsedSince 5000 sampleFadeSys.obj._lastUpdateTime then 1 else 0)
            + [5125, 5250].length = 255 then [255] else []) :=
  (fade_out_levels sampleEnv 5000 false sampleFadeSys [5125, 5250] (by decide) (by decide)).1

/-! ## Marquee -/

theorem sampleMarqueeSys_fields :
    sampleMarqueeSys.obj._firstLED = 1 ∧ sampleMarqueeSys.obj._lastLED = 30 ∧
    sampleMarqueeSys.obj.marqueeQuanta = 4 ∧
    sampleMarqueeSys.obj._animationStepIncrement = 150 := by
  decide!

theorem mem_strideRange (start last step i : Int) (h : 0 < step) (l : List Int)
    (hl : strideRange start last step = some l) :
    i ∈ l ↔ start ≤ i ∧ i ≤ last ∧ (i - start) % step = 0 := by
  unfold strideRange at hl
  by_cases hs : start > last
  · rw [if_pos hs] at hl
    simp only [Option.some.injEq] at hl
    subst hl
    simp only [List.not_mem_nil, false_iff]
    omega
  · rw [if_neg hs, if_neg (not_le.mpr h)] at hl
    simp only [Option.some.injEq] at hl
    subst hl
    have hnn : 0 ≤ (last - start) / step := Int.ediv_nonneg (by omega) (le_of_lt h)
    simp only [List.mem_map, List.mem_range]
    constructor
    · rintro ⟨k, hk, rfl⟩
      have hk2 : (k : Int) ≤ (last - start) / step := by omega
      have h1 : (k : Int) * step ≤ (last - start) / step * step :=
        Int.mul_le_mul_of_nonneg_right hk2 (le_of_lt h)
      have h2 : (last - start) / step * step ≤ last - start := Int.ediv_mul_le _ (ne_of_gt h)
      have h3 : 0 ≤ (k : Int) * step := Int.mul_nonneg (Int.ofNat_nonneg k) (le_of_lt h)
      refine ⟨by omega, by omega, ?_⟩
      have : start + (k : Int) * step - start = (k : Int) * step := by ring
      rw [this, Int.mul_emod_left]
    · rintro ⟨h1, h2, h3⟩
      have hq : 0 ≤ (i - start) / step := Int.ediv_nonneg (by omega) (le_of_lt h)
      have hle : (i - start) / step ≤ (last - start) / step :=
        Int.ediv_le_ediv h (by omega)
      refine ⟨((i - start) / step).toNat, by omega, ?_⟩
      have hdecomp := Int.ediv_add_emod (i - start) step
      rw [h3] at hdecomp
      have : (((i - start) / step).toNat : Int) = (i - start) / step := Int.toNat_of_nonneg hq
      rw [this]
      linarith [Int.mul_comm step ((i - start) / step)]

theorem strideRange_isSome (start last step : Int) (h : 0 < step) :
    ∃ l, strideRange start last step = some l := by
  unfold strideRange
  split_ifs
  · exact ⟨_, rfl⟩
  · omega
  · exact ⟨_, rfl⟩

/-- The offset arithmetic of `Marquee::Continue` is a step modulo the quantum. -/
theorem marquee_offset_step (q o inc : Int) (hq : 1 ≤ q) (ho : 0 ≤ o ∧ o < q)
    (hinc : inc = 1 ∨ inc = -1) :
    (if (if o + inc < 0 then q - 1 else o + inc) ≥ q then 0
      else (if o + inc < 0 then q - 1 else o + inc)) = (o + inc) % q ∧
    0 ≤ (o + inc) % q ∧ (o + inc) % q < q := by
  have hpos : 0 < q := by omega
  refine ⟨?_, Int.emod_nonneg _ (by omega), Int.emod_lt_of_pos _ hpos⟩
  rcases hinc with h | h
  · subst h
    by_cases hw : o + 1 = q
    · have he : (o + 1) % q = 0 := by rw [hw, Int.emod_self]
      rw [he]
      split_ifs <;> omega
    · have he : (o + 1) % q = o + 1 := Int.emod_eq_of_lt (by omega) (by omega)
      rw [he]
      split_ifs <;> omega
  · subst h
    by_cases hz : o = 0
    · have he : (o + -1) % q = q - 1 := by
        have h1 : (o + -1) % q = (o + -1 + q) % q := by
          rw [Int.add_emod_self]
        rw [h1, Int.emod_eq_of_lt (by omega) (by omega)]
        omega
      rw [he]
      split_ifs <;> omega
    · have he : (o + -1) % q = o + -1 := Int.emod_eq_of_lt (by omega) (by omega)
      rw [he]
      split_ifs <;> omega

/-- A due `Continue` of an active `Marquee` with a positive quantum returns:
it relights the marked subset, steps the offset and darkens the new subset. -/
theorem Marquee.marquee_Continue_due (e : Env) (now : Nat) (s : Sys Marquee)
    (ha : s.obj._active = true)
    (hd : s.obj._animationStepIncrement ≤ elapsedSince now s.obj._lastUpdateTime)
    (hq : 1 ≤ s.obj.marqueeQuanta) :
    ∃ turnOn turnOff offset,
      offset = (if (if s.obj._marqueeOffset + s.obj._marqueeInc < 0
            then s.obj.marqueeQuanta - 1 else s.obj._marqueeOffset + s.obj._marqueeInc)
          ≥ s.obj.marqueeQuanta then 0
        else (if s.obj._marqueeOffset + s.obj._marqueeInc < 0
            then s.obj.marqueeQuanta - 1 else s.obj._marqueeOffset + s.obj._marqueeInc)) ∧
      strideRange (s.obj._firstLED + s.obj._marqueeOffset) s.obj._lastLED s.obj.marqueeQuanta
        = some turnOn ∧
      strideRange (s.obj._firstLED + offset) s.obj._lastLED s.obj.marqueeQuanta
        = some turnOff ∧
      Marquee.Continue e now s = some
        { s with
          pixels :=
            (turnOff.foldl (fun acc i => acc.setPixelColor i e.offColor)
              (turnOn.foldl (fun acc i => acc.setPixelColor i s.obj._colorToUse)
                s.pixels)).showStrip
          obj := { s.obj with _marqueeOffset := offset, _lastUpdateTime := now } } := by
  obtain ⟨turnOn, h1⟩ := strideRange_isSome (s.obj._firstLED + s.obj._marqueeOffset)
    s.obj._lastLED s.obj.marqueeQuanta (by omega)
  obtain ⟨turnOff, h2⟩ := strideRange_isSome (s.obj._firstLED +
    (if (if s.obj._marqueeOffset + s.obj._marqueeInc < 0
            then s.obj.marqueeQuanta - 1 else s.obj._marqueeOffset + s.obj._marqueeInc)
          ≥ s.obj.marqueeQuanta then 0
        else (if s.obj._marqueeOffset + s.obj._marqueeInc < 0
            then s.obj.marqueeQuanta - 1 else s.obj._marqueeOffset + s.obj._marqueeInc)))
    s.obj._lastLED s.obj.marqueeQuanta (by omega)
  refine ⟨turnOn, turnOff, _, rfl, h1, h2, ?_⟩
  simp only [Marquee.Continue, ha, Bool.not_true, Bool.false_eq_true, if_false,
    not_lt.mpr hd, h1, h2]

theorem emod_eq_iff_shift (first i q o : Int) (hq : 0 < q) (ho : 0 ≤ o ∧ o < q)
    (hi : first ≤ i) :
    (i - first) % q = o ↔ first + o ≤ i ∧ (i - (first + o)) % q = 0 := by
  constructor
  · intro h
    have hdec := Int.ediv_add_emod (i - first) q
    rw [h] at hdec
    have hk : 0 ≤ (i - first) / q := Int.ediv_nonneg (by omega) (le_of_lt hq)
    have hmul : 0 ≤ q * ((i - first) / q) := Int.mul_nonneg (le_of_lt hq) hk
    refine ⟨by omega, ?_⟩
    have : i - (first + o) = q * ((i - first) / q) := by omega
    rw [this, Int.mul_emod_right]
  · rintro ⟨h1, h2⟩
    have hdec := Int.ediv_add_emod (i - (first + o)) q
    rw [h2] at hdec
    have : i - first = o + q * ((i - (first + o)) / q) := by omega
    rw [this, Int.add_mul_emod_self_left, Int.emod_eq_of_lt ho.1 ho.2]

/-- The picture after a due step and what the step keeps. -/
theorem Marquee.Continue_due_pattern (e : Env) (now : Nat) (s : Sys Marquee)
    (hr : Marquee.Ready s)
    (hd : s.obj._animationStepIncrement ≤ elapsedSince now s.obj._lastUpdateTime) :
    ∃ s1, Marquee.Continue e now s = some s1 ∧ Marquee.Ready s1 ∧ Marquee.Patterned e s1 ∧
      s1.obj._marqueeOffset = (s.obj._marqueeOffset + s.obj._marqueeInc) % s.obj.marqueeQuanta ∧
      s1.obj._firstLED = s.obj._firstLED ∧ s1.obj._lastLED = s.obj._lastLED ∧
      s1.obj.marqueeQuanta = s.obj.marqueeQuanta ∧ s1.obj._marqueeInc = s.obj._marqueeInc ∧
      s1.obj._colorToUse = s.obj._colorToUse ∧
      s1.obj._animationStepIncrement = s.obj._animationStepIncrement ∧
      s1.obj._lastUpdateTime = now := by
  obtain ⟨ha, hq, ho1, ho2, hinc, hcol⟩ := hr
  obtain ⟨turnOn, turnOff, offset, hoff, hon, hoff2, hstep⟩ :=
    Marquee.marquee_Continue_due e now s ha hd hq
  obtain ⟨hoffEq, hoffNonneg, hoffLt⟩ :=
    marquee_offset_step s.obj.marqueeQuanta s.obj._marqueeOffset s.obj._marqueeInc hq
      ⟨ho1, ho2⟩ hinc
  have hoffset : offset = (s.obj._marqueeOffset + s.obj._marqueeInc) % s.obj.marqueeQuanta :=
    hoff.trans hoffEq
  have hpos : 0 < s.obj.marqueeQuanta := by omega
  have hpat : ∀ i, s.obj._firstLED ≤ i → i ≤ s.obj._lastLED →
      ((turnOff.foldl (fun acc i => acc.setPixelColor i e.offColor)
          (turnOn.foldl (fun acc i => acc.setPixelColor i s.obj._colorToUse)
            s.pixels)).showStrip).color i
        = if (i - s.obj._firstLED) % s.obj.marqueeQuanta = offset then e.offColor
          else s.obj._colorToUse := by
    intro i h1 h2
    have hmemOff : i ∈ turnOff ↔ (i - s.obj._firstLED) % s.obj.marqueeQuanta = offset := by
      rw [mem_strideRange _ _ _ i hpos turnOff hoff2,
        emod_eq_iff_shift _ _ _ _ hpos ⟨by rw [hoffset]; exact hoffNonneg,
          by rw [hoffset]; exact hoffLt⟩ h1]
      constructor
      · rintro ⟨a, _, c⟩; exact ⟨a, c⟩
      · rintro ⟨a, c⟩; exact ⟨a, h2, c⟩
    have hmemOn : i ∈ turnOn ↔
        (i - s.obj._firstLED) % s.obj.marqueeQuanta = s.obj._marqueeOffset := by
      rw [mem_strideRange _ _ _ i hpos turnOn hon,
        emod_eq_iff_shift _ _ _ _ hpos ⟨ho1, ho2⟩ h1]
      constructor
      · rintro ⟨a, _, c⟩; exact ⟨a, c⟩
      · rintro ⟨a, c⟩; exact ⟨a, h2, c⟩
    show (turnOff.foldl (fun acc i => acc.setPixelColor i e.offColor)
          (turnOn.foldl (fun acc i => acc.setPixelColor i s.obj._colorToUse)
            s.pixels)).color i = _
    rw [foldl_setPixelColor_color (fun _ => e.offColor),
      foldl_setPixelColor_color (fun _ => s.obj._colorToUse)]
    by_cases hm : (i - s.obj._firstLED) % s.obj.marqueeQuanta = offset
    · rw [if_pos (hmemOff.2 hm), if_pos hm]
    · rw [if_neg (fun h => hm (hmemOff.1 h)), if_neg hm]
      by_cases hn : (i - s.obj._firstLED) % s.obj.marqueeQuanta = s.obj._marqueeOffset
      · rw [if_pos (hmemOn.2 hn)]
      · rw [if_neg (fun h => hn (hmemOn.1 h))]
        exact hcol i h1 h2 hn
  refine ⟨_, hstep, ?_, ?_, hoffset, rfl, rfl, rfl, rfl, rfl, rfl, rfl⟩
  · refine ⟨ha, hq, ?_, ?_, hinc, ?_⟩
    · show 0 ≤ offset
      rw [hoffset]; exact hoffNonneg
    · show offset < _
      rw [hoffset]; exact hoffLt
    · intro i h1 h2 h3
      have := hpat i h1 h2
      rw [if_neg h3] at this
      exact this
  · intro i h1 h2
    exact hpat i h1 h2

theorem Marquee.Continue_not_due (e : Env) (now : Nat) (s : Sys Marquee)
    (ha : s.obj._active = true)
    (hd : elapsedSince now s.obj._lastUpdateTime < s.obj._animationStepIncrement) :
    Marquee.Continue e now s = some s := by
  simp [Marquee.Continue, ha, hd]

/-- One `Continue`, due or not, of a running `Marquee` returns and keeps it
running; the configuration is untouched and a picture once drawn stays one. -/
theorem Marquee.Continue_ready (e : Env) (now : Nat) (s : Sys Marquee)
    (hr : Marquee.Ready s) :
    ∃ s1, Marquee.Continue e now s = some s1 ∧ Marquee.Ready s1 ∧
      s1.obj._firstLED = s.obj._firstLED ∧ s1.obj._lastLED = s.obj._lastLED ∧
      s1.obj.marqueeQuanta = s.obj.marqueeQuanta ∧ s1.obj._marqueeInc = s.obj._marqueeInc ∧
      s1.obj._colorToUse = s.obj._colorToUse ∧
      s1.obj._animationStepIncrement = s.obj._animationStepIncrement ∧
      (Marquee.Patterned e s → Marquee.Patterned e s1) := by
  by_cases hd : s.obj._animationStepIncrement ≤ elapsedSince now s.obj._lastUpdateTime
  · obtain ⟨s1, h1, h2, h3, _, h5, h6, h7, h8, h9, h10, _⟩ :=
      Marquee.Continue_due_pattern e now s hr hd
    exact ⟨s1, h1, h2, h5, h6, h7, h8, h9, h10, fun _ => h3⟩
  · exact ⟨s, Marquee.Continue_not_due e now s hr.1 (by omega), hr, rfl, rfl, rfl, rfl, rfl,
      rfl, fun h => h⟩

theorem Marquee.run_ready (e : Env) (ts : List Nat) :
    ∀ s : Sys Marquee, Marquee.Ready s →
    ∃ s1, Marquee.run e ts s = some s1 ∧ Marquee.Ready s1 ∧
      s1.obj._firstLED = s.obj._firstLED ∧ s1.obj._lastLED = s.obj._lastLED ∧
      s1.obj.marqueeQuanta = s.obj.marqueeQuanta ∧ s1.obj._marqueeInc = s.obj._marqueeInc ∧
      s1.obj._colorToUse = s.obj._colorToUse ∧
      s1.obj._animationStepIncrement = s.obj._animationStepIncrement ∧
      (Marquee.Patterned e s → Marquee.Patterned e s1) := by
  induction ts with
  | nil =>
    intro s hr
    exact ⟨s, rfl, hr, rfl, rfl, rfl, rfl, rfl, rfl, fun h => h⟩
  | cons now rest ih =>
    intro s hr
    obtain ⟨s1, h1, h2, h3, h4, h5, h6, h7, h8, h9⟩ := Marquee.Continue_ready e now s hr
    obtain ⟨s2, k1, k2, k3, k4, k5, k6, k7, k8, k9⟩ := ih s1 h2
    refine ⟨s2, ?_, k2, k3.trans h3, k4.trans h4, k5.trans h5, k6.trans h6, k7.trans h7,
      k8.trans h8, fun h => k9 (h9 h)⟩
    simp only [Marquee.run, h1]
    exact k1

/-- What `Start` leaves: a running `Marquee` at the requested colour and
direction, with the picture drawn when the `Continue` it ends with was due. -/
theorem Marquee.Start_ready (e : Env) (now : Nat) (topToBottom : Bool) (colorToUse : Rgb)
    (s : Sys Marquee) (hq : 1 ≤ s.obj.marqueeQuanta) :
    ∃ s1, Marquee.Start e now topToBottom colorToUse s = some s1 ∧ Marquee.Ready s1 ∧
      s1.obj._firstLED = s.obj._firstLED ∧ s1.obj._lastLED = s.obj._lastLED ∧
      s1.obj.marqueeQuanta = s.obj.marqueeQuanta ∧
      s1.obj._marqueeInc = (if topToBottom then -1 else 1) ∧
      s1.obj._colorToUse = colorToUse ∧
      s1.obj._animationStepIncrement = s.obj._animationStepIncrement ∧
      (s.obj._animationStepIncrement ≤ elapsedSince now s.obj._lastUpdateTime →
        Marquee.Patterned e s1 ∧
        s1.obj._marqueeOffset = (if topToBottom then -1 else 1) % s.obj.marqueeQuanta) ∧
      (elapsedSince now s.obj._lastUpdateTime < s.obj._animationStepIncrement →
        s1.obj._marqueeOffset = 0) := by
  have hr : Marquee.Ready
      { s with
        obj :=
          { s.obj with
            _topToBottom := topToBottom
            _colorToUse := colorToUse
            _active := true
            _marqueeInc := if topToBottom then -1 else 1
            _marqueeOffset := 0 }
        pixels :=
          Animation.setAllPixelsTo
            { s.obj with
              _topToBottom := topToBottom
              _colorToUse := colorToUse
              _active := true
              _marqueeInc := if topToBottom then -1 else 1
              _marqueeOffset := 0 }.toAnimation
            (s.pixels.setBrightness e.mappedBrightness) colorToUse true } := by
    refine ⟨rfl, hq, le_refl _, ?_, ?_, ?_⟩
    · show (0 : Int) < s.obj.marqueeQuanta
      omega
    · show (if topToBottom then (-1 : Int) else 1) = 1 ∨ (if topToBottom then (-1 : Int) else 1) = -1
      cases topToBottom <;> simp
    · intro i h1 h2 _
      show (Animation.setAllPixelsTo _ _ colorToUse true).color i = colorToUse
      rw [Animation.setAllPixelsTo_color]
      exact if_pos ⟨h1, h2⟩
  by_cases hd : s.obj._animationStepIncrement ≤ elapsedSince now s.obj._lastUpdateTime
  · obtain ⟨s1, h1, h2, h3, h4, h5, h6, h7, h8, h9, h10, _⟩ :=
      Marquee.Continue_due_pattern e now _ hr hd
    refine ⟨s1, h1, h2, h5, h6, h7, h8, h9, h10, fun _ => ⟨h3, ?_⟩, fun h => ?_⟩
    · rw [h4]
      show ((0 : Int) + (if topToBottom then (-1 : Int) else 1)) % s.obj.marqueeQuanta = _
      rw [Int.zero_add]
    · exact absurd hd (by omega)
  · refine ⟨_, ?_, hr, rfl, rfl, rfl, rfl, rfl, rfl, fun h => absurd h hd, fun _ => rfl⟩
    exact Marquee.Continue_not_due e now _ hr.1 (lt_of_not_le hd)

/-- The constructor gives a quantum of at least one on a non-empty range. -/
theorem marqueeQuantaFor_pos (firstLED lastLED : Int) (h : firstLED ≤ lastLED) :
    1 ≤ marqueeQuantaFor firstLED lastLED := by
  unfold marqueeQuantaFor
  have hq : (0 : ℚ) ≤ ((lastLED - firstLED : Int) : ℚ) / 10 := by
    apply div_nonneg
    · exact_mod_cast (by omega : (0 : Int) ≤ lastLED - firstLED)
    · norm_num
  have hr : 0 ≤ round (((lastLED - firstLED : Int) : ℚ) / 10) := by
    unfold Stairway.round
    rw [if_pos hq]
    apply Int.floor_nonneg.2
    linarith
  simp only
  split_ifs <;> omega

/-- The elements of a stride are pairwise different. -/
theorem nodup_strideRange (start last step : Int) (h : 0 < step) (l : List Int)
    (hl : strideRange start last step = some l) : l.Nodup := by
  unfold strideRange at hl
  by_cases hs : start > last
  · rw [if_pos hs] at hl
    simp only [Option.some.injEq] at hl
    subst hl
    exact List.nodup_nil
  · rw [if_neg hs, if_neg (by omega)] at hl
    simp only [Option.some.injEq] at hl
    subst hl
    apply List.Nodup.map _ (List.nodup_range _)
    intro a b hab
    have hab2 : (a : Int) * step = (b : Int) * step := by
      simpa using hab
    have := Int.eq_of_mul_eq_mul_right (by omega : step ≠ 0) hab2
    exact_mod_cast this

theorem length_strideRange (start last step : Int) (l : List Int)
    (hl : strideRange start last step = some l) :
    (l.length : Int) = if start > last then 0 else (last - start) / step + 1 := by
  unfold strideRange at hl
  by_cases hs : start > last
  · rw [if_pos hs] at hl
    simp only [Option.some.injEq] at hl
    subst hl
    simp [hs]
  · rw [if_neg hs] at hl
    by_cases hp : step ≤ 0
    · rw [if_pos hp] at hl
      exact absurd hl (by simp)
    · rw [if_neg hp] at hl
      simp only [Option.some.injEq] at hl
      subst hl
      rw [if_neg hs, List.length_map, List.length_range]
      have : 0 ≤ (last - start) / step := Int.ediv_nonneg (by omega) (by omega)
      omega

/-- The ceiling of `(m + 1) / q` is the integer quotient of `m` by `q`, plus one. -/
theorem ceil_succ_div (m q : Int) (hq : 0 < q) :
    ⌈(((m + 1 : Int) : ℚ)) / ((q : Int) : ℚ)⌉ = m / q + 1 := by
  rw [Int.ceil_eq_iff]
  have hq2 : (0 : ℚ) < (q : ℚ) := by exact_mod_cast hq
  have h1 : q * (m / q) ≤ m := Int.mul_ediv_self_le (by omega)
  have h2 : m < q * (m / q) + q := by
    have := Int.lt_ediv_add_one_mul_self m hq
    linarith
  constructor
  · rw [lt_div_iff₀ hq2]
    push_cast
    have : ((q * (m / q) : Int) : ℚ) ≤ (m : ℚ) := by exact_mod_cast h1
    push_cast at this
    linarith
  · rw [div_le_iff₀ hq2]
    have : ((m + 1 : Int) : ℚ) ≤ ((q * (m / q) + q : Int) : ℚ) := by exact_mod_cast h2
    push_cast at this ⊢
    linarith

/-- How many elements of `[first, last]` sit at distance `o` modulo `q`. -/
theorem length_filter_residue (first last q o : Int) (hq : 0 < q) (ho : 0 ≤ o ∧ o < q) :
    (((ledRange first last).filter (fun i => decide ((i - first) % q = o))).length : Int)
      = if first + o > last then 0 else (last - (first + o)) / q + 1 := by
  obtain ⟨l, hl⟩ := strideRange_isSome (first + o) last q hq
  rw [← length_strideRange _ _ _ l hl]
  congr 1
  apply List.Perm.length_eq
  rw [List.perm_ext_iff_of_nodup ((nodup_ledRange first last).filter _)
    (nodup_strideRange _ _ _ hq l hl)]
  intro i
  rw [List.mem_filter, mem_ledRange, mem_strideRange _ _ _ i hq l hl, decide_eq_true_eq]
  constructor
  · rintro ⟨⟨h1, h2⟩, h3⟩
    have := (emod_eq_iff_shift first i q o hq ho h1).1 h3
    exact ⟨this.1, h2, this.2⟩
  · rintro ⟨h1, h2, h3⟩
    have hfi : first ≤ i := by omega
    exact ⟨⟨hfi, h2⟩, (emod_eq_iff_shift first i q o hq ho hfi).2 ⟨h1, h3⟩⟩

theorem length_ledRange (first last : Int) :
    ((ledRange first last).length : Int) = if first ≤ last + 1 then last + 1 - first else 0 := by
  unfold ledRange
  rw [List.length_map, List.length_range]
  split_ifs <;> omega

/-- The counts in a drawn `Marquee` picture whose on-colour is not the
off-colour: every element of the range is lit or dark, and the dark ones are
the ceiling of length over quantum, or one fewer. -/
theorem Marquee.Patterned_counts (e : Env) (s : Sys Marquee) (hp : Marquee.Patterned e s)
    (hne : s.obj._colorToUse ≠ e.offColor) (hq : 1 ≤ s.obj.marqueeQuanta)
    (ho : 0 ≤ s.obj._marqueeOffset ∧ s.obj._marqueeOffset < s.obj.marqueeQuanta)
    (hfl : s.obj._firstLED ≤ s.obj._lastLED) :
    ((countColor s.pixels s.obj._firstLED s.obj._lastLED s.obj._colorToUse : Nat) : Int)
        + (countColor s.pixels s.obj._firstLED s.obj._lastLED e.offColor : Nat)
      = s.obj._lastLED - s.obj._firstLED + 1 ∧
    ⌈(((s.obj._lastLED - s.obj._firstLED + 1 : Int) : ℚ)) / ((s.obj.marqueeQuanta : Int) : ℚ)⌉ - 1
      ≤ (countColor s.pixels s.obj._firstLED s.obj._lastLED e.offColor : Nat) ∧
    ((countColor s.pixels s.obj._firstLED s.obj._lastLED e.offColor : Nat) : Int)
      ≤ ⌈(((s.obj._lastLED - s.obj._firstLED + 1 : Int) : ℚ)) / ((s.obj.marqueeQuanta : Int) : ℚ)⌉ := by
  have hpos : 0 < s.obj.marqueeQuanta := by omega
  have hoffF : (ledRange s.obj._firstLED s.obj._lastLED).filter
        (fun i => decide (s.pixels.color i = e.offColor))
      = (ledRange s.obj._firstLED s.obj._lastLED).filter
        (fun i => decide ((i - s.obj._firstLED) % s.obj.marqueeQuanta = s.obj._marqueeOffset)) := by
    apply List.filter_congr
    intro i hi
    rw [mem_ledRange] at hi
    have := hp i hi.1 hi.2
    by_cases hc : (i - s.obj._firstLED) % s.obj.marqueeQuanta = s.obj._marqueeOffset
    · rw [if_pos hc] at this
      simp [this, hc]
    · rw [if_neg hc] at this
      simp [this, hc, hne]
  have honF : (ledRange s.obj._firstLED s.obj._lastLED).filter
        (fun i => decide (s.pixels.color i = s.obj._colorToUse))
      = (ledRange s.obj._firstLED s.obj._lastLED).filter
        (fun i => !decide ((i - s.obj._firstLED) % s.obj.marqueeQuanta = s.obj._marqueeOffset)) := by
    apply List.filter_congr
    intro i hi
    rw [mem_ledRange] at hi
    have := hp i hi.1 hi.2
    by_cases hc : (i - s.obj._firstLED) % s.obj.marqueeQuanta = s.obj._marqueeOffset
    · rw [if_pos hc] at this
      simp [this, hc, Ne.symm hne]
    · rw [if_neg hc] at this
      simp [this, hc]
  have hlen := length_filter_residue s.obj._firstLED s.obj._lastLED s.obj.marqueeQuanta
    s.obj._marqueeOffset hpos ho
  have hsum := List.length_eq_length_filter_add (l := ledRange s.obj._firstLED s.obj._lastLED)
    (fun i => decide ((i - s.obj._firstLED) % s.obj.marqueeQuanta = s.obj._marqueeOffset))
  have hall := length_ledRange s.obj._firstLED s.obj._lastLED
  rw [if_pos (by omega)] at hall
  have hceil : ⌈(((s.obj._lastLED - s.obj._firstLED + 1 : Int) : ℚ))
        / ((s.obj.marqueeQuanta : Int) : ℚ)⌉
      = (s.obj._lastLED - s.obj._firstLED) / s.obj.marqueeQuanta + 1 :=
    ceil_succ_div _ _ hpos
  rw [hceil]
  unfold countColor
  rw [hoffF, honF]
  refine ⟨by omega, ?_, ?_⟩
  · rw [hlen]
    by_cases hb : s.obj._firstLED + s.obj._marqueeOffset > s.obj._lastLED
    · rw [if_pos hb]
      have : (s.obj._lastLED - s.obj._firstLED) / s.obj.marqueeQuanta = 0 :=
        Int.ediv_eq_zero_of_lt (by omega) (by omega)
      omega
    · rw [if_neg hb]
      have h1 : (s.obj._lastLED - s.obj._firstLED - s.obj.marqueeQuanta) / s.obj.marqueeQuanta
          ≤ (s.obj._lastLED - (s.obj._firstLED + s.obj._marqueeOffset)) / s.obj.marqueeQuanta :=
        Int.ediv_le_ediv hpos (by omega)
      have h2 : (s.obj._lastLED - s.obj._firstLED - s.obj.marqueeQuanta + 1 * s.obj.marqueeQuanta)
            / s.obj.marqueeQuanta
          = (s.obj._lastLED - s.obj._firstLED - s.obj.marqueeQuanta) / s.obj.marqueeQuanta + 1 :=
        Int.add_mul_ediv_right _ _ (by omega)
      have h3 : s.obj._lastLED - s.obj._firstLED - s.obj.marqueeQuanta + 1 * s.obj.marqueeQuanta
          = s.obj._lastLED - s.obj._firstLED := by ring
      rw [h3] at h2
      omega
  · rw [hlen]
    by_cases hb : s.obj._firstLED + s.obj._marqueeOffset > s.obj._lastLED
    · rw [if_pos hb]
      have : 0 ≤ (s.obj._lastLED - s.obj._firstLED) / s.obj.marqueeQuanta :=
        Int.ediv_nonneg (by omega) (by omega)
      omega
    · rw [if_neg hb]
      have h1 : (s.obj._lastLED - (s.obj._firstLED + s.obj._marqueeOffset)) / s.obj.marqueeQuanta
          ≤ (s.obj._lastLED - s.obj._firstLED) / s.obj.marqueeQuanta :=
        Int.ediv_le_ediv hpos (by omega)
      omega

/-- C17. From any object with a quantum of at least one, `Start` followed
by any number of `Continue` calls returns, and leaves an active object whose
offset lies in `[0, quantum)` with the quantum unchanged.  The step inside
`Start`, when due, moves the offset from 0 to `1 mod quantum` for
`topToBottom = false` and to `(-1) mod quantum` for `topToBottom = true`; every
later due `Continue` returns and replaces the offset by `(offset + 1) mod
quantum`, respectively `(offset - 1) mod quantum`, and afterwards the dark
elements of the range are exactly those at distance `offset` modulo the
quantum from `first`, the others holding the on-colour. -/
theorem marquee_offset_cycles (e : Env) (now0 : Nat) (topToBottom : Bool) (colorToUse : Rgb)
    (ts : List Nat) (s0 : Sys Marquee) (hq : 1 ≤ s0.obj.marqueeQuanta) :
    (∃ s, Marquee.Start e now0 topToBottom colorToUse s0 = some s ∧
      (s0.obj._animationStepIncrement ≤ elapsedSince now0 s0.obj._lastUpdateTime →
        s.obj._marqueeOffset
          = if topToBottom then (0 - 1) % s0.obj.marqueeQuanta
            else (0 + 1) % s0.obj.marqueeQuanta) ∧
      (elapsedSince now0 s0.obj._lastUpdateTime < s0.obj._animationStepIncrement →
        s.obj._marqueeOffset = 0)) ∧
    ∃ s, Marquee.startRun e now0 topToBottom colorToUse ts s0 = some s ∧
      s.obj._active = true ∧ s.obj.marqueeQuanta = s0.obj.marqueeQuanta ∧
      0 ≤ s.obj._marqueeOffset ∧ s.obj._marqueeOffset < s.obj.marqueeQuanta ∧
      ∀ now, s.obj._animationStepIncrement ≤ elapsedSince now s.obj._lastUpdateTime →
        ∃ s1, Marquee.Continue e now s = some s1 ∧
          s1.obj._marqueeOffset
            = (if topToBottom then (s.obj._marqueeOffset - 1) % s.obj.marqueeQuanta
               else (s.obj._marqueeOffset + 1) % s.obj.marqueeQuanta) ∧
          0 ≤ s1.obj._marqueeOffset ∧ s1.obj._marqueeOffset < s1.obj.marqueeQuanta ∧
          s1.obj.marqueeQuanta = s.obj.marqueeQuanta ∧
          ∀ i, s.obj._firstLED ≤ i → i ≤ s.obj._lastLED →
            s1.pixels.color i
              = if (i - s.obj._firstLED) % s.obj.marqueeQuanta = s1.obj._marqueeOffset
                then e.offColor else colorToUse := by
  obtain ⟨sa, h1, h2, h3, h4, h5, h6, h7, h8, h9, h10⟩ :=
    Marquee.Start_ready e now0 topToBottom colorToUse s0 hq
  obtain ⟨s, k1, k2, k3, k4, k5, k6, k7, k8, _⟩ := Marquee.run_ready e ts sa h2
  refine ⟨⟨sa, h1, fun hd => ?_, h10⟩, s, ?_, k2.1, k5.trans h5, k2.2.2.1, k2.2.2.2.1, ?_⟩
  · rw [(h9 hd).2]
    cases topToBottom <;> simp
  · simp only [Marquee.startRun, h1]
    exact k1
  · intro now hd
    obtain ⟨s1, j1, j2, j3, j4, j5, j6, j7, j8, j9, _, _⟩ :=
      Marquee.Continue_due_pattern e now s k2 hd
    refine ⟨s1, j1, ?_, j2.2.2.1, j2.2.2.2.1, j7, ?_⟩
    · rw [j4, k6, h6]
      cases topToBottom <;> simp
      rfl
    · intro i i1 i2
      have := j3 i (by omega) (by omega)
      rw [j5, j7, j9, k7, h7] at this
      exact this

theorem marquee_offset_cycles_witness :
    1 ≤ sampleMarqueeSys.obj.marqueeQuanta ∧
    ((∃ s, Marquee.Start sampleEnv 1150 false 255 sampleMarqueeSys = some s ∧
      (sampleMarqueeSys.obj._animationStepIncrement
          ≤ elapsedSince 1150 sampleMarqueeSys.obj._lastUpdateTime →
        s.obj._marqueeOffset
          = if false then (0 - 1) % sampleMarqueeSys.obj.marqueeQuanta
            else (0 + 1) % sampleMarqueeSys.obj.marqueeQuanta) ∧
      (elapsedSince 1150 sampleMarqueeSys.obj._lastUpdateTime
          < sampleMarqueeSys.obj._animationStepIncrement →
        s.obj._marqueeOffset = 0)) ∧
    ∃ s, Marquee.startRun sampleEnv 1150 false 255 [1200, 1300] sampleMarqueeSys = some s ∧
      s.obj._active = true ∧ s.obj.marqueeQuanta = sampleMarqueeSys.obj.marqueeQuanta ∧
      0 ≤ s.obj._marqueeOffset ∧ s.obj._marqueeOffset < s.obj.marqueeQuanta ∧
      ∀ now, s.obj._animationStepIncrement ≤ elapsedSince now s.obj._lastUpdateTime →
        ∃ s1, Marquee.Continue sampleEnv now s = some s1 ∧
          s1.obj._marqueeOffset
            = (if false then (s.obj._marqueeOffset - 1) % s.obj.marqueeQuanta
               else (s.obj._marqueeOffset + 1) % s.obj.marqueeQuanta) ∧
          0 ≤ s1.obj._marqueeOffset ∧ s1.obj._marqueeOffset < s1.obj.marqueeQuanta ∧
          s1.obj.marqueeQuanta = s.obj.marqueeQuanta ∧
          ∀ i, s.obj._firstLED ≤ i → i ≤ s.obj._lastLED →
            s1.pixels.color i
              = if (i - s.obj._firstLED) % s.obj.marqueeQuanta = s1.obj._marqueeOffset
                then sampleEnv.offColor else 255) :=
  ⟨by decide!, marquee_offset_cycles sampleEnv 1150 false 255 [1200, 1300] sampleMarqueeSys
    (by decide!)⟩
/-- C16, as stated, fails: on the range `[1,30]` with quantum 4 and on-colour
255 (off-colour 0), the due step inside `Start` leaves 22 elements at the
on-colour and the next due step 23, while the ceiling of 30/4 is 8. -/
theorem marquee_on_count_far_from_ceiling :
    (255 : Rgb) ≠ sampleEnv.offColor ∧
    sampleMarqueeSys.obj._firstLED = 1 ∧ sampleMarqueeSys.obj._lastLED = 30 ∧
    sampleMarqueeSys.obj.marqueeQuanta = 4 ∧
    (Marquee.startRun sampleEnv 1150 false 255 [] sampleMarqueeSys).map
      (fun s => countColor s.pixels 1 30 255) = some 22 ∧
    (Marquee.startRun sampleEnv 1150 false 255 [1300] sampleMarqueeSys).map
      (fun s => countColor s.pixels 1 30 255) = some 23 ∧
    ⌈(((30 - 1 + 1 : Int) : ℚ)) / ((4 : Int) : ℚ)⌉ = 8 := by
  refine ⟨by decide, by decide!, by decide!, by decide!, by decide!, by decide!, ?_⟩
  rw [Int.ceil_eq_iff]
  norm_num

/-- C16, amended. Started with an on-colour different from the off-colour
on a non-empty range with a quantum of at least one, `Start` followed by any
number of `Continue` calls returns; if the step inside `Start` was due, and
after every later due `Continue`, every element of the range holds the
on-colour or the off-colour, and the number holding the OFF-colour is the
ceiling of `(last - first + 1) / quantum` or one less (the on-colour holds
the rest). -/
theorem marquee_off_count (e : Env) (now0 : Nat) (topToBottom : Bool) (colorToUse : Rgb)
    (ts : List Nat) (s0 : Sys Marquee) (hq : 1 ≤ s0.obj.marqueeQuanta)
    (hfl : s0.obj._firstLED ≤ s0.obj._lastLED) (hne : colorToUse ≠ e.offColor) :
    ∃ s, Marquee.startRun e now0 topToBottom colorToUse ts s0 = some s ∧
      s.obj._colorToUse = colorToUse ∧ s.obj._firstLED = s0.obj._firstLED ∧
      s.obj._lastLED = s0.obj._lastLED ∧ s.obj.marqueeQuanta = s0.obj.marqueeQuanta ∧
      (s0.obj._animationStepIncrement ≤ elapsedSince now0 s0.obj._lastUpdateTime →
        Marquee.Counted e s) ∧
      ∀ now, s.obj._animationStepIncrement ≤ elapsedSince now s.obj._lastUpdateTime →
        ∃ s1, Marquee.Continue e now s = some s1 ∧
          s1.obj._colorToUse = colorToUse ∧ s1.obj._firstLED = s0.obj._firstLED ∧
          s1.obj._lastLED = s0.obj._lastLED ∧ s1.obj.marqueeQuanta = s0.obj.marqueeQuanta ∧
          Marquee.Counted e s1 := by
  obtain ⟨sa, h1, h2, h3, h4, h5, h6, h7, h8, h9, _⟩ :=
    Marquee.Start_ready e now0 topToBottom colorToUse s0 hq
  obtain ⟨s, k1, k2, k3, k4, k5, k6, k7, k8, k9⟩ := Marquee.run_ready e ts sa h2
  refine ⟨s, ?_, k7.trans h7, k3.trans h3, k4.trans h4, k5.trans h5, fun hd => ?_, ?_⟩
  · simp only [Marquee.startRun, h1]
    exact k1
  · exact Marquee.Patterned_counts e s (k9 (h9 hd).1) (by rw [k7, h7]; exact hne) k2.2.1
      ⟨k2.2.2.1, k2.2.2.2.1⟩ (by rw [k3, k4, h3, h4]; exact hfl)
  · intro now hd
    obtain ⟨s1, j1, j2, j3, j4, j5, j6, j7, j8, j9, _, _⟩ :=
      Marquee.Continue_due_pattern e now s k2 hd
    refine ⟨s1, j1, j9.trans (k7.trans h7), j5.trans (k3.trans h3), j6.trans (k4.trans h4),
      j7.trans (k5.trans h5), ?_⟩
    exact Marquee.Patterned_counts e s1 j3 (by rw [j9, k7, h7]; exact hne) j2.2.1
      ⟨j2.2.2.1, j2.2.2.2.1⟩ (by rw [j5, j6, k3, k4, h3, h4]; exact hfl)

theorem marquee_off_count_witness :
    1 ≤ sampleMarqueeSys.obj.marqueeQuanta ∧
    sampleMarqueeSys.obj._firstLED ≤ sampleMarqueeSys.obj._lastLED ∧
    (255 : Rgb) ≠ sampleEnv.offColor ∧
    ∃ s, Marquee.startRun sampleEnv 1150 false 255 [1200, 1300] sampleMarqueeSys = some s ∧
      s.obj._colorToUse = 255 ∧ s.obj._firstLED = sampleMarqueeSys.obj._firstLED ∧
      s.obj._lastLED = sampleMarqueeSys.obj._lastLED ∧
      s.obj.marqueeQuanta = sampleMarqueeSys.obj.marqueeQuanta ∧
      (sampleMarqueeSys.obj._animationStepIncrement
          ≤ elapsedSince 1150 sampleMarqueeSys.obj._lastUpdateTime →
        Marquee.Counted sampleEnv s) ∧
      ∀ now, s.obj._animationStepIncrement ≤ elapsedSince now s.obj._lastUpdateTime →
        ∃ s1, Marquee.Continue sampleEnv now s = some s1 ∧
          s1.obj._colorToUse = 255 ∧ s1.obj._firstLED = sampleMarqueeSys.obj._firstLED ∧
          s1.obj._lastLED = sampleMarqueeSys.obj._lastLED ∧
          s1.obj.marqueeQuanta = sampleMarqueeSys.obj.marqueeQuanta ∧
          Marquee.Counted sampleEnv s1 :=
  ⟨by decide!, by decide!, by decide,
    marquee_off_count sampleEnv 1150 false 255 [1200, 1300] sampleMarqueeSys (by decide!)
      (by decide!) (by decide)⟩

/-! ## Patterns that never stop on their own -/

theorem ColorSwirl.colorSwirl_Continue_active (e : Env) (now : Nat) (s s1 : Sys ColorSwirl)
    (h : ColorSwirl.Continue e now s = some s1) : s1.obj._active = s.obj._active := by
  simp only [ColorSwirl.Continue] at h
  split at h
  · simp only [Option.some.injEq] at h
    rw [← h]
  · split at h
    · simp only [Option.some.injEq] at h
      rw [← h]
    · split at h
      · exact absurd h (by simp)
      · simp only [Option.some.injEq] at h
        rw [← h]

theorem ColorSwirl.colorSwirl_Continue_isSome (e : Env) (now : Nat) (s : Sys ColorSwirl)
    (hr : s.obj._lastLED ≠ s.obj._firstLED) : ∃ s1, ColorSwirl.Continue e now s = some s1 := by
  simp only [ColorSwirl.Continue, ColorSwirl.paint, if_neg hr]
  split
  · exact ⟨_, rfl⟩
  · split
    · exact ⟨_, rfl⟩
    · exact ⟨_, rfl⟩

theorem Marquee.marquee_Continue_active (e : Env) (now : Nat) (s s1 : Sys Marquee)
    (h : Marquee.Continue e now s = some s1) : s1.obj._active = s.obj._active := by
  simp only [Marquee.Continue] at h
  split at h
  · simp only [Option.some.injEq] at h
    rw [← h]
  · split at h
    · simp only [Option.some.injEq] at h
      rw [← h]
    · split at h
      · exact absurd h (by simp)
      · split at h
        · exact absurd h (by simp)
        · simp only [Option.some.injEq] at h
          rw [← h]

theorem Marquee.marquee_Continue_isSome (e : Env) (now : Nat) (s : Sys Marquee)
    (hq : 1 ≤ s.obj.marqueeQuanta) : ∃ s1, Marquee.Continue e now s = some s1 := by
  obtain ⟨l1, h1⟩ := strideRange_isSome (s.obj._firstLED + s.obj._marqueeOffset) s.obj._lastLED
    s.obj.marqueeQuanta (by omega)
  simp only [Marquee.Continue, h1]
  split
  · exact ⟨_, rfl⟩
  · split
    · exact ⟨_, rfl⟩
    · split
      · rename_i hn
        obtain ⟨l2, h2⟩ := strideRange_isSome
          (s.obj._firstLED +
            (if (if s.obj._marqueeOffset + s.obj._marqueeInc < 0 then s.obj.marqueeQuanta - 1
                else s.obj._marqueeOffset + s.obj._marqueeInc) ≥ s.obj.marqueeQuanta then 0
              else (if s.obj._marqueeOffset + s.obj._marqueeInc < 0 then s.obj.marqueeQuanta - 1
                else s.obj._marqueeOffset + s.obj._marqueeInc)))
          s.obj._lastLED s.obj.marqueeQuanta (by omega)
        rw [h2] at hn
        exact absurd hn (by simp)
      · exact ⟨_, rfl⟩

theorem ZipR.zipR_Continue_active (e : Env) (now : Nat) (s s1 : Sys ZipR)
    (h : ZipR.Continue e now s = some s1) : s1.obj._active = s.obj._active := by
  simp only [ZipR.Continue] at h
  split at h
  · simp only [Option.some.injEq] at h
    rw [← h]
  · split at h
    · simp only [Option.some.injEq] at h
      rw [← h]
    · split at h
      · exact absurd h (by simp)
      · rename_i c a tape1 hp
        simp only [Option.some.injEq] at h
        rw [← h]
        show a._active = s.obj._active
        split at hp
        · exact Animation.randomColor_active _ _ _ _ _ hp
        · simp only [Option.some.injEq, Prod.mk.injEq] at hp
          rw [← hp.2.1]

theorem Animation.randomColor_isSome (a : Animation) (tape : List Nat)
    (h : ∃ r ∈ tape, ((r : Int) % 15) ≠ a._lastColorIndex) :
    ∃ res, a.randomColor tape = some res := by
  obtain ⟨res, hres⟩ := randomColorLoop_isSome a._lastColorIndex tape h
  simp only [Animation.randomColor, hres]
  exact ⟨_, rfl⟩

theorem ZipR.zipR_Continue_isSome (e : Env) (now : Nat) (s : Sys ZipR)
    (h : ∃ r ∈ s.tape, ((r : Int) % 15) ≠ s.obj._lastColorIndex) :
    ∃ s1, ZipR.Continue e now s = some s1 := by
  obtain ⟨res, hres⟩ := Animation.randomColor_isSome s.obj.toAnimation s.tape h
  simp only [ZipR.Continue, hres]
  split
  · exact ⟨_, rfl⟩
  · split
    · exact ⟨_, rfl⟩
    · split
      · rename_i hn
        split at hn <;> exact absurd hn (by simp)
      · exact ⟨_, rfl⟩

/-- C21. `Continue` of ColorSwirl, Marquee, ZipLine, ZipLineInverse, Zip2,
Zip2Inverse and ZipR never clears `_active`: from every active state and at
every clock value the state it returns is active.  The four deterministic
bouncing-dot variants always return; ColorSwirl returns on every range of more
than one element, Marquee with every quantum of at least one, and ZipR whenever
the random generator still delivers a palette index different from the last
one. -/
theorem continue_never_deactivates (e : Env) (now : Nat) :
    (∀ s s1 : Sys ColorSwirl, s.obj._active = true →
      ColorSwirl.Continue e now s = some s1 → s1.obj._active = true) ∧
    (∀ s : Sys ColorSwirl, s.obj._active = true → s.obj._lastLED ≠ s.obj._firstLED →
      ∃ s1, ColorSwirl.Continue e now s = some s1 ∧ s1.obj._active = true) ∧
    (∀ s s1 : Sys Marquee, s.obj._active = true →
      Marquee.Continue e now s = some s1 → s1.obj._active = true) ∧
    (∀ s : Sys Marquee, s.obj._active = true → 1 ≤ s.obj.marqueeQuanta →
      ∃ s1, Marquee.Continue e now s = some s1 ∧ s1.obj._active = true) ∧
    (∀ s : Sys ZipLine, s.obj._active = true → (ZipLine.Continue e now s).obj._active = true) ∧
    (∀ s : Sys ZipLine, s.obj._active = true →
      (ZipLineInverse.Continue e now s).obj._active = true) ∧
    (∀ s : Sys Zip2, s.obj._active = true → (Zip2.Continue e now s).obj._active = true) ∧
    (∀ s : Sys Zip2, s.obj._active = true → (Zip2Inverse.Continue e now s).obj._active = true) ∧
    (∀ s s1 : Sys ZipR, s.obj._active = true →
      ZipR.Continue e now s = some s1 → s1.obj._active = true) ∧
    (∀ s : Sys ZipR, s.obj._active = true →
      (∃ r ∈ s.tape, ((r : Int) % 15) ≠ s.obj._lastColorIndex) →
      ∃ s1, ZipR.Continue e now s = some s1 ∧ s1.obj._active = true) := by
  refine ⟨?_, ?_, ?_, ?_, ?_, ?_, ?_, ?_, ?_, ?_⟩
  · intro s s1 ha h
    rw [ColorSwirl.colorSwirl_Continue_active e now s s1 h, ha]
  · intro s ha hr
    obtain ⟨s1, h⟩ := ColorSwirl.colorSwirl_Continue_isSome e now s hr
    exact ⟨s1, h, by rw [ColorSwirl.colorSwirl_Continue_active e now s s1 h, ha]⟩
  · intro s s1 ha h
    rw [Marquee.marquee_Continue_active e now s s1 h, ha]
  · intro s ha hq
    obtain ⟨s1, h⟩ := Marquee.marquee_Continue_isSome e now s hq
    exact ⟨s1, h, by rw [Marquee.marquee_Continue_active e now s s1 h, ha]⟩
  · intro s ha
    simp only [ZipLine.Continue]
    split
    · exact ha
    · split
      · exact ha
      · exact ha
  · intro s ha
    simp only [ZipLineInverse.Continue]
    split
    · exact ha
    · split
      · exact ha
      · exact ha
  · intro s ha
    simp only [Zip2.Continue]
    split
    · exact ha
    · split
      · exact ha
      · exact ha
  · intro s ha
    simp only [Zip2Inverse.Continue]
    split
    · exact ha
    · split
      · exact ha
      · exact ha
  · intro s s1 ha h
    rw [ZipR.zipR_Continue_active e now s s1 h, ha]
  · intro s ha ht
    obtain ⟨s1, h⟩ := ZipR.zipR_Continue_isSome e now s ht
    exact ⟨s1, h, by rw [ZipR.zipR_Continue_active e now s s1 h, ha]⟩

theorem continue_never_deactivates_witness :
    (∃ s1, ColorSwirl.Continue sampleEnv 1125 (sampleSys (sampleColorSwirl true)) = some s1 ∧
      s1.obj._active = true) ∧
    (∃ s1, Marquee.Continue sampleEnv 1125 (sampleSys (sampleMarquee true)) = some s1 ∧
      s1.obj._active = true) ∧
    (ZipLine.Continue sampleEnv 1125 (sampleSys (sampleZipLine true))).obj._active = true ∧
    (∃ s1, ZipR.Continue sampleEnv 1125 (sampleSys (sampleZipR true)) = some s1 ∧
      s1.obj._active = true) :=
  ⟨(continue_never_deactivates sampleEnv 1125).2.1 (sampleSys (sampleColorSwirl true)) rfl
      (by decide),
   (continue_never_deactivates sampleEnv 1125).2.2.2.1 (sampleSys (sampleMarquee true)) rfl
      (by decide),
   (continue_never_deactivates sampleEnv 1125).2.2.2.2.1 (sampleSys (sampleZipLine true)) rfl,
   (continue_never_deactivates sampleEnv 1125).2.2.2.2.2.2.2.2.2 (sampleSys (sampleZipR true)) rfl
      ⟨4, by decide, by decide⟩⟩

/-! ## Brightness on shutdown -/

/-- C24. `Finish` of Marquee, ZipLine, ZipLineInverse, Zip2, Zip2Inverse and
ZipR returns with the brightness at 255 from every state, and a
`FadeToColor::Continue` that takes an active object to inactive (the last
step of a fade-in or of a fade-out) returns with the brightness at 255. -/
theorem brightness_restored_on_shutdown (e : Env) (topToBottom : Bool) :
    (∀ s : Sys Marquee, (Marquee.Finish e topToBottom s).pixels.brightness = 255) ∧
    (∀ s : Sys ZipLine, (ZipLine.Finish e topToBottom s).pixels.brightness = 255) ∧
    (∀ s : Sys ZipLine, (ZipLineInverse.Finish e topToBottom s).pixels.brightness = 255) ∧
    (∀ s : Sys Zip2, (Zip2.Finish e topToBottom s).pixels.brightness = 255) ∧
    (∀ s : Sys Zip2, (Zip2Inverse.Finish e topToBottom s).pixels.brightness = 255) ∧
    (∀ s : Sys ZipR, (ZipR.Finish e topToBottom s).pixels.brightness = 255) ∧
    (∀ (now : Nat) (s : Sys FadeToColor), s.obj._active = true →
      (FadeToColor.Continue e now s).obj._active = false →
      (FadeToColor.Continue e now s).pixels.brightness = 255) := by
  refine ⟨fun s => rfl, fun s => rfl, fun s => rfl, fun s => rfl, fun s => rfl, fun s => rfl, ?_⟩
  intro now s ha hi
  by_cases hd : s.obj._animationStepIncrement ≤ elapsedSince now s.obj._lastUpdateTime
  · obtain ⟨-, -, -, -, h5, -, h7, h8⟩ := FadeToColor.fadeToColor_Continue_due e now s ha hd
    rw [hi] at h5
    have hout : ¬ (0 < s.obj._fadeBrightness + s.obj._fadeBrightnessInc ∧
        s.obj._fadeBrightness + s.obj._fadeBrightnessInc ≤ 255) := by
      intro h
      rw [decide_eq_true h] at h5
      exact absurd h5 (by decide)
    by_cases hlow : s.obj._fadeBrightness + s.obj._fadeBrightnessInc ≤ 0
    · exact (h7 hlow).1
    · exact h8 (by omega)
  · have hs : FadeToColor.Continue e now s = s := by
      simp [FadeToColor.Continue, ha, lt_of_not_le hd]
    rw [hs, ha] at hi
    exact absurd hi (by decide)

theorem brightness_restored_on_shutdown_witness :
    (sampleSys { sampleFadeToColor true with _fadeBrightness := 255 }).obj._active = true ∧
    (FadeToColor.Continue sampleEnv 1125
      (sampleSys { sampleFadeToColor true with _fadeBrightness := 255 })).obj._active = false ∧
    (FadeToColor.Continue sampleEnv 1125
      (sampleSys { sampleFadeToColor true with _fadeBrightness := 255 })).pixels.brightness
      = 255 :=
  ⟨rfl, by decide,
    (brightness_restored_on_shutdown sampleEnv false).2.2.2.2.2.2 1125
      (sampleSys { sampleFadeToColor true with _fadeBrightness := 255 }) rfl (by decide)⟩

/-! ## The level a fade-out starts from -/

/-- C25, as stated, fails: on the range `[2,4]`, `Start` and two due steps
apply the levels 0, 1, 2 and leave the level at 3; the `Finish` issued then
applies 255, not 3, and leaves the level at 254. -/
theorem fade_out_ignores_level_reached :
    (FadeToColor.run sampleEnv [1125, 1250]
      (FadeToColor.Start sampleEnv 1000 false 255 sampleFadeSys)).obj._fadeBrightness = 3 ∧
    brightnessLevels (callsSince
      (FadeToColor.run sampleEnv [1125, 1250]
        (FadeToColor.Start sampleEnv 1000 false 255 sampleFadeSys)).pixels
      (FadeToColor.Finish sampleEnv 1375 false
        (FadeToColor.run sampleEnv [1125, 1250]
          (FadeToColor.Start sampleEnv 1000 false 255 sampleFadeSys))).pixels) = [255] ∧
    (FadeToColor.Finish sampleEnv 1375 false
      (FadeToColor.run sampleEnv [1125, 1250]
        (FadeToColor.Start sampleEnv 1000 false 255 sampleFadeSys))).obj._fadeBrightness = 254 := by
  refine ⟨by decide!, by decide!, by decide!⟩

/-- C25, amended. `FadeToColor::Finish` restarts the brightness level at 255
whatever level the preceding fade-in left: in `Finish` and the due steps
after it (at least one and at most 255 steps in all, the step inside `Finish`
counted when its `Continue` is due) the first level applied is 255, and the
`k`-th applied level is `255 - k`. -/
theorem fade_out_starts_at_255 (e : Env) (now : Nat) (topToBottom : Bool)
    (s : Sys FadeToColor) (ts : List Nat)
    (hdue : FadeToColor.allDue e ts (FadeToColor.Finish e now topToBottom s) = true)
    (h1 : 1 ≤ (if s.obj._animationStepIncrement ≤ elapsedSince now s.obj._lastUpdateTime
      then 1 else 0) + ts.length)
    (hm : (if s.obj._animationStepIncrement ≤ elapsedSince now s.obj._lastUpdateTime
      then 1 else 0) + ts.length ≤ 255) :
    (brightnessLevels (callsSince s.pixels
        (FadeToColor.run e ts (FadeToColor.Finish e now topToBottom s)).pixels)).head?
      = some 255 ∧
    ∀ k : Nat, k < (if s.obj._animationStepIncrement ≤ elapsedSince now s.obj._lastUpdateTime
          then 1 else 0) + ts.length →
      (brightnessLevels (callsSince s.pixels
        (FadeToColor.run e ts (FadeToColor.Finish e now topToBottom s)).pixels)).get? k
        = some (255 - (k : Int)) := by
  obtain ⟨hl, -, -⟩ := FadeToColor.finish_run e now topToBottom s ts hdue hm
  rw [hl]
  have hk : ∀ k : Nat, k < (if s.obj._animationStepIncrement
        ≤ elapsedSince now s.obj._lastUpdateTime then 1 else 0) + ts.length →
      ((List.range ((if s.obj._animationStepIncrement
              ≤ elapsedSince now s.obj._lastUpdateTime then 1 else 0)
            + ts.length)).map (fun (j : Nat) => 255 - (j : Int))
        ++ (if (if s.obj._animationStepIncrement
              ≤ elapsedSince now s.obj._lastUpdateTime then 1 else 0)
            + ts.length = 255 then [255] else [])).get? k = some (255 - (k : Int)) := by
    intro k hk
    rw [List.get?_eq_getElem?, List.getElem?_append_left (by simpa using hk)]
    simp [hk]
  refine ⟨?_, hk⟩
  have := hk 0 (by omega)
  rw [List.get?_eq_getElem?] at this
  rw [List.head?_eq_getElem?, this]
  rfl

theorem fade_out_starts_at_255_witness :
    FadeToColor.allDue sampleEnv [1500]
      (FadeToColor.Finish sampleEnv 1375 false
        (FadeToColor.run sampleEnv [1125, 1250]
          (FadeToColor.Start sampleEnv 1000 false 255 sampleFadeSys))) = true ∧
    (brightnessLevels (callsSince
      (FadeToColor.run sampleEnv [1125, 1250]
        (FadeToColor.Start sampleEnv 1000 false 255 sampleFadeSys)).pixels
      (FadeToColor.run sampleEnv [1500] (FadeToColor.Finish sampleEnv 1375 false
        (FadeToColor.run sampleEnv [1125, 1250]
          (FadeToColor.Start sampleEnv 1000 false 255 sampleFadeSys)))).pixels)).head?
      = some 255 :=
  ⟨by decide!,
    (fade_out_starts_at_255 sampleEnv 1375 false
      (FadeToColor.run sampleEnv [1125, 1250]
        (FadeToColor.Start sampleEnv 1000 false 255 sampleFadeSys)) [1500]
      (by decide!) (by decide!) (by decide!)).1⟩

/-! ## The moving offset of ColorSwirl -/

theorem ColorSwirl.colorSwirl_Continue_due (e : Env) (now : Nat) (s : Sys ColorSwirl)
    (ha : s.obj._active = true) (hr : s.obj._lastLED ≠ s.obj._firstLED)
    (hd : s.obj._animationStepIncrement ≤ elapsedSince now s.obj._lastUpdateTime) :
    ∃ s1, ColorSwirl.Continue e now s = some s1 ∧
      (s1.obj._swirlIdx, s1.obj._swirlInc) = swirlStep (s.obj._swirlIdx, s.obj._swirlInc) ∧
      s1.obj._active = true ∧ s1.obj._firstLED = s.obj._firstLED ∧
      s1.obj._lastLED = s.obj._lastLED ∧
      s1.obj._animationStepIncrement = s.obj._animationStepIncrement ∧
      s1.obj._lastUpdateTime = now := by
  have hd2 : ¬ (elapsedSince now s.obj._lastUpdateTime < s.obj._animationStepIncrement) :=
    not_lt.mpr hd
  simp only [ColorSwirl.Continue, ha, Bool.not_true, Bool.false_eq_true, if_false, hd2,
    ColorSwirl.paint, if_neg hr]
  refine ⟨_, rfl, ?_, rfl, rfl, rfl, rfl, rfl⟩
  simp only [swirlStep]
  split_ifs <;> rfl

theorem ColorSwirl.run_due (e : Env) (ts : List Nat) :
    ∀ s : Sys ColorSwirl, s.obj._active = true → s.obj._lastLED ≠ s.obj._firstLED →
      ColorSwirl.allDue e ts s = true →
      ∃ s1, ColorSwirl.run e ts s = some s1 ∧
        (s1.obj._swirlIdx, s1.obj._swirlInc)
          = swirlStep^[ts.length] (s.obj._swirlIdx, s.obj._swirlInc) ∧
        s1.obj._active = true := by
  induction ts with
  | nil =>
    intro s ha _ _
    exact ⟨s, rfl, rfl, ha⟩
  | cons now rest ih =>
    intro s ha hr hdue
    simp only [ColorSwirl.allDue, Bool.and_eq_true, decide_eq_true_eq] at hdue
    obtain ⟨s1, h1, h2, h3, h4, h5, -, -⟩ :=
      ColorSwirl.colorSwirl_Continue_due e now s ha hr hdue.1
    have hrest := hdue.2
    rw [h1] at hrest
    obtain ⟨s2, k1, k2, k3⟩ := ih s1 h3 (by rw [h4, h5]; exact hr) hrest
    refine ⟨s2, ?_, ?_, k3⟩
    · simp only [ColorSwirl.run, h1]
      exact k1
    · rw [k2, h2, List.length_cons, Function.iterate_succ_apply]

/-- The pair after `k` steps from `(0, 1)`: up to 255, then down without end. -/
theorem swirlStep_iterate (k : Nat) :
    swirlStep^[k] (0, 1) = if k ≤ 255 then ((k : Int), 1) else (510 - (k : Int), -1) := by
  induction k with
  | zero => rfl
  | succ n ih =>
    rw [Function.iterate_succ_apply', ih]
    by_cases h1 : n ≤ 254
    · rw [if_pos (by omega), if_pos (by omega)]
      simp only [swirlStep]
      rw [if_neg (by omega)]
      push_cast
      rfl
    · by_cases h2 : n = 255
      · rw [if_pos (by omega), if_neg (by omega)]
        simp only [swirlStep]
        rw [if_pos (by omega)]
        refine Prod.ext ?_ ?_
        · show (254 : Int) = 510 - ((n + 1 : Nat) : Int)
          push_cast
          omega
        · show -(1 : Int) = -1
          rfl
      · rw [if_neg (by omega), if_neg (by omega)]
        simp only [swirlStep]
        rw [if_neg (by omega)]
        refine Prod.ext ?_ rfl
        show 510 - (n : Int) + -1 = 510 - ((n + 1 : Nat) : Int)
        push_cast
        omega

theorem ColorSwirl.startRun_due (e : Env) (now : Nat) (topToBottom : Bool) (colorToUse : Rgb)
    (ts : List Nat) (s : Sys ColorSwirl)
    (hall : ColorSwirl.startAllDue e now topToBottom colorToUse ts s = true) :
    ∃ s1, ColorSwirl.startRun e now topToBottom colorToUse ts s = some s1 ∧
      s1.obj._swirlIdx = (if ts.length ≤ 255 then (ts.length : Int) else 510 - (ts.length : Int)) ∧
      s1.obj._swirlInc = (if ts.length ≤ 255 then 1 else -1) ∧
      s1.obj._active = true := by
  have hr : s.obj._lastLED ≠ s.obj._firstLED := by
    intro h
    simp [ColorSwirl.startAllDue, ColorSwirl.Start, ColorSwirl.paint, h] at hall
  have hdue := hall
  simp only [ColorSwirl.startAllDue, ColorSwirl.Start, ColorSwirl.paint, if_neg hr] at hdue
  have key := fun h1 h2 => ColorSwirl.run_due e ts _ h1 h2 hdue
  obtain ⟨s1, k1, k2, k3⟩ := key rfl hr
  refine ⟨s1, ?_, ?_, ?_, k3⟩
  · simp only [ColorSwirl.startRun, ColorSwirl.Start, ColorSwirl.paint, if_neg hr]
    exact k1
  · have := congrArg Prod.fst k2
    simp only at this
    rw [this]
    show (swirlStep^[ts.length] (0, 1)).1 = _
    rw [swirlStep_iterate]
    split_ifs <;> rfl
  · have := congrArg Prod.snd k2
    simp only at this
    rw [this]
    show (swirlStep^[ts.length] (0, 1)).2 = _
    rw [swirlStep_iterate]
    split_ifs <;> rfl

/-- C22 at its failing input: a ColorSwirl on the range `[1,8]` with 125 ms
between steps, started at clock 0 and continued at 125, 250, ..., every call
due.  After 255 steps the offset is 255, after 510 steps it is back at 0, and
the 511th step leaves it at -1, still moving down. -/
theorem colorswirl_offset_goes_negative :
    (ColorSwirl.startRun sampleEnv 0 false 255 (clockTicks 125 255)
      (sampleSys (sampleColorSwirl false))).map (fun s => (s.obj._swirlIdx, s.obj._swirlInc))
      = some (255, 1) ∧
    (ColorSwirl.startRun sampleEnv 0 false 255 (clockTicks 125 510)
      (sampleSys (sampleColorSwirl false))).map (fun s => (s.obj._swirlIdx, s.obj._swirlInc))
      = some (0, -1) ∧
    (ColorSwirl.startRun sampleEnv 0 false 255 (clockTicks 125 511)
      (sampleSys (sampleColorSwirl false))).map (fun s => (s.obj._swirlIdx, s.obj._swirlInc))
      = some (-1, -1) := by
  have hlen : ∀ n, (clockTicks 125 n).length = n := by
    intro n
    simp [clockTicks]
  refine ⟨?_, ?_, ?_⟩
  · obtain ⟨s1, h1, h2, h3, -⟩ := ColorSwirl.startRun_due sampleEnv 0 false 255
      (clockTicks 125 255) (sampleSys (sampleColorSwirl false)) (by decide!)
    rw [h1, Option.map_some', h2, h3, hlen]
    rfl
  · obtain ⟨s1, h1, h2, h3, -⟩ := ColorSwirl.startRun_due sampleEnv 0 false 255
      (clockTicks 125 510) (sampleSys (sampleColorSwirl false)) (by decide!)
    rw [h1, Option.map_some', h2, h3, hlen]
    rfl
  · obtain ⟨s1, h1, h2, h3, -⟩ := ColorSwirl.startRun_due sampleEnv 0 false 255
      (clockTicks 125 511) (sampleSys (sampleColorSwirl false)) (by decide!)
    rw [h1, Option.map_some', h2, h3, hlen]
    rfl

/-! ## ColorWipe -/

/-- A due `Continue` of an active `ColorWipe`: inside the range it lights the
next position; past either end it writes nothing and deactivates. -/
theorem ColorWipe.colorWipe_Continue_due (now : Nat) (s : Sys ColorWipe)
    (ha : s.obj._active = true)
    (hd : s.obj._animationStepIncrement ≤ elapsedSince now s.obj._lastUpdateTime) :
    (ColorWipe.Continue now s).obj._wipeLEDIdx = s.obj._wipeLEDIdx + s.obj._wipeInc ∧
    (ColorWipe.Continue now s).obj._wipeInc = s.obj._wipeInc ∧
    (ColorWipe.Continue now s).obj._firstLED = s.obj._firstLED ∧
    (ColorWipe.Continue now s).obj._lastLED = s.obj._lastLED ∧
    (ColorWipe.Continue now s).obj._colorToUse = s.obj._colorToUse ∧
    (ColorWipe.Continue now s).obj._animationStepIncrement = s.obj._animationStepIncrement ∧
    (ColorWipe.Continue now s).obj._active
      = decide (s.obj._firstLED ≤ s.obj._wipeLEDIdx + s.obj._wipeInc ∧
          s.obj._wipeLEDIdx + s.obj._wipeInc ≤ s.obj._lastLED) ∧
    (s.obj._firstLED ≤ s.obj._wipeLEDIdx + s.obj._wipeInc ∧
        s.obj._wipeLEDIdx + s.obj._wipeInc ≤ s.obj._lastLED →
      (ColorWipe.Continue now s).pixels.calls
        = s.pixels.calls ++ lightCalls s.obj._colorToUse [s.obj._wipeLEDIdx + s.obj._wipeInc] ∧
      (ColorWipe.Continue now s).obj._lastUpdateTime = now) ∧
    (¬ (s.obj._firstLED ≤ s.obj._wipeLEDIdx + s.obj._wipeInc ∧
        s.obj._wipeLEDIdx + s.obj._wipeInc ≤ s.obj._lastLED) →
      (ColorWipe.Continue now s).pixels = s.pixels ∧
      (ColorWipe.Continue now s).obj._lastUpdateTime = s.obj._lastUpdateTime) := by
  have hd2 : ¬ (elapsedSince now s.obj._lastUpdateTime < s.obj._animationStepIncrement) :=
    not_lt.mpr hd
  by_cases hin : s.obj._firstLED ≤ s.obj._wipeLEDIdx + s.obj._wipeInc ∧
      s.obj._wipeLEDIdx + s.obj._wipeInc ≤ s.obj._lastLED
  · have hout : ¬ (s.obj._wipeLEDIdx + s.obj._wipeInc > s.obj._lastLED ∨
        s.obj._wipeLEDIdx + s.obj._wipeInc < s.obj._firstLED) := by omega
    have hC : ColorWipe.Continue now s
        = { s with
            pixels := (s.pixels.setPixelColor (s.obj._wipeLEDIdx + s.obj._wipeInc)
              s.obj._colorToUse).showStrip
            obj := { s.obj with _wipeLEDIdx := s.obj._wipeLEDIdx + s.obj._wipeInc,
                                _lastUpdateTime := now } } := by
      simp only [ColorWipe.Continue, ha, Bool.not_true, Bool.false_eq_true, if_false, hd2, hout]
    rw [hC]
    refine ⟨rfl, rfl, rfl, rfl, rfl, rfl, ?_, fun _ => ⟨?_, rfl⟩, fun h => absurd hin h⟩
    · show s.obj._active = _
      rw [ha, decide_eq_true hin]
    · simp [Pixels.showStrip, Pixels.setPixelColor, lightCalls]
  · have hout : s.obj._wipeLEDIdx + s.obj._wipeInc > s.obj._lastLED ∨
        s.obj._wipeLEDIdx + s.obj._wipeInc < s.obj._firstLED := by omega
    have hC : ColorWipe.Continue now s
        = { s with obj := { s.obj with _wipeLEDIdx := s.obj._wipeLEDIdx + s.obj._wipeInc,
                                       _active := false } } := by
      simp only [ColorWipe.Continue, ha, Bool.not_true, Bool.false_eq_true, if_false, hd2, hout,
        if_true]
    rw [hC]
    refine ⟨rfl, rfl, rfl, rfl, rfl, rfl, ?_, fun h => absurd h hin, fun _ => ⟨rfl, rfl⟩⟩
    show false = _
    rw [decide_eq_false hin]

theorem lightCalls_cons (c : Rgb) (p : Int) (ps : List Int) :
    lightCalls c (p :: ps) = lightCalls c [p] ++ lightCalls c ps := by
  simp [lightCalls]

theorem writtenIndices_lightCalls (c : Rgb) (ps : List Int) :
    writtenIndices (lightCalls c ps) = ps := by
  induction ps with
  | nil => rfl
  | cons p ps ih =>
    rw [lightCalls_cons, writtenIndices_append, ih]
    rfl

theorem ColorWipe.colorWipe_run_cons (now : Nat) (rest : List Nat) (s : Sys ColorWipe) :
    ColorWipe.run (now :: rest) s = ColorWipe.run rest (ColorWipe.Continue now s) :=
  rfl

/-- A run of due calls during which the cursor stays in range lights the
positions `idx + inc, idx + 2*inc, ...` in that order and does nothing else. -/
theorem ColorWipe.colorWipe_run_walk (ts : List Nat) :
    ∀ s : Sys ColorWipe, s.obj._active = true → ColorWipe.allDue ts s = true →
      (∀ i ∈ walkPositions (s.obj._wipeLEDIdx + s.obj._wipeInc) s.obj._wipeInc ts.length,
        s.obj._firstLED ≤ i ∧ i ≤ s.obj._lastLED) →
      (ColorWipe.run ts s).pixels.calls
        = s.pixels.calls ++ lightCalls s.obj._colorToUse
            (walkPositions (s.obj._wipeLEDIdx + s.obj._wipeInc) s.obj._wipeInc ts.length) ∧
      (ColorWipe.run ts s).obj._wipeLEDIdx
        = s.obj._wipeLEDIdx + (ts.length : Int) * s.obj._wipeInc ∧
      (ColorWipe.run ts s).obj._wipeInc = s.obj._wipeInc ∧
      (ColorWipe.run ts s).obj._firstLED = s.obj._firstLED ∧
      (ColorWipe.run ts s).obj._lastLED = s.obj._lastLED ∧
      (ColorWipe.run ts s).obj._colorToUse = s.obj._colorToUse ∧
      (ColorWipe.run ts s).obj._active = true := by
  induction ts with
  | nil =>
    intro s ha _ _
    refine ⟨by simp [ColorWipe.run, walkPositions, lightCalls], by simp [ColorWipe.run],
      rfl, rfl, rfl, rfl, ha⟩
  | cons now rest ih =>
    intro s ha hdue hrange
    simp only [ColorWipe.allDue, Bool.and_eq_true, decide_eq_true_eq] at hdue
    obtain ⟨hd, hrest⟩ := hdue
    obtain ⟨hidx, hinc, hfirst, hlast, hcol, -, hact, hin, -⟩ :=
      ColorWipe.colorWipe_Continue_due now s ha hd
    rw [List.length_cons, walkPositions_succ] at hrange
    have hhere := hrange _ (List.mem_cons_self _ _)
    obtain ⟨hcalls, -⟩ := hin hhere
    have ha1 : (ColorWipe.Continue now s).obj._active = true := by
      rw [hact, decide_eq_true hhere]
    have hrange1 : ∀ i ∈ walkPositions ((ColorWipe.Continue now s).obj._wipeLEDIdx
          + (ColorWipe.Continue now s).obj._wipeInc)
        (ColorWipe.Continue now s).obj._wipeInc rest.length,
        (ColorWipe.Continue now s).obj._firstLED ≤ i
          ∧ i ≤ (ColorWipe.Continue now s).obj._lastLED := by
      intro i hi
      rw [hidx, hinc] at hi
      rw [hfirst, hlast]
      exact hrange i (List.mem_cons_of_mem _ hi)
    obtain ⟨jcalls, jidx, jinc, jfirst, jlast, jcol, jact⟩ :=
      ih (ColorWipe.Continue now s) ha1 hrest hrange1
    rw [ColorWipe.colorWipe_run_cons, List.length_cons, walkPositions_succ]
    refine ⟨?_, ?_, jinc.trans hinc, jfirst.trans hfirst, jlast.trans hlast, jcol.trans hcol,
      jact⟩
    · rw [jcalls, hcalls, hidx, hinc, hcol, List.append_assoc, ← lightCalls_cons]
    · rw [jidx, hidx, hinc]
      push_cast
      ring
theorem walkPositions_take (idx inc : Int) (m n : Nat) (h : m ≤ n) :
    walkPositions idx inc m = (walkPositions idx inc n).take m := by
  unfold walkPositions
  rw [← List.map_take, List.take_range, min_eq_left h]

theorem mem_walkPositions (idx inc i : Int) (n : Nat) :
    i ∈ walkPositions idx inc n ↔ ∃ j : Nat, j < n ∧ i = idx + (j : Int) * inc := by
  unfold walkPositions
  simp only [List.mem_map, List.mem_range]
  constructor
  · rintro ⟨j, hj, rfl⟩
    exact ⟨j, hj, rfl⟩
  · rintro ⟨j, hj, rfl⟩
    exact ⟨j, hj, rfl⟩

/-- C23. On a range of length `N ≥ 1`, `ColorWipe::Start` followed by `k`
due `Continue` calls, `0 ≤ k ≤ N - 1`, has sent the driver exactly these calls:
the brightness 255, then a write of the colour and a flush for each of the
first `k + 1` elements in walk order (ascending from `first`, or descending
from `last` when `topToBottom`), and the object is active.  After `k = N - 1`
such calls the next due `Continue` leaves the driver untouched and returns
inactive. -/
theorem colorwipe_lights_in_walk_order (now0 : Nat) (topToBottom : Bool) (colorToUse : Rgb)
    (s : Sys ColorWipe) (ts : List Nat)
    (hN : s.obj._firstLED ≤ s.obj._lastLED)
    (hk : (ts.length : Int) ≤ s.obj._lastLED - s.obj._firstLED)
    (hdue : ColorWipe.allDue ts (ColorWipe.Start now0 topToBottom colorToUse s) = true) :
    callsSince s.pixels
        (ColorWipe.run ts (ColorWipe.Start now0 topToBottom colorToUse s)).pixels
      = DriverCall.setBrightness 255 ::
          lightCalls colorToUse
            ((if topToBottom then (ledRange s.obj._firstLED s.obj._lastLED).reverse
              else ledRange s.obj._firstLED s.obj._lastLED).take (ts.length + 1)) ∧
    (ColorWipe.run ts (ColorWipe.Start now0 topToBottom colorToUse s)).obj._active = true ∧
    ((ts.length : Int) = s.obj._lastLED - s.obj._firstLED →
      ∀ now : Nat,
        (ColorWipe.run ts (ColorWipe.Start now0 topToBottom colorToUse s)).obj._animationStepIncrement
          ≤ elapsedSince now
            (ColorWipe.run ts (ColorWipe.Start now0 topToBottom colorToUse s)).obj._lastUpdateTime →
        (ColorWipe.Continue now
            (ColorWipe.run ts (ColorWipe.Start now0 topToBottom colorToUse s))).pixels
          = (ColorWipe.run ts (ColorWipe.Start now0 topToBottom colorToUse s)).pixels ∧
        (ColorWipe.Continue now
            (ColorWipe.run ts (ColorWipe.Start now0 topToBottom colorToUse s))).obj._active
          = false) := by
  have hrange : ∀ i ∈ walkPositions
      ((ColorWipe.Start now0 topToBottom colorToUse s).obj._wipeLEDIdx
        + (ColorWipe.Start now0 topToBottom colorToUse s).obj._wipeInc)
      (ColorWipe.Start now0 topToBottom colorToUse s).obj._wipeInc ts.length,
      (ColorWipe.Start now0 topToBottom colorToUse s).obj._firstLED ≤ i ∧
        i ≤ (ColorWipe.Start now0 topToBottom colorToUse s).obj._lastLED := by
    intro i hi
    rw [mem_walkPositions] at hi
    obtain ⟨j, hj, rfl⟩ := hi
    show s.obj._firstLED ≤ _ ∧ _ ≤ s.obj._lastLED
    have hj2 : (j : Int) < ts.length := by exact_mod_cast hj
    cases topToBottom
    · simp only [ColorWipe.Start, Bool.false_eq_true, if_false]
      constructor <;> omega
    · simp only [ColorWipe.Start, if_true]
      constructor <;> omega
  obtain ⟨jcalls, jidx, jinc, jfirst, jlast, jcol, jact⟩ :=
    ColorWipe.colorWipe_run_walk ts (ColorWipe.Start now0 topToBottom colorToUse s) rfl hdue hrange
  refine ⟨?_, jact, ?_⟩
  · apply callsSince_append
    rw [jcalls]
    have hwalk : (if topToBottom then (ledRange s.obj._firstLED s.obj._lastLED).reverse
          else ledRange s.obj._firstLED s.obj._lastLED).take (ts.length + 1)
        = (if topToBottom then s.obj._lastLED else s.obj._firstLED)
          :: walkPositions ((if topToBottom then s.obj._lastLED else s.obj._firstLED)
              + (if topToBottom then -1 else 1)) (if topToBottom then -1 else 1) ts.length := by
      rw [← walkPositions_succ,
        ← walkPositions_start topToBottom s.obj._firstLED s.obj._lastLED
          (s.obj._lastLED - s.obj._firstLED + 1).toNat (by omega),
        ← walkPositions_take _ _ _ _ (by omega)]
    rw [hwalk, lightCalls_cons]
    simp [ColorWipe.Start, Pixels.showStrip, Pixels.setPixelColor, Pixels.setBrightness,
      lightCalls]
  · intro hlen now hd
    obtain ⟨-, -, -, -, -, -, hact, -, hout⟩ :=
      ColorWipe.colorWipe_Continue_due now _ jact hd
    have hnot : ¬ ((ColorWipe.run ts (ColorWipe.Start now0 topToBottom colorToUse s)).obj._firstLED
          ≤ (ColorWipe.run ts (ColorWipe.Start now0 topToBottom colorToUse s)).obj._wipeLEDIdx
            + (ColorWipe.run ts (ColorWipe.Start now0 topToBottom colorToUse s)).obj._wipeInc ∧
        (ColorWipe.run ts (ColorWipe.Start now0 topToBottom colorToUse s)).obj._wipeLEDIdx
            + (ColorWipe.run ts (ColorWipe.Start now0 topToBottom colorToUse s)).obj._wipeInc
          ≤ (ColorWipe.run ts (ColorWipe.Start now0 topToBottom colorToUse s)).obj._lastLED) := by
      rw [jidx, jinc, jfirst, jlast]
      show ¬ (s.obj._firstLED ≤ _ ∧ _ ≤ s.obj._lastLED)
      cases topToBottom
      · simp only [ColorWipe.Start, Bool.false_eq_true, if_false]
        omega
      · simp only [ColorWipe.Start, if_true]
        omega
    exact ⟨(hout hnot).1, by rw [hact, decide_eq_false hnot]⟩

theorem colorwipe_lights_in_walk_order_witness :
    sampleWipeSys.obj._firstLED ≤ sampleWipeSys.obj._lastLED ∧
    (([1125, 1250] : List Nat).length : Int)
      ≤ sampleWipeSys.obj._lastLED - sampleWipeSys.obj._firstLED ∧
    ColorWipe.allDue [1125, 1250] (ColorWipe.Start 1000 true 255 sampleWipeSys) = true ∧
    callsSince sampleWipeSys.pixels
        (ColorWipe.run [1125, 1250] (ColorWipe.Start 1000 true 255 sampleWipeSys)).pixels
      = [DriverCall.setBrightness 255,
         DriverCall.setPixelColor 4 255, DriverCall.showStrip,
         DriverCall.setPixelColor 3 255, DriverCall.showStrip,
         DriverCall.setPixelColor 2 255, DriverCall.showStrip] ∧
    (ColorWipe.Continue 1375
      (ColorWipe.run [1125, 1250] (ColorWipe.Start 1000 true 255 sampleWipeSys))).obj._active
      = false :=
  ⟨by decide, by decide, by decide,
    (colorwipe_lights_in_walk_order 1000 true 255 sampleWipeSys [1125, 1250] (by decide)
      (by decide) (by decide)).1,
    ((colorwipe_lights_in_walk_order 1000 true 255 sampleWipeSys [1125, 1250] (by decide)
      (by decide) (by decide)).2.2 (by decide) 1375 (by decide)).2⟩

/-! ## The time stamp of an applied step -/

/-- The only member `randomColor()` changes is `_lastColorIndex`. -/
theorem Animation.randomColor_frame (a : Animation) (tape : List Nat) (c : Rgb)
    (a1 : Animation) (tape1 : List Nat) (h : a.randomColor tape = some (c, a1, tape1)) :
    a1 = { a with _lastColorIndex := a1._lastColorIndex } := by
  unfold Animation.randomColor at h
  split at h
  · simp at h
  · simp only [Option.some.injEq, Prod.mk.injEq] at h
    obtain ⟨-, h2, -⟩ := h
    subst h2
    rfl

theorem twinkleFinishLoop_frame (LEDArray : Int → Bool) (l : List Int) :
    ∀ (a : Animation) (p : Pixels) (tape : List Nat) (a1 : Animation) (p1 : Pixels)
      (tape1 : List Nat), twinkleFinishLoop LEDArray l a p tape = some (a1, p1, tape1) →
      a1 = { a with _lastColorIndex := a1._lastColorIndex } := by
  induction l with
  | nil =>
    intro a p tape a1 p1 tape1 h
    simp only [twinkleFinishLoop, Option.some.injEq, Prod.mk.injEq] at h
    rw [← h.1]
  | cons i rest ih =>
    intro a p tape a1 p1 tape1 h
    simp only [twinkleFinishLoop] at h
    split at h
    · split at h
      · simp at h
      · rename_i c a2 tape2 hc
        have h1 := ih _ _ _ _ _ _ h
        have h2 := Animation.randomColor_frame a tape c a2 tape2 hc
        rw [h1, h2]
    · exact ih _ _ _ _ _ _ h

/-- The time stamp an active `Twinkle` holds after a due `Continue`: the
clock value of the call after a filling or clearing step, the value read at the
end of `twinkleSomeLEDs` after a twinkling step, and the old one after the
call that ends filling or clearing (and after a twinkling call that finds less
than two intervals elapsed). -/
theorem Twinkle.Continue_lastUpdateTime (e : Env) (now now1 now2 : Nat) (s s1 : Sys Twinkle)
    (ha : s.obj._active = true)
    (hd : s.obj._animationStepIncrement ≤ elapsedSince now s.obj._lastUpdateTime)
    (h : Twinkle.Continue e now now1 now2 s = some s1) :
    s1.obj._lastUpdateTime
      = if s.obj._twinkleState = twinkleTwinkling then
          (if elapsedSince now1 s.obj._lastUpdateTime < s.obj._animationStepIncrement * 2
            then s.obj._lastUpdateTime else now2)
        else if s.obj._twinkleChangedCount ≥ s.obj._lastLED - s.obj._firstLED ∨
            now % ulongSize > s.obj._twinkleLongestTimeToWait then s.obj._lastUpdateTime
        else now := by
  simp only [Twinkle.Continue, ha, Bool.not_true, Bool.false_eq_true, if_false,
    not_lt.mpr hd] at h
  by_cases ht : s.obj._twinkleState = twinkleTwinkling
  · rw [if_pos ht] at h
    rw [if_pos ht]
    simp only [Twinkle.twinkleSomeLEDs] at h
    split at h
    · rename_i hlt
      simp only [Option.some.injEq] at h
      rw [← h, if_pos hlt]
    · rename_i hlt
      rw [if_neg hlt]
      split at h
      · simp at h
      · split at h
        · simp at h
        · simp only [Option.some.injEq] at h
          rw [← h]
  rw [if_neg ht] at h
  rw [if_neg ht]
  by_cases hc : s.obj._twinkleChangedCount ≥ s.obj._lastLED - s.obj._firstLED ∨
      now % ulongSize > s.obj._twinkleLongestTimeToWait
  · rw [if_pos hc] at h
    rw [if_pos hc]
    split at h
    · simp at h
    · rename_i s2 hfin
      have h2 : s2.obj._lastUpdateTime = s.obj._lastUpdateTime := by
        simp only [Twinkle.twinkleFinish] at hfin
        split at hfin
        · simp only [Option.some.injEq] at hfin
          rw [← hfin]
        · split at hfin
          · simp at hfin
          · rename_i a p tape hloop
            simp only [Option.some.injEq] at hfin
            rw [← hfin]
            show a._lastUpdateTime = _
            rw [twinkleFinishLoop_frame _ _ _ _ _ _ _ _ hloop]
      split at h
      · simp only [Twinkle.twinkleSomeInit] at h
        split at h
        · simp at h
        · simp only [Option.some.injEq] at h
          rw [← h]
          exact h2
      · simp only [Option.some.injEq] at h
        rw [← h]
        exact h2
  · rw [if_neg hc] at h
    rw [if_neg hc]
    split at h
    · simp at h
    · split at h
      · simp at h
      · split at h
        · simp at h
        · simp only [Option.some.injEq] at h
          rw [← h]
/-- C26, as stated, fails: on the range `[2,4]`, after `ColorWipe::Start`
at clock 1000 (downwards) and due steps at 1125 and 1250, the due `Continue`
at 1375 changes the object (cursor from 2 to 1, active to inactive) and leaves
the time stamp at 1250. -/
theorem colorwipe_last_step_keeps_stamp :
    (ColorWipe.run [1125, 1250] (ColorWipe.Start 1000 true 255 sampleWipeSys)).obj._active
      = true ∧
    (ColorWipe.run [1125, 1250] (ColorWipe.Start 1000 true 255 sampleWipeSys)).obj._wipeLEDIdx
      = 2 ∧
    (ColorWipe.Continue 1375
      (ColorWipe.run [1125, 1250]
        (ColorWipe.Start 1000 true 255 sampleWipeSys))).obj._active = false ∧
    (ColorWipe.Continue 1375
      (ColorWipe.run [1125, 1250]
        (ColorWipe.Start 1000 true 255 sampleWipeSys))).obj._wipeLEDIdx = 1 ∧
    (ColorWipe.Continue 1375
      (ColorWipe.run [1125, 1250]
        (ColorWipe.Start 1000 true 255 sampleWipeSys))).obj._lastUpdateTime = 1250 := by
  decide

/-- C26, amended. A `Continue` call on an active object whose interval has
elapsed sets `_lastUpdateTime` to the clock value it read, in Startup,
ColorSwirl, Marquee, FadeToColor, ZipLine, ZipLineInverse, Zip2, Zip2Inverse and
ZipR always, in ColorWipe when the new cursor is inside the range, and in
Twinkle on a filling or clearing step.  A twinkling step of Twinkle stores the
clock value read at the end of `twinkleSomeLEDs`.  The deactivating step of
ColorWipe and the call of Twinkle that ends filling or clearing leave
`_lastUpdateTime` as it was. -/
theorem applied_step_stamps_clock (e : Env) (now : Nat) :
    (∀ s : Sys Startup, s.obj._active = true →
      s.obj._animationStepIncrement ≤ elapsedSince now s.obj._lastUpdateTime →
      (Startup.Continue now s).obj._lastUpdateTime = now) ∧
    (∀ s s1 : Sys ColorSwirl, s.obj._active = true →
      s.obj._animationStepIncrement ≤ elapsedSince now s.obj._lastUpdateTime →
      ColorSwirl.Continue e now s = some s1 → s1.obj._lastUpdateTime = now) ∧
    (∀ s s1 : Sys Marquee, s.obj._active = true →
      s.obj._animationStepIncrement ≤ elapsedSince now s.obj._lastUpdateTime →
      Marquee.Continue e now s = some s1 → s1.obj._lastUpdateTime = now) ∧
    (∀ s : Sys FadeToColor, s.obj._active = true →
      s.obj._animationStepIncrement ≤ elapsedSince now s.obj._lastUpdateTime →
      (FadeToColor.Continue e now s).obj._lastUpdateTime = now) ∧
    (∀ s : Sys ZipLine, s.obj._active = true →
      s.obj._animationStepIncrement ≤ elapsedSince now s.obj._lastUpdateTime →
      (ZipLine.Continue e now s).obj._lastUpdateTime = now ∧
      (ZipLineInverse.Continue e now s).obj._lastUpdateTime = now) ∧
    (∀ s : Sys Zip2, s.obj._active = true →
      s.obj._animationStepIncrement ≤ elapsedSince now s.obj._lastUpdateTime →
      (Zip2.Continue e now s).obj._lastUpdateTime = now ∧
      (Zip2Inverse.Continue e now s).obj._lastUpdateTime = now) ∧
    (∀ s s1 : Sys ZipR, s.obj._active = true →
      s.obj._animationStepIncrement ≤ elapsedSince now s.obj._lastUpdateTime →
      ZipR.Continue e now s = some s1 → s1.obj._lastUpdateTime = now) ∧
    (∀ s : Sys ColorWipe, s.obj._active = true →
      s.obj._animationStepIncrement ≤ elapsedSince now s.obj._lastUpdateTime →
      (ColorWipe.Continue now s).obj._lastUpdateTime
        = if s.obj._firstLED ≤ s.obj._wipeLEDIdx + s.obj._wipeInc ∧
            s.obj._wipeLEDIdx + s.obj._wipeInc ≤ s.obj._lastLED then now
          else s.obj._lastUpdateTime) ∧
    (∀ (now1 now2 : Nat) (s s1 : Sys Twinkle), s.obj._active = true →
      s.obj._animationStepIncrement ≤ elapsedSince now s.obj._lastUpdateTime →
      Twinkle.Continue e now now1 now2 s = some s1 →
      s1.obj._lastUpdateTime
        = if s.obj._twinkleState = twinkleTwinkling then
            (if elapsedSince now1 s.obj._lastUpdateTime < s.obj._animationStepIncrement * 2
              then s.obj._lastUpdateTime else now2)
          else if s.obj._twinkleChangedCount ≥ s.obj._lastLED - s.obj._firstLED ∨
              now % ulongSize > s.obj._twinkleLongestTimeToWait then s.obj._lastUpdateTime
          else now) := by
  refine ⟨?_, ?_, ?_, ?_, ?_, ?_, ?_, ?_, ?_⟩
  · intro s ha hd
    simp [Startup.Continue, ha, not_lt.mpr hd]
  · intro s s1 ha hd h
    simp only [ColorSwirl.Continue, ha, Bool.not_true, Bool.false_eq_true, if_false,
      not_lt.mpr hd] at h
    split at h
    · simp at h
    · simp only [Option.some.injEq] at h
      rw [← h]
  · intro s s1 ha hd h
    simp only [Marquee.Continue, ha, Bool.not_true, Bool.false_eq_true, if_false,
      not_lt.mpr hd] at h
    split at h
    · simp at h
    · split at h
      · simp at h
      · simp only [Option.some.injEq] at h
        rw [← h]
  · intro s ha hd
    simp [FadeToColor.Continue, ha, not_lt.mpr hd]
  · intro s ha hd
    constructor
    · simp [ZipLine.Continue, ha, not_lt.mpr hd]
    · simp [ZipLineInverse.Continue, ha, not_lt.mpr hd]
  · intro s ha hd
    constructor
    · simp [Zip2.Continue, ha, not_lt.mpr hd]
    · simp [Zip2Inverse.Continue, ha, not_lt.mpr hd]
  · intro s s1 ha hd h
    simp only [ZipR.Continue, ha, Bool.not_true, Bool.false_eq_true, if_false,
      not_lt.mpr hd] at h
    split at h
    · simp at h
    · simp only [Option.some.injEq] at h
      rw [← h]
  · intro s ha hd
    obtain ⟨-, -, -, -, -, -, -, hin, hout⟩ := ColorWipe.colorWipe_Continue_due now s ha hd
    split_ifs with hr
    · exact (hin hr).2
    · exact (hout hr).2
  · intro now1 now2 s s1 ha hd h
    exact Twinkle.Continue_lastUpdateTime e now now1 now2 s s1 ha hd h

theorem applied_step_stamps_clock_witness :
    (Startup.Continue 1125 (sampleSys (sampleStartup true))).obj._lastUpdateTime = 1125 ∧
    (ColorWipe.Continue 1125 (sampleSys (sampleColorWipe true))).obj._lastUpdateTime
      = if (sampleSys (sampleColorWipe true)).obj._firstLED
            ≤ (sampleSys (sampleColorWipe true)).obj._wipeLEDIdx
              + (sampleSys (sampleColorWipe true)).obj._wipeInc ∧
          (sampleSys (sampleColorWipe true)).obj._wipeLEDIdx
              + (sampleSys (sampleColorWipe true)).obj._wipeInc
            ≤ (sampleSys (sampleColorWipe true)).obj._lastLED then 1125
        else (sampleSys (sampleColorWipe true)).obj._lastUpdateTime :=
  ⟨(applied_step_stamps_clock sampleEnv 1125).1 (sampleSys (sampleStartup true)) rfl
      (by decide),
   (applied_step_stamps_clock sampleEnv 1125).2.2.2.2.2.2.2.1 (sampleSys (sampleColorWipe true))
      rfl (by decide)⟩

/-! ## The step inside Start -/

/-- C27 at its failing inputs.  `FadeToColor::Start` and `Twinkle::Start`
set `_lastUpdateTime = 0` and call `Continue()`, which compares
`int(millis() - 0)` with the step interval (125 ms here).  At a clock value
below the interval (100 ms after reset) and at one whose conversion to `int`
is negative (3000000000 ms, about 35 days after reset) that `Continue()`
returns at its time test: `FadeToColor::Start` returns without having set any
brightness level, the level still at 0, and `Twinkle::Start` returns with
every element of the range dark and the changed-count at 0.  At clock 5000
both perform the step: level 0 is applied, one element is lit. -/
theorem start_skips_first_step :
    elapsedSince 100 0 = 100 ∧ elapsedSince 3000000000 0 = -1294967296 ∧
    (sampleSys (sampleFadeToColor false)).obj._animationStepIncrement = 125 ∧
    brightnessLevels (callsSince (sampleSys (sampleFadeToColor false)).pixels
      (FadeToColor.Start sampleEnv 100 false 255 (sampleSys (sampleFadeToColor false))).pixels)
      = [] ∧
    brightnessLevels (callsSince (sampleSys (sampleFadeToColor false)).pixels
      (FadeToColor.Start sampleEnv 3000000000 false 255
        (sampleSys (sampleFadeToColor false))).pixels) = [] ∧
    (FadeToColor.Start sampleEnv 3000000000 false 255
      (sampleSys (sampleFadeToColor false))).obj._fadeBrightness = 0 ∧
    (Twinkle.Start sampleEnv 100 100 100 100 false 255 (sampleSys (sampleTwinkle false))).map
      (fun s => (s.obj._active, s.obj._twinkleChangedCount,
        (ledRange s.obj._firstLED s.obj._lastLED).map s.pixels.color))
      = some (true, 0, [0, 0, 0, 0, 0, 0, 0, 0]) ∧
    (Twinkle.Start sampleEnv 3000000000 3000000000 3000000000 3000000000 false 255
      (sampleSys (sampleTwinkle false))).map
      (fun s => (s.obj._active, s.obj._twinkleChangedCount,
        (ledRange s.obj._firstLED s.obj._lastLED).map s.pixels.color))
      = some (true, 0, [0, 0, 0, 0, 0, 0, 0, 0]) ∧
    brightnessLevels (callsSince (sampleSys (sampleFadeToColor false)).pixels
      (FadeToColor.Start sampleEnv 5000 false 255 (sampleSys (sampleFadeToColor false))).pixels)
      = [0] ∧
    (Twinkle.Start sampleEnv 5000 5000 5000 5000 false 255 (sampleSys (sampleTwinkle false))).map
      (fun s => (s.obj._active, s.obj._twinkleChangedCount,
        (ledRange s.obj._firstLED s.obj._lastLED).map s.pixels.color))
      = some (true, 1, [0, 0, 0, 0, colorsAt 4, 0, 0, 0]) := by
  refine ⟨by decide, by decide, by decide, by decide!, by decide!, by decide!, by decide!,
    by decide!, by decide!, by decide!⟩

/-! ## The palette index of Startup -/

theorem writtenColors_append (l1 l2 : List DriverCall) :
    writtenColors (l1 ++ l2) = writtenColors l1 ++ writtenColors l2 := by
  induction l1 with
  | nil => rfl
  | cons c l ih =>
    cases c <;> simp [writtenColors, ih]

/-- No entry of the palette is black. -/
theorem colorsAt_ne_zero (k : Int) (h0 : 0 ≤ k) (h1 : k < 15) : colorsAt k ≠ 0 := by
  interval_cases k <;> decide

/-- The palette index after a due `Continue` of an active `Startup`. -/
theorem Startup.Continue_colorIdx (now : Nat) (s : Sys Startup) (ha : s.obj._active = true)
    (hd : s.obj._animationStepIncrement ≤ elapsedSince now s.obj._lastUpdateTime)
    (hc : 0 ≤ s.obj._colorIdx ∧ s.obj._colorIdx < 15) :
    (Startup.Continue now s).obj._colorIdx
      = if s.obj._colorToUse ≠ 0 then (s.obj._colorIdx + 1) % 15 else s.obj._colorIdx := by
  have hd2 : ¬ (elapsedSince now s.obj._lastUpdateTime < s.obj._animationStepIncrement) :=
    not_lt.mpr hd
  simp only [Startup.Continue, ha, Bool.not_true, Bool.false_eq_true, if_false, hd2]
  by_cases hz : s.obj._colorToUse = 0
  · simp [hz]
  · have hne := colorsAt_ne_zero s.obj._colorIdx hc.1 hc.2
    simp only [ne_eq, hz, not_false_eq_true, if_true, hne, colorTableSize]
    rw [Int.tmod_eq_emod (by omega) (by norm_num)]
    rfl

/-- The colours a run of due calls writes while the cursor stays in range:
the palette from the index held, cyclically, when `_colorToUse` is not 0, and
the literal 0 otherwise. -/
theorem Startup.run_colors (ts : List Nat) :
    ∀ s : Sys Startup, (ts = [] ∨ s.obj._active = true) → Startup.allDue ts s = true →
      (∀ i ∈ walkPositions s.obj._idx s.obj._inc ts.length,
        s.obj._firstLED ≤ i ∧ i ≤ s.obj._lastLED) →
      (0 ≤ s.obj._colorIdx ∧ s.obj._colorIdx < 15) →
      (∃ news, (Startup.run ts s).pixels.calls = s.pixels.calls ++ news ∧
        writtenColors news
          = (List.range ts.length).map (fun (k : Nat) =>
              if s.obj._colorToUse ≠ 0 then colorsAt ((s.obj._colorIdx + (k : Int)) % 15)
              else 0)) ∧
      (Startup.run ts s).obj._colorIdx
        = (if s.obj._colorToUse ≠ 0 then (s.obj._colorIdx + (ts.length : Int)) % 15
           else s.obj._colorIdx) := by
  induction ts with
  | nil =>
    intro s _ _ _ hc
    refine ⟨⟨[], by simp [Startup.run], rfl⟩, ?_⟩
    split_ifs
    · simp only [Startup.run, List.foldl_nil, List.length_nil, Nat.cast_zero, add_zero]
      omega
    · rfl
  | cons now rest ih =>
    intro s ha hdue hrange hc
    have ha : s.obj._active = true := by
      rcases ha with h | h
      · exact absurd h (by simp)
      · exact h
    simp only [Startup.allDue, Bool.and_eq_true, decide_eq_true_eq] at hdue
    obtain ⟨hd, hrest⟩ := hdue
    obtain ⟨hcalls, -, -, hidx, hinc, hfirst, hlast, hcol, hact⟩ :=
      Startup.startup_Continue_due now s ha hd
    have hcidx := Startup.Continue_colorIdx now s ha hd hc
    rw [List.length_cons, walkPositions_succ] at hrange
    have ha1 : rest = [] ∨ (Startup.Continue now s).obj._active = true := by
      cases rest with
      | nil => exact Or.inl rfl
      | cons now2 rest2 =>
        right
        rw [hact, decide_eq_true_eq]
        apply hrange
        rw [List.length_cons, walkPositions_succ]
        simp
    have hrange1 : ∀ i ∈ walkPositions (Startup.Continue now s).obj._idx
        (Startup.Continue now s).obj._inc rest.length,
        (Startup.Continue now s).obj._firstLED ≤ i ∧ i ≤ (Startup.Continue now s).obj._lastLED := by
      intro i hi
      rw [hidx, hinc] at hi
      rw [hfirst, hlast]
      exact hrange i (List.mem_cons_of_mem _ hi)
    have hc1 : 0 ≤ (Startup.Continue now s).obj._colorIdx ∧
        (Startup.Continue now s).obj._colorIdx < 15 := by
      rw [hcidx]
      split_ifs <;> omega
    obtain ⟨⟨news, hn1, hn2⟩, jc⟩ := ih (Startup.Continue now s) ha1 hrest hrange1 hc1
    rw [Startup.startup_run_cons, List.length_cons]
    refine ⟨⟨[DriverCall.setPixelColor s.obj._idx
          (if s.obj._colorToUse ≠ 0 then colorsAt s.obj._colorIdx else s.obj._colorToUse),
          DriverCall.showStrip] ++ news, ?_, ?_⟩, ?_⟩
    · rw [hn1, hcalls, List.append_assoc]
    · rw [writtenColors_append, hn2, hcol, hcidx, List.range_succ_eq_map, List.map_cons,
        List.map_map]
      by_cases hz : s.obj._colorToUse = 0
      · simp only [writtenColors, ne_eq, hz, not_true_eq_false, if_false, List.cons_append,
          List.nil_append, List.cons.injEq, true_and]
        apply List.map_congr_left
        intro k _
        rfl
      · simp only [writtenColors, ne_eq, hz, not_false_eq_true, if_true, List.cons_append,
          List.nil_append, Nat.cast_zero, add_zero, List.cons.injEq]
        refine ⟨by rw [Int.emod_eq_of_lt hc.1 hc.2], ?_⟩
        apply List.map_congr_left
        intro k _
        simp only [Function.comp, Nat.succ_eq_add_one]
        congr 1
        push_cast
        omega
    · rw [jc, hcol, hcidx]
      by_cases hz : s.obj._colorToUse = 0
      · simp [hz]
      · simp only [ne_eq, hz, not_false_eq_true, if_true]
        push_cast
        omega
theorem Startup.armed_positions (topToBottom : Bool) (first last : Int) (n : Nat)
    (hlen : (n : Int) ≤ last - first + 1) :
    ∀ i ∈ walkPositions (if topToBottom then last else first) (if topToBottom then -1 else 1) n,
      first ≤ i ∧ i ≤ last := by
  intro i hi
  rw [mem_walkPositions] at hi
  obtain ⟨j, hj, rfl⟩ := hi
  have hj2 : (j : Int) < n := by exact_mod_cast hj
  cases topToBottom
  · simp only [Bool.false_eq_true, if_false]
    constructor <;> omega
  · simp only [if_true]
    constructor <;> omega

/-- C28, as stated, fails: on the range `[2,4]` with the palette index at 2,
`Start` is given the non-zero colour 16711762, which is `colors[2]`; the first
applied step writes 16711762, the colour that was passed. -/
theorem startup_writes_passed_colour :
    sampleStartupSys.obj._colorIdx = 2 ∧ colorsAt 2 = 16711762 ∧
    (Startup.run [1000] (Startup.Start false 16711762 sampleStartupSys)).pixels.calls
      = [DriverCall.setPixelColor 2 16711762, DriverCall.showStrip] := by
  decide

/-- C28, amended. With the palette index `c` in `[0,15)` when `Start` is
called and at most `N` due steps after it (`N` the length of the range): when
the colour given to `Start` is not 0 the `k`-th applied step (`k = 0, 1, ...`)
writes `colors[(c + k) mod 15]`, whatever the colour given is, and `n` steps
leave the index at `(c + n) mod 15`; when the colour is 0 every step writes 0
and the index stays `c`, and the same holds after `Finish`.  The index stays
in `[0,15)`, and neither `Start` nor `Finish` changes it. -/
theorem startup_palette_cycle (topToBottom : Bool) (colorToUse : Rgb) (s : Sys Startup)
    (ts : List Nat) (hc : 0 ≤ s.obj._colorIdx ∧ s.obj._colorIdx < 15)
    (hlen : (ts.length : Int) ≤ s.obj._lastLED - s.obj._firstLED + 1) :
    (Startup.Start topToBottom colorToUse s).obj._colorIdx = s.obj._colorIdx ∧
    (Startup.Finish topToBottom s).obj._colorIdx = s.obj._colorIdx ∧
    (Startup.allDue ts (Startup.Start topToBottom colorToUse s) = true →
      writtenColors (callsSince s.pixels
          (Startup.run ts (Startup.Start topToBottom colorToUse s)).pixels)
        = (List.range ts.length).map (fun (k : Nat) =>
            if colorToUse ≠ 0 then colorsAt ((s.obj._colorIdx + (k : Int)) % 15) else 0) ∧
      (Startup.run ts (Startup.Start topToBottom colorToUse s)).obj._colorIdx
        = (if colorToUse ≠ 0 then (s.obj._colorIdx + (ts.length : Int)) % 15
           else s.obj._colorIdx) ∧
      0 ≤ (Startup.run ts (Startup.Start topToBottom colorToUse s)).obj._colorIdx ∧
      (Startup.run ts (Startup.Start topToBottom colorToUse s)).obj._colorIdx < 15) ∧
    (Startup.allDue ts (Startup.Finish topToBottom s) = true →
      writtenColors (callsSince s.pixels (Startup.run ts (Startup.Finish topToBottom s)).pixels)
        = (List.range ts.length).map (fun (_ : Nat) => 0) ∧
      (Startup.run ts (Startup.Finish topToBottom s)).obj._colorIdx = s.obj._colorIdx) := by
  refine ⟨rfl, rfl, ?_, ?_⟩
  · intro hdue
    obtain ⟨⟨news, hn1, hn2⟩, jc⟩ :=
      Startup.run_colors ts (Startup.Start topToBottom colorToUse s) (Or.inr rfl) hdue
        (Startup.armed_positions topToBottom s.obj._firstLED s.obj._lastLED ts.length hlen) hc
    have hn1b : (Startup.run ts (Startup.Start topToBottom colorToUse s)).pixels.calls
        = s.pixels.calls ++ news := hn1
    rw [callsSince_append _ _ _ hn1b, hn2]
    have jc2 : (Startup.run ts (Startup.Start topToBottom colorToUse s)).obj._colorIdx
        = (if colorToUse ≠ 0 then (s.obj._colorIdx + (ts.length : Int)) % 15
           else s.obj._colorIdx) := jc
    refine ⟨rfl, jc2, ?_⟩
    rw [jc2]
    split_ifs <;> omega
  · intro hdue
    obtain ⟨⟨news, hn1, hn2⟩, jc⟩ :=
      Startup.run_colors ts (Startup.Finish topToBottom s) (Or.inr rfl) hdue
        (Startup.armed_positions topToBottom s.obj._firstLED s.obj._lastLED ts.length hlen) hc
    have hn1b : (Startup.run ts (Startup.Finish topToBottom s)).pixels.calls
        = s.pixels.calls ++ news := hn1
    rw [callsSince_append _ _ _ hn1b, hn2]
    exact ⟨rfl, jc⟩

theorem startup_palette_cycle_witness :
    (0 ≤ sampleStartupSys.obj._colorIdx ∧ sampleStartupSys.obj._colorIdx < 15) ∧
    (([1000, 1125, 1250] : List Nat).length : Int)
      ≤ sampleStartupSys.obj._lastLED - sampleStartupSys.obj._firstLED + 1 ∧
    Startup.allDue [1000, 1125, 1250] (Startup.Start false 255 sampleStartupSys) = true ∧
    writtenColors (callsSince sampleStartupSys.pixels
        (Startup.run [1000, 1125, 1250] (Startup.Start false 255 sampleStartupSys)).pixels)
      = (List.range ([1000, 1125, 1250] : List Nat).length).map (fun (k : Nat) =>
          if (255 : Rgb) ≠ 0 then colorsAt ((sampleStartupSys.obj._colorIdx + (k : Int)) % 15)
          else 0) :=
  ⟨by decide, by decide, by decide,
    ((startup_palette_cycle false 255 sampleStartupSys [1000, 1125, 1250] (by decide)
      (by decide)).2.2.1 (by decide)).1⟩

/-! ## Twinkle: filling and clearing steps -/

/-- The scan of `Twinkle::Continue` started inside the range returns within
one circle.  It stops on an element not in the desired state, or back on
`origTryIdx` after finding every element passed in the desired state. -/
theorem twinkleScanLoop_spec (LEDArray : Int → Bool) (desiredState : Bool)
    (first last origTryIdx : Int) (ho : first ≤ origTryIdx ∧ origTryIdx ≤ last) :
    ∀ (fuel : Nat) (tryIdx : Int), first ≤ tryIdx → tryIdx ≤ last →
      scanDistance first last origTryIdx tryIdx ≤ fuel →
      ∃ r, twinkleScanLoop LEDArray desiredState first last origTryIdx fuel tryIdx = some r ∧
        first ≤ r ∧ r ≤ last ∧
        ((r ≠ origTryIdx ∧ LEDArray r ≠ desiredState) ∨
         (r = origTryIdx ∧ ∀ j, first ≤ j → j ≤ last →
            scanDistance first last origTryIdx j < scanDistance first last origTryIdx tryIdx →
            LEDArray j = desiredState)) := by
  intro fuel
  induction fuel with
  | zero =>
    intro t h1 h2 hm
    exfalso
    unfold scanDistance at hm
    split_ifs at hm <;> omega
  | succ fuel ih =>
    intro t h1 h2 hm
    have hw1 : first ≤ (if t + 1 > last then first else t + 1) := by split_ifs <;> omega
    have hw2 : (if t + 1 > last then first else t + 1) ≤ last := by split_ifs <;> omega
    simp only [twinkleScanLoop]
    by_cases hgo : LEDArray (if t + 1 > last then first else t + 1) = desiredState ∧
        (if t + 1 > last then first else t + 1) ≠ origTryIdx
    · rw [if_pos hgo]
      have hm1 : scanDistance first last origTryIdx (if t + 1 > last then first else t + 1)
          = scanDistance first last origTryIdx t - 1 := by
        have hne := hgo.2
        unfold scanDistance
        split_ifs at hne ⊢ <;> omega
      obtain ⟨r, hr, hr1, hr2, hr3⟩ := ih _ hw1 hw2 (by rw [hm1]; omega)
      refine ⟨r, hr, hr1, hr2, ?_⟩
      rcases hr3 with h | ⟨h, hall⟩
      · exact Or.inl h
      · right
        refine ⟨h, ?_⟩
        intro j j1 j2 hj
        by_cases hjw : j = (if t + 1 > last then first else t + 1)
        · rw [hjw]
          exact hgo.1
        · apply hall j j1 j2
          rw [hm1]
          have hlt : scanDistance first last origTryIdx j
              ≠ scanDistance first last origTryIdx (if t + 1 > last then first else t + 1) := by
            intro heq
            apply hjw
            unfold scanDistance at heq
            split_ifs at heq ⊢ <;> omega
          rw [hm1] at hlt
          omega
    · rw [if_neg hgo]
      refine ⟨_, rfl, hw1, hw2, ?_⟩
      by_cases hwo : (if t + 1 > last then first else t + 1) = origTryIdx
      · right
        refine ⟨hwo, ?_⟩
        intro j j1 j2 hj
        exfalso
        unfold scanDistance at hj
        split_ifs at hwo hj <;> omega
      · left
        refine ⟨hwo, ?_⟩
        intro hl
        exact hgo ⟨hl, hwo⟩
/-- Marking one more element of a duplicate-free list raises the count of
marked elements by one. -/
theorem length_filter_update (f : Int → Bool) (b : Bool) (r : Int) (l : List Int)
    (hnd : l.Nodup) (hr : r ∈ l) (hf : f r ≠ b) :
    (l.filter (fun i => (if i = r then b else f i) == b)).length
      = (l.filter (fun i => f i == b)).length + 1 := by
  induction l with
  | nil => simp at hr
  | cons x l ih =>
    rw [List.nodup_cons] at hnd
    by_cases hx : x = r
    · subst hx
      have hsame : l.filter (fun i => (if i = x then b else f i) == b)
          = l.filter (fun i => f i == b) := by
        apply List.filter_congr
        intro i hi
        have : i ≠ x := fun h => hnd.1 (h ▸ hi)
        simp [this]
      have hfx : (f x == b) = false := by
        cases hfv : f x <;> cases b <;> simp_all
      simp [List.filter_cons, hsame, hfx]
    · have hr2 : r ∈ l := by
        rcases List.mem_cons.1 hr with h | h
        · exact absurd h.symm hx
        · exact h
      have := ih hnd.2 hr2
      simp only [List.filter_cons, hx, if_false]
      split_ifs
      · simp [this]
      · exact this

/-- The value `random(first, last)` takes on a range of more than one
element: one draw is consumed and the result lies in `[first, last - 1]`. -/
theorem random_range (first last : Int) (r0 : Nat) (rest : List Nat) (h : first < last) :
    random first last (r0 :: rest) = some (first + (r0 : Int) % (last - first), rest) ∧
    first ≤ first + (r0 : Int) % (last - first) ∧
    first + (r0 : Int) % (last - first) < last := by
  have h1 : 0 ≤ (r0 : Int) % (last - first) := Int.emod_nonneg _ (by omega)
  have h2 : (r0 : Int) % (last - first) < last - first := Int.emod_lt_of_pos _ (by omega)
  refine ⟨?_, by omega, by omega⟩
  simp [random, not_le.mpr h]
/-- A due filling or clearing step of `Twinkle::Continue` that does not end
the sub-state, spelled out: the element chosen lies in the range, is one not
yet in the desired state whenever the range has such an element, and the
state returned is the one below. -/
theorem Twinkle.Continue_fill (e : Env) (now now1 now2 : Nat) (s : Sys Twinkle)
    (r0 : Nat) (rest : List Nat)
    (ha : s.obj._active = true)
    (hd : s.obj._animationStepIncrement ≤ elapsedSince now s.obj._lastUpdateTime)
    (hst : s.obj._twinkleState ≠ twinkleTwinkling)
    (hcnt : 0 ≤ s.obj._twinkleChangedCount ∧
      s.obj._twinkleChangedCount < s.obj._lastLED - s.obj._firstLED)
    (hdl : now % ulongSize ≤ s.obj._twinkleLongestTimeToWait)
    (htape : s.tape = r0 :: rest)
    (hrest : ∃ r ∈ rest, ((r : Int) % 15) ≠ s.obj._lastColorIndex) :
    ∃ (tryIdx : Int) (picked : Rgb) (a : Animation) (tape2 : List Nat),
      s.obj.toAnimation.randomColor rest = some (picked, a, tape2) ∧
      s.obj._firstLED ≤ tryIdx ∧ tryIdx ≤ s.obj._lastLED ∧
      ((∃ i, s.obj._firstLED ≤ i ∧ i ≤ s.obj._lastLED ∧
          s.obj._LEDArray i ≠ decide (s.obj._twinkleState = twinkleTurningOn)) →
        s.obj._LEDArray tryIdx ≠ decide (s.obj._twinkleState = twinkleTurningOn)) ∧
      Twinkle.Continue e now now1 now2 s = some
        { pixels := (s.pixels.setPixelColor tryIdx
            (if s.obj._twinkleState = twinkleTurningOff then e.offColor else picked)).showStrip
          tape := tape2
          obj :=
            { s.obj with
              toAnimation := { a with _lastUpdateTime := now }
              _LEDArray := fun j =>
                if j = tryIdx then decide (s.obj._twinkleState = twinkleTurningOn)
                else s.obj._LEDArray j
              _twinkleChangedCount := s.obj._twinkleChangedCount + 1 } } := by
  have hlt : s.obj._firstLED < s.obj._lastLED := by omega
  obtain ⟨hrand, hd1, hd2⟩ := random_range s.obj._firstLED s.obj._lastLED r0 rest hlt
  obtain ⟨⟨picked, a, tape2⟩, hcol⟩ :=
    Animation.randomColor_isSome s.obj.toAnimation rest hrest
  have hcond : ¬ (s.obj._twinkleChangedCount ≥ s.obj._lastLED - s.obj._firstLED ∨
      now % ulongSize > s.obj._twinkleLongestTimeToWait) := by omega
  have hfuel : scanDistance s.obj._firstLED s.obj._lastLED
      (s.obj._firstLED + (r0 : Int) % (s.obj._lastLED - s.obj._firstLED))
      (s.obj._firstLED + (r0 : Int) % (s.obj._lastLED - s.obj._firstLED))
      ≤ (((s.obj._lastLED + 1 - s.obj._firstLED).toNat + 1 : Nat) : Int) := by
    unfold scanDistance
    rw [if_neg (lt_irrefl _)]
    push_cast
    omega
  obtain ⟨r, hr, hr1, hr2, hr3⟩ := twinkleScanLoop_spec s.obj._LEDArray
    (decide (s.obj._twinkleState = twinkleTurningOn)) s.obj._firstLED s.obj._lastLED
    (s.obj._firstLED + (r0 : Int) % (s.obj._lastLED - s.obj._firstLED)) ⟨hd1, by omega⟩
    ((s.obj._lastLED + 1 - s.obj._firstLED).toNat + 1)
    (s.obj._firstLED + (r0 : Int) % (s.obj._lastLED - s.obj._firstLED)) hd1 (by omega) hfuel
  by_cases hocc : s.obj._LEDArray
      (s.obj._firstLED + (r0 : Int) % (s.obj._lastLED - s.obj._firstLED))
      = decide (s.obj._twinkleState = twinkleTurningOn)
  · refine ⟨r, picked, a, tape2, hcol, hr1, hr2, ?_, ?_⟩
    · rintro ⟨i, i1, i2, i3⟩
      rcases hr3 with h | ⟨h, hall⟩
      · exact h.2
      · exfalso
        by_cases hio : i = s.obj._firstLED + (r0 : Int) % (s.obj._lastLED - s.obj._firstLED)
        · exact i3 (hio ▸ hocc)
        · apply i3
          apply hall i i1 i2
          unfold scanDistance
          split_ifs <;> omega
    · simp only [Twinkle.Continue, ha, Bool.not_true, Bool.false_eq_true, if_false,
        not_lt.mpr hd, hst, hcond, htape, hrand, hcol, hocc, if_true, hr]
  · refine ⟨s.obj._firstLED + (r0 : Int) % (s.obj._lastLED - s.obj._firstLED), picked, a,
      tape2, hcol, hd1, by omega, fun _ => hocc, ?_⟩
    simp only [Twinkle.Continue, ha, Bool.not_true, Bool.false_eq_true, if_false,
      not_lt.mpr hd, hst, hcond, htape, hrand, hcol, hocc]
/-- C29. In the filling or clearing sub-state, a due `Continue` of an
active Twinkle that does not end the sub-state (changed-count below
`last - first`, clock not past the deadline) returns whenever the generator
delivers a draw for the position and then a palette index different from the
last one.  It sends the driver exactly one write, at an index inside
`[first,last]`, and a flush; it raises the changed-count by one and marks that
index in the occupancy array; and whenever some element of the range is not
yet in the desired state (on when filling, off when clearing) the index
chosen is such an element, so the number of elements of the range recorded
in the desired state grows by exactly one. -/
theorem twinkle_fill_step_marks_one (e : Env) (now now1 now2 : Nat) (s : Sys Twinkle)
    (r0 : Nat) (rest : List Nat)
    (ha : s.obj._active = true)
    (hd : s.obj._animationStepIncrement ≤ elapsedSince now s.obj._lastUpdateTime)
    (hst : s.obj._twinkleState ≠ twinkleTwinkling)
    (hcnt : 0 ≤ s.obj._twinkleChangedCount ∧
      s.obj._twinkleChangedCount < s.obj._lastLED - s.obj._firstLED)
    (hdl : now % ulongSize ≤ s.obj._twinkleLongestTimeToWait)
    (htape : s.tape = r0 :: rest)
    (hrest : ∃ r ∈ rest, ((r : Int) % 15) ≠ s.obj._lastColorIndex) :
    ∃ (s1 : Sys Twinkle) (tryIdx : Int) (c : Rgb),
      Twinkle.Continue e now now1 now2 s = some s1 ∧
      s.obj._firstLED ≤ tryIdx ∧ tryIdx ≤ s.obj._lastLED ∧
      callsSince s.pixels s1.pixels
        = [DriverCall.setPixelColor tryIdx c, DriverCall.showStrip] ∧
      s1.obj._twinkleChangedCount = s.obj._twinkleChangedCount + 1 ∧
      s1.obj._twinkleState = s.obj._twinkleState ∧
      s1.obj._firstLED = s.obj._firstLED ∧ s1.obj._lastLED = s.obj._lastLED ∧
      (∀ j, s1.obj._LEDArray j
        = if j = tryIdx then decide (s.obj._twinkleState = twinkleTurningOn)
          else s.obj._LEDArray j) ∧
      ((∃ i, s.obj._firstLED ≤ i ∧ i ≤ s.obj._lastLED ∧
          s.obj._LEDArray i ≠ decide (s.obj._twinkleState = twinkleTurningOn)) →
        s.obj._LEDArray tryIdx ≠ decide (s.obj._twinkleState = twinkleTurningOn) ∧
        s1.obj.inState (decide (s.obj._twinkleState = twinkleTurningOn))
          = s.obj.inState (decide (s.obj._twinkleState = twinkleTurningOn)) + 1) := by
  obtain ⟨tryIdx, picked, a, tape2, hcol, h1, h2, hnew, hC⟩ :=
    Twinkle.Continue_fill e now now1 now2 s r0 rest ha hd hst hcnt hdl htape hrest
  have hfr := Animation.randomColor_frame _ _ _ _ _ hcol
  have hfirst : a._firstLED = s.obj._firstLED := by rw [hfr]
  have hlast : a._lastLED = s.obj._lastLED := by rw [hfr]
  refine ⟨_, tryIdx, (if s.obj._twinkleState = twinkleTurningOff then e.offColor else picked),
    hC, h1, h2, ?_, rfl, rfl, hfirst, hlast, fun j => rfl, ?_⟩
  · apply callsSince_append
    simp [Pixels.showStrip, Pixels.setPixelColor]
  · intro hex
    refine ⟨hnew hex, ?_⟩
    simp only [Twinkle.inState, hfirst, hlast]
    exact length_filter_update s.obj._LEDArray _ tryIdx _ (nodup_ledRange _ _)
      ((mem_ledRange _ _ _).2 ⟨h1, h2⟩) (hnew hex)

theorem twinkle_fill_step_marks_one_witness :
    ∃ (s1 : Sys Twinkle) (tryIdx : Int) (c : Rgb),
      Twinkle.Continue sampleEnv 1125 1126 1127 (sampleSys (sampleTwinkle true)) = some s1 ∧
      (sampleSys (sampleTwinkle true)).obj._firstLED ≤ tryIdx ∧
      tryIdx ≤ (sampleSys (sampleTwinkle true)).obj._lastLED ∧
      callsSince (sampleSys (sampleTwinkle true)).pixels s1.pixels
        = [DriverCall.setPixelColor tryIdx c, DriverCall.showStrip] ∧
      s1.obj._twinkleChangedCount = (sampleSys (sampleTwinkle true)).obj._twinkleChangedCount + 1 ∧
      s1.obj._twinkleState = (sampleSys (sampleTwinkle true)).obj._twinkleState ∧
      s1.obj._firstLED = (sampleSys (sampleTwinkle true)).obj._firstLED ∧
      s1.obj._lastLED = (sampleSys (sampleTwinkle true)).obj._lastLED ∧
      (∀ j, s1.obj._LEDArray j
        = if j = tryIdx then
            decide ((sampleSys (sampleTwinkle true)).obj._twinkleState = twinkleTurningOn)
          else (sampleSys (sampleTwinkle true)).obj._LEDArray j) ∧
      ((∃ i, (sampleSys (sampleTwinkle true)).obj._firstLED ≤ i ∧
          i ≤ (sampleSys (sampleTwinkle true)).obj._lastLED ∧
          (sampleSys (sampleTwinkle true)).obj._LEDArray i
            ≠ decide ((sampleSys (sampleTwinkle true)).obj._twinkleState = twinkleTurningOn)) →
        (sampleSys (sampleTwinkle true)).obj._LEDArray tryIdx
          ≠ decide ((sampleSys (sampleTwinkle true)).obj._twinkleState = twinkleTurningOn) ∧
        s1.obj.inState
            (decide ((sampleSys (sampleTwinkle true)).obj._twinkleState = twinkleTurningOn))
          = (sampleSys (sampleTwinkle true)).obj.inState
              (decide ((sampleSys (sampleTwinkle true)).obj._twinkleState = twinkleTurningOn))
            + 1) :=
  twinkle_fill_step_marks_one sampleEnv 1125 1126 1127 (sampleSys (sampleTwinkle true)) 4 [19, 7]
    rfl (by decide) (by decide) (by decide) (by decide) rfl ⟨19, by decide, by decide⟩

/-! ## Twinkle: the end of filling and of clearing -/

theorem Animation.randomColor_fresh (a : Animation) (r : Nat) (rest : List Nat)
    (h : freshTape a._lastColorIndex (r :: rest) = true) :
    a.randomColor (r :: rest)
      = some (colorsAt ((r : Int) % 15), { a with _lastColorIndex := (r : Int) % 15 }, rest) ∧
    freshTape ((r : Int) % 15) rest = true := by
  simp only [freshTape, Bool.and_eq_true, decide_eq_true_eq] at h
  refine ⟨?_, h.2⟩
  simp [Animation.randomColor, randomColorLoop, colorTableSize, h.1]

/-- What the lighting loop of `twinkleFinish(true)` leaves: a palette colour
on every element visited that was not marked on, everything else untouched. -/
theorem twinkleFinishLoop_colors (LEDArray : Int → Bool) (l : List Int) :
    ∀ (a : Animation) (p : Pixels) (tape : List Nat) (a1 : Animation) (p1 : Pixels)
      (tape1 : List Nat), twinkleFinishLoop LEDArray l a p tape = some (a1, p1, tape1) →
      (∀ i, i ∈ l → LEDArray i ≠ true →
        ∃ k : Int, 0 ≤ k ∧ k < 15 ∧ p1.color i = colorsAt k) ∧
      (∀ i, ¬ (i ∈ l ∧ LEDArray i ≠ true) → p1.color i = p.color i) ∧
      p1.brightness = p.brightness := by
  induction l with
  | nil =>
    intro a p tape a1 p1 tape1 h
    simp only [twinkleFinishLoop, Option.some.injEq, Prod.mk.injEq] at h
    obtain ⟨-, h2, -⟩ := h
    subst h2
    exact ⟨fun i hi => absurd hi (by simp), fun i _ => rfl, rfl⟩
  | cons x rest ih =>
    intro a p tape a1 p1 tape1 h
    simp only [twinkleFinishLoop] at h
    by_cases hx : LEDArray x ≠ true
    · rw [if_pos hx] at h
      split at h
      · simp at h
      · rename_i c a2 tape2 hc
        obtain ⟨-, k0, k1, kc⟩ := Animation.randomColor_spec a tape c a2 tape2 hc
        obtain ⟨g1, g2, g3⟩ := ih _ _ _ _ _ _ h
        refine ⟨?_, ?_, ?_⟩
        · intro i hi hu
          by_cases hir : i ∈ rest
          · exact g1 i hir hu
          · have hix : i = x := by
              rcases List.mem_cons.1 hi with h' | h'
              · exact h'
              · exact absurd h' hir
            refine ⟨a2._lastColorIndex, k0, k1, ?_⟩
            rw [g2 i (fun hh => hir hh.1), hix]
            simp [Pixels.setPixelColor, kc]
        · intro i hi
          have hir : ¬ (i ∈ rest ∧ LEDArray i ≠ true) :=
            fun hh => hi ⟨List.mem_cons_of_mem _ hh.1, hh.2⟩
          have hix : i ≠ x := by
            intro hh
            apply hi
            rw [hh]
            exact ⟨List.mem_cons_self _ _, hx⟩
          rw [g2 i hir]
          simp [Pixels.setPixelColor, hix]
        · rw [g3]
          rfl
    · rw [if_neg hx] at h
      obtain ⟨g1, g2, g3⟩ := ih _ _ _ _ _ _ h
      refine ⟨?_, ?_, g3⟩
      · intro i hi hu
        rcases List.mem_cons.1 hi with h' | h'
        · exact absurd (h' ▸ hu) hx
        · exact g1 i h' hu
      · intro i hi
        apply g2
        intro hh
        exact hi ⟨List.mem_cons_of_mem _ hh.1, hh.2⟩

/-- On a fresh supply at least as long as the list, the lighting loop returns
and consumes at most one draw for each element. -/
theorem twinkleFinishLoop_isSome (LEDArray : Int → Bool) (l : List Int) :
    ∀ (a : Animation) (p : Pixels) (tape : List Nat),
      freshTape a._lastColorIndex tape = true → l.length ≤ tape.length →
      ∃ a1 p1 tape1, twinkleFinishLoop LEDArray l a p tape = some (a1, p1, tape1) ∧
        tape.length ≤ tape1.length + l.length := by
  induction l with
  | nil =>
    intro a p tape _ _
    exact ⟨a, p, tape, rfl, by simp⟩
  | cons x rest ih =>
    intro a p tape hf hlen
    simp only [twinkleFinishLoop]
    by_cases hx : LEDArray x ≠ true
    · rw [if_pos hx]
      cases tape with
      | nil => simp at hlen
      | cons r tape' =>
        obtain ⟨hr, hf2⟩ := Animation.randomColor_fresh a r tape' hf
        rw [hr]
        simp only [List.length_cons] at hlen
        obtain ⟨a1, p1, tape1, h1, h2⟩ :=
          ih { a with _lastColorIndex := (r : Int) % 15 } (p.setPixelColor x (colorsAt ((r : Int) % 15)))
            tape' hf2 (by omega)
        refine ⟨a1, p1, tape1, h1, ?_⟩
        simp only [List.length_cons]
        omega
    · rw [if_neg hx]
      simp only [List.length_cons] at hlen
      obtain ⟨a1, p1, tape1, h1, h2⟩ := ih a p tape hf (by omega)
      refine ⟨a1, p1, tape1, h1, ?_⟩
      simp only [List.length_cons]
      omega

theorem twinkleSomeInitLoop_isSome (first last : Int) (slots : List Nat) :
    ∀ (indices : Int → Int) (tape : List Nat), slots.length ≤ tape.length →
      ∃ res, twinkleSomeInitLoop first last slots indices tape = some res := by
  induction slots with
  | nil =>
    intro indices tape _
    exact ⟨_, rfl⟩
  | cons x rest ih =>
    intro indices tape hlen
    simp only [twinkleSomeInitLoop, random]
    simp only [List.length_cons] at hlen
    by_cases hh : last - 1 ≤ first
    · rw [if_pos hh]
      exact ih _ tape (by omega)
    · rw [if_neg hh]
      cases tape with
      | nil => simp at hlen
      | cons r tape' =>
        simp only [List.length_cons] at hlen
        exact ih _ tape' (by omega)
/-- The due `Continue` that ends filling, when it returns: the sub-state is
twinkling, the object still active, every element of the range not marked on
holds a palette colour and every other element its old colour. -/
theorem Twinkle.Continue_endFill (e : Env) (now now1 now2 : Nat) (s s1 : Sys Twinkle)
    (ha : s.obj._active = true)
    (hd : s.obj._animationStepIncrement ≤ elapsedSince now s.obj._lastUpdateTime)
    (hst : s.obj._twinkleState = twinkleTurningOn)
    (hcond : s.obj._twinkleChangedCount ≥ s.obj._lastLED - s.obj._firstLED ∨
      now % ulongSize > s.obj._twinkleLongestTimeToWait)
    (h : Twinkle.Continue e now now1 now2 s = some s1) :
    s1.obj._twinkleState = twinkleTwinkling ∧ s1.obj._active = true ∧
    s1.obj._firstLED = s.obj._firstLED ∧ s1.obj._lastLED = s.obj._lastLED ∧
    (∀ i, s.obj._firstLED ≤ i → i ≤ s.obj._lastLED → s.obj._LEDArray i ≠ true →
      ∃ k : Int, 0 ≤ k ∧ k < 15 ∧ s1.pixels.color i = colorsAt k) ∧
    (∀ i, ¬ (s.obj._firstLED ≤ i ∧ i ≤ s.obj._lastLED ∧ s.obj._LEDArray i ≠ true) →
      s1.pixels.color i = s.pixels.color i) := by
  have hne : s.obj._twinkleState ≠ twinkleTwinkling := by
    rw [hst]
    decide
  have hne1 : ¬ (twinkleTurningOn = twinkleTwinkling) := by decide
  simp only [Twinkle.Continue, ha, Bool.not_true, Bool.false_eq_true, if_false,
    not_lt.mpr hd, hne, hne1, hcond, if_true, hst, Twinkle.twinkleFinish, decide_True] at h
  split at h
  · simp at h
  · rename_i s2 hfin
    split at hfin
    · simp at hfin
    · rename_i a p tape hloop
      simp only [Option.some.injEq] at hfin
      subst hfin
      simp only [Twinkle.twinkleSomeInit] at h
      split at h
      · simp at h
      · simp only [Option.some.injEq] at h
        subst h
        obtain ⟨g1, g2, -⟩ := twinkleFinishLoop_colors _ _ _ _ _ _ _ _ hloop
        have hfr := twinkleFinishLoop_frame _ _ _ _ _ _ _ _ hloop
        refine ⟨rfl, ?_, ?_, ?_, ?_, ?_⟩
        · show a._active = true
          rw [hfr]
          exact ha
        · show a._firstLED = _
          rw [hfr]
        · show a._lastLED = _
          rw [hfr]
        · intro i i1 i2 i3
          exact g1 i ((mem_ledRange _ _ _).2 ⟨i1, i2⟩) i3
        · intro i hi
          show p.color i = _
          apply g2
          rintro ⟨hm, hu⟩
          rw [mem_ledRange] at hm
          exact hi ⟨hm.1, hm.2, hu⟩

/-- The due `Continue` that ends filling returns on a fresh supply of draws
long enough for the range and the twinkling set. -/
theorem Twinkle.Continue_endFill_isSome (e : Env) (now now1 now2 : Nat) (s : Sys Twinkle)
    (ha : s.obj._active = true)
    (hd : s.obj._animationStepIncrement ≤ elapsedSince now s.obj._lastUpdateTime)
    (hst : s.obj._twinkleState = twinkleTurningOn)
    (hcond : s.obj._twinkleChangedCount ≥ s.obj._lastLED - s.obj._firstLED ∨
      now % ulongSize > s.obj._twinkleLongestTimeToWait)
    (hf : freshTape s.obj._lastColorIndex s.tape = true)
    (hlen : (s.obj._lastLED + 1 - s.obj._firstLED).toNat + s.obj._MAXTOTWINKLE.toNat
      ≤ s.tape.length) :
    ∃ s1, Twinkle.Continue e now now1 now2 s = some s1 := by
  have hne : s.obj._twinkleState ≠ twinkleTwinkling := by
    rw [hst]
    decide
  have hlr : (ledRange s.obj._firstLED s.obj._lastLED).length
      = (s.obj._lastLED + 1 - s.obj._firstLED).toNat := by
    simp [ledRange]
  obtain ⟨a1, p1, tape1, h1, h2⟩ := twinkleFinishLoop_isSome s.obj._LEDArray
    (ledRange s.obj._firstLED s.obj._lastLED) s.obj.toAnimation s.pixels s.tape hf (by omega)
  obtain ⟨res, hres⟩ := twinkleSomeInitLoop_isSome s.obj._firstLED s.obj._lastLED
    (List.range s.obj._MAXTOTWINKLE.toNat) s.obj._twinkleIndices tape1
    (by rw [List.length_range]; omega)
  have hne1 : ¬ (twinkleTurningOn = twinkleTwinkling) := by decide
  simp only [Twinkle.Continue, ha, Bool.not_true, Bool.false_eq_true, if_false,
    not_lt.mpr hd, hne, hne1, hcond, if_true, hst, Twinkle.twinkleFinish, decide_True, h1,
    Twinkle.twinkleSomeInit]
  have hfr := twinkleFinishLoop_frame _ _ _ _ _ _ _ _ h1
  have e1 : a1._firstLED = s.obj._firstLED := by rw [hfr]
  have e2 : a1._lastLED = s.obj._lastLED := by rw [hfr]
  simp only [e1, e2, hres]
  exact ⟨_, rfl⟩

/-- The due `Continue` that ends clearing: the range is blanked and the
object is inactive. -/
theorem Twinkle.Continue_endClear (e : Env) (now now1 now2 : Nat) (s : Sys Twinkle)
    (ha : s.obj._active = true)
    (hd : s.obj._animationStepIncrement ≤ elapsedSince now s.obj._lastUpdateTime)
    (hst : s.obj._twinkleState = twinkleTurningOff)
    (hcond : s.obj._twinkleChangedCount ≥ s.obj._lastLED - s.obj._firstLED ∨
      now % ulongSize > s.obj._twinkleLongestTimeToWait) :
    Twinkle.Continue e now now1 now2 s = some
      { s with
        pixels := s.obj.setAllPixelsTo s.pixels e.offColor true
        obj := { s.obj with _active := false } } := by
  have hne : s.obj._twinkleState ≠ twinkleTwinkling := by
    rw [hst]
    decide
  have hne2 : ¬ (twinkleTurningOff = twinkleTurningOn) := by decide
  have hne1 : ¬ (twinkleTurningOff = twinkleTwinkling) := by decide
  simp only [Twinkle.Continue, ha, Bool.not_true, Bool.false_eq_true, if_false,
    not_lt.mpr hd, hne, hne1, hcond, if_true, hst, hne2, Twinkle.twinkleFinish, decide_False,
    Bool.not_false]
/-- A filling step keeps every marked element lit, provided no palette colour
is the off-colour. -/
theorem Twinkle.Continue_fill_keeps_lit (e : Env) (now now1 now2 : Nat) (s s1 : Sys Twinkle)
    (r0 : Nat) (rest : List Nat)
    (ha : s.obj._active = true)
    (hd : s.obj._animationStepIncrement ≤ elapsedSince now s.obj._lastUpdateTime)
    (hst : s.obj._twinkleState = twinkleTurningOn)
    (hcnt : 0 ≤ s.obj._twinkleChangedCount ∧
      s.obj._twinkleChangedCount < s.obj._lastLED - s.obj._firstLED)
    (hdl : now % ulongSize ≤ s.obj._twinkleLongestTimeToWait)
    (htape : s.tape = r0 :: rest)
    (hrest : ∃ r ∈ rest, ((r : Int) % 15) ≠ s.obj._lastColorIndex)
    (hpal : ∀ k : Int, 0 ≤ k → k < 15 → colorsAt k ≠ e.offColor)
    (hlit : Twinkle.LitWhereMarked e s)
    (h : Twinkle.Continue e now now1 now2 s = some s1) :
    Twinkle.LitWhereMarked e s1 := by
  have hne : s.obj._twinkleState ≠ twinkleTwinkling := by
    rw [hst]
    decide
  obtain ⟨tryIdx, picked, a, tape2, hcol, h1, h2, -, hC⟩ :=
    Twinkle.Continue_fill e now now1 now2 s r0 rest ha hd hne hcnt hdl htape hrest
  rw [hC] at h
  simp only [Option.some.injEq] at h
  subst h
  obtain ⟨-, k0, k1, kc⟩ := Animation.randomColor_spec _ _ _ _ _ hcol
  have hfr := Animation.randomColor_frame _ _ _ _ _ hcol
  have hoff : ¬ (s.obj._twinkleState = twinkleTurningOff) := by
    rw [hst]
    decide
  intro i i1 i2 i3
  have j1 : s.obj._firstLED ≤ i := by
    have : a._firstLED ≤ i := i1
    rw [hfr] at this
    exact this
  have j2 : i ≤ s.obj._lastLED := by
    have : i ≤ a._lastLED := i2
    rw [hfr] at this
    exact this
  have j3 : (if i = tryIdx then decide (s.obj._twinkleState = twinkleTurningOn)
      else s.obj._LEDArray i) = true := i3
  show (if i = tryIdx then (if s.obj._twinkleState = twinkleTurningOff then e.offColor
      else picked) else s.pixels.color i) ≠ e.offColor
  by_cases hi : i = tryIdx
  · rw [if_pos hi, if_neg hoff, kc]
    exact hpal _ k0 k1
  · rw [if_neg hi]
    rw [if_neg hi] at j3
    exact hlit i j1 j2 j3

/-! ## PIR: the indicator -/

/-- C32. In every `PIR::read()` call whose raw state differs from
`_previousState`, the driver receives in that call one write of the indicator
element, with the indicator colour when the raw state is true and the
off-colour when it is false, and one flush; the element holds that colour
afterwards, the transition time and the previous state are updated, and the
call returns the reported state held before it, which it leaves in place. -/
theorem pir_change_mirrored_at_once (e : Env) (pinHigh : Bool) (now : Nat) (s : Sys PIR)
    (hc : s.obj.readRaw pinHigh ≠ s.obj._previousState) :
    callsSince s.pixels (PIR.read e pinHigh now s).2.pixels
      = [DriverCall.setPixelColor s.obj._indicatorIndex
          (if s.obj.readRaw pinHigh then e.indicatorColor else e.offColor),
         DriverCall.showStrip] ∧
    (PIR.read e pinHigh now s).2.pixels.color s.obj._indicatorIndex
      = (if s.obj.readRaw pinHigh then e.indicatorColor else e.offColor) ∧
    (PIR.read e pinHigh now s).1 = s.obj._reportedState ∧
    (PIR.read e pinHigh now s).2.obj._reportedState = s.obj._reportedState ∧
    (PIR.read e pinHigh now s).2.obj._previousState = s.obj.readRaw pinHigh ∧
    (PIR.read e pinHigh now s).2.obj._PIRTransitionTime = now := by
  have hself : ulongSub now now = 0 := by
    unfold ulongSub ulongSize
    omega
  have hch : (s.obj.readRaw pinHigh != s.obj._previousState) = true := by
    simpa using hc
  refine ⟨?_, ?_, ?_, ?_, ?_, ?_⟩
  · apply callsSince_append
    simp [PIR.read, hch, Pixels.showStrip, Pixels.setPixelColor]
  · simp [PIR.read, hch, Pixels.showStrip, Pixels.setPixelColor]
  · simp [PIR.read, hch, hself, stableStateMinimum]
  · simp [PIR.read, hch, hself, stableStateMinimum]
  · simp [PIR.read, hch]
  · simp [PIR.read, hch, hself, stableStateMinimum]

theorem pir_change_mirrored_at_once_witness :
    (sampleSys samplePIR).obj.readRaw false ≠ (sampleSys samplePIR).obj._previousState ∧
    callsSince (sampleSys samplePIR).pixels
        (PIR.read sampleEnv false 1050 (sampleSys samplePIR)).2.pixels
      = [DriverCall.setPixelColor 0 0, DriverCall.showStrip] ∧
    (PIR.read sampleEnv false 1050 (sampleSys samplePIR)).1 = false :=
  ⟨by decide,
    (pir_change_mirrored_at_once sampleEnv false 1050 (sampleSys samplePIR) (by decide)).1,
    (pir_change_mirrored_at_once sampleEnv false 1050 (sampleSys samplePIR) (by decide)).2.2.1⟩

/-! ## The Marquee constructor -/

/-- C34. On every range with `first ≤ last` the Marquee constructor stores
`min(7, round((last - first) / 10) + 1)` in `marqueeQuanta`, a value between 1
and 7; it keeps a positive step interval computed by the base constructor and
replaces any other by 150, so the interval it leaves is strictly positive. -/
theorem marquee_constructor_quantum (e : Env) (raw : Marquee) (animationName : String)
    (animationTime : ℚ) (firstOffset lastOffset : Int)
    (h : firstOffset ≤ (e.numPixels : Int) - 1 + lastOffset) :
    (Marquee.construct e raw animationName animationTime firstOffset lastOffset)._firstLED
      = firstOffset ∧
    (Marquee.construct e raw animationName animationTime firstOffset lastOffset)._lastLED
      = (e.numPixels : Int) - 1 + lastOffset ∧
    (Marquee.construct e raw animationName animationTime firstOffset lastOffset).marqueeQuanta
      = min 7 (round ((((e.numPixels : Int) - 1 + lastOffset - firstOffset : Int) : ℚ) / 10) + 1) ∧
    1 ≤ (Marquee.construct e raw animationName animationTime firstOffset lastOffset).marqueeQuanta ∧
    (Marquee.construct e raw animationName animationTime firstOffset lastOffset).marqueeQuanta ≤ 7 ∧
    (Marquee.construct e raw animationName animationTime firstOffset
        lastOffset)._animationStepIncrement
      = (if stepIncrementFor e.numPixels animationTime ≤ 0 then 150
         else stepIncrementFor e.numPixels animationTime) ∧
    0 < (Marquee.construct e raw animationName animationTime firstOffset
        lastOffset)._animationStepIncrement := by
  have hq : (Marquee.construct e raw animationName animationTime firstOffset lastOffset).marqueeQuanta
      = marqueeQuantaFor firstOffset ((e.numPixels : Int) - 1 + lastOffset) := rfl
  have hpos := marqueeQuantaFor_pos firstOffset ((e.numPixels : Int) - 1 + lastOffset) h
  have hs : (Marquee.construct e raw animationName animationTime firstOffset
        lastOffset)._animationStepIncrement
      = (if stepIncrementFor e.numPixels animationTime ≤ 0 then 150
         else stepIncrementFor e.numPixels animationTime) := rfl
  refine ⟨rfl, rfl, ?_, ?_, ?_, hs, ?_⟩
  · rw [hq]
    unfold marqueeQuantaFor
    simp only
    split_ifs with h7
    · rw [min_eq_right (by omega)]
    · rw [min_eq_left (by omega)]
  · rw [hq]
    exact hpos
  · rw [hq]
    unfold marqueeQuantaFor
    simp only
    split_ifs <;> omega
  · rw [hs]
    split_ifs <;> omega

theorem marquee_constructor_quantum_witness :
    (1 : Int) ≤ ((32 : Nat) : Int) - 1 + (-1) ∧
    sampleMarqueeSys.obj.marqueeQuanta = 4 ∧
    sampleMarqueeSys.obj._animationStepIncrement = 150 ∧
    1 ≤ (Marquee.construct { sampleEnv with numPixels := 32 } (sampleMarquee false) "marquee"
      (-150) 1 (-1)).marqueeQuanta :=
  ⟨by decide, by decide!, by decide!,
    (marquee_constructor_quantum { sampleEnv with numPixels := 32 } (sampleMarquee false)
      "marquee" (-150) 1 (-1) (by decide)).2.2.2.1⟩

/-! ## The colour wheel -/

/-- The channels of `pixels.Color(r, g, b)` for arguments that fit a byte. -/
theorem channels_Color (r g b : Int) (hr : 0 ≤ r ∧ r ≤ 255) (hg : 0 ≤ g ∧ g ≤ 255)
    (hb : 0 ≤ b ∧ b ≤ 255) :
    (redOf (Pixels.Color r g b) : Int) = r ∧ (greenOf (Pixels.Color r g b) : Int) = g ∧
    (blueOf (Pixels.Color r g b) : Int) = b := by
  have e1 : r % 256 = r := Int.emod_eq_of_lt hr.1 (by omega)
  have e2 : g % 256 = g := Int.emod_eq_of_lt hg.1 (by omega)
  have e3 : b % 256 = b := Int.emod_eq_of_lt hb.1 (by omega)
  unfold redOf greenOf blueOf Pixels.Color
  rw [e1, e2, e3]
  refine ⟨?_, ?_, ?_⟩ <;> omega

/-- The three channels `wheel` passes to `pixels.Color` for a position in
`[0,255]`. -/
theorem ColorSwirl.wheel_channels (e : Env) (pos : Int) (h0 : 0 ≤ pos) (h1 : pos ≤ 255) :
    ∃ r g b : Int, ColorSwirl.wheel e pos = Pixels.Color r g b ∧
      (0 ≤ r ∧ r ≤ 255) ∧ (0 ≤ g ∧ g ≤ 255) ∧ (0 ≤ b ∧ b ≤ 255) ∧ r + g + b = 255 := by
  unfold ColorSwirl.wheel
  rw [if_neg (by omega)]
  by_cases c1 : pos < 85
  · rw [if_pos c1]
    exact ⟨_, _, _, rfl, by omega, by omega, by omega, by omega⟩
  · rw [if_neg c1]
    by_cases c2 : pos < 170
    · rw [if_pos c2]
      exact ⟨_, _, _, rfl, by omega, by omega, by omega, by omega⟩
    · rw [if_neg c2]
      exact ⟨_, _, _, rfl, by omega, by omega, by omega, by omega⟩

theorem ColorSwirl.hueIndex_range (c : ColorSwirl) (swirlIdx i : Int) :
    0 ≤ c.hueIndex swirlIdx i ∧ c.hueIndex swirlIdx i ≤ 255 := by
  unfold ColorSwirl.hueIndex
  have h1 := Int.emod_nonneg (Int.tdiv (i * 256) (c._lastLED - c._firstLED) + swirlIdx)
    (by norm_num : (256 : Int) ≠ 0)
  have h2 := Int.emod_lt_of_pos (Int.tdiv (i * 256) (c._lastLED - c._firstLED) + swirlIdx)
    (by norm_num : (0 : Int) < 256)
  omega

theorem writtenColors_map_set (f : Int → Rgb) (l : List Int) :
    writtenColors (l.map (fun i => DriverCall.setPixelColor i (f i))) = l.map f := by
  induction l with
  | nil => rfl
  | cons x l ih => simp [writtenColors, ih]

/-- C39. For every `pos` in `[0,255]`, `wheel(pos)` is `pixels.Color(r, g,
b)` with `r`, `g`, `b` in `[0,255]` and `r + g + b = 255`, and these are the
red, green and blue channels of the colour returned.  The hue index handed to
`wheel` by the colouring loop of `ColorSwirl::Start` and `ColorSwirl::Continue`
is masked into `[0,255]`, so every colour the loop writes is such a colour and
none comes from the branch that returns the off-colour. -/
theorem wheel_channels_sum_255 (e : Env) :
    (∀ pos : Int, 0 ≤ pos → pos ≤ 255 →
      redOf (ColorSwirl.wheel e pos) ≤ 255 ∧ greenOf (ColorSwirl.wheel e pos) ≤ 255 ∧
      blueOf (ColorSwirl.wheel e pos) ≤ 255 ∧
      redOf (ColorSwirl.wheel e pos) + greenOf (ColorSwirl.wheel e pos)
        + blueOf (ColorSwirl.wheel e pos) = 255) ∧
    (∀ (c : ColorSwirl) (swirlIdx i : Int),
      0 ≤ c.hueIndex swirlIdx i ∧ c.hueIndex swirlIdx i ≤ 255) ∧
    (∀ (c : ColorSwirl) (swirlIdx : Int) (p px : Pixels),
      c.paint e swirlIdx p = some px →
      ∀ col ∈ writtenColors (callsSince p px),
        ∃ pos : Int, 0 ≤ pos ∧ pos ≤ 255 ∧ col = ColorSwirl.wheel e pos ∧
          redOf col + greenOf col + blueOf col = 255) := by
  have hsum : ∀ pos : Int, 0 ≤ pos → pos ≤ 255 →
      redOf (ColorSwirl.wheel e pos) ≤ 255 ∧ greenOf (ColorSwirl.wheel e pos) ≤ 255 ∧
      blueOf (ColorSwirl.wheel e pos) ≤ 255 ∧
      redOf (ColorSwirl.wheel e pos) + greenOf (ColorSwirl.wheel e pos)
        + blueOf (ColorSwirl.wheel e pos) = 255 := by
    intro pos h0 h1
    obtain ⟨r, g, b, hw, hr, hg, hb, hs⟩ := ColorSwirl.wheel_channels e pos h0 h1
    obtain ⟨k1, k2, k3⟩ := channels_Color r g b hr hg hb
    rw [hw]
    refine ⟨?_, ?_, ?_, ?_⟩ <;> omega
  refine ⟨hsum, ColorSwirl.hueIndex_range, ?_⟩
  intro c swirlIdx p px hp col hcol
  unfold ColorSwirl.paint at hp
  split_ifs at hp
  simp only [Option.some.injEq] at hp
  subst hp
  rw [callsSince_append _ _ _
    (foldl_setPixelColor_calls (fun i => ColorSwirl.wheel e (c.hueIndex swirlIdx i)) _ p),
    writtenColors_map_set, List.mem_map] at hcol
  obtain ⟨i, -, rfl⟩ := hcol
  obtain ⟨h0, h1⟩ := ColorSwirl.hueIndex_range c swirlIdx i
  exact ⟨_, h0, h1, rfl, (hsum _ h0 h1).2.2.2⟩

theorem wheel_channels_sum_255_witness :
    ColorSwirl.wheel sampleEnv 100 = Pixels.Color 0 210 45 ∧
    redOf (ColorSwirl.wheel sampleEnv 100) + greenOf (ColorSwirl.wheel sampleEnv 100)
      + blueOf (ColorSwirl.wheel sampleEnv 100) = 255 :=
  ⟨by decide, ((wheel_channels_sum_255 sampleEnv).1 100 (by decide) (by decide)).2.2.2⟩

/-! ## The bouncing dot on a one-element range -/

/-- C38, as stated, fails for `topToBottom = true`: on the range `[3,3]`,
after `ZipLine::Start(true, 255)` the first due `Continue` sets the position to
4, which is `first + 1`, and writes the dot colour there. -/
theorem zipline_single_element_steps_up :
    (ZipLine.Continue sampleEnv 1125
      (ZipLine.Start sampleEnv 1000 1000 true 255 sampleZipOneSys)).obj._zipIdx = 4 ∧
    callsSince (ZipLine.Start sampleEnv 1000 1000 true 255 sampleZipOneSys).pixels
      (ZipLine.Continue sampleEnv 1125
        (ZipLine.Start sampleEnv 1000 1000 true 255 sampleZipOneSys)).pixels
      = [DriverCall.setPixelColor 3 0, DriverCall.setPixelColor 4 255, DriverCall.showStrip] := by
  decide

/-- C38, amended. On a one-element range (`first = last`), the first due
`Continue` after `ZipLine::Start` sets the dot position to `first - 1` when
`topToBottom` is false and to `first + 1` when it is true, in both cases
outside `[first,last]`, reverses the direction, and writes the off-colour to
`first` and then the dot colour to that out-of-range element. -/
theorem zipline_single_element_leaves_range (e : Env) (now0 now now1 : Nat)
    (topToBottom : Bool) (colorToUse : Rgb) (s : Sys ZipLine)
    (h1 : s.obj._firstLED = s.obj._lastLED)
    (hd : s.obj._animationStepIncrement ≤ elapsedSince now1 now) :
    (ZipLine.Continue e now1 (ZipLine.Start e now0 now topToBottom colorToUse s)).obj._zipIdx
      = (if topToBottom then s.obj._firstLED + 1 else s.obj._firstLED - 1) ∧
    (ZipLine.Continue e now1 (ZipLine.Start e now0 now topToBottom colorToUse s)).obj._zipInc
      = (if topToBottom then 1 else -1) ∧
    ¬ (s.obj._firstLED
        ≤ (ZipLine.Continue e now1
            (ZipLine.Start e now0 now topToBottom colorToUse s)).obj._zipIdx ∧
       (ZipLine.Continue e now1 (ZipLine.Start e now0 now topToBottom colorToUse s)).obj._zipIdx
        ≤ s.obj._lastLED) ∧
    callsSince (ZipLine.Start e now0 now topToBottom colorToUse s).pixels
      (ZipLine.Continue e now1 (ZipLine.Start e now0 now topToBottom colorToUse s)).pixels
      = [DriverCall.setPixelColor s.obj._firstLED e.offColor,
         DriverCall.setPixelColor
           (if topToBottom then s.obj._firstLED + 1 else s.obj._firstLED - 1) colorToUse,
         DriverCall.showStrip] := by
  have hstep := ZipLine.zipLine_Continue_due e now1
    (ZipLine.Start e now0 now topToBottom colorToUse s) rfl hd
  have hadv : (ZipLine.Start e now0 now topToBottom colorToUse s).obj.advance
      = (if topToBottom then s.obj._firstLED + 1 else s.obj._firstLED - 1,
         if topToBottom then 1 else -1) := by
    obtain ⟨c1, c2, -⟩ := ZipLine.advance_cases (ZipLine.Start e now0 now topToBottom colorToUse s).obj
    cases topToBottom
    · have := c1 (by
        show s.obj._lastLED < s.obj._firstLED + 1
        omega)
      rw [this]
      show (s.obj._lastLED - 1, -(1 : Int)) = _
      simp only [Bool.false_eq_true, if_false, h1]
    · have := c2 (by
        show s.obj._lastLED + -1 ≤ s.obj._lastLED
        omega) (by
        show s.obj._lastLED + -1 < s.obj._firstLED
        omega)
      rw [this]
      show (s.obj._firstLED + 1, -(-1 : Int)) = _
      simp only [if_true]
      rfl
  have hidx : (ZipLine.Continue e now1
        (ZipLine.Start e now0 now topToBottom colorToUse s)).obj._zipIdx
      = (if topToBottom then s.obj._firstLED + 1 else s.obj._firstLED - 1) := by
    rw [hstep]
    show (ZipLine.Start e now0 now topToBottom colorToUse s).obj.advance.1 = _
    rw [hadv]
  refine ⟨hidx, ?_, ?_, ?_⟩
  · rw [hstep]
    show (ZipLine.Start e now0 now topToBottom colorToUse s).obj.advance.2 = _
    rw [hadv]
  · rw [hidx]
    cases topToBottom
    · simp only [Bool.false_eq_true, if_false]
      omega
    · simp only [if_true]
      omega
  · apply callsSince_append
    rw [hstep]
    show ((((ZipLine.Start e now0 now topToBottom colorToUse s).pixels.setPixelColor
        (ZipLine.Start e now0 now topToBottom colorToUse s).obj._zipIdx e.offColor).setPixelColor
        (ZipLine.Start e now0 now topToBottom colorToUse s).obj.advance.1
        (ZipLine.Start e now0 now topToBottom colorToUse s).obj._colorToUse).showStrip).calls = _
    rw [hadv]
    have hz : (ZipLine.Start e now0 now topToBottom colorToUse s).obj._zipIdx = s.obj._firstLED := by
      show (if topToBottom then s.obj._lastLED else s.obj._firstLED) = _
      cases topToBottom <;> simp [h1]
    have hcol : (ZipLine.Start e now0 now topToBottom colorToUse s).obj._colorToUse = colorToUse :=
      rfl
    rw [hz, hcol]
    simp [Pixels.showStrip, Pixels.setPixelColor]

theorem zipline_single_element_leaves_range_witness :
    sampleZipOneSys.obj._firstLED = sampleZipOneSys.obj._lastLED ∧
    sampleZipOneSys.obj._animationStepIncrement ≤ elapsedSince 1125 1000 ∧
    (ZipLine.Continue sampleEnv 1125
      (ZipLine.Start sampleEnv 1000 1000 false 255 sampleZipOneSys)).obj._zipIdx
      = (if false then sampleZipOneSys.obj._firstLED + 1 else sampleZipOneSys.obj._firstLED - 1) :=
  ⟨by decide, by decide,
    (zipline_single_element_leaves_range sampleEnv 1000 1000 1125 false 255 sampleZipOneSys
      (by decide) (by decide)).1⟩

/-! ## The picture of ZipLine -/

theorem ZipLine.Start_oneLit (e : Env) (now0 now : Nat) (topToBottom : Bool)
    (colorToUse : Rgb) (s : Sys ZipLine) (hlt : s.obj._firstLED < s.obj._lastLED) :
    ZipLine.OneLit e (ZipLine.Start e now0 now topToBottom colorToUse s) := by
  refine ⟨hlt, ?_, ?_, ?_⟩
  · show s.obj._firstLED ≤ (if topToBottom then s.obj._lastLED else s.obj._firstLED)
    split_ifs <;> omega
  · show (if topToBottom then s.obj._lastLED else s.obj._firstLED) ≤ s.obj._lastLED
    split_ifs <;> omega
  · intro i i1 i2
    show (if i = (if topToBottom then s.obj._lastLED else s.obj._firstLED) then colorToUse
      else (Animation.setAllPixelsTo _ (s.pixels.setBrightness e.mappedBrightness) e.offColor
        false).color i) = if i = (if topToBottom then s.obj._lastLED else s.obj._firstLED)
          then colorToUse else e.offColor
    have hbase : ∀ (a : Animation) (p : Pixels), a._firstLED = s.obj._firstLED →
        a._lastLED = s.obj._lastLED →
        (a.setAllPixelsTo p e.offColor false).color i = e.offColor := by
      intro a p ha hb
      rw [Animation.setAllPixelsTo_color, ha, hb]
      exact if_pos ⟨i1, i2⟩
    rw [hbase]
    · rfl
    · rfl

/-- Any `Continue`, due or not, keeps the picture and the configuration. -/
theorem ZipLine.Continue_oneLit (e : Env) (now : Nat) (s : Sys ZipLine)
    (h : ZipLine.OneLit e s) :
    ZipLine.OneLit e (ZipLine.Continue e now s) ∧
    (ZipLine.Continue e now s).obj._firstLED = s.obj._firstLED ∧
    (ZipLine.Continue e now s).obj._lastLED = s.obj._lastLED ∧
    (ZipLine.Continue e now s).obj._colorToUse = s.obj._colorToUse := by
  obtain ⟨hlt, h1, h2, hcol⟩ := h
  have hadv := ZipLine.advance_in_range s.obj hlt
  unfold ZipLine.Continue
  simp only
  split_ifs
  · exact ⟨⟨hlt, h1, h2, hcol⟩, rfl, rfl, rfl⟩
  · exact ⟨⟨hlt, h1, h2, hcol⟩, rfl, rfl, rfl⟩
  · refine ⟨⟨hlt, hadv.1, hadv.2, ?_⟩, rfl, rfl, rfl⟩
    intro i i1 i2
    show (if i = s.obj.advance.1 then s.obj._colorToUse
      else if i = s.obj._zipIdx then e.offColor else s.pixels.color i)
      = if i = s.obj.advance.1 then s.obj._colorToUse else e.offColor
    split_ifs with a b
    · rfl
    · rfl
    · rw [hcol i i1 i2, if_neg b]

theorem ZipLine.run_oneLit (e : Env) (ts : List Nat) :
    ∀ s : Sys ZipLine, ZipLine.OneLit e s →
      ZipLine.OneLit e (ZipLine.run e ts s) ∧
      (ZipLine.run e ts s).obj._firstLED = s.obj._firstLED ∧
      (ZipLine.run e ts s).obj._lastLED = s.obj._lastLED ∧
      (ZipLine.run e ts s).obj._colorToUse = s.obj._colorToUse := by
  induction ts with
  | nil =>
    intro s h
    exact ⟨h, rfl, rfl, rfl⟩
  | cons now rest ih =>
    intro s h
    obtain ⟨k, k1, k2, k3⟩ := ZipLine.Continue_oneLit e now s h
    obtain ⟨j, j1, j2, j3⟩ := ih (ZipLine.Continue e now s) k
    exact ⟨j, j1.trans k1, j2.trans k2, j3.trans k3⟩

/-- C37. On every range with `first < last` and with a dot colour `C`
other than the off-colour, after `ZipLine::Start` and after any number of
`Continue` calls following it (due or not) the position lies in `[first,last]`,
the element there holds `C`, every other element of the range holds the
off-colour, and so exactly the element at the position holds `C`. -/
theorem zipline_single_lit_element (e : Env) (now0 now : Nat) (topToBottom : Bool)
    (colorToUse : Rgb) (s : Sys ZipLine) (ts : List Nat)
    (hlt : s.obj._firstLED < s.obj._lastLED) (hne : colorToUse ≠ e.offColor) :
    s.obj._firstLED
      ≤ (ZipLine.run e ts (ZipLine.Start e now0 now topToBottom colorToUse s)).obj._zipIdx ∧
    (ZipLine.run e ts (ZipLine.Start e now0 now topToBottom colorToUse s)).obj._zipIdx
      ≤ s.obj._lastLED ∧
    ∀ i, s.obj._firstLED ≤ i → i ≤ s.obj._lastLED →
      ((ZipLine.run e ts (ZipLine.Start e now0 now topToBottom colorToUse s)).pixels.color i
          = colorToUse ↔
        i = (ZipLine.run e ts (ZipLine.Start e now0 now topToBottom colorToUse s)).obj._zipIdx) ∧
      (i ≠ (ZipLine.run e ts (ZipLine.Start e now0 now topToBottom colorToUse s)).obj._zipIdx →
        (ZipLine.run e ts (ZipLine.Start e now0 now topToBottom colorToUse s)).pixels.color i
          = e.offColor) := by
  obtain ⟨⟨-, j1, j2, jcol⟩, k1, k2, k3⟩ := ZipLine.run_oneLit e ts _
    (ZipLine.Start_oneLit e now0 now topToBottom colorToUse s hlt)
  have f1 : (ZipLine.run e ts (ZipLine.Start e now0 now topToBottom colorToUse s)).obj._firstLED
      = s.obj._firstLED := k1
  have f2 : (ZipLine.run e ts (ZipLine.Start e now0 now topToBottom colorToUse s)).obj._lastLED
      = s.obj._lastLED := k2
  have f3 : (ZipLine.run e ts (ZipLine.Start e now0 now topToBottom colorToUse s)).obj._colorToUse
      = colorToUse := k3
  rw [f1] at j1
  rw [f2] at j2
  refine ⟨j1, j2, ?_⟩
  intro i i1 i2
  have hc := jcol i (by rw [f1]; exact i1) (by rw [f2]; exact i2)
  rw [f3] at hc
  constructor
  · constructor
    · intro h
      by_contra hni
      rw [hc, if_neg hni] at h
      exact hne h.symm
    · intro h
      rw [hc, if_pos h]
  · intro hni
    rw [hc, if_neg hni]

theorem zipline_single_lit_element_witness :
    sampleZipLineSys.obj._firstLED < sampleZipLineSys.obj._lastLED ∧
    (255 : Rgb) ≠ sampleEnv.offColor ∧
    ∀ i, sampleZipLineSys.obj._firstLED ≤ i → i ≤ sampleZipLineSys.obj._lastLED →
      ((ZipLine.run sampleEnv [1125, 1250, 1375]
          (ZipLine.Start sampleEnv 1000 1000 false 255 sampleZipLineSys)).pixels.color i = 255 ↔
        i = (ZipLine.run sampleEnv [1125, 1250, 1375]
          (ZipLine.Start sampleEnv 1000 1000 false 255 sampleZipLineSys)).obj._zipIdx) ∧
      (i ≠ (ZipLine.run sampleEnv [1125, 1250, 1375]
          (ZipLine.Start sampleEnv 1000 1000 false 255 sampleZipLineSys)).obj._zipIdx →
        (ZipLine.run sampleEnv [1125, 1250, 1375]
          (ZipLine.Start sampleEnv 1000 1000 false 255 sampleZipLineSys)).pixels.color i
          = sampleEnv.offColor) :=
  ⟨by decide, by decide,
    (zipline_single_lit_element sampleEnv 1000 1000 false 255 sampleZipLineSys
      [1125, 1250, 1375] (by decide) (by decide)).2.2⟩

/-! ## The two positions of Zip2 -/

/-- One step from mirrored positions: the second position steps to a value
inside the range, so `advance2` takes neither of its clamping branches, and
the positions are mirrored again. -/
theorem Zip2.mirror_step (z : Zip2) (h : Zip2.Mirrored z) :
    (z.toZipLine.advance.2 = 1 ∨ z.toZipLine.advance.2 = -1) ∧
    (z._firstLED ≤ z.toZipLine.advance.1 ∧ z.toZipLine.advance.1 ≤ z._lastLED) ∧
    (z._firstLED ≤ z._zip2Idx - z.toZipLine.advance.2 ∧
      z._zip2Idx - z.toZipLine.advance.2 ≤ z._lastLED) ∧
    z.advance2 z.toZipLine.advance.2 = z._zip2Idx - z.toZipLine.advance.2 ∧
    z.toZipLine.advance.1 + z.advance2 z.toZipLine.advance.2 = z._firstLED + z._lastLED := by
  obtain ⟨hlt, h1, h2, hinc, hsum⟩ := h
  obtain ⟨c1, c2, c3⟩ := ZipLine.advance_cases z.toZipLine
  have key : (z.toZipLine.advance.2 = 1 ∨ z.toZipLine.advance.2 = -1) ∧
      (z._firstLED ≤ z.toZipLine.advance.1 ∧ z.toZipLine.advance.1 ≤ z._lastLED) ∧
      (z._firstLED ≤ z._zip2Idx - z.toZipLine.advance.2 ∧
        z._zip2Idx - z.toZipLine.advance.2 ≤ z._lastLED) ∧
      z.toZipLine.advance.1 + (z._zip2Idx - z.toZipLine.advance.2)
        = z._firstLED + z._lastLED := by
    by_cases a1 : z._lastLED < z._zipIdx + z._zipInc
    · rw [c1 a1]
      simp only
      refine ⟨?_, ?_, ?_, ?_⟩ <;> omega
    · by_cases a2 : z._zipIdx + z._zipInc < z._firstLED
      · rw [c2 (not_lt.mp a1) a2]
        simp only
        refine ⟨?_, ?_, ?_, ?_⟩ <;> omega
      · rw [c3 (not_lt.mp a2) (not_lt.mp a1)]
        simp only
        refine ⟨?_, ?_, ?_, ?_⟩ <;> omega
  obtain ⟨k1, k2, k3, k4⟩ := key
  have hadv2 : z.advance2 z.toZipLine.advance.2 = z._zip2Idx - z.toZipLine.advance.2 := by
    unfold Zip2.advance2
    simp only
    rw [if_neg (by omega), if_neg (by omega)]
  exact ⟨k1, k2, k3, hadv2, by rw [hadv2]; exact k4⟩

theorem Zip2.Start_mirrored (e : Env) (now0 now : Nat) (topToBottom : Bool) (colorToUse : Rgb)
    (s : Sys Zip2) (hlt : s.obj._firstLED < s.obj._lastLED) :
    Zip2.Mirrored (Zip2.Start e now0 now topToBottom colorToUse s).obj ∧
    Zip2.Mirrored (Zip2Inverse.Start e now0 now topToBottom colorToUse s).obj ∧
    (Zip2.Start e now0 now topToBottom colorToUse s).obj._firstLED = s.obj._firstLED ∧
    (Zip2.Start e now0 now topToBottom colorToUse s).obj._lastLED = s.obj._lastLED ∧
    (Zip2Inverse.Start e now0 now topToBottom colorToUse s).obj._firstLED = s.obj._firstLED ∧
    (Zip2Inverse.Start e now0 now topToBottom colorToUse s).obj._lastLED = s.obj._lastLED := by
  have hm : s.obj._firstLED < s.obj._lastLED ∧
      s.obj._firstLED ≤ (if topToBottom then s.obj._lastLED else s.obj._firstLED) ∧
      (if topToBottom then s.obj._lastLED else s.obj._firstLED) ≤ s.obj._lastLED ∧
      ((if topToBottom then (-1 : Int) else 1) = 1 ∨ (if topToBottom then (-1 : Int) else 1) = -1) ∧
      (if topToBottom then s.obj._lastLED else s.obj._firstLED)
        + (if topToBottom then s.obj._firstLED else s.obj._lastLED)
        = s.obj._firstLED + s.obj._lastLED := by
    cases topToBottom
    · exact ⟨hlt, le_refl _, le_of_lt hlt, Or.inl rfl, rfl⟩
    · exact ⟨hlt, le_of_lt hlt, le_refl _, Or.inr rfl, add_comm _ _⟩
  exact ⟨hm, hm, rfl, rfl, rfl, rfl⟩

/-- Any `Continue` of `Zip2` or `Zip2Inverse`, due or not, keeps the positions
mirrored. -/
theorem Zip2.Continue_mirrored (e : Env) (now : Nat) (s : Sys Zip2)
    (h : Zip2.Mirrored s.obj) :
    (Zip2.Mirrored (Zip2.Continue e now s).obj ∧
      (Zip2.Continue e now s).obj._firstLED = s.obj._firstLED ∧
      (Zip2.Continue e now s).obj._lastLED = s.obj._lastLED) ∧
    (Zip2.Mirrored (Zip2Inverse.Continue e now s).obj ∧
      (Zip2Inverse.Continue e now s).obj._firstLED = s.obj._firstLED ∧
      (Zip2Inverse.Continue e now s).obj._lastLED = s.obj._lastLED) := by
  obtain ⟨k1, k2, -, -, k5⟩ := Zip2.mirror_step s.obj h
  have hnew : ∀ z : Zip2, z._firstLED = s.obj._firstLED → z._lastLED = s.obj._lastLED →
      z._zipIdx = s.obj.toZipLine.advance.1 → z._zipInc = s.obj.toZipLine.advance.2 →
      z._zip2Idx = s.obj.advance2 s.obj.toZipLine.advance.2 → Zip2.Mirrored z := by
    intro z e1 e2 e3 e4 e5
    unfold Zip2.Mirrored
    rw [e1, e2, e3, e4, e5]
    exact ⟨h.1, k2.1, k2.2, k1, k5⟩
  constructor
  · unfold Zip2.Continue
    simp only
    split_ifs
    · exact ⟨h, rfl, rfl⟩
    · exact ⟨h, rfl, rfl⟩
    · exact ⟨hnew _ rfl rfl rfl rfl rfl, rfl, rfl⟩
  · unfold Zip2Inverse.Continue
    simp only
    split_ifs
    · exact ⟨h, rfl, rfl⟩
    · exact ⟨h, rfl, rfl⟩
    · exact ⟨hnew _ rfl rfl rfl rfl rfl, rfl, rfl⟩

theorem Zip2.run_mirrored (e : Env) (ts : List Nat) :
    ∀ s : Sys Zip2, Zip2.Mirrored s.obj →
      (Zip2.Mirrored (Zip2.run e ts s).obj ∧
        (Zip2.run e ts s).obj._firstLED = s.obj._firstLED ∧
        (Zip2.run e ts s).obj._lastLED = s.obj._lastLED) ∧
      (Zip2.Mirrored (Zip2Inverse.run e ts s).obj ∧
        (Zip2Inverse.run e ts s).obj._firstLED = s.obj._firstLED ∧
        (Zip2Inverse.run e ts s).obj._lastLED = s.obj._lastLED) := by
  induction ts with
  | nil =>
    intro s h
    exact ⟨⟨h, rfl, rfl⟩, ⟨h, rfl, rfl⟩⟩
  | cons now rest ih =>
    intro s h
    obtain ⟨⟨a1, a2, a3⟩, ⟨b1, b2, b3⟩⟩ := Zip2.Continue_mirrored e now s h
    obtain ⟨⟨c1, c2, c3⟩, -⟩ := ih (Zip2.Continue e now s) a1
    obtain ⟨-, ⟨d1, d2, d3⟩⟩ := ih (Zip2Inverse.Continue e now s) b1
    exact ⟨⟨c1, c2.trans a2, c3.trans a3⟩, ⟨d1, d2.trans b2, d3.trans b3⟩⟩
/-- C33. For Zip2 and for Zip2Inverse on every range with `first < last`,
after `Start` and any number of `Continue` calls following it (due or not)
the two positions lie in `[first,last]` and add up to `first + last`; and the
value `_zip2Idx - _zipInc` the next step computes for the second position lies
in `[first,last]` as well, so that step takes neither of the second position's
clamping branches. -/
theorem zip2_positions_mirrored (e : Env) (now0 now : Nat) (topToBottom : Bool)
    (colorToUse : Rgb) (s : Sys Zip2) (ts : List Nat)
    (hlt : s.obj._firstLED < s.obj._lastLED) :
    ((Zip2.run e ts (Zip2.Start e now0 now topToBottom colorToUse s)).obj._zipIdx
        + (Zip2.run e ts (Zip2.Start e now0 now topToBottom colorToUse s)).obj._zip2Idx
        = s.obj._firstLED + s.obj._lastLED ∧
      (s.obj._firstLED ≤ (Zip2.run e ts (Zip2.Start e now0 now topToBottom colorToUse s)).obj._zipIdx ∧
        (Zip2.run e ts (Zip2.Start e now0 now topToBottom colorToUse s)).obj._zipIdx
          ≤ s.obj._lastLED) ∧
      (s.obj._firstLED ≤ (Zip2.run e ts (Zip2.Start e now0 now topToBottom colorToUse s)).obj._zip2Idx ∧
        (Zip2.run e ts (Zip2.Start e now0 now topToBottom colorToUse s)).obj._zip2Idx
          ≤ s.obj._lastLED) ∧
      (s.obj._firstLED
          ≤ (Zip2.run e ts (Zip2.Start e now0 now topToBottom colorToUse s)).obj._zip2Idx
            - (Zip2.run e ts
                (Zip2.Start e now0 now topToBottom colorToUse s)).obj.toZipLine.advance.2 ∧
        (Zip2.run e ts (Zip2.Start e now0 now topToBottom colorToUse s)).obj._zip2Idx
            - (Zip2.run e ts
                (Zip2.Start e now0 now topToBottom colorToUse s)).obj.toZipLine.advance.2
          ≤ s.obj._lastLED)) ∧
    ((Zip2Inverse.run e ts (Zip2Inverse.Start e now0 now topToBottom colorToUse s)).obj._zipIdx
        + (Zip2Inverse.run e ts
            (Zip2Inverse.Start e now0 now topToBottom colorToUse s)).obj._zip2Idx
        = s.obj._firstLED + s.obj._lastLED ∧
      (s.obj._firstLED
          ≤ (Zip2Inverse.run e ts
              (Zip2Inverse.Start e now0 now topToBottom colorToUse s)).obj._zipIdx ∧
        (Zip2Inverse.run e ts (Zip2Inverse.Start e now0 now topToBottom colorToUse s)).obj._zipIdx
          ≤ s.obj._lastLED) ∧
      (s.obj._firstLED
          ≤ (Zip2Inverse.run e ts
              (Zip2Inverse.Start e now0 now topToBottom colorToUse s)).obj._zip2Idx ∧
        (Zip2Inverse.run e ts (Zip2Inverse.Start e now0 now topToBottom colorToUse s)).obj._zip2Idx
          ≤ s.obj._lastLED) ∧
      (s.obj._firstLED
          ≤ (Zip2Inverse.run e ts
              (Zip2Inverse.Start e now0 now topToBottom colorToUse s)).obj._zip2Idx
            - (Zip2Inverse.run e ts
                (Zip2Inverse.Start e now0 now topToBottom colorToUse s)).obj.toZipLine.advance.2 ∧
        (Zip2Inverse.run e ts (Zip2Inverse.Start e now0 now topToBottom colorToUse s)).obj._zip2Idx
            - (Zip2Inverse.run e ts
                (Zip2Inverse.Start e now0 now topToBottom colorToUse s)).obj.toZipLine.advance.2
          ≤ s.obj._lastLED)) := by
  obtain ⟨m1, m2, f1, f2, g1, g2⟩ := Zip2.Start_mirrored e now0 now topToBottom colorToUse s hlt
  obtain ⟨⟨a1, a2, a3⟩, -⟩ := Zip2.run_mirrored e ts _ m1
  obtain ⟨-, ⟨b1, b2, b3⟩⟩ := Zip2.run_mirrored e ts _ m2
  have a2b := a2.trans f1
  have a3b := a3.trans f2
  have b2b := b2.trans g1
  have b3b := b3.trans g2
  obtain ⟨-, -, k3, -, -⟩ := Zip2.mirror_step _ a1
  obtain ⟨-, -, j3, -, -⟩ := Zip2.mirror_step _ b1
  obtain ⟨-, p1, p2, -, p4⟩ := a1
  obtain ⟨-, q1, q2, -, q4⟩ := b1
  rw [a2b] at p1 k3
  rw [a3b] at p2 k3
  rw [a2b, a3b] at p4
  rw [b2b] at q1 j3
  rw [b3b] at q2 j3
  rw [b2b, b3b] at q4
  exact ⟨⟨p4, ⟨p1, p2⟩, ⟨by omega, by omega⟩, k3⟩, ⟨q4, ⟨q1, q2⟩, ⟨by omega, by omega⟩, j3⟩⟩

theorem zip2_positions_mirrored_witness :
    (sampleSys (sampleZip2 false)).obj._firstLED < (sampleSys (sampleZip2 false)).obj._lastLED ∧
    (Zip2.run sampleEnv [1125, 1250, 1375]
        (Zip2.Start sampleEnv 1000 1000 true 255 (sampleSys (sampleZip2 false)))).obj._zipIdx
      + (Zip2.run sampleEnv [1125, 1250, 1375]
        (Zip2.Start sampleEnv 1000 1000 true 255 (sampleSys (sampleZip2 false)))).obj._zip2Idx
      = (sampleSys (sampleZip2 false)).obj._firstLED
        + (sampleSys (sampleZip2 false)).obj._lastLED :=
  ⟨by decide,
    (zip2_positions_mirrored sampleEnv 1000 1000 true 255 (sampleSys (sampleZip2 false))
      [1125, 1250, 1375] (by decide)).1.1⟩

/-! ## The picture of Marquee -/

theorem Marquee.Start_eq_armed (e : Env) (now : Nat) (topToBottom : Bool) (colorToUse : Rgb)
    (s : Sys Marquee) :
    Marquee.Start e now topToBottom colorToUse s
      = Marquee.Continue e now (Marquee.armed e topToBottom colorToUse s) := rfl

theorem Marquee.armed_ready (e : Env) (topToBottom : Bool) (colorToUse : Rgb)
    (s : Sys Marquee) (hq : 1 ≤ s.obj.marqueeQuanta) :
    Marquee.Ready (Marquee.armed e topToBottom colorToUse s) ∧
    WritesWithin s.obj._firstLED s.obj._lastLED s.pixels
      (Marquee.armed e topToBottom colorToUse s).pixels := by
  refine ⟨⟨rfl, hq, le_refl _, ?_, ?_, ?_⟩, ?_⟩
  · show (0 : Int) < s.obj.marqueeQuanta
    omega
  · show (if topToBottom then (-1 : Int) else 1) = 1 ∨ (if topToBottom then (-1 : Int) else 1) = -1
    cases topToBottom <;> simp
  · intro i h1 h2 _
    show (Animation.setAllPixelsTo _ _ colorToUse true).color i = colorToUse
    rw [Animation.setAllPixelsTo_color]
    exact if_pos ⟨h1, h2⟩
  · exact (WritesWithin.setBrightness _ _ s.pixels e.mappedBrightness).trans
      (WritesWithin.setAllPixelsTo _ _ colorToUse true)

theorem writtenIndices_map_setf (f : Int → Rgb) (l : List Int) :
    writtenIndices (l.map (fun i => DriverCall.setPixelColor i (f i))) = l := by
  induction l with
  | nil => rfl
  | cons x l ih => simp [writtenIndices, ih]

/-- Writing the elements of a list that lies in the range stays in the range. -/
theorem WritesWithin.foldl_set (first last : Int) (f : Int → Rgb) (l : List Int) (p : Pixels)
    (h : ∀ i ∈ l, first ≤ i ∧ i ≤ last) :
    WritesWithin first last p (l.foldl (fun acc i => acc.setPixelColor i (f i)) p) := by
  refine ⟨_, foldl_setPixelColor_calls f l p, ?_⟩
  intro i hi
  rw [writtenIndices_map_setf] at hi
  exact h i hi

/-- A `Continue` of a running `Marquee` writes inside the range only. -/
theorem Marquee.Continue_writes (e : Env) (now : Nat) (s s1 : Sys Marquee)
    (hr : Marquee.Ready s) (h : Marquee.Continue e now s = some s1) :
    WritesWithin s.obj._firstLED s.obj._lastLED s.pixels s1.pixels := by
  by_cases hd : s.obj._animationStepIncrement ≤ elapsedSince now s.obj._lastUpdateTime
  · obtain ⟨ha, hq, ho1, ho2, hinc, -⟩ := hr
    obtain ⟨turnOn, turnOff, offset, hoff, hon, hoff2, hstep⟩ :=
      Marquee.marquee_Continue_due e now s ha hd hq
    obtain ⟨hoffEq, hoffNonneg0, -⟩ :=
      marquee_offset_step s.obj.marqueeQuanta s.obj._marqueeOffset s.obj._marqueeInc hq
        ⟨ho1, ho2⟩ hinc
    have hoffNonneg : 0 ≤ offset := by
      rw [hoff.trans hoffEq]
      exact hoffNonneg0
    rw [hstep] at h
    simp only [Option.some.injEq] at h
    subst h
    have w1 : WritesWithin s.obj._firstLED s.obj._lastLED s.pixels
        (turnOn.foldl (fun acc i => acc.setPixelColor i s.obj._colorToUse) s.pixels) := by
      apply WritesWithin.foldl_set _ _ (fun _ => s.obj._colorToUse)
      intro i hi
      rw [mem_strideRange _ _ _ i (by omega) turnOn hon] at hi
      omega
    have w2 : WritesWithin s.obj._firstLED s.obj._lastLED
        (turnOn.foldl (fun acc i => acc.setPixelColor i s.obj._colorToUse) s.pixels)
        (turnOff.foldl (fun acc i => acc.setPixelColor i e.offColor)
          (turnOn.foldl (fun acc i => acc.setPixelColor i s.obj._colorToUse) s.pixels)) := by
      apply WritesWithin.foldl_set _ _ (fun _ => e.offColor)
      intro i hi
      rw [mem_strideRange _ _ _ i (by omega) turnOff hoff2] at hi
      omega
    exact (w1.trans w2).trans (WritesWithin.showStrip _ _ _)
  · rw [Marquee.Continue_not_due e now s hr.1 (by omega)] at h
    simp only [Option.some.injEq] at h
    subst h
    exact WritesWithin.refl _ _ _

theorem Marquee.run_writes (e : Env) (ts : List Nat) :
    ∀ s s1 : Sys Marquee, Marquee.Ready s → Marquee.run e ts s = some s1 →
      WritesWithin s.obj._firstLED s.obj._lastLED s.pixels s1.pixels := by
  induction ts with
  | nil =>
    intro s s1 _ h
    simp only [Marquee.run, Option.some.injEq] at h
    subst h
    exact WritesWithin.refl _ _ _
  | cons now rest ih =>
    intro s s1 hr h
    obtain ⟨s2, h1, h2, h3, h4, -⟩ := Marquee.Continue_ready e now s hr
    simp only [Marquee.run, h1] at h
    have w1 := Marquee.Continue_writes e now s s2 hr h1
    have w2 := ih s2 s1 h2 h
    rw [h3, h4] at w2
    exact w1.trans w2

/-- C36. Started with an on-colour `C` other than the off-colour on an
object with a quantum of at least one, and with the `Continue` inside `Start`
due: `Start` followed by any number of `Continue` calls returns, has written
no element outside `[first,last]`, and leaves every element `i` of the range
at the off-colour if `(i - first) mod quantum` equals the offset and at `C`
otherwise; so `i` holds the off-colour exactly when `(i - first) mod quantum`
is the offset. -/
theorem marquee_dark_stride (e : Env) (now0 : Nat) (topToBottom : Bool) (colorToUse : Rgb)
    (ts : List Nat) (s0 : Sys Marquee) (hq : 1 ≤ s0.obj.marqueeQuanta)
    (hne : colorToUse ≠ e.offColor)
    (hd : s0.obj._animationStepIncrement ≤ elapsedSince now0 s0.obj._lastUpdateTime) :
    ∃ s, Marquee.startRun e now0 topToBottom colorToUse ts s0 = some s ∧
      (∀ i ∈ writtenIndices (callsSince s0.pixels s.pixels),
        s0.obj._firstLED ≤ i ∧ i ≤ s0.obj._lastLED) ∧
      (0 ≤ s.obj._marqueeOffset ∧ s.obj._marqueeOffset < s0.obj.marqueeQuanta) ∧
      ∀ i, s0.obj._firstLED ≤ i → i ≤ s0.obj._lastLED →
        (s.pixels.color i = e.offColor ↔
          (i - s0.obj._firstLED) % s0.obj.marqueeQuanta = s.obj._marqueeOffset) ∧
        ((i - s0.obj._firstLED) % s0.obj.marqueeQuanta ≠ s.obj._marqueeOffset →
          s.pixels.color i = colorToUse) := by
  obtain ⟨sa, h1, h2, h3, h4, h5, h6, h7, h8, h9, -⟩ :=
    Marquee.Start_ready e now0 topToBottom colorToUse s0 hq
  obtain ⟨s, k1, k2, k3, k4, k5, k6, k7, k8, k9⟩ := Marquee.run_ready e ts sa h2
  obtain ⟨ar, aw⟩ := Marquee.armed_ready e topToBottom colorToUse s0 hq
  have hsa : Marquee.Continue e now0 (Marquee.armed e topToBottom colorToUse s0) = some sa := by
    rw [← Marquee.Start_eq_armed]
    exact h1
  have w1 := Marquee.Continue_writes e now0 _ sa ar hsa
  have w2 := Marquee.run_writes e ts sa s h2 k1
  rw [h3, h4] at w2
  have w1b : WritesWithin s0.obj._firstLED s0.obj._lastLED
      (Marquee.armed e topToBottom colorToUse s0).pixels sa.pixels := w1
  have hpat := k9 (h9 hd).1
  have f1 := k3.trans h3
  have f2 := k4.trans h4
  have f3 := k5.trans h5
  have f4 := k7.trans h7
  refine ⟨s, ?_, ((aw.trans w1b).trans w2).callsSince, ⟨k2.2.2.1, ?_⟩, ?_⟩
  · simp only [Marquee.startRun, h1]
    exact k1
  · rw [← f3]
    exact k2.2.2.2.1
  · intro i i1 i2
    have hc := hpat i (by rw [f1]; exact i1) (by rw [f2]; exact i2)
    rw [f1, f3, f4] at hc
    constructor
    · constructor
      · intro h
        by_contra hni
        rw [hc, if_neg hni] at h
        exact hne h
      · intro h
        rw [hc, if_pos h]
    · intro hni
      rw [hc, if_neg hni]

theorem marquee_dark_stride_witness :
    1 ≤ sampleMarqueeSys.obj.marqueeQuanta ∧ (255 : Rgb) ≠ sampleEnv.offColor ∧
    sampleMarqueeSys.obj._animationStepIncrement
      ≤ elapsedSince 1150 sampleMarqueeSys.obj._lastUpdateTime ∧
    ∃ s, Marquee.startRun sampleEnv 1150 false 255 [1200, 1300] sampleMarqueeSys = some s ∧
      (∀ i ∈ writtenIndices (callsSince sampleMarqueeSys.pixels s.pixels),
        sampleMarqueeSys.obj._firstLED ≤ i ∧ i ≤ sampleMarqueeSys.obj._lastLED) ∧
      (0 ≤ s.obj._marqueeOffset ∧ s.obj._marqueeOffset < sampleMarqueeSys.obj.marqueeQuanta) ∧
      ∀ i, sampleMarqueeSys.obj._firstLED ≤ i → i ≤ sampleMarqueeSys.obj._lastLED →
        (s.pixels.color i = sampleEnv.offColor ↔
          (i - sampleMarqueeSys.obj._firstLED) % sampleMarqueeSys.obj.marqueeQuanta
            = s.obj._marqueeOffset) ∧
        ((i - sampleMarqueeSys.obj._firstLED) % sampleMarqueeSys.obj.marqueeQuanta
            ≠ s.obj._marqueeOffset →
          s.pixels.color i = 255) :=
  ⟨by decide!, by decide, by decide!,
    marquee_dark_stride sampleEnv 1150 false 255 [1200, 1300] sampleMarqueeSys (by decide!)
      (by decide) (by decide!)⟩

/-! ## The colour of ZipR -/

/-- A due `Continue` of an active `ZipR` that returns: the step counter
advances modulo 4, and the colour is a fresh `randomColor()` exactly when the
counter comes back to 0. -/
theorem ZipR.zipR_Continue_due (e : Env) (now : Nat) (s s1 : Sys ZipR)
    (ha : s.obj._active = true)
    (hd : s.obj._animationStepIncrement ≤ elapsedSince now s.obj._lastUpdateTime)
    (hrc : 0 ≤ s.obj.repeatCount ∧ s.obj.repeatCount < 4)
    (h : ZipR.Continue e now s = some s1) :
    s1.obj.repeatCount = (s.obj.repeatCount + 1) % 4 ∧
    s1.obj._active = true ∧
    s1.pixels.color s1.obj._zipIdx = s1.obj._colorToUse ∧
    ((s.obj.repeatCount + 1) % 4 = 0 →
      ∃ c a tape1, s.obj.toAnimation.randomColor s.tape = some (c, a, tape1) ∧
        s1.obj._colorToUse = c ∧ s1.tape = tape1) ∧
    ((s.obj.repeatCount + 1) % 4 ≠ 0 →
      s1.obj._colorToUse = s.obj._colorToUse ∧ s1.tape = s.tape) := by
  have htm : Int.tmod (s.obj.repeatCount + 1) 4 = (s.obj.repeatCount + 1) % 4 :=
    Int.tmod_eq_emod (by omega) (by norm_num)
  simp only [ZipR.Continue, ha, Bool.not_true, Bool.false_eq_true, if_false,
    not_lt.mpr hd, htm] at h
  by_cases h0 : (s.obj.repeatCount + 1) % 4 = 0
  · rw [if_pos h0] at h
    split at h
    · simp at h
    · rename_i c a tape1 hpick
      simp only [Option.some.injEq] at h
      subst h
      refine ⟨rfl, ?_, ?_, fun _ => ⟨c, a, tape1, hpick, rfl, rfl⟩, fun hn => absurd h0 hn⟩
      · show a._active = true
        rw [Animation.randomColor_active _ _ _ _ _ hpick]
        exact ha
      · simp [Pixels.showStrip, Pixels.setPixelColor]
  · rw [if_neg h0] at h
    simp only [Option.some.injEq] at h
    subst h
    refine ⟨rfl, ha, ?_, fun hz => absurd hz h0, fun _ => ⟨rfl, rfl⟩⟩
    simp [Pixels.showStrip, Pixels.setPixelColor]

/-- The step counter after a run of due steps. -/
theorem ZipR.run_repeatCount (e : Env) (ts : List Nat) :
    ∀ s sn : Sys ZipR, s.obj._active = true →
      (0 ≤ s.obj.repeatCount ∧ s.obj.repeatCount < 4) →
      ZipR.allDue e ts s = true → ZipR.run e ts s = some sn →
      sn.obj.repeatCount = (s.obj.repeatCount + (ts.length : Int)) % 4 ∧
      sn.obj._active = true := by
  induction ts with
  | nil =>
    intro s sn ha hrc _ h
    simp only [ZipR.run, Option.some.injEq] at h
    subst h
    refine ⟨?_, ha⟩
    simp only [List.length_nil, Nat.cast_zero, add_zero]
    omega
  | cons now rest ih =>
    intro s sn ha hrc hdue h
    simp only [ZipR.allDue, Bool.and_eq_true, decide_eq_true_eq] at hdue
    obtain ⟨hd, hrest⟩ := hdue
    simp only [ZipR.run] at h
    split at h
    · simp at h
    · rename_i s2 hstep
      rw [hstep] at hrest
      obtain ⟨k1, k2, -, -, -⟩ := ZipR.zipR_Continue_due e now s s2 ha hd hrc hstep
      obtain ⟨j1, j2⟩ := ih s2 sn k2 (by rw [k1]; omega) hrest h
      refine ⟨?_, j2⟩
      rw [j1, k1]
      simp only [List.length_cons]
      push_cast
      omega

/-- C35. After `ZipR::Start` and `n` due `Continue` steps the step counter
is `n mod 4`; so the applied step number `n + 1` assigns `_colorToUse` the
result of `randomColor()` when `n + 1` is a multiple of 4, and leaves
`_colorToUse` (and the random generator) untouched when it is not; either way
the dot is lit in `_colorToUse`.  That step
returns whenever the generator still delivers a palette index other than the
last one. -/
theorem zipr_colour_every_fourth_step (e : Env) (now0 now : Nat) (topToBottom : Bool)
    (colorToUse : Rgb) (s sn : Sys ZipR) (ts : List Nat)
    (hdue : ZipR.allDue e ts (ZipR.Start e now0 now topToBottom colorToUse s) = true)
    (hrun : ZipR.run e ts (ZipR.Start e now0 now topToBottom colorToUse s) = some sn) :
    sn.obj.repeatCount = (ts.length : Int) % 4 ∧
    (∀ (now1 : Nat) (s1 : Sys ZipR),
      sn.obj._animationStepIncrement ≤ elapsedSince now1 sn.obj._lastUpdateTime →
      ZipR.Continue e now1 sn = some s1 →
      s1.pixels.color s1.obj._zipIdx = s1.obj._colorToUse ∧
      (((ts.length : Int) + 1) % 4 = 0 →
        ∃ c a tape1, sn.obj.toAnimation.randomColor sn.tape = some (c, a, tape1) ∧
          s1.obj._colorToUse = c ∧ s1.tape = tape1) ∧
      (((ts.length : Int) + 1) % 4 ≠ 0 →
        s1.obj._colorToUse = sn.obj._colorToUse ∧ s1.tape = sn.tape)) ∧
    (∀ now1 : Nat, (∃ r ∈ sn.tape, ((r : Int) % 15) ≠ sn.obj._lastColorIndex) →
      ∃ s1, ZipR.Continue e now1 sn = some s1) := by
  obtain ⟨k1, k2⟩ := ZipR.run_repeatCount e ts _ sn rfl
    (by
      show (0 : Int) ≤ 0 ∧ (0 : Int) < 4
      omega) hdue hrun
  have hrc : sn.obj.repeatCount = (ts.length : Int) % 4 := by
    rw [k1]
    show ((0 : Int) + (ts.length : Int)) % 4 = _
    rw [Int.zero_add]
  refine ⟨hrc, ?_, fun now1 ht => ZipR.zipR_Continue_isSome e now1 sn ht⟩
  intro now1 s1 hd h
  obtain ⟨-, -, j2, j3, j4⟩ := ZipR.zipR_Continue_due e now1 sn s1 k2 hd (by rw [hrc]; omega) h
  have hmod : (sn.obj.repeatCount + 1) % 4 = ((ts.length : Int) + 1) % 4 := by
    rw [hrc]
    omega
  rw [hmod] at j3 j4
  exact ⟨j2, j3, j4⟩

theorem zipr_colour_every_fourth_step_witness :
    (ZipR.run sampleEnv [1125, 1250, 1375, 1500]
      (ZipR.Start sampleEnv 1000 1000 false 255 sampleZipRSys)).map
      (fun sn => (sn.obj.repeatCount, sn.obj._colorToUse)) = some (0, colorsAt 4) ∧
    (ZipR.run sampleEnv [1125, 1250, 1375]
      (ZipR.Start sampleEnv 1000 1000 false 255 sampleZipRSys)).map
      (fun sn => (sn.obj.repeatCount, sn.obj._colorToUse)) = some (3, 255) ∧
    ∀ sn, ZipR.run sampleEnv [1125, 1250, 1375]
        (ZipR.Start sampleEnv 1000 1000 false 255 sampleZipRSys) = some sn →
      sn.obj.repeatCount = (([1125, 1250, 1375] : List Nat).length : Int) % 4 :=
  ⟨by decide!, by decide!, fun sn h =>
    (zipr_colour_every_fourth_step sampleEnv 1000 1000 false 255 sampleZipRSys sn
      [1125, 1250, 1375] (by decide!) h).1⟩

/-! ## The replacement index of the twinkling sub-state -/

/-- On a non-empty range an index the selection loop returns lies in the range
and is rejected by no test of the loop. -/
theorem twinkleNewIdxLoop_spec (inIndices : Int → Bool) (first last : Int)
    (hr : first ≤ last) :
    ∀ (tape : List Nat) (newIdx : Int) (tape2 : List Nat),
      twinkleNewIdxLoop inIndices first last tape = some (newIdx, tape2) →
      first ≤ newIdx ∧ newIdx ≤ last ∧ inIndices newIdx = false := by
  have hne : ¬ (last + 1 ≤ first) := by omega
  intro tape
  induction tape with
  | nil =>
    intro newIdx tape2 h
    simp [twinkleNewIdxLoop, hne] at h
  | cons r rest ih =>
    intro newIdx tape2 h
    simp only [twinkleNewIdxLoop, if_neg hne] at h
    by_cases hin : inIndices (first + (r : Int) % (last + 1 - first)) = true
    · rw [if_pos hin] at h
      exact ih newIdx tape2 h
    · rw [if_neg hin] at h
      simp only [Option.some.injEq, Prod.mk.injEq] at h
      obtain ⟨h1, -⟩ := h
      subst h1
      have hpos : (0 : Int) < last + 1 - first := by omega
      have h0 := Int.emod_nonneg (r : Int) (ne_of_gt hpos)
      have h1 := Int.emod_lt_of_pos (r : Int) hpos
      refine ⟨by omega, by omega, ?_⟩
      simpa using hin

/-- The selection loop returns as soon as the generator delivers an index that
is not tracked. -/
theorem twinkleNewIdxLoop_isSome (inIndices : Int → Bool) (first last : Int)
    (hr : first ≤ last) :
    ∀ tape : List Nat,
      (∃ r ∈ tape, inIndices (first + (r : Int) % (last + 1 - first)) = false) →
      ∃ res, twinkleNewIdxLoop inIndices first last tape = some res := by
  have hne : ¬ (last + 1 ≤ first) := by omega
  intro tape
  induction tape with
  | nil =>
    intro h
    simp at h
  | cons r rest ih =>
    intro h
    simp only [twinkleNewIdxLoop, if_neg hne]
    by_cases hin : inIndices (first + (r : Int) % (last + 1 - first)) = true
    · rw [if_pos hin]
      apply ih
      obtain ⟨r1, hmem, hr1⟩ := h
      rcases List.mem_cons.mp hmem with heq | hmem1
      · subst heq
        rw [hin] at hr1
        exact absurd hr1 (by decide)
      · exact ⟨r1, hmem1, hr1⟩
    · rw [if_neg hin]
      exact ⟨_, rfl⟩

/-- An index `indexInIndices` does not find is held by no slot of the tracked
set. -/
theorem Twinkle.indexInIndices_false (t : Twinkle) (v : Int)
    (h : t.indexInIndices v = false) :
    ∀ i : Int, 0 ≤ i → i < t._MAXTOTWINKLE → t._twinkleIndices i ≠ v := by
  intro i h0 h1 heq
  have hall := List.any_eq_false.mp h i.toNat (List.mem_range.mpr (by omega))
  have hcast : ((i.toNat : Nat) : Int) = i := Int.toNat_of_nonneg h0
  rw [hcast] at hall
  simp only [beq_iff_eq] at hall
  exact hall heq

/-- What `twinkleSomeLEDs` does to the tracked set: when its time test passes
while elements are being turned back on, one slot (the current one) receives
the index the selection loop returned; in every other case the set is left as
it was. -/
theorem Twinkle.twinkleSomeLEDs_indices (e : Env) (now1 now2 : Nat) (s s1 : Sys Twinkle)
    (hidx : 0 ≤ s.obj._twinkleIdx ∧ s.obj._twinkleIdx < s.obj._MAXTOTWINKLE)
    (h : Twinkle.twinkleSomeLEDs e now1 now2 s = some s1) :
    (0 ≤ s1.obj._twinkleIdx ∧ s1.obj._twinkleIdx < s1.obj._MAXTOTWINKLE) ∧
    s1.obj._MAXTOTWINKLE = s.obj._MAXTOTWINKLE ∧
    s1.obj._twinkleState = s.obj._twinkleState ∧
    s1.obj._firstLED = s.obj._firstLED ∧ s1.obj._lastLED = s.obj._lastLED ∧
    (s.obj._animationStepIncrement * 2 ≤ elapsedSince now1 s.obj._lastUpdateTime ∧
        s.obj._twinkleToOn = true →
      ∃ (newIdx : Int) (tape1 tape2 : List Nat),
        twinkleNewIdxLoop s.obj.indexInIndices s.obj._firstLED s.obj._lastLED tape1
          = some (newIdx, tape2) ∧
        s1.obj._twinkleIndices
          = fun j => if j = s.obj._twinkleIdx then newIdx else s.obj._twinkleIndices j) ∧
    (¬ (s.obj._animationStepIncrement * 2 ≤ elapsedSince now1 s.obj._lastUpdateTime ∧
        s.obj._twinkleToOn = true) →
      s1.obj._twinkleIndices = s.obj._twinkleIndices) := by
  have hwrap : ∀ m k : Int, 0 ≤ k → k < m →
      0 ≤ (if k + 1 ≥ m then 0 else k + 1) ∧ (if k + 1 ≥ m then 0 else k + 1) < m := by
    intro m k h0 h1
    split_ifs <;> omega
  unfold Twinkle.twinkleSomeLEDs at h
  by_cases hd : elapsedSince now1 s.obj._lastUpdateTime < s.obj._animationStepIncrement * 2
  · simp only [if_pos hd, Option.some.injEq] at h
    subst h
    exact ⟨hidx, rfl, rfl, rfl, rfl, fun hc => absurd hd (not_lt.mpr hc.1), fun _ => rfl⟩
  · simp only [if_neg hd] at h
    cases hto : s.obj._twinkleToOn
    · simp only [hto, Bool.false_eq_true, if_false, Option.some.injEq] at h
      subst h
      refine ⟨hwrap _ _ hidx.1 hidx.2, rfl, rfl, rfl, rfl, ?_, fun _ => rfl⟩
      intro hc
      exact absurd hc.2 (by simp)
    · simp only [hto, if_true] at h
      split at h
      · simp at h
      · rename_i aColor a tape1 hpick
        split at h
        · simp at h
        · rename_i indices tape2 hrep
          split at hrep
          · simp at hrep
          · rename_i newIdx tape3 hloop
            simp only [Option.some.injEq, Prod.mk.injEq] at hrep
            obtain ⟨hi, ht⟩ := hrep
            subst hi
            subst ht
            simp only [Option.some.injEq] at h
            subst h
            obtain ⟨g1, g2⟩ := Animation.randomColor_range _ _ _ _ _ hpick
            refine ⟨hwrap _ _ hidx.1 hidx.2, rfl, rfl, g1, g2,
              fun _ => ⟨newIdx, tape1, tape3, hloop, rfl⟩, ?_⟩
            intro hc
            exact absurd ⟨not_lt.mp hd, rfl⟩ hc

/-- C31. One `Continue` of a `Twinkle` in its twinkling sub-state, on a range
with `first ≤ last` and with the slot pointer inside the tracked set.  When
the call turns an element back on (the object is active, both time tests pass
and `_twinkleToOn` is set) exactly the current slot of the tracked set is
overwritten, and the index written lies in `[first,last]` and differs from the
index held by every slot at that moment, the overwritten slot included; in
every other case the tracked set is left as it was.  The sub-state, the range
and the position of the slot pointer inside the set are kept, so the same
holds for every later call of the sub-state. -/
theorem twinkle_replacement_index_fresh (e : Env) (now now1 now2 : Nat) (s s1 : Sys Twinkle)
    (hr : s.obj._firstLED ≤ s.obj._lastLED)
    (hidx : 0 ≤ s.obj._twinkleIdx ∧ s.obj._twinkleIdx < s.obj._MAXTOTWINKLE)
    (hst : s.obj._twinkleState = twinkleTwinkling)
    (h : Twinkle.Continue e now now1 now2 s = some s1) :
    (0 ≤ s1.obj._twinkleIdx ∧ s1.obj._twinkleIdx < s1.obj._MAXTOTWINKLE) ∧
    s1.obj._twinkleState = twinkleTwinkling ∧
    s1.obj._firstLED = s.obj._firstLED ∧ s1.obj._lastLED = s.obj._lastLED ∧
    (s.obj._active = true ∧
        s.obj._animationStepIncrement ≤ elapsedSince now s.obj._lastUpdateTime ∧
        s.obj._animationStepIncrement * 2 ≤ elapsedSince now1 s.obj._lastUpdateTime ∧
        s.obj._twinkleToOn = true →
      ∃ newIdx : Int,
        s1.obj._twinkleIndices
          = (fun j => if j = s.obj._twinkleIdx then newIdx else s.obj._twinkleIndices j) ∧
        s.obj._firstLED ≤ newIdx ∧ newIdx ≤ s.obj._lastLED ∧
        (∀ i : Int, 0 ≤ i → i < s.obj._MAXTOTWINKLE → s.obj._twinkleIndices i ≠ newIdx) ∧
        s.obj._twinkleIndices s.obj._twinkleIdx ≠ newIdx) ∧
    (¬ (s.obj._active = true ∧
        s.obj._animationStepIncrement ≤ elapsedSince now s.obj._lastUpdateTime ∧
        s.obj._animationStepIncrement * 2 ≤ elapsedSince now1 s.obj._lastUpdateTime ∧
        s.obj._twinkleToOn = true) →
      s1.obj._twinkleIndices = s.obj._twinkleIndices) := by
  unfold Twinkle.Continue at h
  by_cases ha : s.obj._active = true
  · by_cases hd : elapsedSince now s.obj._lastUpdateTime < s.obj._animationStepIncrement
    · simp only [ha, Bool.not_true, Bool.false_eq_true, if_false, if_pos hd,
        Option.some.injEq] at h
      subst h
      exact ⟨hidx, hst, rfl, rfl, fun hc => absurd hd (not_lt.mpr hc.2.1), fun _ => rfl⟩
    · simp only [ha, Bool.not_true, Bool.false_eq_true, if_false, if_neg hd, hst,
        if_true] at h
      obtain ⟨k1, -, k3, k4, k5, k6, k7⟩ :=
        Twinkle.twinkleSomeLEDs_indices e now1 now2 s s1 hidx h
      refine ⟨k1, k3.trans hst, k4, k5, ?_, ?_⟩
      · intro hc
        obtain ⟨newIdx, tape1, tape2, hloop, hind⟩ := k6 ⟨hc.2.2.1, hc.2.2.2⟩
        obtain ⟨g1, g2, g3⟩ := twinkleNewIdxLoop_spec _ _ _ hr _ _ _ hloop
        have hall := Twinkle.indexInIndices_false s.obj newIdx g3
        exact ⟨newIdx, hind, g1, g2, hall, hall _ hidx.1 hidx.2⟩
      · intro hc
        apply k7
        intro hc2
        exact hc ⟨ha, not_lt.mp hd, hc2.1, hc2.2⟩
  · have ha2 : s.obj._active = false := by
      cases hb : s.obj._active
      · rfl
      · exact absurd hb ha
    simp only [ha2, Bool.not_false, if_true, Option.some.injEq] at h
    subst h
    refine ⟨hidx, hst, rfl, rfl, fun hc => ?_, fun _ => rfl⟩
    rw [ha2] at hc
    exact absurd hc.1 (by decide)

theorem twinkle_replacement_index_fresh_witness :
    (Twinkle.Continue sampleEnv 1300 1300 1301 sampleTwinklingSys).map
        (fun s1 => (List.range 11).map (fun (i : Nat) => s1.obj._twinkleIndices (i : Int)))
      = some [5, 1, 1, 1, 1, 1, 1, 1, 1, 1, 1] ∧
    ∀ s1, Twinkle.Continue sampleEnv 1300 1300 1301 sampleTwinklingSys = some s1 →
      ∃ newIdx : Int,
        s1.obj._twinkleIndices
          = (fun j => if j = sampleTwinklingSys.obj._twinkleIdx then newIdx
              else sampleTwinklingSys.obj._twinkleIndices j) ∧
        sampleTwinklingSys.obj._firstLED ≤ newIdx ∧ newIdx ≤ sampleTwinklingSys.obj._lastLED ∧
        (∀ i : Int, 0 ≤ i → i < sampleTwinklingSys.obj._MAXTOTWINKLE →
          sampleTwinklingSys.obj._twinkleIndices i ≠ newIdx) ∧
        sampleTwinklingSys.obj._twinkleIndices sampleTwinklingSys.obj._twinkleIdx ≠ newIdx :=
  ⟨by decide!, fun s1 h =>
    (twinkle_replacement_index_fresh sampleEnv 1300 1300 1301 sampleTwinklingSys s1
      (by decide) (by decide) (by decide) h).2.2.2.2.1
      ⟨by decide, by decide!, by decide!, by decide⟩⟩

/-! ## The scan of Twinkle stays inside the occupancy array -/

/-- The scan started inside the range makes at most as many iterations as the
way round to `origTryIdx` is long, reads the occupancy array inside the range
only, and leaves in `tryIdx` the last index it read. -/
theorem twinkleScanTrace_spec (LEDArray : Int → Bool) (desiredState : Bool)
    (first last origTryIdx : Int) (ho : first ≤ origTryIdx ∧ origTryIdx ≤ last) :
    ∀ (fuel : Nat) (tryIdx : Int), first ≤ tryIdx → tryIdx ≤ last →
      scanDistance first last origTryIdx tryIdx ≤ fuel →
      ∃ l, twinkleScanTrace LEDArray desiredState first last origTryIdx fuel tryIdx = some l ∧
        l ≠ [] ∧
        (l.length : Int) ≤ scanDistance first last origTryIdx tryIdx ∧
        (∀ i ∈ l, first ≤ i ∧ i ≤ last) ∧
        twinkleScanLoop LEDArray desiredState first last origTryIdx fuel tryIdx
          = l.getLast? := by
  intro fuel
  induction fuel with
  | zero =>
    intro t h1 h2 hm
    exfalso
    unfold scanDistance at hm
    split_ifs at hm <;> omega
  | succ fuel ih =>
    intro t h1 h2 hm
    have hw1 : first ≤ (if t + 1 > last then first else t + 1) := by split_ifs <;> omega
    have hw2 : (if t + 1 > last then first else t + 1) ≤ last := by split_ifs <;> omega
    simp only [twinkleScanTrace, twinkleScanLoop]
    by_cases hgo : LEDArray (if t + 1 > last then first else t + 1) = desiredState ∧
        (if t + 1 > last then first else t + 1) ≠ origTryIdx
    · rw [if_pos hgo, if_pos hgo]
      have hm1 : scanDistance first last origTryIdx (if t + 1 > last then first else t + 1)
          = scanDistance first last origTryIdx t - 1 := by
        have hne := hgo.2
        unfold scanDistance
        split_ifs at hne ⊢ <;> omega
      obtain ⟨l, hl, hne, hlen, hmem, hlast⟩ := ih _ hw1 hw2 (by rw [hm1]; omega)
      refine ⟨(if t + 1 > last then first else t + 1) :: l, ?_, by simp, ?_, ?_, ?_⟩
      · rw [hl]
        rfl
      · rw [hm1] at hlen
        simp only [List.length_cons]
        push_cast
        omega
      · intro i hi
        rcases List.mem_cons.mp hi with heq | hin
        · rw [heq]
          exact ⟨hw1, hw2⟩
        · exact hmem i hin
      · rw [hlast]
        obtain ⟨a, as, hcons⟩ := List.exists_cons_of_ne_nil hne
        rw [hcons, List.getLast?_cons_cons]
    · rw [if_neg hgo, if_neg hgo]
      refine ⟨[if t + 1 > last then first else t + 1], rfl, by simp, ?_, ?_, rfl⟩
      · simp only [List.length_singleton, Nat.cast_one]
        unfold scanDistance
        split_ifs <;> omega
      · intro i hi
        rw [List.mem_singleton.mp hi]
        exact ⟨hw1, hw2⟩

/-- C40, as stated, fails: nothing keeps `first` at or above 0.  On the range
`[-2,3]` (so `first ≤ last < 111`) with element -2 marked on, `random(-2, 3)`
on the raw draw 0 gives -2, inside the range; `Continue` reads `_LEDArray[-2]`,
the scan makes one iteration reading `_LEDArray[-1]`, and `Continue` writes
`_LEDArray[-1]` and element -1 of the strip. -/
theorem twinkle_scan_below_array :
    (-2 : Int) ≤ 3 ∧ (3 : Int) < (kNumberOfLEDs : Int) ∧
    random (-2) 3 [0, 4, 7, 3] = some (-2, [4, 7, 3]) ∧
    twinkleScanTrace (fun i => decide (i = -2)) true (-2) 3 (-2)
      ((3 + 1 - (-2) : Int).toNat + 1) (-2) = some [-1] ∧
    (Twinkle.Continue sampleEnv 1300 1300 1300 sampleTwinkleLowSys).map
        (fun s1 => (s1.obj._LEDArray (-1), s1.pixels.calls))
      = some (true, [DriverCall.setPixelColor (-1) (colorsAt 4), DriverCall.showStrip]) ∧
    ¬ ((0 : Int) ≤ -1 ∧ (-1 : Int) < (kNumberOfLEDs : Int)) := by
  decide!

/-- C40, amended. The linear scan of `Twinkle::Continue`, entered with a drawn
index inside a range `first ≤ last` and run with the iteration allowance
`Continue` gives it: the scan ends after at least one and at most
`last - first + 1` iterations, every index at which it reads `_LEDArray` lies in
`[first,last]`, and the index `Continue` goes on to write (the drawn one when
the scan is skipped, else the last one the scan read) satisfies
`first ≤ index ≤ last`.  When moreover `0 ≤ first` and `last < 111`, the drawn
index, every index read and the index written are inside the 111-entry array
`_LEDArray`. -/
theorem twinkle_scan_terminates_in_bounds (LEDArray : Int → Bool) (desiredState : Bool)
    (first last drawn : Int) (hr : first ≤ last)
    (hd : first ≤ drawn ∧ drawn ≤ last) :
    ∃ (l : List Int) (tryIdx : Int),
      twinkleScanTrace LEDArray desiredState first last drawn
        ((last + 1 - first).toNat + 1) drawn = some l ∧
      1 ≤ l.length ∧ (l.length : Int) ≤ last - first + 1 ∧
      (∀ i ∈ l, first ≤ i ∧ i ≤ last) ∧
      twinkleScanLoop LEDArray desiredState first last drawn
        ((last + 1 - first).toNat + 1) drawn = l.getLast? ∧
      (if LEDArray drawn = desiredState then
          twinkleScanLoop LEDArray desiredState first last drawn
            ((last + 1 - first).toNat + 1) drawn
        else some drawn) = some tryIdx ∧
      first ≤ tryIdx ∧ tryIdx ≤ last ∧
      (0 ≤ first → last < (kNumberOfLEDs : Int) →
        ∀ i ∈ drawn :: tryIdx :: l, 0 ≤ i ∧ i < (kNumberOfLEDs : Int)) := by
  have hdist : scanDistance first last drawn drawn = last - first + 1 := by
    unfold scanDistance
    split_ifs <;> omega
  obtain ⟨l, hl, hne, hlen, hmem, hlast⟩ :=
    twinkleScanTrace_spec LEDArray desiredState first last drawn hd
      ((last + 1 - first).toNat + 1) drawn hd.1 hd.2 (by rw [hdist]; push_cast; omega)
  rw [hdist] at hlen
  have hpos : 1 ≤ l.length := by
    cases l with
    | nil => exact absurd rfl hne
    | cons a as => simp
  obtain ⟨r, hr1⟩ : ∃ r, l.getLast? = some r := by
    cases hg : l.getLast? with
    | none => exact absurd (List.getLast?_eq_none_iff.mp hg) hne
    | some r => exact ⟨r, rfl⟩
  have hrmem : r ∈ l := List.mem_of_getLast?_eq_some hr1
  have key : ∃ tryIdx, (if LEDArray drawn = desiredState then
          twinkleScanLoop LEDArray desiredState first last drawn
            ((last + 1 - first).toNat + 1) drawn
        else some drawn) = some tryIdx ∧ first ≤ tryIdx ∧ tryIdx ≤ last := by
    by_cases hc : LEDArray drawn = desiredState
    · rw [if_pos hc, hlast, hr1]
      exact ⟨r, rfl, (hmem r hrmem).1, (hmem r hrmem).2⟩
    · rw [if_neg hc]
      exact ⟨drawn, rfl, hd.1, hd.2⟩
  obtain ⟨tryIdx, hk, hk1, hk2⟩ := key
  refine ⟨l, tryIdx, hl, hpos, hlen, hmem, hlast, hk, hk1, hk2, ?_⟩
  intro h0 h111 i hi
  rcases List.mem_cons.mp hi with heq | hi1
  · rw [heq]
    omega
  · rcases List.mem_cons.mp hi1 with heq | hi2
    · rw [heq]
      omega
    · have := hmem i hi2
      omega

theorem twinkle_scan_terminates_in_bounds_witness :
    twinkleScanTrace (fun i => decide (i ≠ 3)) true 1 8 5 ((8 + 1 - 1 : Int).toNat + 1) 5
      = some [6, 7, 8, 1, 2, 3] ∧
    twinkleScanTrace (fun _ => true) true 1 8 5 ((8 + 1 - 1 : Int).toNat + 1) 5
      = some [6, 7, 8, 1, 2, 3, 4, 5] ∧
    ∃ (l : List Int) (tryIdx : Int),
      twinkleScanTrace (fun i => decide (i ≠ 3)) true 1 8 5
        ((8 + 1 - 1 : Int).toNat + 1) 5 = some l ∧
      1 ≤ l.length ∧ (l.length : Int) ≤ 8 - 1 + 1 ∧
      (∀ i ∈ l, (1 : Int) ≤ i ∧ i ≤ 8) ∧
      twinkleScanLoop (fun i => decide (i ≠ 3)) true 1 8 5
        ((8 + 1 - 1 : Int).toNat + 1) 5 = l.getLast? ∧
      (if (fun i => decide (i ≠ 3)) (5 : Int) = true then
          twinkleScanLoop (fun i => decide (i ≠ 3)) true 1 8 5
            ((8 + 1 - 1 : Int).toNat + 1) 5
        else some 5) = some tryIdx ∧
      1 ≤ tryIdx ∧ tryIdx ≤ 8 ∧
      ((0 : Int) ≤ 1 → (8 : Int) < (kNumberOfLEDs : Int) →
        ∀ i ∈ (5 : Int) :: tryIdx :: l, 0 ≤ i ∧ i < (kNumberOfLEDs : Int)) :=
  ⟨by decide!, by decide!,
    twinkle_scan_terminates_in_bounds (fun i => decide (i ≠ 3)) true 1 8 5
      (by decide) (by decide)⟩

/-! ## Twinkle: the end of filling and of clearing -/

theorem Twinkle.twinkleSomeLEDs_state (e : Env) (now1 now2 : Nat) (s s1 : Sys Twinkle)
    (h : Twinkle.twinkleSomeLEDs e now1 now2 s = some s1) :
    s1.obj._twinkleState = s.obj._twinkleState := by
  simp only [Twinkle.twinkleSomeLEDs] at h
  split at h
  · simp only [Option.some.injEq] at h
    rw [← h]
  · split at h
    · simp at h
    · split at h
      · simp at h
      · simp only [Option.some.injEq] at h
        rw [← h]

/-- Every `Continue`, due or not, keeps `Twinkle.FillingLit`: a filling step
lights the element it marks with a palette colour and leaves the others, and no
call brings the object back to the filling sub-state. -/
theorem Twinkle.Continue_fillingLit (e : Env) (now now1 now2 : Nat) (s s1 : Sys Twinkle)
    (hpal : ∀ k : Int, 0 ≤ k → k < 15 → colorsAt k ≠ e.offColor)
    (hinv : Twinkle.FillingLit e s)
    (h : Twinkle.Continue e now now1 now2 s = some s1) :
    Twinkle.FillingLit e s1 := by
  intro hst1
  have h0 := h
  simp only [Twinkle.Continue] at h
  by_cases ha : s.obj._active = true
  swap
  · simp only [Bool.not_eq_true] at ha
    simp only [ha, Bool.not_false, if_true, Option.some.injEq] at h
    subst h
    exact hinv hst1
  simp only [ha, Bool.not_true, Bool.false_eq_true, if_false] at h
  by_cases hd : elapsedSince now s.obj._lastUpdateTime < s.obj._animationStepIncrement
  · rw [if_pos hd] at h
    simp only [Option.some.injEq] at h
    subst h
    exact hinv hst1
  rw [if_neg hd] at h
  by_cases ht : s.obj._twinkleState = twinkleTwinkling
  · rw [if_pos ht] at h
    have hs := Twinkle.twinkleSomeLEDs_state e now1 now2 s s1 h
    rw [hs, ht] at hst1
    exact absurd hst1 (by decide)
  rw [if_neg ht] at h
  by_cases hc : s.obj._twinkleChangedCount ≥ s.obj._lastLED - s.obj._firstLED ∨
      now % ulongSize > s.obj._twinkleLongestTimeToWait
  · by_cases hon : s.obj._twinkleState = twinkleTurningOn
    · have hs := (Twinkle.Continue_endFill e now now1 now2 s s1 ha (not_lt.mp hd) hon hc h0).1
      rw [hs] at hst1
      exact absurd hst1 (by decide)
    · rw [if_pos hc] at h
      simp only [Twinkle.twinkleFinish, hon, decide_False, Bool.not_false, if_true,
        if_false] at h
      simp only [Option.some.injEq] at h
      subst h
      exact absurd hst1 hon
  · rw [if_neg hc] at h
    split at h
    · simp at h
    · split at h
      · simp at h
      · rename_i picked a tape2 hcol
        split at h
        · simp at h
        · rename_i tryIdx hscan
          simp only [Option.some.injEq] at h
          subst h
          have hst : s.obj._twinkleState = twinkleTurningOn := hst1
          obtain ⟨-, hlit⟩ := hinv hst
          obtain ⟨-, k0, k1, kc⟩ := Animation.randomColor_spec _ _ _ _ _ hcol
          have hfr := Animation.randomColor_frame _ _ _ _ _ hcol
          have hoff : ¬ (s.obj._twinkleState = twinkleTurningOff) := by
            rw [hst]
            decide
          refine ⟨?_, ?_⟩
          · show a._active = true
            rw [Animation.randomColor_active _ _ _ _ _ hcol]
            exact ha
          · intro i i1 i2 i3
            have j1 : s.obj._firstLED ≤ i := by
              have : a._firstLED ≤ i := i1
              rw [hfr] at this
              exact this
            have j2 : i ≤ s.obj._lastLED := by
              have : i ≤ a._lastLED := i2
              rw [hfr] at this
              exact this
            have j3 : (if i = tryIdx then decide (s.obj._twinkleState = twinkleTurningOn)
                else s.obj._LEDArray i) = true := i3
            show (if i = tryIdx then (if s.obj._twinkleState = twinkleTurningOff then e.offColor
                else picked) else s.pixels.color i) ≠ e.offColor
            by_cases hi : i = tryIdx
            · rw [if_pos hi, if_neg hoff, kc]
              exact hpal _ k0 k1
            · rw [if_neg hi]
              rw [if_neg hi] at j3
              exact hlit i j1 j2 j3

/-- The loop of `Twinkle::Start` clears the mark of every element of the strip,
so `Start` on a range inside the strip establishes `Twinkle.FillingLit`,
whatever its embedded `Continue` does. -/
theorem Twinkle.Start_fillingLit (e : Env) (now0 now now1 now2 : Nat) (topToBottom : Bool)
    (colorToUse : Rgb) (s sS : Sys Twinkle)
    (hpal : ∀ k : Int, 0 ≤ k → k < 15 → colorsAt k ≠ e.offColor)
    (h0 : 0 ≤ s.obj._firstLED) (h1 : s.obj._lastLED < (e.numPixels : Int))
    (h : Twinkle.Start e now0 now now1 now2 topToBottom colorToUse s = some sS) :
    Twinkle.FillingLit e sS := by
  unfold Twinkle.Start at h
  refine Twinkle.Continue_fillingLit e now now1 now2 _ sS hpal ?_ h
  intro _
  refine ⟨rfl, ?_⟩
  intro i i1 i2 i3
  exfalso
  have j1 : s.obj._firstLED ≤ i := i1
  have j2 : i ≤ s.obj._lastLED := i2
  have j3 : (if 0 ≤ i ∧ i < (e.numPixels : Int) then false else s.obj._LEDArray i) = true := i3
  rw [if_pos ⟨by omega, by omega⟩] at j3
  exact absurd j3 (by decide)

theorem Twinkle.run_fillingLit (e : Env)
    (hpal : ∀ k : Int, 0 ≤ k → k < 15 → colorsAt k ≠ e.offColor)
    (ts : List (Nat × Nat × Nat)) :
    ∀ s sn : Sys Twinkle, Twinkle.FillingLit e s → Twinkle.run e ts s = some sn →
      Twinkle.FillingLit e sn := by
  induction ts with
  | nil =>
    intro s sn hinv h
    simp only [Twinkle.run, Option.some.injEq] at h
    subst h
    exact hinv
  | cons t rest ih =>
    intro s sn hinv h
    obtain ⟨now, now1, now2⟩ := t
    simp only [Twinkle.run] at h
    split at h
    · simp at h
    · rename_i s2 hstep
      exact ih s2 sn (Twinkle.Continue_fillingLit e now now1 now2 s s2 hpal hinv hstep) h

theorem option_eq_some_getD {α : Type} (o : Option α) (d : α) (h : o.isSome = true) :
    o = some (o.getD d) := by
  cases o with
  | none => simp at h
  | some x => rfl

/-- C30. With the off-colour black (0, which is no palette colour).  Filling:
after `Start` on a range inside the strip and any number of `Continue` calls
that leave the object in the filling sub-state, a due `Continue` that finds the
changed-count at `last - first` or more, or the clock past the deadline, runs
the cleanup: when it returns, the sub-state is twinkling, the object is active,
every element of `[first,last]` not marked on holds a palette colour, every
other element keeps its colour, and every element of `[first,last]` holds a
colour other than the off-colour; and it returns on every fresh supply of draws
long enough for the range and the twinkling set.  Clearing: a due `Continue` of
an active object in the clearing sub-state under the same condition returns
with every element of `[first,last]` at the off-colour and the object
inactive. -/
theorem twinkle_cleanup_and_advance (e : Env) (hoff : e.offColor = 0) :
    (∀ (now0 nowA nowB nowC : Nat) (topToBottom : Bool) (colorToUse : Rgb)
        (s0 sS sn : Sys Twinkle) (ts : List (Nat × Nat × Nat)) (now now1 now2 : Nat),
      0 ≤ s0.obj._firstLED → s0.obj._lastLED < (e.numPixels : Int) →
      Twinkle.Start e now0 nowA nowB nowC topToBottom colorToUse s0 = some sS →
      Twinkle.run e ts sS = some sn →
      sn.obj._twinkleState = twinkleTurningOn →
      sn.obj._animationStepIncrement ≤ elapsedSince now sn.obj._lastUpdateTime →
      (sn.obj._twinkleChangedCount ≥ sn.obj._lastLED - sn.obj._firstLED ∨
        now % ulongSize > sn.obj._twinkleLongestTimeToWait) →
      (∀ s1, Twinkle.Continue e now now1 now2 sn = some s1 →
        s1.obj._twinkleState = twinkleTwinkling ∧ s1.obj._active = true ∧
        s1.obj._firstLED = sn.obj._firstLED ∧ s1.obj._lastLED = sn.obj._lastLED ∧
        (∀ i, sn.obj._firstLED ≤ i → i ≤ sn.obj._lastLED → sn.obj._LEDArray i ≠ true →
          ∃ k : Int, 0 ≤ k ∧ k < 15 ∧ s1.pixels.color i = colorsAt k) ∧
        (∀ i, ¬ (sn.obj._firstLED ≤ i ∧ i ≤ sn.obj._lastLED ∧ sn.obj._LEDArray i ≠ true) →
          s1.pixels.color i = sn.pixels.color i) ∧
        (∀ i, sn.obj._firstLED ≤ i → i ≤ sn.obj._lastLED →
          s1.pixels.color i ≠ e.offColor)) ∧
      (freshTape sn.obj._lastColorIndex sn.tape = true →
        (sn.obj._lastLED + 1 - sn.obj._firstLED).toNat + sn.obj._MAXTOTWINKLE.toNat
          ≤ sn.tape.length →
        ∃ s1, Twinkle.Continue e now now1 now2 sn = some s1)) ∧
    (∀ (now now1 now2 : Nat) (s : Sys Twinkle),
      s.obj._active = true →
      s.obj._animationStepIncrement ≤ elapsedSince now s.obj._lastUpdateTime →
      (s.obj._twinkleChangedCount ≥ s.obj._lastLED - s.obj._firstLED ∨
        now % ulongSize > s.obj._twinkleLongestTimeToWait) →
      s.obj._twinkleState = twinkleTurningOff →
      ∃ s1, Twinkle.Continue e now now1 now2 s = some s1 ∧ s1.obj._active = false ∧
        s1.obj._twinkleState = twinkleTurningOff ∧
        ∀ i, s.obj._firstLED ≤ i → i ≤ s.obj._lastLED → s1.pixels.color i = e.offColor) := by
  have hpal : ∀ k : Int, 0 ≤ k → k < 15 → colorsAt k ≠ e.offColor := by
    intro k k0 k1
    rw [hoff]
    exact colorsAt_ne_zero k k0 k1
  refine ⟨?_, ?_⟩
  · intro now0 nowA nowB nowC topToBottom colorToUse s0 sS sn ts now now1 now2 hf hl hS hrun
      hst hd hcond
    have hinvS := Twinkle.Start_fillingLit e now0 nowA nowB nowC topToBottom colorToUse s0 sS
      hpal hf hl hS
    obtain ⟨ha, hlit⟩ := Twinkle.run_fillingLit e hpal ts sS sn hinvS hrun hst
    refine ⟨?_, ?_⟩
    · intro s1 h
      obtain ⟨g1, g2, g3, g4, g5, g6⟩ :=
        Twinkle.Continue_endFill e now now1 now2 sn s1 ha hd hst hcond h
      refine ⟨g1, g2, g3, g4, g5, g6, ?_⟩
      intro i i1 i2
      by_cases hm : sn.obj._LEDArray i = true
      · rw [g6 i (fun hh => hh.2.2 hm)]
        exact hlit i i1 i2 hm
      · obtain ⟨k, k0, k1, kc⟩ := g5 i i1 i2 hm
        rw [kc]
        exact hpal k k0 k1
    · intro hfresh hlen
      exact Twinkle.Continue_endFill_isSome e now now1 now2 sn ha hd hst hcond hfresh hlen
  · intro now now1 now2 s ha hd hcond hst
    refine ⟨_, Twinkle.Continue_endClear e now now1 now2 s ha hd hst hcond, rfl, hst, ?_⟩
    intro i i1 i2
    show (s.obj.setAllPixelsTo s.pixels e.offColor true).color i = e.offColor
    rw [Animation.setAllPixelsTo_color]
    exact if_pos ⟨i1, i2⟩

theorem twinkle_cleanup_and_advance_witness :
    sampleTwinkleStarted = some sampleTwinkleStartedSys ∧
    Twinkle.run sampleEnv [(1125, 1125, 1125)] sampleTwinkleStartedSys
      = some sampleTwinkleFillingSys ∧
    sampleTwinkleFillingSys.obj._twinkleState = twinkleTurningOn ∧
    sampleTwinkleFillingSys.obj._twinkleChangedCount = 2 ∧
    ∃ s1, Twinkle.Continue sampleEnv 2500 2501 2502 sampleTwinkleFillingSys = some s1 ∧
      s1.obj._twinkleState = twinkleTwinkling ∧ s1.obj._active = true ∧
      ∀ i, sampleTwinkleFillingSys.obj._firstLED ≤ i →
        i ≤ sampleTwinkleFillingSys.obj._lastLED →
        s1.pixels.color i ≠ sampleEnv.offColor := by
  have hS : sampleTwinkleStarted.isSome = true := by decide!
  have hS2 : sampleTwinkleStarted = some sampleTwinkleStartedSys :=
    option_eq_some_getD _ _ hS
  have hR : sampleTwinkleFilling.isSome = true := by decide!
  have hR2 : Twinkle.run sampleEnv [(1125, 1125, 1125)] sampleTwinkleStartedSys
      = some sampleTwinkleFillingSys :=
    option_eq_some_getD _ _ hR
  have hst : sampleTwinkleFillingSys.obj._twinkleState = twinkleTurningOn := by decide!
  have hcnt : sampleTwinkleFillingSys.obj._twinkleChangedCount = 2 := by decide!
  have key := (twinkle_cleanup_and_advance sampleEnv rfl).1 1000 1000 1000 1000 false 255
    sampleTwinkleFreshSys sampleTwinkleStartedSys sampleTwinkleFillingSys
    [(1125, 1125, 1125)] 2500 2501 2502 (by decide) (by decide) hS2 hR2 hst (by decide!)
    (Or.inr (by decide!))
  obtain ⟨s1, hs1⟩ := key.2 (by decide!) (by decide!)
  obtain ⟨g1, g2, -, -, -, -, g7⟩ := key.1 s1 hs1
  exact ⟨hS2, hR2, hst, hcnt, s1, hs1, g1, g2, g7⟩

end Stairway
